import Mathlib

/-! Send-side pacing and delay-based overuse detection

A shallow embedding of `modules/pacing/interval_budget.{h,cc}` and of
`modules/congestion_controller/goog_cc/trendline_estimator.cc`, followed by the
properties established about them.

Conventions of the embedding

* A C++ `int` / `int64_t` value is an `Int`; every arithmetic result that is stored
  in such a variable goes through `wrap32` / `wrap64`, the two's-complement
  reading of the result, so that overflow is visible in the model.
* `size_t` is `Nat`.
* `/` on C++ integers truncates towards zero: `Int.tdiv`.
* A C++ `double` is embedded twice. `TrendlineEstimator` computes over the reals:
  a `double` is a rational number (`ℚ`) and the four operations are exact; it carries
  the properties that are stated for arithmetic over the reals or that do not depend
  on the arithmetic. `Ieee.TrendlineEstimator` computes as the code does, in IEEE 754
  binary64 (`Double`): every operation rounds to nearest, ties to even, and
  `static_cast<double>` of an integer rounds too; it carries every property that
  names a value the code computes.
-/

namespace webrtc

/-! ## Machine integers -/

/-- Two's-complement reading of an integer as a 32-bit `int`. -/
def wrap32 (x : Int) : Int := (x + 2147483648) % 4294967296 - 2147483648

/-- Two's-complement reading of an integer as an `int64_t`. -/
def wrap64 (x : Int) : Int :=
  (x + 9223372036854775808) % 18446744073709551616 - 9223372036854775808

/-- The value is representable as a 32-bit `int`. -/
def InInt32 (x : Int) : Prop := -2147483648 ≤ x ∧ x ≤ 2147483647

/-- The value is representable as an `int64_t`. -/
def InInt64 (x : Int) : Prop := -9223372036854775808 ≤ x ∧ x ≤ 9223372036854775807

instance (x : Int) : Decidable (InInt32 x) := by unfold InInt32; infer_instance

instance (x : Int) : Decidable (InInt64 x) := by unfold InInt64; infer_instance

/-- Modelled from the spec: `rtc::dchecked_cast<int>` of
`rtc_base/numerics/safe_conversions.h`, which is not among the sources. The spec
writes the credited amount without any conversion, so a representable value is kept
as it is; the helper asserts representability in debug builds only and is a
`static_cast<int>` otherwise, hence the two's-complement narrowing outside the range. -/
def dchecked_cast_int (x : Int) : Int := wrap32 x

/-- The conversion `static_cast<int>(bytes)` of a `size_t`. -/
def static_cast_int (bytes : Nat) : Int := wrap32 (bytes : Int)

/-! ## `IntervalBudget` (interval_budget.h / interval_budget.cc) -/

/-- The constant `kWindowMs` of interval_budget.cc. -/
def kWindowMs : Int := 500

/-- The data members of `class IntervalBudget`. -/
structure IntervalBudget where
  target_rate_kbps_ : Int
  max_bytes_in_budget_ : Int
  bytes_remaining_ : Int
  can_build_up_underuse_ : Bool
deriving DecidableEq, Repr

/-- `IntervalBudget::set_target_rate_kbps`. -/
def IntervalBudget.set_target_rate_kbps (s : IntervalBudget) (target_rate_kbps : Int) :
    IntervalBudget :=
  let target := target_rate_kbps
  let max_bytes := Int.tdiv (wrap32 (kWindowMs * target)) 8
  { s with
    target_rate_kbps_ := target
    max_bytes_in_budget_ := max_bytes
    bytes_remaining_ := min (max (wrap32 (-max_bytes)) s.bytes_remaining_) max_bytes }

/-- The constructor `IntervalBudget(int initial_target_rate_kbps, bool can_build_up_underuse)`:
`bytes_remaining_` starts at 0, the two rate members are first written by
`set_target_rate_kbps`. -/
def IntervalBudget.create (initial_target_rate_kbps : Int) (can_build_up_underuse : Bool) :
    IntervalBudget :=
  IntervalBudget.set_target_rate_kbps
    { target_rate_kbps_ := 0
      max_bytes_in_budget_ := 0
      bytes_remaining_ := 0
      can_build_up_underuse_ := can_build_up_underuse }
    initial_target_rate_kbps

/-- The constructor `IntervalBudget(int initial_target_rate_kbps)`. -/
def IntervalBudget.create1 (initial_target_rate_kbps : Int) : IntervalBudget :=
  IntervalBudget.create initial_target_rate_kbps false

/-- `IntervalBudget::IncreaseBudget`; `delta_time_ms` is an `int64_t`, so the product
and the quotient are 64-bit before the conversion to `int`. -/
def IntervalBudget.IncreaseBudget (s : IntervalBudget) (delta_time_ms : Int) : IntervalBudget :=
  let bytes := dchecked_cast_int (Int.tdiv (wrap64 (s.target_rate_kbps_ * delta_time_ms)) 8)
  if s.bytes_remaining_ < 0 ∨ s.can_build_up_underuse_ = true then
    { s with bytes_remaining_ := min (wrap32 (s.bytes_remaining_ + bytes)) s.max_bytes_in_budget_ }
  else
    { s with bytes_remaining_ := min bytes s.max_bytes_in_budget_ }

/-- `IntervalBudget::UseBudget`. -/
def IntervalBudget.UseBudget (s : IntervalBudget) (bytes : Nat) : IntervalBudget :=
  { s with
    bytes_remaining_ :=
      max (wrap32 (s.bytes_remaining_ - static_cast_int bytes)) (wrap32 (-s.max_bytes_in_budget_)) }

/-- `IntervalBudget::bytes_remaining`. -/
def IntervalBudget.bytes_remaining (s : IntervalBudget) : Nat :=
  (max 0 s.bytes_remaining_).toNat

/-- `IntervalBudget::target_rate_kbps`. -/
def IntervalBudget.target_rate_kbps (s : IntervalBudget) : Int := s.target_rate_kbps_

/-- One call on an `IntervalBudget` object. -/
inductive BudgetCall where
  | set_target_rate_kbps (target_rate_kbps : Int)
  | IncreaseBudget (delta_time_ms : Int)
  | UseBudget (bytes : Nat)
deriving DecidableEq, Repr

/-- Effect of one call. -/
def BudgetCall.apply (s : IntervalBudget) : BudgetCall → IntervalBudget
  | .set_target_rate_kbps k => s.set_target_rate_kbps k
  | .IncreaseBudget d => s.IncreaseBudget d
  | .UseBudget n => s.UseBudget n

/-- Effect of a sequence of calls, first call first. -/
def BudgetCall.run (s : IntervalBudget) (calls : List BudgetCall) : IntervalBudget :=
  calls.foldl BudgetCall.apply s

/-- A call whose arguments are non-negative and in which no conversion and no
intermediate `int` / `int64_t` result leaves the range of its type:
the rate `k` has `0 ≤ k` and `500 * k` fits in `int`; the elapsed time `d` has `0 ≤ d`,
`target * d` fits in `int64_t`, the credit fits in `int`, and so does the sum with the
remaining bytes when the sum is formed; the byte count `n` fits in `int` and so does
the difference. -/
def BudgetCall.InRange (s : IntervalBudget) : BudgetCall → Prop
  | .set_target_rate_kbps k => 0 ≤ k ∧ kWindowMs * k ≤ 2147483647
  | .IncreaseBudget d =>
      0 ≤ d ∧ InInt64 (s.target_rate_kbps_ * d) ∧
      InInt32 (Int.tdiv (s.target_rate_kbps_ * d) 8) ∧
      ((s.bytes_remaining_ < 0 ∨ s.can_build_up_underuse_ = true) →
        InInt32 (s.bytes_remaining_ + Int.tdiv (s.target_rate_kbps_ * d) 8))
  | .UseBudget n => (n : Int) ≤ 2147483647 ∧ InInt32 (s.bytes_remaining_ - (n : Int))

/-- Every call of the sequence is `InRange` in the state in which it is issued. -/
def BudgetCall.AllInRange (s : IntervalBudget) : List BudgetCall → Prop
  | [] => True
  | c :: cs => BudgetCall.InRange s c ∧ BudgetCall.AllInRange (BudgetCall.apply s c) cs

instance BudgetCall.decInRange (s : IntervalBudget) :
    (c : BudgetCall) → Decidable (BudgetCall.InRange s c)
  | .set_target_rate_kbps k =>
      inferInstanceAs (Decidable (0 ≤ k ∧ kWindowMs * k ≤ 2147483647))
  | .IncreaseBudget d =>
      inferInstanceAs (Decidable (0 ≤ d ∧ InInt64 (s.target_rate_kbps_ * d) ∧
        InInt32 (Int.tdiv (s.target_rate_kbps_ * d) 8) ∧
        ((s.bytes_remaining_ < 0 ∨ s.can_build_up_underuse_ = true) →
          InInt32 (s.bytes_remaining_ + Int.tdiv (s.target_rate_kbps_ * d) 8))))
  | .UseBudget n =>
      inferInstanceAs (Decidable ((n : Int) ≤ 2147483647 ∧
        InInt32 (s.bytes_remaining_ - (n : Int))))

instance BudgetCall.decAllInRange :
    (s : IntervalBudget) → (calls : List BudgetCall) → Decidable (BudgetCall.AllInRange s calls)
  | _, [] => isTrue trivial
  | s, c :: cs =>
      @instDecidableAnd _ _ (BudgetCall.decInRange s c)
        (BudgetCall.decAllInRange (BudgetCall.apply s c) cs)

/-! ## `TrendlineEstimator` with arithmetic over the reals (trendline_estimator.cc) -/

/-- Modelled from the spec: `enum class BandwidthUsage` of
`modules/remote_bitrate_estimator/include/bwe_defines.h`, which is not among the
sources; the spec's detector state is one of Underusing, Normal, Overusing. -/
inductive BandwidthUsage where
  | kBwNormal
  | kBwUnderusing
  | kBwOverusing
deriving DecidableEq, Repr

/-- The interface `NetworkStatePredictor` is declared outside the sources and the
estimator only calls its `Update(send_time_ms, arrival_time_ms, hypothesis)`. It is a
parameter of the embedding: an implementation is given by the value `Update` returns
for the calls made so far, latest call first, which covers every deterministic
implementation, stateful or not. -/
structure NetworkStatePredictor where
  Update : List (Int × Int × BandwidthUsage) → BandwidthUsage

/-- The constant `kMaxAdaptOffsetMs`. -/
def kMaxAdaptOffsetMs : ℚ := 15

/-- The constant `kOverUsingTimeThreshold`. -/
def kOverUsingTimeThreshold : ℚ := 10

/-- The constant `kMinNumDeltas`. -/
def kMinNumDeltas : Int := 60

/-- The constant `kDeltaCounterMax`. -/
def kDeltaCounterMax : Int := 1000

/-- The C library function `fabs`. -/
def fabs (x : ℚ) : ℚ := if x < 0 then -x else x

/-- Modelled from the spec: `rtc::SafeClamp` of `rtc_base/numerics/safe_minmax.h`, which
is not among the sources; the spec says the threshold is clamped to `[6, 600]`, i.e. a
value at or below the lower bound becomes the lower bound, a value at or above the upper
bound becomes the upper bound, any other value is kept. -/
def SafeClamp (x lo hi : ℚ) : ℚ := if x ≤ lo then lo else if x ≥ hi then hi else x

/-- `LinearFitSlope`: least-squares slope of the points, `absl::nullopt` (`none`) when
the denominator is zero. -/
def LinearFitSlope (points : List (ℚ × ℚ)) : Option ℚ :=
  let sum_x := points.foldl (fun acc point => acc + point.1) 0
  let sum_y := points.foldl (fun acc point => acc + point.2) 0
  let x_avg := sum_x / (points.length : ℚ)
  let y_avg := sum_y / (points.length : ℚ)
  let numerator := points.foldl (fun acc point => acc + (point.1 - x_avg) * (point.2 - y_avg)) 0
  let denominator := points.foldl (fun acc point => acc + (point.1 - x_avg) * (point.1 - x_avg)) 0
  if denominator = 0 then none else some (numerator / denominator)

/-- The data members of `class TrendlineEstimator`, the `double` members as real
(rational) numbers; `Ieee.TrendlineEstimator` has them in binary64.
`prev_modified_trend_` is `none`
while it holds its initial `NAN`. `predictor_calls_` is the state of the object behind
`network_state_predictor_`: the calls it has received, latest first. -/
structure TrendlineEstimator where
  window_size_ : Nat
  smoothing_coef_ : ℚ
  threshold_gain_ : ℚ
  num_of_deltas_ : Int
  first_arrival_time_ms_ : Int
  accumulated_delay_ : ℚ
  smoothed_delay_ : ℚ
  delay_hist_ : List (ℚ × ℚ)
  k_up_ : ℚ
  k_down_ : ℚ
  overusing_time_threshold_ : ℚ
  threshold_ : ℚ
  prev_modified_trend_ : Option ℚ
  last_update_ms_ : Int
  prev_trend_ : ℚ
  time_over_using_ : ℚ
  overuse_counter_ : Int
  hypothesis_ : BandwidthUsage
  hypothesis_predicted_ : BandwidthUsage
  network_state_predictor_ : Option NetworkStatePredictor
  predictor_calls_ : List (Int × Int × BandwidthUsage)

/-- The constructor `TrendlineEstimator::TrendlineEstimator`. -/
def TrendlineEstimator.create (window_size : Nat) (smoothing_coef threshold_gain : ℚ)
    (network_state_predictor : Option NetworkStatePredictor) : TrendlineEstimator :=
  { window_size_ := window_size
    smoothing_coef_ := smoothing_coef
    threshold_gain_ := threshold_gain
    num_of_deltas_ := 0
    first_arrival_time_ms_ := -1
    accumulated_delay_ := 0
    smoothed_delay_ := 0
    delay_hist_ := []
    k_up_ := 87 / 10000
    k_down_ := 39 / 1000
    overusing_time_threshold_ := kOverUsingTimeThreshold
    threshold_ := 25 / 2
    prev_modified_trend_ := none
    last_update_ms_ := -1
    prev_trend_ := 0
    time_over_using_ := -1
    overuse_counter_ := 0
    hypothesis_ := BandwidthUsage.kBwNormal
    hypothesis_predicted_ := BandwidthUsage.kBwNormal
    network_state_predictor_ := network_state_predictor
    predictor_calls_ := [] }

/-- `TrendlineEstimator::UpdateThreshold` with arithmetic over the reals; with the
rounding of the code it is `Ieee.TrendlineEstimator.UpdateThreshold`. -/
def TrendlineEstimator.UpdateThreshold (s : TrendlineEstimator) (modified_trend : ℚ)
    (now_ms : Int) : TrendlineEstimator :=
  let s1 := if s.last_update_ms_ = -1 then { s with last_update_ms_ := now_ms } else s
  if fabs modified_trend > s1.threshold_ + kMaxAdaptOffsetMs then
    { s1 with last_update_ms_ := now_ms }
  else
    let k := if fabs modified_trend < s1.threshold_ then s1.k_down_ else s1.k_up_
    let kMaxTimeDeltaMs : Int := 100
    let time_delta_ms : Int := min (wrap64 (now_ms - s1.last_update_ms_)) kMaxTimeDeltaMs
    let threshold := s1.threshold_ + k * (fabs modified_trend - s1.threshold_) * (time_delta_ms : ℚ)
    { s1 with
      threshold_ := SafeClamp threshold 6 600
      last_update_ms_ := now_ms }

/-- `TrendlineEstimator::Detect` with arithmetic over the reals; with the rounding of
the code it is `Ieee.TrendlineEstimator.Detect`. -/
def TrendlineEstimator.Detect (s : TrendlineEstimator) (trend ts_delta : ℚ) (now_ms : Int) :
    TrendlineEstimator :=
  if s.num_of_deltas_ < 2 then
    { s with hypothesis_ := BandwidthUsage.kBwNormal }
  else
    let modified_trend : ℚ :=
      ((min s.num_of_deltas_ kMinNumDeltas : Int) : ℚ) * trend * s.threshold_gain_
    let s1 := { s with prev_modified_trend_ := some modified_trend }
    let s2 :=
      if modified_trend > s1.threshold_ then
        let s3 :=
          if s1.time_over_using_ = -1 then
            { s1 with time_over_using_ := ts_delta / 2 }
          else
            { s1 with time_over_using_ := s1.time_over_using_ + ts_delta }
        let s4 := { s3 with overuse_counter_ := wrap32 (s3.overuse_counter_ + 1) }
        if s4.time_over_using_ > s4.overusing_time_threshold_ ∧ s4.overuse_counter_ > 1 then
          if trend ≥ s4.prev_trend_ then
            { s4 with
              time_over_using_ := 0
              overuse_counter_ := 0
              hypothesis_ := BandwidthUsage.kBwOverusing }
          else s4
        else s4
      else if modified_trend < -s1.threshold_ then
        { s1 with
          time_over_using_ := -1
          overuse_counter_ := 0
          hypothesis_ := BandwidthUsage.kBwUnderusing }
      else
        { s1 with
          time_over_using_ := -1
          overuse_counter_ := 0
          hypothesis_ := BandwidthUsage.kBwNormal }
    TrendlineEstimator.UpdateThreshold { s2 with prev_trend_ := trend } modified_trend now_ms

/-- The statements of `TrendlineEstimator::Update` that precede the call of `Detect` in
the branch `calculated_deltas`: the delta counter, the exponential filter and the trend
window, with arithmetic over the reals; with the rounding of the code it is
`Ieee.TrendlineEstimator.UpdateFilter`. -/
def TrendlineEstimator.UpdateFilter (s : TrendlineEstimator) (recv_delta_ms send_delta_ms : ℚ)
    (arrival_time_ms : Int) : TrendlineEstimator :=
  let delta_ms := recv_delta_ms - send_delta_ms
  let s1 := { s with num_of_deltas_ := min (wrap32 (s.num_of_deltas_ + 1)) kDeltaCounterMax }
  let s2 :=
    if s1.first_arrival_time_ms_ = -1 then { s1 with first_arrival_time_ms_ := arrival_time_ms }
    else s1
  let s3 := { s2 with accumulated_delay_ := s2.accumulated_delay_ + delta_ms }
  let s4 :=
    { s3 with
      smoothed_delay_ :=
        s3.smoothing_coef_ * s3.smoothed_delay_ + (1 - s3.smoothing_coef_) * s3.accumulated_delay_ }
  let s5 :=
    { s4 with
      delay_hist_ :=
        s4.delay_hist_ ++
          [(((wrap64 (arrival_time_ms - s4.first_arrival_time_ms_) : Int) : ℚ), s4.smoothed_delay_)] }
  if s5.delay_hist_.length > s5.window_size_ then { s5 with delay_hist_ := s5.delay_hist_.tail }
  else s5

/-- The value of the local `trend` of `TrendlineEstimator::Update` when `Detect` is
called. -/
def TrendlineEstimator.UpdateTrend (s : TrendlineEstimator) : ℚ :=
  if s.delay_hist_.length = s.window_size_ then (LinearFitSlope s.delay_hist_).getD s.prev_trend_
  else s.prev_trend_

/-- `TrendlineEstimator::Update`. -/
def TrendlineEstimator.Update (s : TrendlineEstimator) (recv_delta_ms send_delta_ms : ℚ)
    (send_time_ms arrival_time_ms : Int) (calculated_deltas : Bool) : TrendlineEstimator :=
  let s1 :=
    if calculated_deltas = true then
      let s2 := s.UpdateFilter recv_delta_ms send_delta_ms arrival_time_ms
      s2.Detect s2.UpdateTrend send_delta_ms arrival_time_ms
    else s
  match s1.network_state_predictor_ with
  | some predictor =>
      { s1 with
        hypothesis_predicted_ :=
          predictor.Update ((send_time_ms, arrival_time_ms, s1.hypothesis_) :: s1.predictor_calls_)
        predictor_calls_ := (send_time_ms, arrival_time_ms, s1.hypothesis_) :: s1.predictor_calls_ }
  | none => s1

/-- `TrendlineEstimator::State`. -/
def TrendlineEstimator.State (s : TrendlineEstimator) : BandwidthUsage :=
  match s.network_state_predictor_ with
  | some _ => s.hypothesis_predicted_
  | none => s.hypothesis_

/-- The arguments of one call of `TrendlineEstimator::Update`. -/
structure UpdateCall where
  recv_delta_ms : ℚ
  send_delta_ms : ℚ
  send_time_ms : Int
  arrival_time_ms : Int
  calculated_deltas : Bool

/-- Effect of one `Update` call. -/
def UpdateCall.apply (s : TrendlineEstimator) (c : UpdateCall) : TrendlineEstimator :=
  s.Update c.recv_delta_ms c.send_delta_ms c.send_time_ms c.arrival_time_ms c.calculated_deltas

/-- Effect of a sequence of `Update` calls, first call first. -/
def UpdateCall.run (s : TrendlineEstimator) (calls : List UpdateCall) : TrendlineEstimator :=
  calls.foldl UpdateCall.apply s

/-- The feedback of the overuse scenario: `n` packet groups sent `send_delta_ms` apart,
each received `recv_delta_ms` after the previous one; group `i` (from 1) is sent at
`i * send_delta_ms` and arrives at `i * recv_delta_ms`. -/
def overuseFeed (send_delta_ms recv_delta_ms : Nat) (n : Nat) : List UpdateCall :=
  (List.range n).map fun i =>
    { recv_delta_ms := (recv_delta_ms : ℚ)
      send_delta_ms := (send_delta_ms : ℚ)
      send_time_ms := ((i + 1) * send_delta_ms : Nat)
      arrival_time_ms := ((i + 1) * recv_delta_ms : Nat)
      calculated_deltas := true }

/-- The quantity `modified_trend` that `Detect` computes from the trend. -/
def TrendlineEstimator.modified_trend (s : TrendlineEstimator) (trend : ℚ) : ℚ :=
  ((min s.num_of_deltas_ kMinNumDeltas : Int) : ℚ) * trend * s.threshold_gain_

/-- The accumulated over-threshold time once the current sample, itself over the
threshold, is counted: half the send delta when the timer is unset (-1), the timer plus
the send delta otherwise. -/
def TrendlineEstimator.time_over_using_next (s : TrendlineEstimator) (ts_delta : ℚ) : ℚ :=
  if s.time_over_using_ = -1 then ts_delta / 2 else s.time_over_using_ + ts_delta

/-- The number of consecutive over-threshold samples once the current sample, itself
over the threshold, is counted. -/
def TrendlineEstimator.overuse_counter_next (s : TrendlineEstimator) : Int :=
  wrap32 (s.overuse_counter_ + 1)

/-! ## `PacedSender` (paced_sender.cc)

The pacer is embedded with explicit state passing. Its collaborators (clock, transport,
prober, ALR detector) are outside the sources: every call made on them is appended to
`trace` (latest call first), and the value a call returns is given by an environment
`PacerEnv` as a function of the trace up to and including that call, which covers every
deterministic collaborator. Calls made by other threads while `Process` has left its
critical section are not part of the embedding. -/

/-- `RtpPacketSender::Priority` (rtp_rtcp_defines.h). -/
inductive Priority where
  | kHighPriority
  | kNormalPriority
  | kLowPriority
deriving DecidableEq, Repr

/-- Modelled from the spec: `PacedPacketInfo` of `api/transport/network_types.h`, which is
not among the sources (the spec's PacedInfo); `probe_cluster_id` is `kNotAProbe` for a
packet that belongs to no probe cluster. -/
structure PacedPacketInfo where
  send_bitrate_bps : Int
  probe_cluster_id : Int
  probe_cluster_min_probes : Int
  probe_cluster_min_bytes : Int
deriving DecidableEq, Repr

/-- The constant `PacedPacketInfo::kNotAProbe` (same value as
`PacketFeedback::kNotAProbe` of rtp_rtcp_defines.h). -/
def PacedPacketInfo.kNotAProbe : Int := -1

/-- The default constructor `PacedPacketInfo()`. -/
def PacedPacketInfo.create : PacedPacketInfo :=
  { send_bitrate_bps := -1
    probe_cluster_id := PacedPacketInfo.kNotAProbe
    probe_cluster_min_probes := -1
    probe_cluster_min_bytes := -1 }

/-- Modelled from the spec: `RoundRobinPacketQueue::Packet` of
`modules/pacing/round_robin_packet_queue.h`, which is not among the sources (the spec's
PacketQueueEntry); the members are the arguments `InsertPacket` passes to its
constructor. -/
structure Packet where
  priority : Priority
  ssrc : Nat
  sequence_number : Nat
  capture_time_ms : Int
  enqueue_time_ms : Int
  bytes : Nat
  retransmission : Bool
  enqueue_order : Nat
deriving DecidableEq, Repr

/-- A call made by the pacer on one of its collaborators. -/
inductive PacerEvent where
  | TimeInMicroseconds
  | TimeInMilliseconds
  | TimeToSendPacket (ssrc sequence_number : Nat) (capture_time_ms : Int)
      (retransmission : Bool) (pacing_info : PacedPacketInfo)
  | TimeToSendPadding (bytes : Nat) (pacing_info : PacedPacketInfo)
  | IsProbing
  | CurrentCluster
  | RecommendedMinProbeSize
  | TimeUntilNextProbe (now_ms : Int)
  | ProbeSent (now_ms : Int) (bytes : Nat)
  | UpdateQueueTime (now_ms : Int)
  | AverageQueueTimeMs
  | BeginPop
  | CancelPop (packet : Packet)
  | FinalizePop (packet : Packet)
  | AlrOnBytesSent (bytes_sent : Nat) (now_ms : Int)
deriving DecidableEq, Repr

/-- The values returned by the collaborators; each function receives the trace whose
head is the call being answered. -/
structure PacerEnv where
  TimeInMicroseconds : List PacerEvent → Int
  TimeInMilliseconds : List PacerEvent → Int
  TimeToSendPacket : List PacerEvent → Bool
  TimeToSendPadding : List PacerEvent → Nat
  IsProbing : List PacerEvent → Bool
  CurrentCluster : List PacerEvent → PacedPacketInfo
  RecommendedMinProbeSize : List PacerEvent → Nat
  TimeUntilNextProbe : List PacerEvent → Int
  AverageQueueTimeMs : List PacerEvent → Int

/-- The constant `kDefaultMinPacketLimitMs`. -/
def kDefaultMinPacketLimitMs : Int := 5

/-- The constant `kCongestedPacketIntervalMs`. -/
def kCongestedPacketIntervalMs : Int := 500

/-- The constant `kPausedProcessIntervalMs`. -/
def kPausedProcessIntervalMs : Int := kCongestedPacketIntervalMs

/-- The constant `kMaxElapsedTimeMs`. -/
def kMaxElapsedTimeMs : Int := 2000

/-- The constant `kMaxIntervalTimeMs`. -/
def kMaxIntervalTimeMs : Int := 30

/-- The constant `PacedSender::kMaxQueueLengthMs`. -/
def kMaxQueueLengthMs : Int := 2000

/-- Modelled from the spec: `PacedSender::kNoCongestionWindow` of
`modules/pacing/paced_sender.h`, which is not among the sources: the value of
`congestion_window_bytes_` while no congestion window is set. -/
def kNoCongestionWindow : Int := -1

/-- The data members of `class PacedSender` that paced_sender.cc reads or writes
(`alr_detector_` records whether the detector exists; `packets_` is the queue, see
`PacedSender.GetPendingPacket`), and the trace of the calls made on collaborators. -/
structure PacedSender where
  alr_detector_ : Bool
  drain_large_queues_ : Bool
  send_padding_if_silent_ : Bool
  pace_audio_ : Bool
  min_packet_limit_ms_ : Int
  last_timestamp_ms_ : Int
  paused_ : Bool
  media_budget_ : IntervalBudget
  padding_budget_ : IntervalBudget
  probing_send_failure_ : Bool
  estimated_bitrate_bps_ : Nat
  min_send_bitrate_kbps_ : Nat
  max_padding_bitrate_kbps_ : Nat
  pacing_bitrate_kbps_ : Nat
  time_last_process_us_ : Int
  last_send_time_us_ : Int
  first_sent_packet_ms_ : Int
  packets_ : List Packet
  packet_counter_ : Nat
  congestion_window_bytes_ : Int
  outstanding_bytes_ : Int
  pacing_factor_ : ℚ
  queue_time_limit : Int
  account_for_audio_ : Bool
  trace : List PacerEvent

/-- Record a call on a collaborator. -/
def PacedSender.call (s : PacedSender) (e : PacerEvent) : PacedSender :=
  { s with trace := e :: s.trace }

/-- `PacedSender::Congested`. -/
def PacedSender.Congested (s : PacedSender) : Bool :=
  if s.congestion_window_bytes_ = kNoCongestionWindow then false
  else decide (s.outstanding_bytes_ ≥ s.congestion_window_bytes_)

/-- `PacedSender::TimeMilliseconds`: the state after the call and the value returned.
The `RTC_DCHECK_GE` inside the branch is a debug-only check. -/
def PacedSender.TimeMilliseconds (env : PacerEnv) (s : PacedSender) : PacedSender × Int :=
  let s1 := s.call PacerEvent.TimeInMilliseconds
  let time_ms := env.TimeInMilliseconds s1.trace
  let time_ms := if time_ms < s1.last_timestamp_ms_ then s1.last_timestamp_ms_ else time_ms
  ({ s1 with last_timestamp_ms_ := time_ms }, time_ms)

/-- `PacedSender::TimeUntilNextProcess`: the state after the call and the value
returned. -/
def PacedSender.TimeUntilNextProcess (env : PacerEnv) (s : PacedSender) : PacedSender × Int :=
  let s1 := s.call PacerEvent.TimeInMicroseconds
  let elapsed_time_us := wrap64 (env.TimeInMicroseconds s1.trace - s1.time_last_process_us_)
  let elapsed_time_ms := Int.tdiv (wrap64 (elapsed_time_us + 500)) 1000
  if s1.paused_ = true then
    (s1, max (wrap64 (kPausedProcessIntervalMs - elapsed_time_ms)) 0)
  else
    let s2 := s1.call PacerEvent.IsProbing
    if env.IsProbing s2.trace = true then
      let s3 := (PacedSender.TimeMilliseconds env s2).1
      let now_ms := (PacedSender.TimeMilliseconds env s2).2
      let s4 := s3.call (PacerEvent.TimeUntilNextProbe now_ms)
      let ret := env.TimeUntilNextProbe s4.trace
      if ret > 0 ∨ (ret = 0 ∧ s4.probing_send_failure_ = false) then (s4, ret)
      else (s4, max (wrap64 (s4.min_packet_limit_ms_ - elapsed_time_ms)) 0)
    else (s2, max (wrap64 (s2.min_packet_limit_ms_ - elapsed_time_ms)) 0)

/-- `PacedSender::UpdateTimeAndGetElapsedMs`. -/
def PacedSender.UpdateTimeAndGetElapsedMs (s : PacedSender) (now_us : Int) :
    PacedSender × Int :=
  let elapsed_time_ms := Int.tdiv (wrap64 (wrap64 (now_us - s.time_last_process_us_) + 500)) 1000
  let s1 := { s with time_last_process_us_ := now_us }
  if elapsed_time_ms > kMaxElapsedTimeMs then (s1, kMaxElapsedTimeMs) else (s1, elapsed_time_ms)

/-- `PacedSender::ShouldSendKeepalive`. -/
def PacedSender.ShouldSendKeepalive (s : PacedSender) (now_us : Int) : Bool :=
  if s.send_padding_if_silent_ = true ∨ s.paused_ = true ∨ s.Congested = true then
    let elapsed_since_last_send_us := wrap64 (now_us - s.last_send_time_us_)
    if elapsed_since_last_send_us ≥ kCongestedPacketIntervalMs * 1000 then
      if s.packet_counter_ > 0 then true else false
    else false
  else false

/-- `PacedSender::UpdateBudgetWithElapsedTime`. -/
def PacedSender.UpdateBudgetWithElapsedTime (s : PacedSender) (delta_time_ms : Int) :
    PacedSender :=
  let delta_time_ms := min kMaxIntervalTimeMs delta_time_ms
  { s with
    media_budget_ := s.media_budget_.IncreaseBudget delta_time_ms
    padding_budget_ := s.padding_budget_.IncreaseBudget delta_time_ms }

/-- `PacedSender::UpdateBudgetWithBytesSent`; the sum of the `int64_t` and the `size_t`
is formed modulo 2^64 and stored as `int64_t`. -/
def PacedSender.UpdateBudgetWithBytesSent (s : PacedSender) (bytes_sent : Nat) : PacedSender :=
  { s with
    outstanding_bytes_ := wrap64 (s.outstanding_bytes_ + (bytes_sent : Int))
    media_budget_ := s.media_budget_.UseBudget bytes_sent
    padding_budget_ := s.padding_budget_.UseBudget bytes_sent }

/-- `PacedSender::OnPaddingSent`. -/
def PacedSender.OnPaddingSent (env : PacerEnv) (s : PacedSender) (bytes_sent : Nat) :
    PacedSender :=
  let s1 := if bytes_sent > 0 then s.UpdateBudgetWithBytesSent bytes_sent else s
  let s2 := s1.call PacerEvent.TimeInMicroseconds
  { s2 with last_send_time_us_ := env.TimeInMicroseconds s2.trace }

/-- Modelled from the spec: the part of `RoundRobinPacketQueue` (not among the sources)
that `Process` relies on. `packets_` lists the queued packets in the order in which the
queue hands them out; `BeginPop` returns the first one, which stays in the queue for
size queries until `FinalizePop` removes it, and `CancelPop` puts it back where it was.
`PacedSender::GetPendingPacket`: the state after the call and the packet returned,
`none` for `nullptr`. -/
def PacedSender.GetPendingPacket (s : PacedSender) (pacing_info : PacedPacketInfo) :
    PacedSender × Option Packet :=
  match s.packets_ with
  | [] => (s, none)
  | packet :: _ =>
    let s1 := s.call PacerEvent.BeginPop
    let audio_packet : Bool := decide (packet.priority = Priority.kHighPriority)
    let apply_pacing : Bool := !audio_packet || s1.pace_audio_
    if apply_pacing = true ∧
        (s1.Congested = true ∨
          (s1.media_budget_.bytes_remaining = 0 ∧
            pacing_info.probe_cluster_id = PacedPacketInfo.kNotAProbe)) then
      (s1.call (PacerEvent.CancelPop packet), none)
    else (s1, some packet)

/-- `PacedSender::OnPacketSent`; `FinalizePop` removes the packet handed out by
`BeginPop`, the first of `packets_`. -/
def PacedSender.OnPacketSent (env : PacerEnv) (s : PacedSender) (packet : Packet) :
    PacedSender :=
  let s1 :=
    if s.first_sent_packet_ms_ = -1 then
      { (PacedSender.TimeMilliseconds env s).1 with
        first_sent_packet_ms_ := (PacedSender.TimeMilliseconds env s).2 }
    else s
  let audio_packet : Bool := decide (packet.priority = Priority.kHighPriority)
  let s2 :=
    if audio_packet = false ∨ s1.account_for_audio_ = true then
      let s3 := s1.UpdateBudgetWithBytesSent packet.bytes
      let s4 := s3.call PacerEvent.TimeInMicroseconds
      { s4 with last_send_time_us_ := env.TimeInMicroseconds s4.trace }
    else s1
  { (s2.call (PacerEvent.FinalizePop packet)) with packets_ := s2.packets_.tail }

/-- The outcome of one pass through the body of the `while` loop of `Process`. -/
structure DrainResult where
  state : PacedSender
  bytes_sent : Nat
  continue_loop : Bool

/-- The body of the `while` loop of `PacedSender::Process`, entered with a non-empty
queue and the pacer not paused: `continue_loop` is `false` where the body executes
`break`. -/
def PacedSender.DrainStep (env : PacerEnv) (pacing_info : PacedPacketInfo)
    (is_probing : Bool) (recommended_probe_size : Nat) (s : PacedSender) (bytes_sent : Nat) :
    DrainResult :=
  match (s.GetPendingPacket pacing_info).2 with
  | none =>
    { state := (s.GetPendingPacket pacing_info).1, bytes_sent := bytes_sent,
      continue_loop := false }
  | some packet =>
    let s1 := (s.GetPendingPacket pacing_info).1
    let s2 := s1.call (PacerEvent.TimeToSendPacket packet.ssrc packet.sequence_number
      packet.capture_time_ms packet.retransmission pacing_info)
    let success := env.TimeToSendPacket s2.trace
    if success = true then
      let bytes_sent1 := bytes_sent + packet.bytes
      let s3 := s2.OnPacketSent env packet
      if is_probing = true ∧ bytes_sent1 > recommended_probe_size then
        { state := s3, bytes_sent := bytes_sent1, continue_loop := false }
      else { state := s3, bytes_sent := bytes_sent1, continue_loop := true }
    else
      { state := s2.call (PacerEvent.CancelPop packet), bytes_sent := bytes_sent,
        continue_loop := false }

/-- The `while (!packets_.Empty() && !paused_)` loop of `PacedSender::Process`, with the
number of passes bounded by `fuel`; every pass that continues removes a packet, so
`fuel = packets_.length` never runs out (`DrainLoop_fuel`). Returns the state and the
local `bytes_sent`. -/
def PacedSender.DrainLoop (env : PacerEnv) (pacing_info : PacedPacketInfo)
    (is_probing : Bool) (recommended_probe_size : Nat) :
    Nat → PacedSender → Nat → PacedSender × Nat
  | 0, s, bytes_sent => (s, bytes_sent)
  | fuel + 1, s, bytes_sent =>
    if s.packets_ = [] ∨ s.paused_ = true then (s, bytes_sent)
    else
      let r := s.DrainStep env pacing_info is_probing recommended_probe_size bytes_sent
      if r.continue_loop = true then
        PacedSender.DrainLoop env pacing_info is_probing recommended_probe_size fuel
          r.state r.bytes_sent
      else (r.state, r.bytes_sent)

/-- The value of a `size_t` expression whose mathematical value is `x`. -/
def size_t_wrap (x : Int) : Nat := (x % 18446744073709551616).toNat

/-- The keepalive block at the start of `PacedSender::Process`. -/
def PacedSender.ProcessKeepalive (env : PacerEnv) (s : PacedSender) (now_us : Int) :
    PacedSender :=
  if s.ShouldSendKeepalive now_us = true then
    let s1 := s.call (PacerEvent.TimeToSendPadding 1 PacedPacketInfo.create)
    let bytes_sent := env.TimeToSendPadding s1.trace
    let s2 := s1.OnPaddingSent env bytes_sent
    if s2.alr_detector_ = true then
      s2.call (PacerEvent.AlrOnBytesSent bytes_sent (Int.tdiv now_us 1000))
    else s2
  else s

/-- The local `target_bitrate_kbps` of `PacedSender::Process` and the state after the
queue-time update, for a tick with `elapsed_time_ms > 0`. -/
def PacedSender.ProcessTargetBitrate (env : PacerEnv) (s : PacedSender) : PacedSender × Int :=
  let target_bitrate_kbps : Int := static_cast_int s.pacing_bitrate_kbps_
  let queue_size_bytes : Nat := (s.packets_.map fun p => p.bytes).sum
  if queue_size_bytes > 0 then
    let s1 := (PacedSender.TimeMilliseconds env s).1
    let s2 := s1.call (PacerEvent.UpdateQueueTime (PacedSender.TimeMilliseconds env s).2)
    if s2.drain_large_queues_ = true then
      let s3 := s2.call PacerEvent.AverageQueueTimeMs
      let avg_time_left_ms : Int :=
        max 1 (wrap64 (s3.queue_time_limit - env.AverageQueueTimeMs s3.trace))
      let min_bitrate_needed_kbps : Int :=
        static_cast_int (size_t_wrap ((queue_size_bytes : Int) * 8) / avg_time_left_ms.toNat)
      if min_bitrate_needed_kbps > target_bitrate_kbps then (s3, min_bitrate_needed_kbps)
      else (s3, target_bitrate_kbps)
    else (s2, target_bitrate_kbps)
  else (s, target_bitrate_kbps)

/-- The budget update of `PacedSender::Process`. -/
def PacedSender.ProcessUpdateBudget (env : PacerEnv) (s : PacedSender) (elapsed_time_ms : Int) :
    PacedSender :=
  if elapsed_time_ms > 0 then
    let s1 := (s.ProcessTargetBitrate env).1
    let target_bitrate_kbps := (s.ProcessTargetBitrate env).2
    let s2 := { s1 with media_budget_ := s1.media_budget_.set_target_rate_kbps target_bitrate_kbps }
    s2.UpdateBudgetWithElapsedTime elapsed_time_ms
  else s

/-- The padding block of `PacedSender::Process` after the loop: the state and the local
`bytes_sent`. -/
def PacedSender.ProcessPadding (env : PacerEnv) (pacing_info : PacedPacketInfo)
    (is_probing : Bool) (recommended_probe_size : Nat) (s : PacedSender) (bytes_sent : Nat) :
    PacedSender × Nat :=
  if s.packets_ = [] ∧ s.Congested = false then
    if s.packet_counter_ > 0 then
      let padding_needed : Int :=
        static_cast_int
          (if is_probing = true then
            size_t_wrap ((recommended_probe_size : Int) - (bytes_sent : Int))
          else s.padding_budget_.bytes_remaining)
      if padding_needed > 0 then
        let s1 := s.call (PacerEvent.TimeToSendPadding padding_needed.toNat pacing_info)
        let padding_sent := env.TimeToSendPadding s1.trace
        (s1.OnPaddingSent env padding_sent, bytes_sent + padding_sent)
      else (s, bytes_sent)
    else (s, bytes_sent)
  else (s, bytes_sent)

/-- The prober and ALR bookkeeping that ends `PacedSender::Process`. -/
def PacedSender.ProcessFinish (env : PacerEnv) (is_probing : Bool) (now_us : Int)
    (s : PacedSender) (bytes_sent : Nat) : PacedSender :=
  let s1 :=
    if is_probing = true then
      let s2 := { s with probing_send_failure_ := decide (bytes_sent = 0) }
      if s2.probing_send_failure_ = false then
        (PacedSender.TimeMilliseconds env s2).1.call
          (PacerEvent.ProbeSent (PacedSender.TimeMilliseconds env s2).2 bytes_sent)
      else s2
    else s
  if s1.alr_detector_ = true then
    s1.call (PacerEvent.AlrOnBytesSent bytes_sent (Int.tdiv now_us 1000))
  else s1

/-- The locals of `PacedSender::Process` when the loop is entered. -/
structure ProcessLocals where
  state : PacedSender
  now_us : Int
  is_probing : Bool
  pacing_info : PacedPacketInfo
  recommended_probe_size : Nat

/-- The part of `PacedSender::Process` between the check of `paused_` and the `while`
loop: the budget update and the prober queries. -/
def PacedSender.ProcessBegin (env : PacerEnv) (s : PacedSender) (now_us elapsed_time_ms : Int) :
    ProcessLocals :=
  let s4 := s.ProcessUpdateBudget env elapsed_time_ms
  let s5 := s4.call PacerEvent.IsProbing
  let is_probing := env.IsProbing s5.trace
  if is_probing = true then
    let s6 := s5.call PacerEvent.CurrentCluster
    let s7 := s6.call PacerEvent.RecommendedMinProbeSize
    { state := s7, now_us := now_us, is_probing := true,
      pacing_info := env.CurrentCluster s6.trace,
      recommended_probe_size := env.RecommendedMinProbeSize s7.trace }
  else
    { state := s5, now_us := now_us, is_probing := false,
      pacing_info := PacedPacketInfo.create, recommended_probe_size := 0 }

/-- `PacedSender::Process`: the state when it returns and the final value of its local
`bytes_sent`, the bytes of media packets and padding handed to the transport after the
keepalive block (0 when it returns at the check of `paused_`). -/
def PacedSender.ProcessRun (env : PacerEnv) (s : PacedSender) : PacedSender × Nat :=
  let s1 := s.call PacerEvent.TimeInMicroseconds
  let now_us := env.TimeInMicroseconds s1.trace
  let s2 := (s1.UpdateTimeAndGetElapsedMs now_us).1
  let elapsed_time_ms := (s1.UpdateTimeAndGetElapsedMs now_us).2
  let s3 := s2.ProcessKeepalive env now_us
  if s3.paused_ = true then (s3, 0)
  else
    let l := s3.ProcessBegin env now_us elapsed_time_ms
    let r := PacedSender.DrainLoop env l.pacing_info l.is_probing l.recommended_probe_size
      l.state.packets_.length l.state 0
    let p := PacedSender.ProcessPadding env l.pacing_info l.is_probing l.recommended_probe_size
      r.1 r.2
    (PacedSender.ProcessFinish env l.is_probing l.now_us p.1 p.2, p.2)

/-- `PacedSender::Process`. -/
def PacedSender.Process (env : PacerEnv) (s : PacedSender) : PacedSender :=
  (s.ProcessRun env).1

/-! ## `RTPSender::ReSendPacket`, `RTPSender::OnReceivedNack` (rtp_sender.cc)

The packet history, the retransmission rate limiter, the pacer behind the
`RtpPacketSender` interface and the unpaced send path are collaborators: calls on them
are recorded in `trace` (latest first) and answered by an `RtpSenderEnv`. -/

/-- Modelled from the spec: `RtpPacketHistory::PacketState` of
`modules/rtp_rtcp/source/rtp_packet_history.h`, which is not among the sources (the
spec's history entry); the members are those `ReSendPacket` reads. -/
structure PacketState where
  rtp_sequence_number : Nat
  capture_time_ms : Int
  ssrc : Nat
  packet_size : Nat
deriving DecidableEq, Repr

/-- A call made by `ReSendPacket` or `OnReceivedNack` on a collaborator. -/
inductive RtpSenderEvent where
  | SetRtt (rtt_ms : Int)
  | GetPacketState (packet_id : Nat)
  | TryUseRate (packet_size : Int)
  | InsertPacket (priority : Priority) (ssrc sequence_number : Nat) (capture_time_ms : Int)
      (bytes : Nat) (retransmission : Bool)
  | GetPacketAndSetSendTime (packet_id : Nat)
  | RtxStatus
  | PrepareAndSendPacket (packet_id : Nat) (send_over_rtx is_retransmit : Bool)
deriving DecidableEq, Repr

/-- The values returned by the collaborators of `ReSendPacket`; each function receives
the trace whose head is the call being answered. `GetPacketAndSetSendTime` tells whether
a packet was returned, `PrepareAndSendPacket` whether it reported success. -/
structure RtpSenderEnv where
  GetPacketState : List RtpSenderEvent → Option PacketState
  TryUseRate : List RtpSenderEvent → Bool
  GetPacketAndSetSendTime : List RtpSenderEvent → Bool
  RtxStatus : List RtpSenderEvent → Nat
  PrepareAndSendPacket : List RtpSenderEvent → Bool

/-- The constant `kRtxRetransmitted` (rtp_rtcp_defines.h). -/
def kRtxRetransmitted : Nat := 1

/-- The members of `class RTPSender` (rtp_sender.h) that `ReSendPacket` reads:
whether `retransmission_rate_limiter_` and `paced_sender_` are non-null, and
`clock_delta_ms_`; and the trace of the calls made on collaborators. -/
structure RTPSender where
  retransmission_rate_limiter_ : Bool
  paced_sender_ : Bool
  clock_delta_ms_ : Int
  trace : List RtpSenderEvent
deriving DecidableEq, Repr

/-- Record a call on a collaborator. -/
def RTPSender.call (s : RTPSender) (e : RtpSenderEvent) : RTPSender :=
  { s with trace := e :: s.trace }

/-- The conversion `static_cast<int32_t>(packet_size)` of a `size_t`. -/
def static_cast_int32 (packet_size : Nat) : Int := wrap32 (packet_size : Int)

/-- `RTPSender::ReSendPacket`: the state after the call and the value returned. -/
def RTPSender.ReSendPacket (env : RtpSenderEnv) (s : RTPSender) (packet_id : Nat) :
    RTPSender × Int :=
  let s1 := s.call (RtpSenderEvent.GetPacketState packet_id)
  match env.GetPacketState s1.trace with
  | none => (s1, 0)
  | some stored_packet =>
    let packet_size : Int := static_cast_int32 stored_packet.packet_size
    let s2 :=
      if s1.retransmission_rate_limiter_ = true then s1.call (RtpSenderEvent.TryUseRate packet_size)
      else s1
    if s1.retransmission_rate_limiter_ = true ∧ env.TryUseRate s2.trace = false then (s2, -1)
    else if s2.paced_sender_ = true then
      let corrected_capture_tims_ms := wrap64 (stored_packet.capture_time_ms + s2.clock_delta_ms_)
      (s2.call (RtpSenderEvent.InsertPacket Priority.kNormalPriority stored_packet.ssrc
        stored_packet.rtp_sequence_number corrected_capture_tims_ms stored_packet.packet_size
        true), packet_size)
    else
      let s3 := s2.call (RtpSenderEvent.GetPacketAndSetSendTime packet_id)
      if env.GetPacketAndSetSendTime s3.trace = false then (s3, 0)
      else
        let s4 := s3.call RtpSenderEvent.RtxStatus
        let rtx : Bool := decide ((env.RtxStatus s4.trace) &&& kRtxRetransmitted > 0)
        let s5 := s4.call (RtpSenderEvent.PrepareAndSendPacket packet_id rtx true)
        if env.PrepareAndSendPacket s5.trace = false then (s5, -1) else (s5, packet_size)

/-- The `for` loop of `RTPSender::OnReceivedNack`. -/
def RTPSender.OnReceivedNackLoop (env : RtpSenderEnv) : List Nat → RTPSender → RTPSender
  | [], s => s
  | seq_no :: rest, s =>
    let bytes_sent := (s.ReSendPacket env seq_no).2
    if bytes_sent < 0 then (s.ReSendPacket env seq_no).1
    else RTPSender.OnReceivedNackLoop env rest (s.ReSendPacket env seq_no).1

/-- `RTPSender::OnReceivedNack`. -/
def RTPSender.OnReceivedNack (env : RtpSenderEnv) (s : RTPSender)
    (nack_sequence_numbers : List Nat) (avg_rtt : Int) : RTPSender :=
  RTPSender.OnReceivedNackLoop env nack_sequence_numbers
    (s.call (RtpSenderEvent.SetRtt (wrap64 (5 + avg_rtt))))

/-- Modelled from the spec: `RtpPacketHistory::SetRtt` is not among the sources; by the
spec the history enforces a per-packet minimum retransmit interval equal to the value
last handed to it, `none` before the first call. -/
def RTPSender.min_retransmit_interval_ms : List RtpSenderEvent → Option Int
  | [] => none
  | RtpSenderEvent.SetRtt rtt_ms :: _ => some rtt_ms
  | _ :: rest => RTPSender.min_retransmit_interval_ms rest

/-- The entries handed to the pacer through `InsertPacket`, oldest first. -/
def RTPSender.inserted : List RtpSenderEvent → List RtpSenderEvent
  | [] => []
  | RtpSenderEvent.InsertPacket p ssrc sn c b r :: rest =>
      RTPSender.inserted rest ++ [RtpSenderEvent.InsertPacket p ssrc sn c b r]
  | _ :: rest => RTPSender.inserted rest

/-- The sequence numbers looked up in the history, i.e. for which `ReSendPacket` was
entered, oldest first. -/
def RTPSender.attempted : List RtpSenderEvent → List Nat
  | [] => []
  | RtpSenderEvent.GetPacketState packet_id :: rest => RTPSender.attempted rest ++ [packet_id]
  | _ :: rest => RTPSender.attempted rest

/-! ## `PacketFeedbackComparator` (rtp_rtcp_defines.h) -/

/-- The data members of `struct PacketFeedback`. -/
structure PacketFeedback where
  creation_time_ms : Int
  arrival_time_ms : Int
  send_time_ms : Int
  sequence_number : Nat
  long_sequence_number : Int
  payload_size : Nat
  unacknowledged_data : Nat
  local_net_id : Nat
  remote_net_id : Nat
  pacing_info : PacedPacketInfo
deriving DecidableEq, Repr

/-- `PacketFeedbackComparator::operator()`. -/
def PacketFeedbackComparator (lhs rhs : PacketFeedback) : Bool :=
  if lhs.arrival_time_ms ≠ rhs.arrival_time_ms then
    decide (lhs.arrival_time_ms < rhs.arrival_time_ms)
  else if lhs.send_time_ms ≠ rhs.send_time_ms then
    decide (lhs.send_time_ms < rhs.send_time_ms)
  else decide (lhs.sequence_number < rhs.sequence_number)

/-- The sort key (arrival_time, send_time, sequence). -/
def PacketFeedback.key (f : PacketFeedback) : Int × Int × Nat :=
  (f.arrival_time_ms, f.send_time_ms, f.sequence_number)

/-- Strict lexicographic order on the sort keys. -/
def keyLt (a b : Int × Int × Nat) : Prop :=
  a.1 < b.1 ∨ (a.1 = b.1 ∧ (a.2.1 < b.2.1 ∨ (a.2.1 = b.2.1 ∧ a.2.2 < b.2.2)))

/-- Non-strict lexicographic order on the sort keys. -/
def keyLe (a b : Int × Int × Nat) : Prop := keyLt a b ∨ a = b

instance (a b : Int × Int × Nat) : Decidable (keyLt a b) := by unfold keyLt; infer_instance

instance (a b : Int × Int × Nat) : Decidable (keyLe a b) := by unfold keyLe; infer_instance

/-- The values returned by `n` successive calls of `PacedSender::TimeMilliseconds`,
first call first. -/
def PacedSender.TimeMillisecondsCalls (env : PacerEnv) : Nat → PacedSender → List Int
  | 0, _ => []
  | n + 1, s =>
    (PacedSender.TimeMilliseconds env s).2 ::
      PacedSender.TimeMillisecondsCalls env n (PacedSender.TimeMilliseconds env s).1

/-- The local `elapsed_time_ms` of `PacedSender::TimeUntilNextProcess` for the clock
reading `now_us`: the microseconds since the last `Process`, plus 500, divided by 1000. -/
def PacedSender.elapsed_time_ms (s : PacedSender) (now_us : Int) : Int :=
  Int.tdiv (wrap64 (wrap64 (now_us - s.time_last_process_us_) + 500)) 1000

/-- The default tick of `PacedSender::TimeUntilNextProcess`:
max(0, min_packet_limit_ms - elapsed_time_ms). -/
def PacedSender.default_tick (s : PacedSender) (now_us : Int) : Int :=
  max (wrap64 (s.min_packet_limit_ms_ - s.elapsed_time_ms now_us)) 0

/-- A pacer state with every flag off, empty budgets and an empty queue, on which the
examples below set the members they need. -/
def PacedSender.blank : PacedSender :=
  { alr_detector_ := false
    drain_large_queues_ := true
    send_padding_if_silent_ := false
    pace_audio_ := true
    min_packet_limit_ms_ := kDefaultMinPacketLimitMs
    last_timestamp_ms_ := 0
    paused_ := false
    media_budget_ := IntervalBudget.create1 0
    padding_budget_ := IntervalBudget.create1 0
    probing_send_failure_ := false
    estimated_bitrate_bps_ := 0
    min_send_bitrate_kbps_ := 0
    max_padding_bitrate_kbps_ := 0
    pacing_bitrate_kbps_ := 0
    time_last_process_us_ := 0
    last_send_time_us_ := 0
    first_sent_packet_ms_ := -1
    packets_ := []
    packet_counter_ := 0
    congestion_window_bytes_ := kNoCongestionWindow
    outstanding_bytes_ := 0
    pacing_factor_ := 5 / 2
    queue_time_limit := kMaxQueueLengthMs
    account_for_audio_ := false
    trace := [] }

/-- An environment whose clock stands at `now_us`, whose transport accepts every packet
and sends no padding, and whose prober answers `is_probing` and `time_until_next_probe`. -/
def PacerEnv.steady (now_us : Int) (is_probing : Bool) (time_until_next_probe : Int) :
    PacerEnv :=
  { TimeInMicroseconds := fun _ => now_us
    TimeInMilliseconds := fun _ => Int.tdiv now_us 1000
    TimeToSendPacket := fun _ => true
    TimeToSendPadding := fun _ => 0
    IsProbing := fun _ => is_probing
    CurrentCluster := fun _ => { PacedPacketInfo.create with probe_cluster_id := 1 }
    RecommendedMinProbeSize := fun _ => 0
    TimeUntilNextProbe := fun _ => time_until_next_probe
    AverageQueueTimeMs := fun _ => 0 }

/-- The clock reading `clock_->TimeInMicroseconds()` taken by
`PacedSender::TimeUntilNextProcess` in state `s`. -/
def PacedSender.tunp_now_us (env : PacerEnv) (s : PacedSender) : Int :=
  env.TimeInMicroseconds (PacerEvent.TimeInMicroseconds :: s.trace)

/-- The answer of `prober_.IsProbing()` in `PacedSender::TimeUntilNextProcess`. -/
def PacedSender.tunp_is_probing (env : PacerEnv) (s : PacedSender) : Bool :=
  env.IsProbing (PacerEvent.IsProbing :: PacerEvent.TimeInMicroseconds :: s.trace)

/-- The value `ret` of `prober_.TimeUntilNextProbe(TimeMilliseconds())` in
`PacedSender::TimeUntilNextProcess`. -/
def PacedSender.tunp_ret (env : PacerEnv) (s : PacedSender) : Int :=
  env.TimeUntilNextProbe
    (PacerEvent.TimeUntilNextProbe
        (PacedSender.TimeMilliseconds env
          ((s.call PacerEvent.TimeInMicroseconds).call PacerEvent.IsProbing)).2 ::
      (PacedSender.TimeMilliseconds env
        ((s.call PacerEvent.TimeInMicroseconds).call PacerEvent.IsProbing)).1.trace)

/-- The state of `PacedSender::Process` after its keepalive block, where `paused_` is
checked. -/
def PacedSender.ProcessAfterKeepalive (env : PacerEnv) (s : PacedSender) : PacedSender :=
  let s1 := s.call PacerEvent.TimeInMicroseconds
  let now_us := env.TimeInMicroseconds s1.trace
  (s1.UpdateTimeAndGetElapsedMs now_us).1.ProcessKeepalive env now_us

/-- The locals of `PacedSender::Process` when its `while` loop is entered, for a tick
that does not return at the check of `paused_`. -/
def PacedSender.ProcessLoopEntry (env : PacerEnv) (s : PacedSender) : ProcessLocals :=
  let s1 := s.call PacerEvent.TimeInMicroseconds
  let now_us := env.TimeInMicroseconds s1.trace
  (s.ProcessAfterKeepalive env).ProcessBegin env now_us (s1.UpdateTimeAndGetElapsedMs now_us).2

/-- The state and the local `bytes_sent` of `PacedSender::Process` when its `while` loop
is left. -/
def PacedSender.ProcessLoopExit (env : PacerEnv) (s : PacedSender) : PacedSender × Nat :=
  PacedSender.DrainLoop env (s.ProcessLoopEntry env).pacing_info
    (s.ProcessLoopEntry env).is_probing (s.ProcessLoopEntry env).recommended_probe_size
    (s.ProcessLoopEntry env).state.packets_.length (s.ProcessLoopEntry env).state 0

/-- An environment for `OnReceivedNack`: the history holds only the packets with
sequence numbers 2 and 3 (1200 bytes each), and the retransmission rate limiter
refuses every request. -/
def RtpSenderEnv.refusing : RtpSenderEnv :=
  { GetPacketState := fun t =>
      match t with
      | RtpSenderEvent.GetPacketState 2 :: _ => some ⟨2, 1000, 4660, 1200⟩
      | RtpSenderEvent.GetPacketState 3 :: _ => some ⟨3, 1000, 4660, 1200⟩
      | _ => none
    TryUseRate := fun _ => false
    GetPacketAndSetSendTime := fun _ => true
    RtxStatus := fun _ => 0
    PrepareAndSendPacket := fun _ => true }

/-! ## `PacedSender`: construction and the keepalive block -/

/-- The clock reading `clock_->TimeInMicroseconds()` taken at the start of
`PacedSender::Process` in state `s`. -/
def PacedSender.process_now_us (env : PacerEnv) (s : PacedSender) : Int :=
  env.TimeInMicroseconds (PacerEvent.TimeInMicroseconds :: s.trace)

/-- The answer of the transport to the keepalive request of `PacedSender::Process` in
state `s`. -/
def PacedSender.keepalive_bytes_sent (env : PacerEnv) (s : PacedSender) : Nat :=
  env.TimeToSendPadding
    (PacerEvent.TimeToSendPadding 1 PacedPacketInfo.create ::
      PacerEvent.TimeInMicroseconds :: s.trace)

/-- A pacer that pads in silence, 600 ms after its last send and 5 ms after its last
`Process`, with a 1000 kbps pacing rate, two packets inserted so far and one 1200-byte
video packet queued. -/
def PacedSender.silent : PacedSender :=
  { PacedSender.blank with
    send_padding_if_silent_ := true
    pacing_bitrate_kbps_ := 1000
    time_last_process_us_ := 595000
    last_send_time_us_ := 0
    first_sent_packet_ms_ := 0
    packet_counter_ := 2
    packets_ := [⟨Priority.kNormalPriority, 4660, 8, 590, 590, 1200, false, 1⟩] }

/-- The test `haystack.find(needle) == 0` on `std::string`s: `haystack` starts with
`needle`. -/
def find_at_start : List Char → List Char → Bool
  | [], _ => true
  | _ :: _, [] => false
  | a :: needle, b :: haystack => a == b && find_at_start needle haystack

/-- Modelled from the spec: `WebRtcKeyValueConfig` of
`api/transport/webrtc_key_value_config.h`, which is not among the sources (the spec's
configurable field trials): a configuration is its `Lookup` function, which returns the
empty string for a key that has no trial. -/
structure WebRtcKeyValueConfig where
  Lookup : String → String

/-- The configuration without any field trial. -/
def WebRtcKeyValueConfig.no_trials : WebRtcKeyValueConfig :=
  { Lookup := fun _ => "" }

/-- `IsDisabled` of paced_sender.cc. -/
def IsDisabled (field_trials : WebRtcKeyValueConfig) (key : String) : Bool :=
  find_at_start "Disabled".toList (field_trials.Lookup key).toList

/-- `IsEnabled` of paced_sender.cc. -/
def IsEnabled (field_trials : WebRtcKeyValueConfig) (key : String) : Bool :=
  find_at_start "Enabled".toList (field_trials.Lookup key).toList

/-- The constructor `PacedSender::PacedSender`. `ParseFieldTrial`
(rtc_base/experiments/field_trial_parser.h, not among the sources) is a parameter: it
gives the value of `min_packet_limit_ms_` from its default and the trial string.
`congestion_window_bytes_` and `outstanding_bytes_` are not in the initialiser list;
they start as "no congestion window" and 0. The prober, the ALR detector (absent at
first) and the queue are collaborators. -/
def PacedSender.create (env : PacerEnv) (field_trials : WebRtcKeyValueConfig)
    (ParseFieldTrial : Int → String → Int) : PacedSender :=
  let t1 := [PacerEvent.TimeInMilliseconds]
  let t2 := PacerEvent.TimeInMicroseconds :: t1
  let t3 := PacerEvent.TimeInMicroseconds :: t2
  let t4 := PacerEvent.TimeInMicroseconds :: t3
  let s : PacedSender :=
    { alr_detector_ := false
      drain_large_queues_ := !IsDisabled field_trials "WebRTC-Pacer-DrainQueue"
      send_padding_if_silent_ := IsEnabled field_trials "WebRTC-Pacer-PadInSilence"
      pace_audio_ := !IsDisabled field_trials "WebRTC-Pacer-BlockAudio"
      min_packet_limit_ms_ := kDefaultMinPacketLimitMs
      last_timestamp_ms_ := env.TimeInMilliseconds t1
      paused_ := false
      media_budget_ := IntervalBudget.create1 0
      padding_budget_ := IntervalBudget.create1 0
      probing_send_failure_ := false
      estimated_bitrate_bps_ := 0
      min_send_bitrate_kbps_ := 0
      max_padding_bitrate_kbps_ := 0
      pacing_bitrate_kbps_ := 0
      time_last_process_us_ := env.TimeInMicroseconds t2
      last_send_time_us_ := env.TimeInMicroseconds t3
      first_sent_packet_ms_ := -1
      packets_ := []
      packet_counter_ := 0
      congestion_window_bytes_ := kNoCongestionWindow
      outstanding_bytes_ := 0
      pacing_factor_ := 5 / 2
      queue_time_limit := kMaxQueueLengthMs
      account_for_audio_ := false
      trace := t4 }
  let s1 :=
    { s with
      min_packet_limit_ms_ :=
        ParseFieldTrial kDefaultMinPacketLimitMs
          (field_trials.Lookup "WebRTC-Pacer-MinPacketLimitMs") }
  s1.UpdateBudgetWithElapsedTime s1.min_packet_limit_ms_

/-- A `ParseFieldTrial` that keeps the default. -/
def ParseFieldTrial_default (default_value : Int) (_trial : String) : Int := default_value

/-- A 160-byte audio packet. -/
def Packet.audio : Packet :=
  ⟨Priority.kHighPriority, 4661, 3, 100, 100, 160, false, 0⟩

/-- An environment like `PacerEnv.steady` with the prober probing and recommending
probes of at least 1200 bytes. -/
def PacerEnv.probing (now_us : Int) : PacerEnv :=
  { PacerEnv.steady now_us true 0 with RecommendedMinProbeSize := fun _ => 1200 }

/-- A pacer at 1000 kbps, last processed at time 0, with two 1200-byte video packets
queued. -/
def PacedSender.two_queued : PacedSender :=
  { PacedSender.blank with
    pacing_bitrate_kbps_ := 1000
    packet_counter_ := 2
    packets_ :=
      [⟨Priority.kNormalPriority, 4660, 1, 0, 0, 1200, false, 0⟩,
        ⟨Priority.kNormalPriority, 4660, 2, 0, 0, 1200, false, 1⟩] }

/-- The local `elapsed_time_ms` of `PacedSender::Process` in state `s`. -/
def PacedSender.process_elapsed_time_ms (env : PacerEnv) (s : PacedSender) : Int :=
  ((s.call PacerEvent.TimeInMicroseconds).UpdateTimeAndGetElapsedMs (s.process_now_us env)).2

/-- The answer of `packets_.AverageQueueTimeMs()` in the budget update of
`PacedSender::Process` in state `s`. -/
def PacedSender.process_average_queue_time_ms (env : PacerEnv) (s : PacedSender) : Int :=
  env.AverageQueueTimeMs
    (PacerEvent.AverageQueueTimeMs ::
      PacerEvent.UpdateQueueTime (PacedSender.TimeMilliseconds env (s.ProcessAfterKeepalive env)).2 ::
      (PacedSender.TimeMilliseconds env (s.ProcessAfterKeepalive env)).1.trace)

/-- The value `packets_.SizeInBytes()` of the queue of state `s`. -/
def PacedSender.queue_size_bytes (s : PacedSender) : Nat :=
  (s.packets_.map fun p => p.bytes).sum

/-! ## `IntervalBudget`: runs at a fixed target rate -/

/-- The total of the byte counts of the `UseBudget` calls of a sequence. -/
def BudgetCall.used : List BudgetCall → Int
  | [] => 0
  | .UseBudget n :: cs => (n : Int) + BudgetCall.used cs
  | _ :: cs => BudgetCall.used cs

/-- The bytes the `IncreaseBudget` calls of a sequence credit at the target rate
`target_rate_kbps`: the integer `target_rate_kbps * d / 8` for each elapsed time `d`,
without any narrowing. -/
def BudgetCall.credited (target_rate_kbps : Int) : List BudgetCall → Int
  | [] => 0
  | .IncreaseBudget d :: cs =>
      Int.tdiv (target_rate_kbps * d) 8 + BudgetCall.credited target_rate_kbps cs
  | _ :: cs => BudgetCall.credited target_rate_kbps cs

/-- The largest byte count of a `UseBudget` call of a sequence, 0 if there is none. -/
def BudgetCall.largest : List BudgetCall → Int
  | [] => 0
  | .UseBudget n :: cs => max (n : Int) (BudgetCall.largest cs)
  | _ :: cs => BudgetCall.largest cs

/-- A sequence of calls as a pacer issues them at a fixed target rate, from state `s`:
no `set_target_rate_kbps`; every `IncreaseBudget` has a non-negative elapsed time; every
`UseBudget(n)` is issued in a state with `bytes_remaining() > 0` and has
`n <= max_bytes_in_budget_`. -/
def BudgetCall.Paced (s : IntervalBudget) : List BudgetCall → Prop
  | [] => True
  | .set_target_rate_kbps _ :: _ => False
  | .IncreaseBudget d :: cs => 0 ≤ d ∧ BudgetCall.Paced (s.IncreaseBudget d) cs
  | .UseBudget n :: cs =>
      s.bytes_remaining > 0 ∧ (n : Int) ≤ s.max_bytes_in_budget_ ∧
        BudgetCall.Paced (s.UseBudget n) cs

instance BudgetCall.decPaced :
    (s : IntervalBudget) → (calls : List BudgetCall) → Decidable (BudgetCall.Paced s calls)
  | _, [] => isTrue trivial
  | _, .set_target_rate_kbps _ :: _ => isFalse (fun h => h)
  | s, .IncreaseBudget d :: cs =>
      @instDecidableAnd _ _ _ (BudgetCall.decPaced (s.IncreaseBudget d) cs)
  | s, .UseBudget n :: cs =>
      @instDecidableAnd _ _ _
        (@instDecidableAnd _ _ _ (BudgetCall.decPaced (s.UseBudget n) cs))

/-! ## `TrendlineEstimator`: counting the updates -/

/-- The number of calls of a sequence that carry calculated deltas. -/
def UpdateCall.calculated (calls : List UpdateCall) : Nat :=
  (calls.filter fun c => c.calculated_deltas).length

/-- The state of an estimator without predictor whose trend window holds `j` points and
has never been full: the previous trend is still 0, no over-threshold sample is being
counted, the hypothesis is Normal and the threshold lies in [6, 600]. -/
def TrendlineEstimator.Quiet (s : TrendlineEstimator) (j : Nat) : Prop :=
  s.delay_hist_.length = j ∧ s.prev_trend_ = 0 ∧ s.overuse_counter_ = 0 ∧
  s.hypothesis_ = BandwidthUsage.kBwNormal ∧ 6 ≤ s.threshold_ ∧ s.threshold_ ≤ 600 ∧
  s.network_state_predictor_ = none

/-! ## `ModuleRtpRtcpImpl::SendNACK` (rtp_rtcp_impl.cc)

The array `nack_list` is a list; a read outside it makes the embedding return `none`.
Every read of the array and every call on a collaborator (loss statistics, clock, RTCP
receiver, RTCP sender) is recorded in `trace`, latest first. -/

/-- A read of `nack_list` or a call made by `SendNACK` on a collaborator. -/
inductive NackEvent where
  | Read (index : Int)
  | AddLostPacket (sequence_number : Nat)
  | TimeInMilliseconds
  | RTT
  | SendRTCP (nack_length start_id : Nat)
deriving DecidableEq, Repr

/-- The values returned by the collaborators of `SendNACK`; each function receives the
trace whose head is the call being answered. `RTT` gives the average RTT that
`RTCPReceiver::RTT` writes, `none` when it returns -1 without writing. -/
structure NackEnv where
  TimeInMilliseconds : List NackEvent → Int
  RTT : List NackEvent → Option Int
  SendRTCP : List NackEvent → Int

/-- The members of `class ModuleRtpRtcpImpl` that `SendNACK` reads or writes, and the
trace. -/
structure ModuleRtpRtcpImpl where
  rtt_ms_ : Int
  nack_last_time_sent_full_ms_ : Int
  nack_last_seq_number_sent_ : Nat
  trace : List NackEvent
deriving DecidableEq, Repr

/-- Record a read or a call. -/
def ModuleRtpRtcpImpl.call (s : ModuleRtpRtcpImpl) (e : NackEvent) : ModuleRtpRtcpImpl :=
  { s with trace := e :: s.trace }

/-- The read `nack_list[index]`, `none` outside the array. -/
def read_nack_list (nack_list : List Nat) (index : Int) : Option Nat :=
  if 0 ≤ index then nack_list[index.toNat]? else none

/-- `ModuleRtpRtcpImpl::TimeToSendFullNackList`: the state after the call and the value
returned; `>> 1` on the `int64_t` is the division by 2 rounding down. -/
def ModuleRtpRtcpImpl.TimeToSendFullNackList (env : NackEnv) (s : ModuleRtpRtcpImpl)
    (now : Int) : ModuleRtpRtcpImpl × Bool :=
  let rtt0 := s.rtt_ms_
  let s1 := if rtt0 = 0 then s.call NackEvent.RTT else s
  let rtt := if rtt0 = 0 then (env.RTT s1.trace).getD rtt0 else rtt0
  let kStartUpRttMs : Int := 100
  let wait_time : Int := if rtt = 0 then kStartUpRttMs else wrap64 (5 + wrap64 (rtt * 3) / 2)
  (s1, decide (wrap64 (now - s1.nack_last_time_sent_full_ms_) > wait_time))

/-- The first `for` loop of `SendNACK`, over the indices still to visit. -/
def ModuleRtpRtcpImpl.AddLostLoop (nack_list : List Nat) :
    List Nat → ModuleRtpRtcpImpl → Option ModuleRtpRtcpImpl
  | [], s => some s
  | i :: rest, s =>
    match read_nack_list nack_list (i : Int) with
    | none => none
    | some v =>
      ModuleRtpRtcpImpl.AddLostLoop nack_list rest
        ((s.call (NackEvent.Read (i : Int))).call (NackEvent.AddLostPacket v))

/-- The second `for` loop of `SendNACK`, over the indices still to visit: the state and
the value of `start_id` (a `uint16_t`) when the loop is left. -/
def ModuleRtpRtcpImpl.FindLoop (nack_list : List Nat) :
    List Nat → ModuleRtpRtcpImpl → Option (ModuleRtpRtcpImpl × Nat)
  | [], s => some (s, 0)
  | i :: rest, s =>
    match read_nack_list nack_list (i : Int) with
    | none => none
    | some v =>
      if s.nack_last_seq_number_sent_ = v then
        some (s.call (NackEvent.Read (i : Int)), (i + 1) % 65536)
      else ModuleRtpRtcpImpl.FindLoop nack_list rest (s.call (NackEvent.Read (i : Int)))

/-- The end of `SendNACK`, from the cap on `nack_length` on. `kRtcpMaxNackFields` is not
among the sources and is a parameter. -/
def ModuleRtpRtcpImpl.SendNACK_send (env : NackEnv) (kRtcpMaxNackFields : Nat)
    (nack_list : List Nat) (s : ModuleRtpRtcpImpl) (nack_length start_id : Nat) :
    Option (ModuleRtpRtcpImpl × Int) :=
  let nack_length := if nack_length > kRtcpMaxNackFields then kRtcpMaxNackFields else nack_length
  let index : Int := (start_id : Int) + (nack_length : Int) - 1
  match read_nack_list nack_list index with
  | none => none
  | some v =>
    let s1 := { s.call (NackEvent.Read index) with nack_last_seq_number_sent_ := v }
    let s2 := s1.call (NackEvent.SendRTCP nack_length start_id)
    some (s2, env.SendRTCP s2.trace)

/-- `ModuleRtpRtcpImpl::SendNACK`: the state after the call and the value returned, or
`none` if the call reads outside `nack_list`. -/
def ModuleRtpRtcpImpl.SendNACK (env : NackEnv) (kRtcpMaxNackFields : Nat)
    (s : ModuleRtpRtcpImpl) (nack_list : List Nat) (size : Nat) :
    Option (ModuleRtpRtcpImpl × Int) :=
  match ModuleRtpRtcpImpl.AddLostLoop nack_list (List.range size) s with
  | none => none
  | some s1 =>
    let s2 := s1.call NackEvent.TimeInMilliseconds
    let now_ms := env.TimeInMilliseconds s2.trace
    let s3 := (s2.TimeToSendFullNackList env now_ms).1
    if (s2.TimeToSendFullNackList env now_ms).2 = true then
      ModuleRtpRtcpImpl.SendNACK_send env kRtcpMaxNackFields nack_list
        { s3 with nack_last_time_sent_full_ms_ := now_ms } size 0
    else
      match read_nack_list nack_list ((size : Int) - 1) with
      | none => none
      | some last =>
        let s4 := s3.call (NackEvent.Read ((size : Int) - 1))
        if s4.nack_last_seq_number_sent_ = last then some (s4, 0)
        else
          match ModuleRtpRtcpImpl.FindLoop nack_list (List.range size) s4 with
          | none => none
          | some (s5, start_id) =>
            ModuleRtpRtcpImpl.SendNACK_send env kRtcpMaxNackFields nack_list s5
              (((size : Int) - (start_id : Int)) % 65536).toNat start_id

/-- A read inside the first `size` entries of the array, or a send of `nack_length >= 1`
entries from `start_id` that ends inside them. -/
def NackEvent.InBounds (size : Nat) : NackEvent → Prop
  | .Read index => 0 ≤ index ∧ index < (size : Int)
  | .SendRTCP nack_length start_id =>
      1 ≤ nack_length ∧ (start_id : Int) + (nack_length : Int) - 1 ≤ (size : Int) - 1
  | _ => True

/-- No `SendRTCP` among the events. -/
def NackEvent.NoSend : NackEvent → Prop
  | .SendRTCP _ _ => False
  | _ => True

/-- Whether `SendNACK` finds a full NACK list due: the answer of
`TimeToSendFullNackList(now_ms)` in the state after the first loop. -/
def ModuleRtpRtcpImpl.full_list_due (env : NackEnv) (s : ModuleRtpRtcpImpl)
    (nack_list : List Nat) (size : Nat) : Bool :=
  match ModuleRtpRtcpImpl.AddLostLoop nack_list (List.range size) s with
  | none => false
  | some s1 =>
    ((s1.call NackEvent.TimeInMilliseconds).TimeToSendFullNackList env
      (env.TimeInMilliseconds (s1.call NackEvent.TimeInMilliseconds).trace)).2

/-- The trace `after` extends the trace `before` by events that all satisfy `P`. -/
def NackEvent.Extends (P : NackEvent → Prop) (before after : List NackEvent) : Prop :=
  ∃ added : List NackEvent, after = added ++ before ∧ ∀ e ∈ added, P e

/-- An environment for `SendNACK`: the clock stands at 50 ms, the RTCP receiver has no
RTT, the RTCP sender reports success (0). -/
def NackEnv.quiet : NackEnv :=
  { TimeInMilliseconds := fun _ => 50
    RTT := fun _ => none
    SendRTCP := fun _ => 0 }

/-! ## `RTPSender::SendPadData` (rtp_sender.cc)

The clock, the transport-sequence-number allocator, the feedback observer, the transport
behind `SendPacketToNetwork` and the statistics are collaborators: calls on them are
recorded in `trace` (latest first) and answered by a `PadEnv`. -/

/-- The constant `kMaxPaddingLength`. -/
def kMaxPaddingLength : Nat := 224

/-- The constant `kMinAudioPaddingLength`. -/
def kMinAudioPaddingLength : Nat := 50

/-- The constant `kRtpHeaderLength`. -/
def kRtpHeaderLength : Nat := 12

/-- The constant `kTimestampTicksPerMs`. -/
def kTimestampTicksPerMs : Int := 90

/-- The constant `kRtxOff` (rtp_rtcp_defines.h). -/
def kRtxOff : Int := 0

/-- Modelled from the spec: `rtc::SafeClamp<size_t>` of
`rtc_base/numerics/safe_minmax.h`, which is not among the sources: the value clamped
into [`lo`, `hi`], as `SafeClamp` on the threshold. -/
def SafeClamp_size_t (x lo hi : Nat) : Nat := if x ≤ lo then lo else if x ≥ hi then hi else x

/-- Modelled from the spec: `rtc::SafeMin<size_t>` of `rtc_base/numerics/safe_minmax.h`,
which is not among the sources: the smaller of the two values. -/
def SafeMin_size_t (a b : Nat) : Nat := min a b

/-- A call made by `SendPadData` on a collaborator. `SendPacketToNetwork` carries the
padding packet as built: payload type, sequence number, timestamp, SSRC, the
`TransmissionOffset` extension if set, the time given to `AbsoluteSendTime`, and the
argument of `SetPadding`. -/
inductive PadEvent where
  | TimeInMilliseconds
  | AllocateSequenceNumber
  | SetTransportSequenceNumber (packet_id : Int)
  | AddPacketToTransportFeedback (packet_id : Int) (pacing_info : PacedPacketInfo)
  | SendPacketToNetwork (payload_type : Int) (sequence_number timestamp ssrc : Nat)
      (transmission_offset : Option Int) (absolute_send_time_ms : Int) (padding : Nat)
      (included_in_allocation included_in_feedback : Bool)
  | UpdateRtpStats (over_rtx : Bool)
deriving DecidableEq, Repr

/-- The values returned by the collaborators of `SendPadData`; each function receives
the trace whose head is the call being answered. -/
structure PadEnv where
  TimeInMilliseconds : List PadEvent → Int
  AllocateSequenceNumber : List PadEvent → Int
  SetTransportSequenceNumber : List PadEvent → Bool
  SendPacketToNetwork : List PadEvent → Bool

/-- The members of `class RTPSender` (rtp_sender.h) that `SendPadData` reads or writes,
and the trace. `header_extension_size` is the value of
`RtpHeaderExtensionSize(kFecOrPaddingExtensionSizes, rtp_header_extension_map_)`, a
function that is not among the sources; `abs_send_time_registered` and
`transport_sequence_number_registered` are the answers of
`rtp_header_extension_map_.IsRegistered`; `transport_sequence_number_allocator_` tells
whether the pointer is non-null; `rtx_payload_type` is
`rtx_payload_type_map_.begin()->second`. -/
structure PadMembers where
  audio_configured_ : Bool
  max_packet_size_ : Nat
  csrcs_ : List Nat
  header_extension_size : Nat
  sending_media_ : Bool
  last_rtp_timestamp_ : Nat
  capture_time_ms_ : Int
  rtx_ : Int
  last_payload_type_ : Int
  last_packet_marker_bit_ : Bool
  ssrc_ : Option Nat
  sequence_number_ : Nat
  media_has_been_sent_ : Bool
  abs_send_time_registered : Bool
  transport_sequence_number_registered : Bool
  transport_sequence_number_allocator_ : Bool
  last_timestamp_time_ms_ : Int
  ssrc_rtx_ : Option Nat
  sequence_number_rtx_ : Nat
  rtx_payload_type : Int
  force_part_of_allocation_ : Bool
  trace : List PadEvent

/-- Record a call on a collaborator. -/
def PadMembers.call (s : PadMembers) (e : PadEvent) : PadMembers :=
  { s with trace := e :: s.trace }

/-- `RTPSender::RtpHeaderLength`. -/
def PadMembers.RtpHeaderLength (s : PadMembers) : Nat :=
  kRtpHeaderLength + 4 * s.csrcs_.length + s.header_extension_size

/-- The local `max_payload_size` of `SendPadData`, a `size_t` difference. -/
def PadMembers.max_payload_size (s : PadMembers) : Nat :=
  size_t_wrap ((s.max_packet_size_ : Int) - (s.RtpHeaderLength : Int))

/-- The local `padding_bytes_in_packet` of `SendPadData`. -/
def PadMembers.padding_bytes_in_packet (s : PadMembers) (bytes : Nat) : Nat :=
  if s.audio_configured_ = true then
    SafeClamp_size_t bytes kMinAudioPaddingLength
      (SafeMin_size_t s.max_payload_size kMaxPaddingLength)
  else SafeMin_size_t s.max_payload_size kMaxPaddingLength

/-- `RTPSender::UpdateTransportSequenceNumber`: the state, whether it succeeded, and the
packet id (the value of `options.packet_id`, -1 when it is not written). -/
def PadMembers.UpdateTransportSequenceNumber (env : PadEnv) (s : PadMembers) :
    PadMembers × Bool × Int :=
  if s.transport_sequence_number_registered = false then (s, false, -1)
  else if s.transport_sequence_number_allocator_ = false then (s, false, -1)
  else
    let s1 := s.call PadEvent.AllocateSequenceNumber
    let packet_id := env.AllocateSequenceNumber s1.trace
    let s2 := s1.call (PadEvent.SetTransportSequenceNumber packet_id)
    (s2, env.SetTransportSequenceNumber s2.trace, packet_id)

/-- How one pass through the body of the `while` loop of `SendPadData` ends: with
`break`, with `return 0`, or at the end of the body after a padding packet was sent. -/
inductive PadStep where
  | stop (s : PadMembers)
  | return_zero (s : PadMembers)
  | sent (s : PadMembers)

/-- The second half of the body of the `while` loop of `RTPSender::SendPadData`, from
the construction of `padding_packet` on, with the locals the first half has set. -/
def PadMembers.SendPadPacket (env : PadEnv) (pacing_info : PacedPacketInfo)
    (padding_bytes_in_packet : Nat) (s : PadMembers) (now_ms : Int) (ssrc timestamp : Nat)
    (capture_time_ms : Int) (sequence_number : Nat) (payload_type : Int) (over_rtx : Bool) :
    PadStep :=
  let transmission_offset : Option Int :=
    if capture_time_ms > 0 then
      some (wrap64 (wrap64 (now_ms - capture_time_ms) * kTimestampTicksPerMs))
    else none
  let s3 := (s.UpdateTransportSequenceNumber env).1
  let has_transport_seq_num := (s.UpdateTransportSequenceNumber env).2.1
  let packet_id := (s.UpdateTransportSequenceNumber env).2.2
  let s4 :=
    if has_transport_seq_num = true then
      s3.call (PadEvent.AddPacketToTransportFeedback packet_id pacing_info)
    else s3
  let s5 :=
    s4.call (PadEvent.SendPacketToNetwork payload_type sequence_number timestamp ssrc
      transmission_offset now_ms padding_bytes_in_packet
      (has_transport_seq_num || s3.force_part_of_allocation_) has_transport_seq_num)
  if env.SendPacketToNetwork s5.trace = false then PadStep.stop s5
  else PadStep.sent (s5.call (PadEvent.UpdateRtpStats over_rtx))

/-- The body of the `while` loop of `RTPSender::SendPadData`; `timestamp` is a
`uint32_t`, the sequence numbers are `uint16_t`. -/
def PadMembers.SendPadStep (env : PadEnv) (pacing_info : PacedPacketInfo)
    (padding_bytes_in_packet : Nat) (s : PadMembers) : PadStep :=
  let s1 := s.call PadEvent.TimeInMilliseconds
  let now_ms := env.TimeInMilliseconds s1.trace
  if s1.sending_media_ = false then PadStep.stop s1
  else if s1.rtx_ = kRtxOff then
    if s1.last_payload_type_ = -1 then PadStep.stop s1
    else if s1.audio_configured_ = false ∧ s1.last_packet_marker_bit_ = false then PadStep.stop s1
    else
      match s1.ssrc_ with
      | none => PadStep.return_zero s1
      | some ssrc =>
        PadMembers.SendPadPacket env pacing_info padding_bytes_in_packet
          { s1 with sequence_number_ := (s1.sequence_number_ + 1) % 65536 }
          now_ms ssrc s1.last_rtp_timestamp_ s1.capture_time_ms_ s1.sequence_number_
          s1.last_payload_type_ false
  else
    if s1.media_has_been_sent_ = false ∧
        (s1.abs_send_time_registered ||
          (s1.transport_sequence_number_registered &&
            s1.transport_sequence_number_allocator_)) = false then
      PadStep.stop s1
    else
      let timestamp : Nat :=
        if s1.last_timestamp_time_ms_ > 0 then
          (((s1.last_rtp_timestamp_ : Int) +
            wrap64 (wrap64 (now_ms - s1.last_timestamp_time_ms_) * kTimestampTicksPerMs))
              % 4294967296).toNat
        else s1.last_rtp_timestamp_
      let capture_time_ms : Int :=
        if s1.last_timestamp_time_ms_ > 0 then
          wrap64 (s1.capture_time_ms_ + wrap64 (now_ms - s1.last_timestamp_time_ms_))
        else s1.capture_time_ms_
      match s1.ssrc_rtx_ with
      | none => PadStep.return_zero s1
      | some ssrc =>
        PadMembers.SendPadPacket env pacing_info padding_bytes_in_packet
          { s1 with sequence_number_rtx_ := (s1.sequence_number_rtx_ + 1) % 65536 }
          now_ms ssrc timestamp capture_time_ms s1.sequence_number_rtx_
          s1.rtx_payload_type true

/-- The `while (bytes_sent < bytes)` loop of `RTPSender::SendPadData`, with the number
of passes bounded by `fuel`; a pass that continues adds `padding_bytes_in_packet` to
`bytes_sent`, so with packets of at least one byte `fuel = bytes` never runs out
(`SendPadLoop_fuel`). Returns the state and the value returned by `SendPadData`. -/
def PadMembers.SendPadLoop (env : PadEnv) (pacing_info : PacedPacketInfo)
    (padding_bytes_in_packet bytes : Nat) : Nat → PadMembers → Nat → PadMembers × Nat
  | 0, s, bytes_sent => (s, bytes_sent)
  | fuel + 1, s, bytes_sent =>
    if bytes_sent < bytes then
      match s.SendPadStep env pacing_info padding_bytes_in_packet with
      | PadStep.stop s1 => (s1, bytes_sent)
      | PadStep.return_zero s1 => (s1, 0)
      | PadStep.sent s1 =>
        PadMembers.SendPadLoop env pacing_info padding_bytes_in_packet bytes fuel s1
          (bytes_sent + padding_bytes_in_packet)
    else (s, bytes_sent)

/-- `RTPSender::SendPadData`: the state after the call and the value returned. -/
def PadMembers.SendPadData (env : PadEnv) (s : PadMembers) (bytes : Nat)
    (pacing_info : PacedPacketInfo) : PadMembers × Nat :=
  PadMembers.SendPadLoop env pacing_info (s.padding_bytes_in_packet bytes) bytes bytes s 0

/-- The argument of `SetPadding` of a padding packet handed to the network is
`padding`. -/
def PadEvent.Carries (padding : Nat) : PadEvent → Prop
  | .SendPacketToNetwork _ _ _ _ _ _ p _ _ => p = padding
  | _ => True

/-- The number of padding packets handed to the network among the events. -/
def PadEvent.packets : List PadEvent → Nat
  | [] => 0
  | .SendPacketToNetwork _ _ _ _ _ _ _ _ _ :: rest => PadEvent.packets rest + 1
  | _ :: rest => PadEvent.packets rest

/-- A video sender ready to pad: 1200-byte packets, no RTX, a media packet with marker
bit sent before. -/
def PadMembers.video : PadMembers :=
  { audio_configured_ := false
    max_packet_size_ := 1200
    csrcs_ := []
    header_extension_size := 0
    sending_media_ := true
    last_rtp_timestamp_ := 90000
    capture_time_ms_ := 1000
    rtx_ := kRtxOff
    last_payload_type_ := 96
    last_packet_marker_bit_ := true
    ssrc_ := some 4660
    sequence_number_ := 7
    media_has_been_sent_ := true
    abs_send_time_registered := false
    transport_sequence_number_registered := false
    transport_sequence_number_allocator_ := false
    last_timestamp_time_ms_ := 1000
    ssrc_rtx_ := none
    sequence_number_rtx_ := 0
    rtx_payload_type := 97
    force_part_of_allocation_ := false
    trace := [] }

/-- An environment for `SendPadData`: the clock stands at 1010 ms and the transport
sends every packet. -/
def PadEnv.sending : PadEnv :=
  { TimeInMilliseconds := fun _ => 1010
    AllocateSequenceNumber := fun _ => 1
    SetTransportSequenceNumber := fun _ => true
    SendPacketToNetwork := fun _ => true }

/-- An environment for `SendPadData` as `PadEnv.sending`, but the transport refuses every
packet. -/
def PadEnv.refusing : PadEnv :=
  { TimeInMilliseconds := fun _ => 1010
    AllocateSequenceNumber := fun _ => 1
    SetTransportSequenceNumber := fun _ => true
    SendPacketToNetwork := fun _ => false }

/-- The state in which a pass through the loop body of `SendPadData` ends. -/
def PadStep.state : PadStep → PadMembers
  | .stop s => s
  | .return_zero s => s
  | .sent s => s

/-- The number of padding packets among the events that the transport took: the calls of
`SendPacketToNetwork` that `env` answers with true. -/
def PadEnv.accepted (env : PadEnv) : List PadEvent → Nat
  | [] => 0
  | .SendPacketToNetwork a b c d e f g h i :: rest =>
    if env.SendPacketToNetwork (.SendPacketToNetwork a b c d e f g h i :: rest) = true then
      env.accepted rest + 1
    else env.accepted rest
  | _ :: rest => env.accepted rest

/-- The members that `SendPadData` only reads have the same values in both states. -/
def PadMembers.SameConfig (s s1 : PadMembers) : Prop :=
  s1.audio_configured_ = s.audio_configured_ ∧
  s1.sending_media_ = s.sending_media_ ∧
  s1.rtx_ = s.rtx_ ∧
  s1.last_payload_type_ = s.last_payload_type_ ∧
  s1.last_packet_marker_bit_ = s.last_packet_marker_bit_ ∧
  s1.ssrc_ = s.ssrc_ ∧
  s1.ssrc_rtx_ = s.ssrc_rtx_ ∧
  s1.media_has_been_sent_ = s.media_has_been_sent_ ∧
  s1.abs_send_time_registered = s.abs_send_time_registered ∧
  s1.transport_sequence_number_registered = s.transport_sequence_number_registered ∧
  s1.transport_sequence_number_allocator_ = s.transport_sequence_number_allocator_

/-- The SSRC that the loop body of `SendPadData` puts on a padding packet is set:
`ssrc_` without RTX, `ssrc_rtx_` with RTX. -/
def PadMembers.HasSsrc (s : PadMembers) : Prop :=
  if s.rtx_ = kRtxOff then s.ssrc_ ≠ none else s.ssrc_rtx_ ≠ none

/-- None of the conditions under which the loop body of `SendPadData` leaves the loop
before it builds a padding packet holds. -/
def PadMembers.Ready (s : PadMembers) : Prop :=
  s.sending_media_ = true ∧
  if s.rtx_ = kRtxOff then
    s.last_payload_type_ ≠ -1 ∧
    ¬ (s.audio_configured_ = false ∧ s.last_packet_marker_bit_ = false) ∧
    s.ssrc_ ≠ none
  else
    ¬ (s.media_has_been_sent_ = false ∧
        (s.abs_send_time_registered ||
          (s.transport_sequence_number_registered &&
            s.transport_sequence_number_allocator_)) = false) ∧
    s.ssrc_rtx_ ≠ none

/-! ## `RTPSender::UpdateDelayStatistics` (rtp_sender.cc) -/

/-- The constant `kSendSideDelayWindowMs` of rtp_sender.cc. -/
def kSendSideDelayWindowMs : Int := 1000

/-- The call `SendSideDelayObserver::SendSideDelayUpdated` made by
`UpdateDelayStatistics`. -/
inductive DelayEvent where
  | SendSideDelayUpdated (avg_delay_ms max_delay_ms : Int) (ssrc : Nat)
  deriving DecidableEq, Repr

/-- `SendDelayMap` (`std::map<int64_t, int>`): the entries (send time, delay) in
iteration order, which is the order of increasing keys. -/
abbrev SendDelayMap := List (Int × Int)

/-- The value `it->second` of the entry with the given key; `none` when no entry has
the key. -/
def SendDelayMap.second : SendDelayMap → Int → Option Int
  | [], _ => none
  | e :: rest, key => if e.1 = key then some e.2 else SendDelayMap.second rest key

/-- The range `[begin(), lower_bound(key))`: the entries before the first one whose key
is not less than `key`. -/
def SendDelayMap.before_lower_bound (m : SendDelayMap) (key : Int) : SendDelayMap :=
  m.takeWhile (fun e => decide (e.1 < key))

/-- The range `[lower_bound(key), end())`, which is what
`erase(begin(), lower_bound(key))` leaves in the map. -/
def SendDelayMap.from_lower_bound (m : SendDelayMap) (key : Int) : SendDelayMap :=
  m.dropWhile (fun e => decide (e.1 < key))

/-- The map after `insert(std::make_pair(key, value))`: a new entry at its place in the
key order, or the map unchanged when the key is present. -/
def SendDelayMap.insert : SendDelayMap → Int → Int → SendDelayMap
  | [], key, value => [(key, value)]
  | e :: rest, key, value =>
    if key < e.1 then (key, value) :: e :: rest
    else if e.1 = key then e :: rest
    else e :: SendDelayMap.insert rest key value

/-- The map after `it->second = value` for the iterator at `key`. -/
def SendDelayMap.assign : SendDelayMap → Int → Int → SendDelayMap
  | [], _, _ => []
  | e :: rest, key, value =>
    if e.1 = key then (e.1, value) :: rest
    else e :: SendDelayMap.assign rest key value

/-- The members of `RTPSender` that `UpdateDelayStatistics` reads or writes.
`send_side_delay_observer_` is true when the pointer is not null, `max_delay_it_` is the
key of the entry the iterator refers to (`none` for `send_delays_.end()`), and `trace`
holds the calls made to the observer, latest first. -/
structure DelayMembers where
  send_side_delay_observer_ : Bool
  ssrc_ : Option Nat
  send_delays_ : SendDelayMap
  max_delay_it_ : Option Int
  sum_delays_ms_ : Int
  trace : List DelayEvent
  deriving DecidableEq, Repr

/-- The delay members as the constructor of `RTPSender` initialises them: an empty map,
`max_delay_it_(send_delays_.end())` and `sum_delays_ms_(0)`. -/
def DelayMembers.create (send_side_delay_observer : Bool) (ssrc : Option Nat) :
    DelayMembers :=
  { send_side_delay_observer_ := send_side_delay_observer
    ssrc_ := ssrc
    send_delays_ := []
    max_delay_it_ := none
    sum_delays_ms_ := 0
    trace := [] }

/-- Record a call to the observer. -/
def DelayMembers.call (s : DelayMembers) (e : DelayEvent) : DelayMembers :=
  { s with trace := e :: s.trace }

/-- The loop of `RecomputeMaxSendDelay` over the entries still to visit, carrying the
entry `max_delay_it_` refers to: a later entry with a delay `>=` replaces it. -/
def RecomputeMaxLoop : SendDelayMap → Int × Int → Int × Int
  | [], max_delay => max_delay
  | e :: rest, max_delay => RecomputeMaxLoop rest (if e.2 ≥ max_delay.2 then e else max_delay)

/-- `RTPSender::RecomputeMaxSendDelay`: `max_delay_it_` starts at `begin()` (which is
`end()` for an empty map) and moves to every entry whose delay is not smaller. -/
def DelayMembers.RecomputeMaxSendDelay (s : DelayMembers) : DelayMembers :=
  match s.send_delays_ with
  | [] => { s with max_delay_it_ := none }
  | e :: rest => { s with max_delay_it_ := some (RecomputeMaxLoop (e :: rest) e).1 }

/-- The loop `for (it = begin(); it != lower_bound; ++it)` of `UpdateDelayStatistics`
over the entries about to be erased. -/
def DelayMembers.RemoveLoop : SendDelayMap → DelayMembers → DelayMembers
  | [], s => s
  | e :: rest, s =>
    DelayMembers.RemoveLoop rest
      { s with
        max_delay_it_ := if s.max_delay_it_ = some e.1 then none else s.max_delay_it_
        sum_delays_ms_ := wrap64 (s.sum_delays_ms_ - e.2) }

/-- The first block of `UpdateDelayStatistics`: remove the entries older than
`kSendSideDelayWindowMs` and recompute the maximum when its entry was removed. -/
def DelayMembers.RemoveOld (s : DelayMembers) (now_ms : Int) : DelayMembers :=
  let lower_bound := wrap64 (now_ms - kSendSideDelayWindowMs)
  let s1 := DelayMembers.RemoveLoop (SendDelayMap.before_lower_bound s.send_delays_ lower_bound) s
  let s2 := { s1 with send_delays_ := SendDelayMap.from_lower_bound s.send_delays_ lower_bound }
  if s2.max_delay_it_ = none then s2.RecomputeMaxSendDelay else s2

/-- The insertion of the new measurement in `UpdateDelayStatistics`, with the branch
`if (!inserted)` that overwrites a measurement of the same millisecond. -/
def DelayMembers.AddDelay (s : DelayMembers) (now_ms new_send_delay : Int) : DelayMembers :=
  match SendDelayMap.second s.send_delays_ now_ms with
  | none =>
    { s with send_delays_ := SendDelayMap.insert s.send_delays_ now_ms new_send_delay }
  | some previous_send_delay =>
    let s1 :=
      { s with
        sum_delays_ms_ := wrap64 (s.sum_delays_ms_ - previous_send_delay)
        send_delays_ := SendDelayMap.assign s.send_delays_ now_ms new_send_delay }
    if s1.max_delay_it_ = some now_ms ∧ new_send_delay < previous_send_delay then
      s1.RecomputeMaxSendDelay
    else s1

/-- The statement `if (max_delay_it_ == send_delays_.end() || it->second >=
max_delay_it_->second) max_delay_it_ = it;` followed by `sum_delays_ms_ +=
new_send_delay`, where `it` is the entry of `now_ms`; `none` when an iterator that refers
to no entry is dereferenced. -/
def DelayMembers.UpdateMax (s : DelayMembers) (now_ms new_send_delay : Int) :
    Option DelayMembers :=
  match s.max_delay_it_ with
  | none =>
    some { s with
      max_delay_it_ := some now_ms
      sum_delays_ms_ := wrap64 (s.sum_delays_ms_ + new_send_delay) }
  | some key =>
    match SendDelayMap.second s.send_delays_ now_ms, SendDelayMap.second s.send_delays_ key with
    | some it_second, some max_second =>
      some { s with
        max_delay_it_ := if it_second ≥ max_second then some now_ms else some key
        sum_delays_ms_ := wrap64 (s.sum_delays_ms_ + new_send_delay) }
    | _, _ => none

/-- The end of `UpdateDelayStatistics`: compute the maximum and the average and report
them to the observer; `none` when `max_delay_it_` refers to no entry or the map is
empty. -/
def DelayMembers.Report (s : DelayMembers) (ssrc : Nat) : Option DelayMembers :=
  let num_delays := s.send_delays_.length
  match s.max_delay_it_ with
  | none => none
  | some key =>
    match SendDelayMap.second s.send_delays_ key with
    | none => none
    | some max_second =>
      if num_delays = 0 then none
      else
        let max_delay_ms := dchecked_cast_int max_second
        let avg :=
          dchecked_cast_int
            (((size_t_wrap (s.sum_delays_ms_ + ((num_delays / 2 : Nat) : Int)) / num_delays : Nat) : Int))
        some (s.call (DelayEvent.SendSideDelayUpdated avg max_delay_ms ssrc))

/-- `RTPSender::UpdateDelayStatistics`: the members after the call; `none` when the call
dereferences an iterator that refers to no entry. -/
def DelayMembers.UpdateDelayStatistics (s : DelayMembers) (capture_time_ms now_ms : Int) :
    Option DelayMembers :=
  if s.send_side_delay_observer_ = false ∨ capture_time_ms ≤ 0 then some s
  else
    match s.ssrc_ with
    | none => some s
    | some ssrc =>
      let s1 := s.RemoveOld now_ms
      let new_send_delay := dchecked_cast_int (wrap64 (now_ms - capture_time_ms))
      let s2 := s1.AddDelay now_ms new_send_delay
      match s2.UpdateMax now_ms new_send_delay with
      | none => none
      | some s3 => s3.Report ssrc

/-- A sequence of calls `UpdateDelayStatistics(capture_time_ms, now_ms)`, first call
first. -/
def DelayMembers.run (s : DelayMembers) : List (Int × Int) → Option DelayMembers
  | [] => some s
  | c :: rest =>
    match s.UpdateDelayStatistics c.1 c.2 with
    | none => none
    | some s1 => DelayMembers.run s1 rest

/-- The sum of the delays stored in the map. -/
def SendDelayMap.sum (m : SendDelayMap) : Int := (m.map Prod.snd).sum

/-- The keys of the map increase strictly in iteration order. -/
def SendDelayMap.Sorted (m : SendDelayMap) : Prop := m.Pairwise (fun a b => a.1 < b.1)

/-- The iterator `max_delay_it_` refers to an entry that holds the maximum stored
delay, or is `end()` and the map is empty. -/
def SendDelayMap.MaxAt (m : SendDelayMap) : Option Int → Prop
  | none => m = []
  | some key => ∃ d, (key, d) ∈ m ∧ ∀ e ∈ m, e.2 ≤ d

/-- The representation invariant of the delay members: sorted keys, delays that are
`int` values, the running sum, and the maximum iterator. -/
def DelayMembers.Valid (s : DelayMembers) : Prop :=
  SendDelayMap.Sorted s.send_delays_ ∧ (∀ e ∈ s.send_delays_, InInt32 e.2) ∧
  s.sum_delays_ms_ = wrap64 (SendDelayMap.sum s.send_delays_) ∧
  SendDelayMap.MaxAt s.send_delays_ s.max_delay_it_

/-- The state of `max_delay_it_` between the insertion of the measurement of `now_ms`
and the statement that compares the new entry with it: the iterator refers to an entry
holding the maximum of the delays stored under the other keys, or it is `end()` and no
other key is stored. -/
def SendDelayMap.MaxApart (m : SendDelayMap) (now_ms : Int) : Option Int → Prop
  | none => ∀ e ∈ m, e.1 = now_ms
  | some key => ∃ d, (key, d) ∈ m ∧ ∀ e ∈ m, e.1 ≠ now_ms → e.2 ≤ d

/-! ## IEEE 754 binary64 arithmetic

The C++ type `double` with its rounding: a value is a finite rational, an infinity or a
NaN, and every operation returns the representable value nearest to the exact result,
a tie going to the value with the even significand (the default rounding mode). Each
operation is rounded on its own. The sign of a zero is not represented; no result of
the embedded functions depends on it. -/

/-- A value of type `double`. -/
inductive Double where
  | finite (value : ℚ)
  | infinity (negative : Bool)
  | nan
deriving DecidableEq, Repr

/-- The integer nearest to `n / d`, a tie going to the even neighbour. -/
def round_half_even (n d : Nat) : Nat :=
  if 2 * (n % d) < d then n / d
  else if d < 2 * (n % d) then n / d + 1
  else if (n / d) % 2 = 0 then n / d else n / d + 1

/-- The first of `k`, `2 * k`, `4 * k`, ... with `n < 2 ^ k`. -/
def log2_bound : Nat → Nat → Nat → Nat
  | 0, k, _ => k
  | fuel + 1, k, n => if n < 2 ^ k then k else log2_bound fuel (2 * k) n

/-- Bisection for the leading bit: from `2 ^ lo ≤ n < 2 ^ (lo + width)` to the `e` with
`2 ^ e ≤ n < 2 ^ (e + 1)`. -/
def log2_bisect : Nat → Nat → Nat → Nat → Nat
  | 0, lo, _, _ => lo
  | fuel + 1, lo, width, n =>
    if width ≤ 1 then lo
    else if 2 ^ (lo + width / 2) ≤ n then log2_bisect fuel (lo + width / 2) (width - width / 2) n
    else log2_bisect fuel lo (width / 2) n

/-- The position of the leading bit of `n`: the `e` with `2 ^ e ≤ n < 2 ^ (e + 1)` for
`n ≥ 1`. -/
def floor_log2 (n : Nat) : Nat := log2_bisect (log2_bound n 1 n) 0 (log2_bound n 1 n) n

/-- The binary exponent of the positive rational `n / d`: the integer `e` with
`2 ^ e ≤ n / d < 2 ^ (e + 1)`. -/
def binary_exponent (n d : Nat) : Int :=
  if d * 2 ^ floor_log2 n ≤ n * 2 ^ floor_log2 d then
    (floor_log2 n : Int) - (floor_log2 d : Int)
  else (floor_log2 n : Int) - (floor_log2 d : Int) - 1

/-- Rounding of the positive rational `n / d` to the nearest `double`, `none` when the
result is `2 ^ 1024` or more: the significand has 53 bits and the spacing of the values
never falls below `2 ^ -1074` (subnormal range). -/
def round_magnitude (n d : Nat) : Option ℚ :=
  let k : Int := max (binary_exponent n d - 52) (-1074)
  let m := round_half_even (n * 2 ^ (-k).toNat) (d * 2 ^ k.toNat)
  if 2 ^ 1024 * 2 ^ (-k).toNat ≤ m * 2 ^ k.toNat then none
  else some (((m * 2 ^ k.toNat : Nat) : ℚ) / ((2 ^ (-k).toNat : Nat) : ℚ))

/-- Rounding of an exact result to `double`: to the nearest value, a tie to the even
significand; a magnitude that rounds to `2 ^ 1024` or more gives an infinity. -/
def Double.round (x : ℚ) : Double :=
  if x = 0 then Double.finite 0
  else
    match round_magnitude x.num.natAbs x.den with
    | none => Double.infinity (decide (x < 0))
    | some y => Double.finite (if x < 0 then -y else y)

/-- The conversion of an integer (`int`, `int64_t`, `size_t`) to `double`. -/
def Double.ofInt (n : Int) : Double := Double.round (n : ℚ)

/-- Unary minus. -/
def Double.neg : Double → Double
  | Double.finite x => Double.finite (-x)
  | Double.infinity s => Double.infinity (!s)
  | Double.nan => Double.nan

/-- The operator `+` on `double`. -/
def Double.add : Double → Double → Double
  | Double.finite x, Double.finite y => Double.round (x + y)
  | Double.finite _, Double.infinity t => Double.infinity t
  | Double.infinity s, Double.finite _ => Double.infinity s
  | Double.infinity s, Double.infinity t => if s = t then Double.infinity s else Double.nan
  | _, _ => Double.nan

/-- The operator `-` on `double`. -/
def Double.sub (a b : Double) : Double := Double.add a (Double.neg b)

/-- The operator `*` on `double`. -/
def Double.mul : Double → Double → Double
  | Double.finite x, Double.finite y => Double.round (x * y)
  | Double.finite x, Double.infinity t =>
    if x = 0 then Double.nan else Double.infinity (xor (decide (x < 0)) t)
  | Double.infinity s, Double.finite y =>
    if y = 0 then Double.nan else Double.infinity (xor s (decide (y < 0)))
  | Double.infinity s, Double.infinity t => Double.infinity (xor s t)
  | _, _ => Double.nan

/-- The operator `/` on `double`; a zero divisor counts as positive. -/
def Double.div : Double → Double → Double
  | Double.finite x, Double.finite y =>
    if y = 0 then (if x = 0 then Double.nan else Double.infinity (decide (x < 0)))
    else Double.round (x / y)
  | Double.finite _, Double.infinity _ => Double.finite 0
  | Double.infinity s, Double.finite y => Double.infinity (xor s (decide (y < 0)))
  | _, _ => Double.nan

/-- The operator `<` on `double`: false when an operand is a NaN. -/
def Double.lt : Double → Double → Bool
  | Double.finite x, Double.finite y => decide (x < y)
  | Double.finite _, Double.infinity t => !t
  | Double.infinity s, Double.finite _ => s
  | Double.infinity s, Double.infinity t => s && !t
  | _, _ => false

/-- The operator `<=` on `double`: false when an operand is a NaN. -/
def Double.le : Double → Double → Bool
  | Double.finite x, Double.finite y => decide (x ≤ y)
  | Double.finite _, Double.infinity t => !t
  | Double.infinity s, Double.finite _ => s
  | Double.infinity s, Double.infinity t => s || !t
  | _, _ => false

/-- The operator `>` on `double`. -/
def Double.gt (a b : Double) : Bool := Double.lt b a

/-- The operator `>=` on `double`. -/
def Double.ge (a b : Double) : Bool := Double.le b a

/-- The operator `==` on `double`: false when an operand is a NaN. -/
def Double.eq : Double → Double → Bool
  | Double.finite x, Double.finite y => decide (x = y)
  | Double.infinity s, Double.infinity t => decide (s = t)
  | _, _ => false

/-- The C library function `fabs` on `double`. -/
def Double.fabs : Double → Double
  | Double.finite x => Double.finite (if x < 0 then -x else x)
  | Double.infinity _ => Double.infinity false
  | Double.nan => Double.nan

/-! ## `TrendlineEstimator` in binary64 arithmetic (trendline_estimator.cc)

The embedding of `TrendlineEstimator` above computes with exact rationals, the
arithmetic of the properties that are stated over the reals. The embedding in this
section follows the same source line by line with every `double` operation rounded. -/

/-- The constant `kMaxAdaptOffsetMs` as a `double`. -/
def Ieee.kMaxAdaptOffsetMs : Double := Double.finite 15

/-- The constant `kOverUsingTimeThreshold` as a `double`. -/
def Ieee.kOverUsingTimeThreshold : Double := Double.finite 10

/-- Modelled from the spec: `rtc::SafeClamp` of `rtc_base/numerics/safe_minmax.h`, which
is not among the sources; the spec says the threshold is clamped to `[6, 600]`: a value
at or below the lower bound becomes the lower bound, a value at or above the upper bound
becomes the upper bound, any other value (a NaN included, for which both comparisons
fail) is kept. -/
def Ieee.SafeClamp (x lo hi : Double) : Double :=
  if Double.le x lo then lo else if Double.ge x hi then hi else x

/-- `LinearFitSlope`: least-squares slope of the points, `absl::nullopt` (`none`) when
the denominator compares equal to zero. -/
def Ieee.LinearFitSlope (points : List (Double × Double)) : Option Double :=
  let sum_x := points.foldl (fun acc point => Double.add acc point.1) (Double.finite 0)
  let sum_y := points.foldl (fun acc point => Double.add acc point.2) (Double.finite 0)
  let x_avg := Double.div sum_x (Double.ofInt points.length)
  let y_avg := Double.div sum_y (Double.ofInt points.length)
  let numerator :=
    points.foldl
      (fun acc point =>
        Double.add acc (Double.mul (Double.sub point.1 x_avg) (Double.sub point.2 y_avg)))
      (Double.finite 0)
  let denominator :=
    points.foldl
      (fun acc point =>
        Double.add acc (Double.mul (Double.sub point.1 x_avg) (Double.sub point.1 x_avg)))
      (Double.finite 0)
  if Double.eq denominator (Double.finite 0) then none
  else some (Double.div numerator denominator)

/-- The data members of `class TrendlineEstimator`. `predictor_calls_` is the state of
the object behind `network_state_predictor_`: the calls it has received, latest
first. -/
structure Ieee.TrendlineEstimator where
  window_size_ : Nat
  smoothing_coef_ : Double
  threshold_gain_ : Double
  num_of_deltas_ : Int
  first_arrival_time_ms_ : Int
  accumulated_delay_ : Double
  smoothed_delay_ : Double
  delay_hist_ : List (Double × Double)
  k_up_ : Double
  k_down_ : Double
  overusing_time_threshold_ : Double
  threshold_ : Double
  prev_modified_trend_ : Double
  last_update_ms_ : Int
  prev_trend_ : Double
  time_over_using_ : Double
  overuse_counter_ : Int
  hypothesis_ : BandwidthUsage
  hypothesis_predicted_ : BandwidthUsage
  network_state_predictor_ : Option NetworkStatePredictor
  predictor_calls_ : List (Int × Int × BandwidthUsage)

/-- The constructor `TrendlineEstimator::TrendlineEstimator`; the literals `0.0087` and
`0.039` denote the nearest `double` values. -/
def Ieee.TrendlineEstimator.create (window_size : Nat) (smoothing_coef threshold_gain : Double)
    (network_state_predictor : Option NetworkStatePredictor) : Ieee.TrendlineEstimator :=
  { window_size_ := window_size
    smoothing_coef_ := smoothing_coef
    threshold_gain_ := threshold_gain
    num_of_deltas_ := 0
    first_arrival_time_ms_ := -1
    accumulated_delay_ := Double.finite 0
    smoothed_delay_ := Double.finite 0
    delay_hist_ := []
    k_up_ := Double.round (87 / 10000)
    k_down_ := Double.round (39 / 1000)
    overusing_time_threshold_ := Ieee.kOverUsingTimeThreshold
    threshold_ := Double.finite (25 / 2)
    prev_modified_trend_ := Double.nan
    last_update_ms_ := -1
    prev_trend_ := Double.finite 0
    time_over_using_ := Double.finite (-1)
    overuse_counter_ := 0
    hypothesis_ := BandwidthUsage.kBwNormal
    hypothesis_predicted_ := BandwidthUsage.kBwNormal
    network_state_predictor_ := network_state_predictor
    predictor_calls_ := [] }

/-- `TrendlineEstimator::UpdateThreshold`. -/
def Ieee.TrendlineEstimator.UpdateThreshold (s : Ieee.TrendlineEstimator)
    (modified_trend : Double) (now_ms : Int) : Ieee.TrendlineEstimator :=
  let s1 := if s.last_update_ms_ = -1 then { s with last_update_ms_ := now_ms } else s
  if Double.gt (Double.fabs modified_trend)
      (Double.add s1.threshold_ Ieee.kMaxAdaptOffsetMs) then
    { s1 with last_update_ms_ := now_ms }
  else
    let k := if Double.lt (Double.fabs modified_trend) s1.threshold_ then s1.k_down_ else s1.k_up_
    let kMaxTimeDeltaMs : Int := 100
    let time_delta_ms : Int := min (wrap64 (now_ms - s1.last_update_ms_)) kMaxTimeDeltaMs
    let threshold :=
      Double.add s1.threshold_
        (Double.mul (Double.mul k (Double.sub (Double.fabs modified_trend) s1.threshold_))
          (Double.ofInt time_delta_ms))
    { s1 with
      threshold_ := Ieee.SafeClamp threshold (Double.finite 6) (Double.finite 600)
      last_update_ms_ := now_ms }

/-- `TrendlineEstimator::Detect`. -/
def Ieee.TrendlineEstimator.Detect (s : Ieee.TrendlineEstimator) (trend ts_delta : Double)
    (now_ms : Int) : Ieee.TrendlineEstimator :=
  if s.num_of_deltas_ < 2 then
    { s with hypothesis_ := BandwidthUsage.kBwNormal }
  else
    let modified_trend : Double :=
      Double.mul (Double.mul (Double.ofInt (min s.num_of_deltas_ kMinNumDeltas)) trend)
        s.threshold_gain_
    let s1 := { s with prev_modified_trend_ := modified_trend }
    let s2 :=
      if Double.gt modified_trend s1.threshold_ then
        let s3 :=
          if Double.eq s1.time_over_using_ (Double.finite (-1)) then
            { s1 with time_over_using_ := Double.div ts_delta (Double.finite 2) }
          else
            { s1 with time_over_using_ := Double.add s1.time_over_using_ ts_delta }
        let s4 := { s3 with overuse_counter_ := wrap32 (s3.overuse_counter_ + 1) }
        if Double.gt s4.time_over_using_ s4.overusing_time_threshold_ ∧
            s4.overuse_counter_ > 1 then
          if Double.ge trend s4.prev_trend_ then
            { s4 with
              time_over_using_ := Double.finite 0
              overuse_counter_ := 0
              hypothesis_ := BandwidthUsage.kBwOverusing }
          else s4
        else s4
      else if Double.lt modified_trend (Double.neg s1.threshold_) then
        { s1 with
          time_over_using_ := Double.finite (-1)
          overuse_counter_ := 0
          hypothesis_ := BandwidthUsage.kBwUnderusing }
      else
        { s1 with
          time_over_using_ := Double.finite (-1)
          overuse_counter_ := 0
          hypothesis_ := BandwidthUsage.kBwNormal }
    Ieee.TrendlineEstimator.UpdateThreshold { s2 with prev_trend_ := trend } modified_trend now_ms

/-- The statements of `TrendlineEstimator::Update` that precede the call of `Detect` in
the branch `calculated_deltas`: the delta counter, the exponential filter and the trend
window. -/
def Ieee.TrendlineEstimator.UpdateFilter (s : Ieee.TrendlineEstimator)
    (recv_delta_ms send_delta_ms : Double) (arrival_time_ms : Int) : Ieee.TrendlineEstimator :=
  let delta_ms := Double.sub recv_delta_ms send_delta_ms
  let s1 := { s with num_of_deltas_ := min (wrap32 (s.num_of_deltas_ + 1)) kDeltaCounterMax }
  let s2 :=
    if s1.first_arrival_time_ms_ = -1 then { s1 with first_arrival_time_ms_ := arrival_time_ms }
    else s1
  let s3 := { s2 with accumulated_delay_ := Double.add s2.accumulated_delay_ delta_ms }
  let s4 :=
    { s3 with
      smoothed_delay_ :=
        Double.add (Double.mul s3.smoothing_coef_ s3.smoothed_delay_)
          (Double.mul (Double.sub (Double.finite 1) s3.smoothing_coef_) s3.accumulated_delay_) }
  let s5 :=
    { s4 with
      delay_hist_ :=
        s4.delay_hist_ ++
          [(Double.ofInt (wrap64 (arrival_time_ms - s4.first_arrival_time_ms_)),
            s4.smoothed_delay_)] }
  if s5.delay_hist_.length > s5.window_size_ then { s5 with delay_hist_ := s5.delay_hist_.tail }
  else s5

/-- The value of the local `trend` of `TrendlineEstimator::Update` when `Detect` is
called. -/
def Ieee.TrendlineEstimator.UpdateTrend (s : Ieee.TrendlineEstimator) : Double :=
  if s.delay_hist_.length = s.window_size_ then
    (Ieee.LinearFitSlope s.delay_hist_).getD s.prev_trend_
  else s.prev_trend_

/-- `TrendlineEstimator::Update`. -/
def Ieee.TrendlineEstimator.Update (s : Ieee.TrendlineEstimator)
    (recv_delta_ms send_delta_ms : Double) (send_time_ms arrival_time_ms : Int)
    (calculated_deltas : Bool) : Ieee.TrendlineEstimator :=
  let s1 :=
    if calculated_deltas = true then
      let s2 := s.UpdateFilter recv_delta_ms send_delta_ms arrival_time_ms
      s2.Detect s2.UpdateTrend send_delta_ms arrival_time_ms
    else s
  match s1.network_state_predictor_ with
  | some predictor =>
      { s1 with
        hypothesis_predicted_ :=
          predictor.Update ((send_time_ms, arrival_time_ms, s1.hypothesis_) :: s1.predictor_calls_)
        predictor_calls_ := (send_time_ms, arrival_time_ms, s1.hypothesis_) :: s1.predictor_calls_ }
  | none => s1

/-- `TrendlineEstimator::State`. -/
def Ieee.TrendlineEstimator.State (s : Ieee.TrendlineEstimator) : BandwidthUsage :=
  match s.network_state_predictor_ with
  | some _ => s.hypothesis_predicted_
  | none => s.hypothesis_

/-- The arguments of one call of `TrendlineEstimator::Update`. -/
structure Ieee.UpdateCall where
  recv_delta_ms : Double
  send_delta_ms : Double
  send_time_ms : Int
  arrival_time_ms : Int
  calculated_deltas : Bool

/-- Effect of one `Update` call. -/
def Ieee.UpdateCall.apply (s : Ieee.TrendlineEstimator) (c : Ieee.UpdateCall) :
    Ieee.TrendlineEstimator :=
  s.Update c.recv_delta_ms c.send_delta_ms c.send_time_ms c.arrival_time_ms c.calculated_deltas

/-- Effect of a sequence of `Update` calls, first call first. -/
def Ieee.UpdateCall.run (s : Ieee.TrendlineEstimator) (calls : List Ieee.UpdateCall) :
    Ieee.TrendlineEstimator :=
  calls.foldl Ieee.UpdateCall.apply s

/-- The feedback of the overuse scenario: `n` packet groups sent `send_delta_ms` apart,
each received `recv_delta_ms` after the previous one; group `i` (from 1) is sent at
`i * send_delta_ms` and arrives at `i * recv_delta_ms`. -/
def Ieee.overuseFeed (send_delta_ms recv_delta_ms : Nat) (n : Nat) : List Ieee.UpdateCall :=
  (List.range n).map fun i =>
    { recv_delta_ms := Double.ofInt (recv_delta_ms : Int)
      send_delta_ms := Double.ofInt (send_delta_ms : Int)
      send_time_ms := ((i + 1) * send_delta_ms : Nat)
      arrival_time_ms := ((i + 1) * recv_delta_ms : Nat)
      calculated_deltas := true }

/-- The quantity `modified_trend` that `Detect` computes from the trend: the `int`
minimum is converted to `double`, the two products are rounded one after the other. -/
def Ieee.TrendlineEstimator.modified_trend (s : Ieee.TrendlineEstimator) (trend : Double) :
    Double :=
  Double.mul (Double.mul (Double.ofInt (min s.num_of_deltas_ kMinNumDeltas)) trend)
    s.threshold_gain_

/-- The accumulated over-threshold time once the current sample, itself over the
threshold, is counted: half the send delta when the timer is unset (-1), the timer plus
the send delta otherwise. -/
def Ieee.TrendlineEstimator.time_over_using_next (s : Ieee.TrendlineEstimator)
    (ts_delta : Double) : Double :=
  if Double.eq s.time_over_using_ (Double.finite (-1)) then Double.div ts_delta (Double.finite 2)
  else Double.add s.time_over_using_ ts_delta

/-- The number of consecutive over-threshold samples once the current sample, itself
over the threshold, is counted. -/
def Ieee.TrendlineEstimator.overuse_counter_next (s : Ieee.TrendlineEstimator) : Int :=
  wrap32 (s.overuse_counter_ + 1)

/-- The transition rule in the words of the spec (4.3, Transition rules): Overusing if
modified_trend exceeds the threshold, the accumulated over-threshold time exceeds 10 ms,
at least two consecutive over-threshold samples have been seen and the trend is not
below the previous trend; else Underusing if modified_trend is below minus the
threshold; else Normal. -/
def Ieee.TrendlineEstimator.DetectRule_spec (s : Ieee.TrendlineEstimator)
    (trend ts_delta : Double) : BandwidthUsage :=
  if Double.gt (s.modified_trend trend) s.threshold_ = true ∧
      Double.gt (s.time_over_using_next ts_delta) (Double.finite 10) = true ∧
      s.overuse_counter_next ≥ 2 ∧ Double.ge trend s.prev_trend_ = true then
    BandwidthUsage.kBwOverusing
  else if Double.lt (s.modified_trend trend) (Double.neg s.threshold_) = true then
    BandwidthUsage.kBwUnderusing
  else BandwidthUsage.kBwNormal

/-- The arrival times of the calls that carry calculated deltas, in call order. -/
def Ieee.UpdateCall.arrivals (calls : List Ieee.UpdateCall) : List Int :=
  (calls.filter fun c => c.calculated_deltas).map fun c => c.arrival_time_ms

/-- The number of calls that carry calculated deltas. -/
def Ieee.UpdateCall.calculated (calls : List Ieee.UpdateCall) : Nat :=
  (calls.filter fun c => c.calculated_deltas).length

/-- What `UpdateThreshold` can leave in `threshold_`: a value in [6, 600], or a NaN
(which passes `SafeClamp` unchanged). -/
def Ieee.ThresholdInRange (x : Double) : Prop :=
  x = Double.nan ∨ ∃ t : ℚ, x = Double.finite t ∧ 6 ≤ t ∧ t ≤ 600

/-- The state of an estimator without predictor whose trend window holds `j` points and
has never been full: the previous trend is still 0, no over-threshold sample is being
counted, the hypothesis is Normal and the threshold is in range. -/
def Ieee.TrendlineEstimator.Quiet (s : Ieee.TrendlineEstimator) (j : Nat) : Prop :=
  s.delay_hist_.length = j ∧ s.prev_trend_ = Double.finite 0 ∧ s.overuse_counter_ = 0 ∧
  s.hypothesis_ = BandwidthUsage.kBwNormal ∧ Ieee.ThresholdInRange s.threshold_ ∧
  s.network_state_predictor_ = none
/-! ## Theorems: machine integers -/

theorem wrap32_of_InInt32 {x : Int} (h : InInt32 x) : wrap32 x = x := by
  unfold InInt32 at h
  unfold wrap32
  omega

theorem wrap64_of_InInt64 {x : Int} (h : InInt64 x) : wrap64 x = x := by
  unfold InInt64 at h
  unfold wrap64
  omega

theorem InInt32_wrap32 (x : Int) : InInt32 (wrap32 x) := by
  unfold InInt32 wrap32
  omega

theorem tdiv8_nonneg {x : Int} (h : 0 ≤ x) : 0 ≤ Int.tdiv x 8 := by
  rw [Int.tdiv_eq_ediv h (by decide)]
  omega

theorem tdiv8_le {x : Int} (h : 0 ≤ x) : Int.tdiv x 8 ≤ x := by
  rw [Int.tdiv_eq_ediv h (by decide)]
  omega

/-! ## Theorems: `IntervalBudget` -/

theorem IncreaseBudget_eq_of_fit (s : IntervalBudget) (delta_time_ms : Int)
    (hfit : InInt32 (Int.tdiv (wrap64 (s.target_rate_kbps_ * delta_time_ms)) 8)) :
    s.IncreaseBudget delta_time_ms =
      { s with
        bytes_remaining_ :=
          if s.bytes_remaining_ < 0 ∨ s.can_build_up_underuse_ = true then
            min (wrap32 (s.bytes_remaining_
              + Int.tdiv (wrap64 (s.target_rate_kbps_ * delta_time_ms)) 8))
              s.max_bytes_in_budget_
          else
            min (Int.tdiv (wrap64 (s.target_rate_kbps_ * delta_time_ms)) 8)
              s.max_bytes_in_budget_ } := by
  have hcast : dchecked_cast_int (Int.tdiv (wrap64 (s.target_rate_kbps_ * delta_time_ms)) 8)
      = Int.tdiv (wrap64 (s.target_rate_kbps_ * delta_time_ms)) 8 :=
    wrap32_of_InInt32 hfit
  unfold IntervalBudget.IncreaseBudget
  simp only [hcast]
  split <;> rfl

theorem IncreaseBudget_eq_exact (s : IntervalBudget) (delta_time_ms : Int)
    (h64 : InInt64 (s.target_rate_kbps_ * delta_time_ms))
    (hfit : InInt32 (Int.tdiv (s.target_rate_kbps_ * delta_time_ms) 8))
    (hsum : (s.bytes_remaining_ < 0 ∨ s.can_build_up_underuse_ = true) →
      InInt32 (s.bytes_remaining_ + Int.tdiv (s.target_rate_kbps_ * delta_time_ms) 8)) :
    s.IncreaseBudget delta_time_ms =
      { s with
        bytes_remaining_ :=
          if s.bytes_remaining_ < 0 ∨ s.can_build_up_underuse_ = true then
            min (s.bytes_remaining_ + Int.tdiv (s.target_rate_kbps_ * delta_time_ms) 8)
              s.max_bytes_in_budget_
          else
            min (Int.tdiv (s.target_rate_kbps_ * delta_time_ms) 8)
              s.max_bytes_in_budget_ } := by
  have hfit2 : InInt32 (Int.tdiv (wrap64 (s.target_rate_kbps_ * delta_time_ms)) 8) := by
    rw [wrap64_of_InInt64 h64]; exact hfit
  rw [IncreaseBudget_eq_of_fit s delta_time_ms hfit2, wrap64_of_InInt64 h64]
  by_cases hbr : s.bytes_remaining_ < 0 ∨ s.can_build_up_underuse_ = true
  · rw [wrap32_of_InInt32 (hsum hbr)]
  · simp only [hbr, if_false]

theorem UseBudget_eq_of_fit (s : IntervalBudget) (n : Nat) (hn : (n : Int) ≤ 2147483647) :
    s.UseBudget n =
      { s with
        bytes_remaining_ :=
          max (wrap32 (s.bytes_remaining_ - (n : Int))) (wrap32 (-s.max_bytes_in_budget_)) } := by
  have hcast : static_cast_int n = (n : Int) :=
    wrap32_of_InInt32 ⟨by omega, hn⟩
  unfold IntervalBudget.UseBudget
  rw [hcast]

theorem UseBudget_eq_exact (s : IntervalBudget) (n : Nat) (hn : (n : Int) ≤ 2147483647)
    (hd : InInt32 (s.bytes_remaining_ - (n : Int))) (hm : InInt32 (-s.max_bytes_in_budget_)) :
    s.UseBudget n =
      { s with
        bytes_remaining_ := max (s.bytes_remaining_ - (n : Int)) (-s.max_bytes_in_budget_) } := by
  rw [UseBudget_eq_of_fit s n hn, wrap32_of_InInt32 hd, wrap32_of_InInt32 hm]

theorem set_target_rate_kbps_eq_exact (s : IntervalBudget) (k : Int)
    (h0 : 0 ≤ k) (h1 : kWindowMs * k ≤ 2147483647) :
    s.set_target_rate_kbps k =
      { s with
        target_rate_kbps_ := k
        max_bytes_in_budget_ := Int.tdiv (500 * k) 8
        bytes_remaining_ :=
          min (max (-Int.tdiv (500 * k) 8) s.bytes_remaining_) (Int.tdiv (500 * k) 8) } ∧
    0 ≤ Int.tdiv (500 * k) 8 ∧ Int.tdiv (500 * k) 8 ≤ 2147483647 := by
  have hk : (0 : Int) ≤ 500 * k := by omega
  have h1k : 500 * k ≤ 2147483647 := by unfold kWindowMs at h1; exact h1
  have hw : wrap32 (kWindowMs * k) = 500 * k := by
    show wrap32 (500 * k) = 500 * k
    exact wrap32_of_InInt32 ⟨by omega, h1k⟩
  have hm0 : 0 ≤ Int.tdiv (500 * k) 8 := tdiv8_nonneg hk
  have hm1 : Int.tdiv (500 * k) 8 ≤ 500 * k := tdiv8_le hk
  have hn : wrap32 (-Int.tdiv (500 * k) 8) = -Int.tdiv (500 * k) 8 :=
    wrap32_of_InInt32 ⟨by omega, by omega⟩
  refine ⟨?_, hm0, by omega⟩
  simp only [IntervalBudget.set_target_rate_kbps, hw, hn]

/-- C1, as stated, fails: with target 8 kbps, no carry-over and nothing remaining, an
elapsed time of 2^31 ms gives add = 8 * 2^31 / 8 = 2^31, so the claim asks for
min(2^31, 500) = 500 remaining bytes; the conversion of add to `int` yields -2^31 and
that is what `IncreaseBudget` stores. (For delta_time_ms = -2^31 - 1 the value the claim
asks for, min(-2^31 - 1, 500), is not even representable in the `int` member.) -/
theorem IncreaseBudget_credit_overflow :
    (IntervalBudget.create 8 false).bytes_remaining_ = 0 ∧
    (IntervalBudget.create 8 false).can_build_up_underuse_ = false ∧
    min (Int.tdiv ((IntervalBudget.create 8 false).target_rate_kbps_ * 2147483648) 8)
      (IntervalBudget.create 8 false).max_bytes_in_budget_ = 500 ∧
    ((IntervalBudget.create 8 false).IncreaseBudget 2147483648).bytes_remaining_
      = -2147483648 ∧
    ¬ InInt32 (min (Int.tdiv ((IntervalBudget.create 8 false).target_rate_kbps_ * (-2147483649)) 8)
      (IntervalBudget.create 8 false).max_bytes_in_budget_) ∧
    ((IntervalBudget.create 8 false).IncreaseBudget (-2147483649)).bytes_remaining_
      ≠ min (Int.tdiv ((IntervalBudget.create 8 false).target_rate_kbps_ * (-2147483649)) 8)
        (IntervalBudget.create 8 false).max_bytes_in_budget_ := by
  decide

/-- C1 (amended): for every state and every `delta_time_ms` whose credit
add = target_rate_kbps * delta_time_ms / 8 (64-bit product, truncating division) fits in
a 32-bit `int`, `IncreaseBudget` sets `bytes_remaining_` to
min(bytes_remaining + add, max_bytes_in_budget), the sum being an `int` sum, when
`bytes_remaining_ < 0` or `can_build_up_underuse_` is set, and to
min(add, max_bytes_in_budget) otherwise, and changes no other member. When moreover the
product fits in `int64_t` and the sum, where it is formed, fits in `int`, these are the
exact integer values. -/
theorem IncreaseBudget_credit_in_int (s : IntervalBudget) (delta_time_ms : Int)
    (hfit : InInt32 (Int.tdiv (wrap64 (s.target_rate_kbps_ * delta_time_ms)) 8)) :
    s.IncreaseBudget delta_time_ms =
      { s with
        bytes_remaining_ :=
          if s.bytes_remaining_ < 0 ∨ s.can_build_up_underuse_ = true then
            min (wrap32 (s.bytes_remaining_
              + Int.tdiv (wrap64 (s.target_rate_kbps_ * delta_time_ms)) 8))
              s.max_bytes_in_budget_
          else
            min (Int.tdiv (wrap64 (s.target_rate_kbps_ * delta_time_ms)) 8)
              s.max_bytes_in_budget_ } ∧
    (InInt64 (s.target_rate_kbps_ * delta_time_ms) →
      ((s.bytes_remaining_ < 0 ∨ s.can_build_up_underuse_ = true) →
        InInt32 (s.bytes_remaining_ + Int.tdiv (s.target_rate_kbps_ * delta_time_ms) 8)) →
      s.IncreaseBudget delta_time_ms =
        { s with
          bytes_remaining_ :=
            if s.bytes_remaining_ < 0 ∨ s.can_build_up_underuse_ = true then
              min (s.bytes_remaining_ + Int.tdiv (s.target_rate_kbps_ * delta_time_ms) 8)
                s.max_bytes_in_budget_
            else
              min (Int.tdiv (s.target_rate_kbps_ * delta_time_ms) 8)
                s.max_bytes_in_budget_ }) := by
  refine ⟨IncreaseBudget_eq_of_fit s delta_time_ms hfit, ?_⟩
  intro h64 hsum
  have hfit2 : InInt32 (Int.tdiv (s.target_rate_kbps_ * delta_time_ms) 8) := by
    rw [wrap64_of_InInt64 h64] at hfit; exact hfit
  exact IncreaseBudget_eq_exact s delta_time_ms h64 hfit2 hsum

/-- Witness for C1 (amended): 30 ms at 1000 kbps on a budget that is 100 bytes in debt. -/
theorem IncreaseBudget_credit_in_int_witness :
    InInt32 (Int.tdiv
      (wrap64 ((IntervalBudget.mk 1000 62500 (-100) false).target_rate_kbps_ * 30)) 8) ∧
    ((IntervalBudget.mk 1000 62500 (-100) false).IncreaseBudget 30).bytes_remaining_
      = 3650 := by
  refine ⟨by decide, ?_⟩
  rw [(IncreaseBudget_credit_in_int (IntervalBudget.mk 1000 62500 (-100) false) 30
    (by decide)).1]
  decide

/-- C2, as stated, fails: with -500 bytes remaining, `UseBudget(2147483647)` forms the
`int` difference -500 - 2147483647, which is not representable and wraps to 2147483149;
that value is stored, where the claim asks for max(-2147484147, -500) = -500. Likewise a
state with max_bytes_in_budget = -2^31 has no representable negation: the claim asks
for max(0 - 10, 2^31) = 2^31, and `UseBudget(10)` stores -10. -/
theorem UseBudget_difference_overflows :
    ((2147483647 : Nat) : Int) ≤ 2147483647 ∧
    ((IntervalBudget.mk 8 500 (-500) false).UseBudget 2147483647).bytes_remaining_
      = 2147483149 ∧
    max ((-500 : Int) - ((2147483647 : Nat) : Int)) (-(500 : Int)) = -500 ∧
    ((IntervalBudget.mk 8 (-2147483648) 0 false).UseBudget 10).bytes_remaining_ = -10 ∧
    max ((0 : Int) - ((10 : Nat) : Int)) (-(-2147483648 : Int)) = 2147483648 := by
  decide

/-- C2 (amended): for every state and every byte count `n` that fits in a 32-bit signed
`int`, such that the difference bytes_remaining - n and the negation
-max_bytes_in_budget are representable as `int`, `UseBudget(n)` sets `bytes_remaining_`
to max(bytes_remaining - n, -max_bytes_in_budget) and changes no other member. -/
theorem UseBudget_spec (s : IntervalBudget) (n : Nat) (hn : (n : Int) ≤ 2147483647)
    (hd : InInt32 (s.bytes_remaining_ - (n : Int))) (hm : InInt32 (-s.max_bytes_in_budget_)) :
    s.UseBudget n =
      { s with
        bytes_remaining_ :=
          max (s.bytes_remaining_ - (n : Int)) (-s.max_bytes_in_budget_) } :=
  UseBudget_eq_exact s n hn hd hm

/-- Witness for C2 (amended): a 1200-byte packet charged to a budget with 700 bytes
left. -/
theorem UseBudget_spec_witness :
    ((1200 : Nat) : Int) ≤ 2147483647 ∧
    InInt32 ((IntervalBudget.mk 1000 62500 700 false).bytes_remaining_ - ((1200 : Nat) : Int)) ∧
    InInt32 (-(IntervalBudget.mk 1000 62500 700 false).max_bytes_in_budget_) ∧
    ((IntervalBudget.mk 1000 62500 700 false).UseBudget 1200).bytes_remaining_ = -500 := by
  refine ⟨by decide, by decide, by decide, ?_⟩
  rw [UseBudget_spec (IntervalBudget.mk 1000 62500 700 false) 1200 (by decide) (by decide)
    (by decide)]
  decide

/-- C3, as stated, fails for a negative target: a budget constructed with -8 kbps has
max_bytes_in_budget = 500 * (-8) / 8 = -500 and `bytes_remaining_` = -500, which is
neither 0 nor inside [-max_bytes_in_budget, max_bytes_in_budget] = [500, -500]. It also
fails for a target whose window does not fit: for k = 2147483647 the value 500 * k / 8
is not representable in the `int` member `max_bytes_in_budget_`. -/
theorem create_negative_target :
    (IntervalBudget.create (-8) false).max_bytes_in_budget_ = Int.tdiv (500 * (-8)) 8 ∧
    (IntervalBudget.create (-8) false).bytes_remaining_ ≠ 0 ∧
    ¬ (-(IntervalBudget.create (-8) false).max_bytes_in_budget_
        ≤ (IntervalBudget.create (-8) false).bytes_remaining_) ∧
    ¬ InInt32 (Int.tdiv (500 * 2147483647) 8) ∧
    (IntervalBudget.create 2147483647 false).max_bytes_in_budget_
      ≠ Int.tdiv (500 * 2147483647) 8 := by
  decide

/-- C3 (amended): for every target `k` with 0 ≤ k and 500 * k representable as `int`,
`set_target_rate_kbps(k)` stores `k`, sets max_bytes_in_budget = 500 * k / 8 and clamps
`bytes_remaining_` into [-max_bytes_in_budget, max_bytes_in_budget] (the result lies in
the interval, a value already inside is kept, a value below becomes the lower end and a
value above the upper end); a budget constructed with such a `k` has that
max_bytes_in_budget and `bytes_remaining_` = 0. -/
theorem set_target_rate_kbps_spec (s : IntervalBudget) (k : Int) (b : Bool)
    (h0 : 0 ≤ k) (h1 : kWindowMs * k ≤ 2147483647) :
    (s.set_target_rate_kbps k).target_rate_kbps_ = k ∧
    (s.set_target_rate_kbps k).max_bytes_in_budget_ = Int.tdiv (500 * k) 8 ∧
    (s.set_target_rate_kbps k).can_build_up_underuse_ = s.can_build_up_underuse_ ∧
    -(s.set_target_rate_kbps k).max_bytes_in_budget_
      ≤ (s.set_target_rate_kbps k).bytes_remaining_ ∧
    (s.set_target_rate_kbps k).bytes_remaining_
      ≤ (s.set_target_rate_kbps k).max_bytes_in_budget_ ∧
    (-Int.tdiv (500 * k) 8 ≤ s.bytes_remaining_ → s.bytes_remaining_ ≤ Int.tdiv (500 * k) 8 →
      (s.set_target_rate_kbps k).bytes_remaining_ = s.bytes_remaining_) ∧
    (s.bytes_remaining_ < -Int.tdiv (500 * k) 8 →
      (s.set_target_rate_kbps k).bytes_remaining_ = -Int.tdiv (500 * k) 8) ∧
    (Int.tdiv (500 * k) 8 < s.bytes_remaining_ →
      (s.set_target_rate_kbps k).bytes_remaining_ = Int.tdiv (500 * k) 8) ∧
    (IntervalBudget.create k b).target_rate_kbps_ = k ∧
    (IntervalBudget.create k b).max_bytes_in_budget_ = Int.tdiv (500 * k) 8 ∧
    (IntervalBudget.create k b).bytes_remaining_ = 0 ∧
    (IntervalBudget.create k b).can_build_up_underuse_ = b := by
  have hs := set_target_rate_kbps_eq_exact s k h0 h1
  have hm0 := hs.2.1
  have hc := (set_target_rate_kbps_eq_exact
    { target_rate_kbps_ := 0, max_bytes_in_budget_ := 0, bytes_remaining_ := 0,
      can_build_up_underuse_ := b } k h0 h1).1
  unfold IntervalBudget.create
  rw [hs.1, hc]
  simp only
  generalize Int.tdiv (500 * k) 8 = m at hm0
  refine ⟨trivial, trivial, trivial, ?_, ?_, ?_, ?_, ?_, trivial, trivial, ?_, trivial⟩ <;> omega

/-- Witness for C3 (amended): retargeting a budget holding 70000 bytes to 1000 kbps. -/
theorem set_target_rate_kbps_spec_witness :
    (0 : Int) ≤ 1000 ∧ kWindowMs * 1000 ≤ 2147483647 ∧
    ((IntervalBudget.mk 2000 125000 70000 false).set_target_rate_kbps 1000).bytes_remaining_
      = Int.tdiv (500 * 1000) 8 :=
  ⟨by decide, by decide,
    (set_target_rate_kbps_spec (IntervalBudget.mk 2000 125000 70000 false) 1000 false
      (by decide) (by decide)).2.2.2.2.2.2.2.1 (by decide)⟩

/-- The invariant carried along an in-range run. -/
theorem budget_inv_step (s : IntervalBudget) (c : BudgetCall)
    (ht : 0 ≤ s.target_rate_kbps_)
    (hm : s.max_bytes_in_budget_ = Int.tdiv (500 * s.target_rate_kbps_) 8)
    (hm0 : 0 ≤ s.max_bytes_in_budget_) (hm1 : s.max_bytes_in_budget_ ≤ 2147483647)
    (hlo : -s.max_bytes_in_budget_ ≤ s.bytes_remaining_)
    (hhi : s.bytes_remaining_ ≤ s.max_bytes_in_budget_)
    (hc : BudgetCall.InRange s c) :
    0 ≤ (BudgetCall.apply s c).target_rate_kbps_ ∧
    (BudgetCall.apply s c).max_bytes_in_budget_
      = Int.tdiv (500 * (BudgetCall.apply s c).target_rate_kbps_) 8 ∧
    0 ≤ (BudgetCall.apply s c).max_bytes_in_budget_ ∧
    (BudgetCall.apply s c).max_bytes_in_budget_ ≤ 2147483647 ∧
    -(BudgetCall.apply s c).max_bytes_in_budget_ ≤ (BudgetCall.apply s c).bytes_remaining_ ∧
    (BudgetCall.apply s c).bytes_remaining_ ≤ (BudgetCall.apply s c).max_bytes_in_budget_ := by
  cases c with
  | set_target_rate_kbps k =>
    obtain ⟨h0, h1⟩ := hc
    obtain ⟨he, hk0, hk1⟩ := set_target_rate_kbps_eq_exact s k h0 h1
    simp only [BudgetCall.apply]
    rw [he]
    simp only
    generalize Int.tdiv (500 * k) 8 = m at hk0 hk1
    refine ⟨h0, trivial, hk0, hk1, ?_, ?_⟩ <;> omega
  | IncreaseBudget d =>
    obtain ⟨hd, h64, h32, hsum⟩ := hc
    have hp : 0 ≤ s.target_rate_kbps_ * d := Int.mul_nonneg ht hd
    have hb0 : 0 ≤ Int.tdiv (s.target_rate_kbps_ * d) 8 := tdiv8_nonneg hp
    simp only [BudgetCall.apply]
    rw [IncreaseBudget_eq_exact s d h64 h32 hsum]
    by_cases hbr : s.bytes_remaining_ < 0 ∨ s.can_build_up_underuse_ = true
    · simp only [hbr, if_true]
      refine ⟨ht, hm, hm0, hm1, ?_, ?_⟩ <;> omega
    · simp only [hbr, if_false]
      refine ⟨ht, hm, hm0, hm1, ?_, ?_⟩ <;> omega
  | UseBudget n =>
    obtain ⟨hn, hd⟩ := hc
    have hneg : InInt32 (-s.max_bytes_in_budget_) := ⟨by omega, by omega⟩
    simp only [BudgetCall.apply]
    rw [UseBudget_eq_exact s n hn hd hneg]
    refine ⟨ht, hm, hm0, hm1, ?_, ?_⟩ <;> simp only <;> omega

theorem budget_inv_run (calls : List BudgetCall) :
    ∀ s : IntervalBudget,
      0 ≤ s.target_rate_kbps_ →
      s.max_bytes_in_budget_ = Int.tdiv (500 * s.target_rate_kbps_) 8 →
      0 ≤ s.max_bytes_in_budget_ → s.max_bytes_in_budget_ ≤ 2147483647 →
      -s.max_bytes_in_budget_ ≤ s.bytes_remaining_ →
      s.bytes_remaining_ ≤ s.max_bytes_in_budget_ →
      BudgetCall.AllInRange s calls →
      (BudgetCall.run s calls).max_bytes_in_budget_
        = Int.tdiv (500 * (BudgetCall.run s calls).target_rate_kbps_) 8 ∧
      -(BudgetCall.run s calls).max_bytes_in_budget_ ≤ (BudgetCall.run s calls).bytes_remaining_ ∧
      (BudgetCall.run s calls).bytes_remaining_ ≤ (BudgetCall.run s calls).max_bytes_in_budget_ := by
  induction calls with
  | nil =>
    intro s _ hm _ _ hlo hhi _
    exact ⟨hm, hlo, hhi⟩
  | cons c cs ih =>
    intro s ht hm hm0 hm1 hlo hhi hr
    obtain ⟨hc, hrest⟩ := hr
    obtain ⟨a1, a2, a3, a4, a5, a6⟩ := budget_inv_step s c ht hm hm0 hm1 hlo hhi hc
    exact ih (BudgetCall.apply s c) a1 a2 a3 a4 a5 a6 hrest

/-- C4, as stated, fails: `UseBudget` takes a `size_t`, and a byte count that does not
fit in `int` is converted to a negative `int`; on a fresh 8 kbps budget (window 500
bytes) `UseBudget(4294966296)` leaves 1000 bytes remaining, above max_bytes_in_budget.
Likewise an elapsed time of 2^31 ms credits 2^31 bytes, which the conversion to `int`
turns into -2^31, below -max_bytes_in_budget. -/
theorem UseBudget_escapes_window :
    (0 : Int) ≤ 8 ∧
    (BudgetCall.run (IntervalBudget.create 8 false) [BudgetCall.UseBudget 4294966296]).bytes_remaining_
      = 1000 ∧
    (BudgetCall.run (IntervalBudget.create 8 false) [BudgetCall.UseBudget 4294966296]).max_bytes_in_budget_
      = 500 ∧
    (BudgetCall.run (IntervalBudget.create 8 false) [BudgetCall.UseBudget 4294966296]).bytes_remaining
      = 1000 ∧
    (0 : Int) ≤ 2147483648 ∧
    (BudgetCall.run (IntervalBudget.create 8 false)
      [BudgetCall.IncreaseBudget 2147483648]).bytes_remaining_ = -2147483648 ∧
    (BudgetCall.run (IntervalBudget.create 8 false)
      [BudgetCall.IncreaseBudget 2147483648]).max_bytes_in_budget_ = 500 := by
  decide

/-- C4 (amended): starting from a budget constructed with a target rate `k0`, 0 ≤ k0 and
500 * k0 representable as `int`, after any sequence of `set_target_rate_kbps` (rates with
the same two properties), `IncreaseBudget` (non-negative deltas) and `UseBudget` calls in
which no conversion to `int` and no intermediate integer result overflows
(`BudgetCall.AllInRange`), -max_bytes_in_budget ≤ bytes_remaining ≤ max_bytes_in_budget
holds, and `bytes_remaining()` is at most 500 * target_rate_kbps / 8, the bytes of 500 ms
at the target rate. -/
theorem bytes_remaining_within_window (k0 : Int) (b : Bool) (calls : List BudgetCall)
    (h0 : 0 ≤ k0) (h1 : kWindowMs * k0 ≤ 2147483647)
    (hr : BudgetCall.AllInRange (IntervalBudget.create k0 b) calls) :
    -(BudgetCall.run (IntervalBudget.create k0 b) calls).max_bytes_in_budget_
      ≤ (BudgetCall.run (IntervalBudget.create k0 b) calls).bytes_remaining_ ∧
    (BudgetCall.run (IntervalBudget.create k0 b) calls).bytes_remaining_
      ≤ (BudgetCall.run (IntervalBudget.create k0 b) calls).max_bytes_in_budget_ ∧
    ((BudgetCall.run (IntervalBudget.create k0 b) calls).bytes_remaining : Int)
      ≤ Int.tdiv (500 * (BudgetCall.run (IntervalBudget.create k0 b) calls).target_rate_kbps) 8 := by
  obtain ⟨he, hk0, hk1⟩ := set_target_rate_kbps_eq_exact
    { target_rate_kbps_ := 0, max_bytes_in_budget_ := 0, bytes_remaining_ := 0,
      can_build_up_underuse_ := b } k0 h0 h1
  have hinit : IntervalBudget.create k0 b =
      { target_rate_kbps_ := k0, max_bytes_in_budget_ := Int.tdiv (500 * k0) 8,
        bytes_remaining_ := min (max (-Int.tdiv (500 * k0) 8) 0) (Int.tdiv (500 * k0) 8),
        can_build_up_underuse_ := b } := by
    unfold IntervalBudget.create
    rw [he]
  have hinv := budget_inv_run calls (IntervalBudget.create k0 b)
    (by rw [hinit]; exact h0) (by rw [hinit]) (by rw [hinit]; exact hk0)
    (by rw [hinit]; exact hk1) (by rw [hinit]; simp only; omega)
    (by rw [hinit]; simp only; omega) hr
  obtain ⟨hm, hlo, hhi⟩ := hinv
  refine ⟨hlo, hhi, ?_⟩
  unfold IntervalBudget.target_rate_kbps IntervalBudget.bytes_remaining
  rw [← hm]
  generalize (BudgetCall.run (IntervalBudget.create k0 b) calls).bytes_remaining_ = r at hlo hhi
  generalize (BudgetCall.run (IntervalBudget.create k0 b) calls).max_bytes_in_budget_ = m at hlo hhi
  omega

/-- Witness for C4 (amended): a 1000 kbps budget that is retargeted, credited 30 ms
twice and charged two packets. -/
theorem bytes_remaining_within_window_witness :
    (0 : Int) ≤ 1000 ∧ kWindowMs * 1000 ≤ 2147483647 ∧
    BudgetCall.AllInRange (IntervalBudget.create 1000 false)
      [BudgetCall.IncreaseBudget 30, BudgetCall.UseBudget 1200,
       BudgetCall.set_target_rate_kbps 8, BudgetCall.UseBudget 1200,
       BudgetCall.IncreaseBudget 30] ∧
    (BudgetCall.run (IntervalBudget.create 1000 false)
      [BudgetCall.IncreaseBudget 30, BudgetCall.UseBudget 1200,
       BudgetCall.set_target_rate_kbps 8, BudgetCall.UseBudget 1200,
       BudgetCall.IncreaseBudget 30]).bytes_remaining_
      ≤ (BudgetCall.run (IntervalBudget.create 1000 false)
      [BudgetCall.IncreaseBudget 30, BudgetCall.UseBudget 1200,
       BudgetCall.set_target_rate_kbps 8, BudgetCall.UseBudget 1200,
       BudgetCall.IncreaseBudget 30]).max_bytes_in_budget_ :=
  ⟨by decide, by decide, by decide,
    (bytes_remaining_within_window 1000 false
      [BudgetCall.IncreaseBudget 30, BudgetCall.UseBudget 1200,
       BudgetCall.set_target_rate_kbps 8, BudgetCall.UseBudget 1200,
       BudgetCall.IncreaseBudget 30] (by decide) (by decide) (by decide)).2.1⟩

/-! ## Theorems: `TrendlineEstimator` -/

theorem SafeClamp_bounds (x lo hi : ℚ) (h : lo ≤ hi) :
    lo ≤ SafeClamp x lo hi ∧ SafeClamp x lo hi ≤ hi := by
  unfold SafeClamp
  split_ifs with h1 h2
  · exact ⟨le_refl _, h⟩
  · exact ⟨h, le_refl _⟩
  · exact ⟨le_of_lt (not_le.mp h1), le_of_lt (not_le.mp h2)⟩

/-- `UpdateThreshold` writes `threshold_` and `last_update_ms_` only, and the latter
always becomes `now_ms`. -/
theorem UpdateThreshold_frame (s : TrendlineEstimator) (modified_trend : ℚ) (now_ms : Int) :
    s.UpdateThreshold modified_trend now_ms =
      { s with
        threshold_ := (s.UpdateThreshold modified_trend now_ms).threshold_
        last_update_ms_ := now_ms } := by
  unfold TrendlineEstimator.UpdateThreshold
  dsimp only
  split_ifs <;> rfl

/-- The threshold after `UpdateThreshold`: unchanged on a spike, otherwise the clamped
adapted value. -/
theorem UpdateThreshold_threshold (s : TrendlineEstimator) (modified_trend : ℚ) (now_ms : Int) :
    (s.UpdateThreshold modified_trend now_ms).threshold_ =
      if fabs modified_trend > s.threshold_ + kMaxAdaptOffsetMs then s.threshold_
      else
        SafeClamp
          (s.threshold_ +
            (if fabs modified_trend < s.threshold_ then s.k_down_ else s.k_up_) *
              (fabs modified_trend - s.threshold_) *
              (((min (wrap64 (now_ms - (if s.last_update_ms_ = -1 then now_ms
                else s.last_update_ms_))) 100 : Int)) : ℚ))
          6 600 := by
  unfold TrendlineEstimator.UpdateThreshold
  dsimp only
  split_ifs <;> rfl

theorem UpdateThreshold_threshold_bounds (s : TrendlineEstimator) (modified_trend : ℚ)
    (now_ms : Int) (h : 6 ≤ s.threshold_ ∧ s.threshold_ ≤ 600) :
    6 ≤ (s.UpdateThreshold modified_trend now_ms).threshold_ ∧
    (s.UpdateThreshold modified_trend now_ms).threshold_ ≤ 600 := by
  rw [UpdateThreshold_threshold]
  by_cases hs : fabs modified_trend > s.threshold_ + kMaxAdaptOffsetMs
  · rw [if_pos hs]; exact h
  · rw [if_neg hs]; exact SafeClamp_bounds _ 6 600 (by norm_num)

/-- `Detect` leaves the filter, the trend window, the parameters and the predictor
untouched. -/
theorem Detect_frame (s : TrendlineEstimator) (trend ts_delta : ℚ) (now_ms : Int) :
    s.Detect trend ts_delta now_ms =
      { s with
        threshold_ := (s.Detect trend ts_delta now_ms).threshold_
        prev_modified_trend_ := (s.Detect trend ts_delta now_ms).prev_modified_trend_
        last_update_ms_ := (s.Detect trend ts_delta now_ms).last_update_ms_
        prev_trend_ := (s.Detect trend ts_delta now_ms).prev_trend_
        time_over_using_ := (s.Detect trend ts_delta now_ms).time_over_using_
        overuse_counter_ := (s.Detect trend ts_delta now_ms).overuse_counter_
        hypothesis_ := (s.Detect trend ts_delta now_ms).hypothesis_ } := by
  unfold TrendlineEstimator.Detect
  by_cases h : s.num_of_deltas_ < 2
  · rw [if_pos h]
  · rw [if_neg h]
    dsimp only
    rw [UpdateThreshold_frame]
    split_ifs <;> rfl

theorem Detect_threshold_bounds (s : TrendlineEstimator) (trend ts_delta : ℚ) (now_ms : Int)
    (h : 6 ≤ s.threshold_ ∧ s.threshold_ ≤ 600) :
    6 ≤ (s.Detect trend ts_delta now_ms).threshold_ ∧
    (s.Detect trend ts_delta now_ms).threshold_ ≤ 600 := by
  unfold TrendlineEstimator.Detect
  by_cases h2 : s.num_of_deltas_ < 2
  · rw [if_pos h2]; exact h
  · rw [if_neg h2]
    dsimp only
    apply UpdateThreshold_threshold_bounds
    split_ifs <;> exact h

/-- `UpdateFilter` writes the delta counter, the first arrival time, the two filter
values and the trend window only. -/
theorem UpdateFilter_frame (s : TrendlineEstimator) (recv_delta_ms send_delta_ms : ℚ)
    (arrival_time_ms : Int) :
    s.UpdateFilter recv_delta_ms send_delta_ms arrival_time_ms =
      { s with
        num_of_deltas_ := (s.UpdateFilter recv_delta_ms send_delta_ms arrival_time_ms).num_of_deltas_
        first_arrival_time_ms_ :=
          (s.UpdateFilter recv_delta_ms send_delta_ms arrival_time_ms).first_arrival_time_ms_
        accumulated_delay_ :=
          (s.UpdateFilter recv_delta_ms send_delta_ms arrival_time_ms).accumulated_delay_
        smoothed_delay_ := (s.UpdateFilter recv_delta_ms send_delta_ms arrival_time_ms).smoothed_delay_
        delay_hist_ := (s.UpdateFilter recv_delta_ms send_delta_ms arrival_time_ms).delay_hist_ } := by
  unfold TrendlineEstimator.UpdateFilter
  dsimp only
  split_ifs <;> rfl

/-- The part of `Update` that runs when `calculated_deltas` holds. -/
theorem Update_calculated (s : TrendlineEstimator) (recv_delta_ms send_delta_ms : ℚ)
    (send_time_ms arrival_time_ms : Int) :
    s.Update recv_delta_ms send_delta_ms send_time_ms arrival_time_ms true =
      match ((s.UpdateFilter recv_delta_ms send_delta_ms arrival_time_ms).Detect
          (s.UpdateFilter recv_delta_ms send_delta_ms arrival_time_ms).UpdateTrend
          send_delta_ms arrival_time_ms).network_state_predictor_ with
      | some predictor =>
          { ((s.UpdateFilter recv_delta_ms send_delta_ms arrival_time_ms).Detect
              (s.UpdateFilter recv_delta_ms send_delta_ms arrival_time_ms).UpdateTrend
              send_delta_ms arrival_time_ms) with
            hypothesis_predicted_ :=
              predictor.Update
                ((send_time_ms, arrival_time_ms,
                  ((s.UpdateFilter recv_delta_ms send_delta_ms arrival_time_ms).Detect
                    (s.UpdateFilter recv_delta_ms send_delta_ms arrival_time_ms).UpdateTrend
                    send_delta_ms arrival_time_ms).hypothesis_) ::
                  ((s.UpdateFilter recv_delta_ms send_delta_ms arrival_time_ms).Detect
                    (s.UpdateFilter recv_delta_ms send_delta_ms arrival_time_ms).UpdateTrend
                    send_delta_ms arrival_time_ms).predictor_calls_)
            predictor_calls_ :=
              (send_time_ms, arrival_time_ms,
                ((s.UpdateFilter recv_delta_ms send_delta_ms arrival_time_ms).Detect
                  (s.UpdateFilter recv_delta_ms send_delta_ms arrival_time_ms).UpdateTrend
                  send_delta_ms arrival_time_ms).hypothesis_) ::
                ((s.UpdateFilter recv_delta_ms send_delta_ms arrival_time_ms).Detect
                  (s.UpdateFilter recv_delta_ms send_delta_ms arrival_time_ms).UpdateTrend
                  send_delta_ms arrival_time_ms).predictor_calls_ }
      | none =>
          (s.UpdateFilter recv_delta_ms send_delta_ms arrival_time_ms).Detect
            (s.UpdateFilter recv_delta_ms send_delta_ms arrival_time_ms).UpdateTrend
            send_delta_ms arrival_time_ms := by
  unfold TrendlineEstimator.Update
  rfl

/-- The members `Update` leaves as `Detect` left them (all but the predictor's). -/
theorem Update_calculated_frame (s : TrendlineEstimator) (recv_delta_ms send_delta_ms : ℚ)
    (send_time_ms arrival_time_ms : Int) :
    s.Update recv_delta_ms send_delta_ms send_time_ms arrival_time_ms true =
      { ((s.UpdateFilter recv_delta_ms send_delta_ms arrival_time_ms).Detect
          (s.UpdateFilter recv_delta_ms send_delta_ms arrival_time_ms).UpdateTrend
          send_delta_ms arrival_time_ms) with
        hypothesis_predicted_ :=
          (s.Update recv_delta_ms send_delta_ms send_time_ms arrival_time_ms true).hypothesis_predicted_
        predictor_calls_ :=
          (s.Update recv_delta_ms send_delta_ms send_time_ms arrival_time_ms true).predictor_calls_ } := by
  rw [Update_calculated]
  split <;> rfl

/-- Without calculated deltas `Update` only consults the predictor. -/
theorem Update_not_calculated_frame (s : TrendlineEstimator) (recv_delta_ms send_delta_ms : ℚ)
    (send_time_ms arrival_time_ms : Int) :
    s.Update recv_delta_ms send_delta_ms send_time_ms arrival_time_ms false =
      { s with
        hypothesis_predicted_ :=
          (s.Update recv_delta_ms send_delta_ms send_time_ms arrival_time_ms false).hypothesis_predicted_
        predictor_calls_ :=
          (s.Update recv_delta_ms send_delta_ms send_time_ms arrival_time_ms false).predictor_calls_ } := by
  unfold TrendlineEstimator.Update
  simp only [Bool.false_eq_true, if_false]
  split <;> rfl

theorem Update_threshold_bounds (s : TrendlineEstimator) (c : UpdateCall)
    (h : 6 ≤ s.threshold_ ∧ s.threshold_ ≤ 600) :
    6 ≤ (UpdateCall.apply s c).threshold_ ∧ (UpdateCall.apply s c).threshold_ ≤ 600 := by
  unfold UpdateCall.apply
  cases hc : c.calculated_deltas with
  | false =>
    rw [Update_not_calculated_frame]
    exact h
  | true =>
    rw [Update_calculated_frame]
    apply Detect_threshold_bounds
    rw [UpdateFilter_frame]
    exact h

theorem run_threshold_bounds (calls : List UpdateCall) :
    ∀ s : TrendlineEstimator, 6 ≤ s.threshold_ ∧ s.threshold_ ≤ 600 →
      6 ≤ (UpdateCall.run s calls).threshold_ ∧ (UpdateCall.run s calls).threshold_ ≤ 600 := by
  induction calls with
  | nil => intro s h; exact h
  | cons c cs ih =>
    intro s h
    exact ih (UpdateCall.apply s c) (Update_threshold_bounds s c h)

/-- C5: for every input sequence of `Update` calls on a `TrendlineEstimator` (doubles
read as exact rationals) the adaptive threshold `threshold_` stays within [6, 600]: it
starts at 12.5, and every `UpdateThreshold` either leaves it unchanged or stores a
value clamped into [6, 600]. -/
theorem threshold_within_6_600 (window_size : Nat) (smoothing_coef threshold_gain : ℚ)
    (predictor : Option NetworkStatePredictor) (calls : List UpdateCall) :
    (TrendlineEstimator.create window_size smoothing_coef threshold_gain predictor).threshold_
      = 25 / 2 ∧
    6 ≤ (UpdateCall.run
      (TrendlineEstimator.create window_size smoothing_coef threshold_gain predictor)
      calls).threshold_ ∧
    (UpdateCall.run
      (TrendlineEstimator.create window_size smoothing_coef threshold_gain predictor)
      calls).threshold_ ≤ 600 ∧
    ∀ (s : TrendlineEstimator) (modified_trend : ℚ) (now_ms : Int),
      (s.UpdateThreshold modified_trend now_ms).threshold_ = s.threshold_ ∨
      (6 ≤ (s.UpdateThreshold modified_trend now_ms).threshold_ ∧
        (s.UpdateThreshold modified_trend now_ms).threshold_ ≤ 600) := by
  have h0 : 6 ≤ (TrendlineEstimator.create window_size smoothing_coef threshold_gain
      predictor).threshold_ ∧
      (TrendlineEstimator.create window_size smoothing_coef threshold_gain
        predictor).threshold_ ≤ 600 := by
    show (6 : ℚ) ≤ 25 / 2 ∧ (25 / 2 : ℚ) ≤ 600
    norm_num
  have hrun := run_threshold_bounds calls _ h0
  refine ⟨rfl, hrun.1, hrun.2, ?_⟩
  intro s modified_trend now_ms
  rw [UpdateThreshold_threshold]
  by_cases hs : fabs modified_trend > s.threshold_ + kMaxAdaptOffsetMs
  · left; rw [if_pos hs]
  · right; rw [if_neg hs]; exact SafeClamp_bounds _ 6 600 (by norm_num)

/-- The hypothesis `Detect` leaves, for a state with at least two deltas. -/
theorem Detect_hypothesis_cases (s : TrendlineEstimator) (trend ts_delta : ℚ) (now_ms : Int)
    (h2 : 2 ≤ s.num_of_deltas_) :
    (s.Detect trend ts_delta now_ms).hypothesis_ =
      if s.modified_trend trend > s.threshold_ then
        if s.time_over_using_next ts_delta > s.overusing_time_threshold_ ∧
            s.overuse_counter_next > 1 then
          if trend ≥ s.prev_trend_ then BandwidthUsage.kBwOverusing else s.hypothesis_
        else s.hypothesis_
      else if s.modified_trend trend < -s.threshold_ then BandwidthUsage.kBwUnderusing
      else BandwidthUsage.kBwNormal := by
  have hn : ¬ s.num_of_deltas_ < 2 := by omega
  unfold TrendlineEstimator.Detect
  rw [if_neg hn]
  dsimp only
  rw [UpdateThreshold_frame]
  unfold TrendlineEstimator.modified_trend TrendlineEstimator.time_over_using_next
    TrendlineEstimator.overuse_counter_next
  dsimp only
  split_ifs <;> rfl

theorem Detect_of_lt_two (s : TrendlineEstimator) (trend ts_delta : ℚ) (now_ms : Int)
    (h : s.num_of_deltas_ < 2) :
    s.Detect trend ts_delta now_ms = { s with hypothesis_ := BandwidthUsage.kBwNormal } := by
  unfold TrendlineEstimator.Detect
  rw [if_pos h]

theorem UpdateFilter_num_of_deltas (s : TrendlineEstimator) (recv_delta_ms send_delta_ms : ℚ)
    (arrival_time_ms : Int) :
    (s.UpdateFilter recv_delta_ms send_delta_ms arrival_time_ms).num_of_deltas_ =
      min (wrap32 (s.num_of_deltas_ + 1)) kDeltaCounterMax := by
  unfold TrendlineEstimator.UpdateFilter
  dsimp only
  split_ifs <;> rfl

/-- The delta counter stays in [0, 1000], and as long as it is below 2 the hypothesis
is the initial Normal. -/
theorem counter_inv_step (s : TrendlineEstimator) (c : UpdateCall)
    (h0 : 0 ≤ s.num_of_deltas_) (h1 : s.num_of_deltas_ ≤ 1000)
    (hn : s.num_of_deltas_ < 2 → s.hypothesis_ = BandwidthUsage.kBwNormal) :
    0 ≤ (UpdateCall.apply s c).num_of_deltas_ ∧ (UpdateCall.apply s c).num_of_deltas_ ≤ 1000 ∧
    ((UpdateCall.apply s c).num_of_deltas_ < 2 →
      (UpdateCall.apply s c).hypothesis_ = BandwidthUsage.kBwNormal) := by
  unfold UpdateCall.apply
  cases hc : c.calculated_deltas with
  | false =>
    rw [Update_not_calculated_frame]
    exact ⟨h0, h1, hn⟩
  | true =>
    rw [Update_calculated_frame]
    dsimp only
    have hnum : ((s.UpdateFilter c.recv_delta_ms c.send_delta_ms c.arrival_time_ms).Detect
        (s.UpdateFilter c.recv_delta_ms c.send_delta_ms c.arrival_time_ms).UpdateTrend
        c.send_delta_ms c.arrival_time_ms).num_of_deltas_
        = min (wrap32 (s.num_of_deltas_ + 1)) kDeltaCounterMax := by
      rw [Detect_frame]
      exact UpdateFilter_num_of_deltas s _ _ _
    have hw : wrap32 (s.num_of_deltas_ + 1) = s.num_of_deltas_ + 1 :=
      wrap32_of_InInt32 ⟨by omega, by omega⟩
    rw [hnum, hw]
    unfold kDeltaCounterMax
    refine ⟨by omega, by omega, ?_⟩
    intro hlt
    have hlt2 : (s.UpdateFilter c.recv_delta_ms c.send_delta_ms c.arrival_time_ms).num_of_deltas_
        < 2 := by
      rw [UpdateFilter_num_of_deltas, hw]
      exact hlt
    rw [Detect_of_lt_two _ _ _ _ hlt2]

theorem counter_inv_run (calls : List UpdateCall) :
    ∀ s : TrendlineEstimator, 0 ≤ s.num_of_deltas_ → s.num_of_deltas_ ≤ 1000 →
      (s.num_of_deltas_ < 2 → s.hypothesis_ = BandwidthUsage.kBwNormal) →
      0 ≤ (UpdateCall.run s calls).num_of_deltas_ ∧ (UpdateCall.run s calls).num_of_deltas_ ≤ 1000 ∧
      ((UpdateCall.run s calls).num_of_deltas_ < 2 →
        (UpdateCall.run s calls).hypothesis_ = BandwidthUsage.kBwNormal) := by
  induction calls with
  | nil => intro s h0 h1 hn; exact ⟨h0, h1, hn⟩
  | cons c cs ih =>
    intro s h0 h1 hn
    obtain ⟨a0, a1, an⟩ := counter_inv_step s c h0 h1 hn
    exact ih (UpdateCall.apply s c) a0 a1 an

/-- C7: when fewer than 2 deltas have been observed, `Detect` makes no state change.
For every state `s` that is reached from a constructed estimator by `Update` calls, or
that is the state in which such an `Update` reaches its `Detect` call, if
`num_of_deltas_` < 2 then the hypothesis is Normal before the call and `Detect` returns
`s` itself: the hypothesis is still Normal and `threshold_`, `prev_trend_`,
`time_over_using_`, `overuse_counter_`, `last_update_ms_` and every other member are
unchanged. -/
theorem Detect_insufficient_samples (window_size : Nat) (smoothing_coef threshold_gain : ℚ)
    (predictor : Option NetworkStatePredictor) (calls : List UpdateCall)
    (recv_delta_ms send_delta_ms : ℚ) (arrival_time_ms : Int)
    (s : TrendlineEstimator) (trend ts_delta : ℚ) (now_ms : Int)
    (hs : s = UpdateCall.run
          (TrendlineEstimator.create window_size smoothing_coef threshold_gain predictor) calls ∨
        s = (UpdateCall.run
          (TrendlineEstimator.create window_size smoothing_coef threshold_gain predictor)
          calls).UpdateFilter recv_delta_ms send_delta_ms arrival_time_ms)
    (h : s.num_of_deltas_ < 2) :
    s.hypothesis_ = BandwidthUsage.kBwNormal ∧
    s.Detect trend ts_delta now_ms = s ∧
    (s.Detect trend ts_delta now_ms).hypothesis_ = BandwidthUsage.kBwNormal ∧
    (s.Detect trend ts_delta now_ms).threshold_ = s.threshold_ ∧
    (s.Detect trend ts_delta now_ms).prev_trend_ = s.prev_trend_ ∧
    (s.Detect trend ts_delta now_ms).time_over_using_ = s.time_over_using_ ∧
    (s.Detect trend ts_delta now_ms).overuse_counter_ = s.overuse_counter_ ∧
    (s.Detect trend ts_delta now_ms).last_update_ms_ = s.last_update_ms_ := by
  obtain ⟨r0, r1, rn⟩ := counter_inv_run calls
    (TrendlineEstimator.create window_size smoothing_coef threshold_gain predictor)
    (show (0 : Int) ≤ 0 by decide) (show (0 : Int) ≤ 1000 by decide) (fun _ => rfl)
  have hhyp : s.hypothesis_ = BandwidthUsage.kBwNormal := by
    rcases hs with hs | hs
    · rw [hs] at h ⊢
      exact rn h
    · rw [hs] at h ⊢
      rw [UpdateFilter_num_of_deltas] at h
      have hw : wrap32 ((UpdateCall.run (TrendlineEstimator.create window_size smoothing_coef
          threshold_gain predictor) calls).num_of_deltas_ + 1)
          = (UpdateCall.run (TrendlineEstimator.create window_size smoothing_coef
          threshold_gain predictor) calls).num_of_deltas_ + 1 :=
        wrap32_of_InInt32 ⟨by omega, by omega⟩
      rw [hw] at h
      unfold kDeltaCounterMax at h
      rw [UpdateFilter_frame]
      exact rn (by omega)
  have hd : s.Detect trend ts_delta now_ms = s := by
    rw [Detect_of_lt_two s trend ts_delta now_ms h, ← hhyp]
  refine ⟨hhyp, hd, ?_, ?_, ?_, ?_, ?_, ?_⟩ <;> rw [hd]
  exact hhyp

/-- Witness for C7: the `Detect` call of the very first `Update` of an estimator. -/
theorem Detect_insufficient_samples_witness :
    ((TrendlineEstimator.create 20 (9 / 10) 4 none).UpdateFilter 6 5 6).num_of_deltas_ < 2 ∧
    ((TrendlineEstimator.create 20 (9 / 10) 4 none).UpdateFilter 6 5 6).Detect 0 5 6
      = (TrendlineEstimator.create 20 (9 / 10) 4 none).UpdateFilter 6 5 6 :=
  ⟨by decide!,
    (Detect_insufficient_samples 20 (9 / 10) 4 none [] 6 5 6
      ((TrendlineEstimator.create 20 (9 / 10) 4 none).UpdateFilter 6 5 6) 0 5 6
      (Or.inr rfl) (by decide!)).2.1⟩

/-- The trend window after `UpdateFilter`: the new point is appended, and the front
point is dropped when the window then holds more than `window_size_` points. -/
theorem UpdateFilter_delay_hist (s : TrendlineEstimator) (recv_delta_ms send_delta_ms : ℚ)
    (arrival_time_ms : Int) :
    (s.UpdateFilter recv_delta_ms send_delta_ms arrival_time_ms).delay_hist_ =
      if (s.delay_hist_ ++
          [(((wrap64 (arrival_time_ms -
              (s.UpdateFilter recv_delta_ms send_delta_ms arrival_time_ms).first_arrival_time_ms_)
              : Int) : ℚ),
            (s.UpdateFilter recv_delta_ms send_delta_ms arrival_time_ms).smoothed_delay_)]).length
          > s.window_size_ then
        (s.delay_hist_ ++
          [(((wrap64 (arrival_time_ms -
              (s.UpdateFilter recv_delta_ms send_delta_ms arrival_time_ms).first_arrival_time_ms_)
              : Int) : ℚ),
            (s.UpdateFilter recv_delta_ms send_delta_ms arrival_time_ms).smoothed_delay_)]).tail
      else
        s.delay_hist_ ++
          [(((wrap64 (arrival_time_ms -
              (s.UpdateFilter recv_delta_ms send_delta_ms arrival_time_ms).first_arrival_time_ms_)
              : Int) : ℚ),
            (s.UpdateFilter recv_delta_ms send_delta_ms arrival_time_ms).smoothed_delay_)] := by
  unfold TrendlineEstimator.UpdateFilter
  dsimp only
  split_ifs <;> rfl

/-! ## Theorems: `PacedSender` timing -/

/-- The value `TimeMilliseconds` returns and the state it leaves. -/
theorem TimeMilliseconds_eq (env : PacerEnv) (s : PacedSender) :
    (PacedSender.TimeMilliseconds env s).2 =
      max (env.TimeInMilliseconds (PacerEvent.TimeInMilliseconds :: s.trace))
        s.last_timestamp_ms_ ∧
    PacedSender.TimeMilliseconds env s =
      ({ s with
          trace := PacerEvent.TimeInMilliseconds :: s.trace
          last_timestamp_ms_ := (PacedSender.TimeMilliseconds env s).2 },
        (PacedSender.TimeMilliseconds env s).2) := by
  unfold PacedSender.TimeMilliseconds PacedSender.call
  dsimp only
  refine ⟨?_, rfl⟩
  split_ifs with h
  · exact (max_eq_right (le_of_lt h)).symm
  · exact (max_eq_left (not_lt.mp h)).symm

theorem TimeMillisecondsCalls_sorted (env : PacerEnv) (n : Nat) :
    ∀ s : PacedSender,
      List.Pairwise (fun a b : Int => a ≤ b)
        (s.last_timestamp_ms_ :: PacedSender.TimeMillisecondsCalls env n s) ∧
      ∀ t ∈ PacedSender.TimeMillisecondsCalls env n s, s.last_timestamp_ms_ ≤ t := by
  induction n with
  | zero =>
    intro s
    exact ⟨List.pairwise_singleton _ _, fun t ht => by cases ht⟩
  | succ n ih =>
    intro s
    obtain ⟨h1, h2⟩ := TimeMilliseconds_eq env s
    have hge : s.last_timestamp_ms_ ≤ (PacedSender.TimeMilliseconds env s).2 := by
      rw [h1]; exact le_max_right _ _
    have hlast : (PacedSender.TimeMilliseconds env s).1.last_timestamp_ms_
        = (PacedSender.TimeMilliseconds env s).2 := by
      rw [h2]
    obtain ⟨i1, i2⟩ := ih (PacedSender.TimeMilliseconds env s).1
    rw [hlast] at i1 i2
    have hall : ∀ t ∈ PacedSender.TimeMillisecondsCalls env (n + 1) s,
        s.last_timestamp_ms_ ≤ t := by
      intro t ht
      unfold PacedSender.TimeMillisecondsCalls at ht
      rcases List.mem_cons.mp ht with ht | ht
      · rw [ht]; exact hge
      · exact le_trans hge (i2 t ht)
    refine ⟨?_, hall⟩
    rw [List.pairwise_cons]
    refine ⟨hall, ?_⟩
    unfold PacedSender.TimeMillisecondsCalls
    exact i1

/-- C20: `PacedSender::TimeMilliseconds` never goes backwards. Each result equals
max(clock reading, `last_timestamp_ms_`), where `last_timestamp_ms_` is the previous
result (the value read at construction before the first call), so a reading below the
last observed timestamp is replaced by that timestamp; the result is stored as the new
`last_timestamp_ms_`; and the results of any number of successive calls, preceded by the
timestamp held before them, are non-decreasing. -/
theorem TimeMilliseconds_monotone (env : PacerEnv) (s : PacedSender) (n : Nat) :
    (PacedSender.TimeMilliseconds env s).2 =
      max (env.TimeInMilliseconds (PacerEvent.TimeInMilliseconds :: s.trace))
        s.last_timestamp_ms_ ∧
    (env.TimeInMilliseconds (PacerEvent.TimeInMilliseconds :: s.trace) < s.last_timestamp_ms_ →
      (PacedSender.TimeMilliseconds env s).2 = s.last_timestamp_ms_) ∧
    s.last_timestamp_ms_ ≤ (PacedSender.TimeMilliseconds env s).2 ∧
    (PacedSender.TimeMilliseconds env s).1.last_timestamp_ms_
      = (PacedSender.TimeMilliseconds env s).2 ∧
    List.Pairwise (fun a b : Int => a ≤ b)
      (s.last_timestamp_ms_ :: PacedSender.TimeMillisecondsCalls env n s) := by
  obtain ⟨h1, h2⟩ := TimeMilliseconds_eq env s
  refine ⟨h1, ?_, ?_, ?_, (TimeMillisecondsCalls_sorted env n s).1⟩
  · intro hlt
    rw [h1]
    exact max_eq_right (le_of_lt hlt)
  · rw [h1]; exact le_max_right _ _
  · rw [h2]

/-- The value `TimeUntilNextProcess` returns, by cases. -/
theorem TimeUntilNextProcess_value (env : PacerEnv) (s : PacedSender) :
    (PacedSender.TimeUntilNextProcess env s).2 =
      if s.paused_ = true then
        max (wrap64 (kPausedProcessIntervalMs - s.elapsed_time_ms (s.tunp_now_us env))) 0
      else if s.tunp_is_probing env = true then
        if s.tunp_ret env > 0 ∨ (s.tunp_ret env = 0 ∧ s.probing_send_failure_ = false) then
          s.tunp_ret env
        else s.default_tick (s.tunp_now_us env)
      else s.default_tick (s.tunp_now_us env) := by
  unfold PacedSender.TimeUntilNextProcess PacedSender.default_tick PacedSender.elapsed_time_ms
    PacedSender.tunp_now_us PacedSender.tunp_is_probing PacedSender.tunp_ret
    PacedSender.TimeMilliseconds PacedSender.call
  dsimp only
  split_ifs <;> rfl

/-- C14, as stated, fails: a pacer that is congested (window 1000 bytes, 2000 bytes
outstanding), not paused and not probing, asked right after a `Process`, returns the
default tick of 5 ms, not the 500 ms keepalive slot. -/
theorem congested_next_process_is_default_tick :
    ({ PacedSender.blank with
        congestion_window_bytes_ := 1000, outstanding_bytes_ := 2000 }).Congested = true ∧
    ({ PacedSender.blank with
        congestion_window_bytes_ := 1000, outstanding_bytes_ := 2000 }).paused_ = false ∧
    (PacedSender.TimeUntilNextProcess (PacerEnv.steady 0 false 0)
      { PacedSender.blank with
        congestion_window_bytes_ := 1000, outstanding_bytes_ := 2000 }).2 = 5 ∧
    max 0 (500 - ({ PacedSender.blank with
        congestion_window_bytes_ := 1000, outstanding_bytes_ := 2000 }).elapsed_time_ms 0)
      = 500 := by
  decide

/-- C14 (amended): when the pacer is congested and not paused, `TimeUntilNextProcess`
does not consult the congestion state: it returns what it returns for the same pacer
without congestion, which, when the prober is not probing, is the default tick
max(0, min_packet_limit_ms - elapsed) (5 ms by default). The 500 ms keepalive slot is
returned only when the pacer is paused. -/
theorem TimeUntilNextProcess_congested (env : PacerEnv) (s : PacedSender)
    (_hc : s.Congested = true) (hp : s.paused_ = false) :
    (∀ window outstanding : Int,
      (PacedSender.TimeUntilNextProcess env
        { s with congestion_window_bytes_ := window, outstanding_bytes_ := outstanding }).2
        = (PacedSender.TimeUntilNextProcess env s).2) ∧
    (s.tunp_is_probing env = false →
      (PacedSender.TimeUntilNextProcess env s).2 = s.default_tick (s.tunp_now_us env)) := by
  constructor
  · intro window outstanding
    rw [TimeUntilNextProcess_value, TimeUntilNextProcess_value]
    rfl
  · intro hnp
    rw [TimeUntilNextProcess_value, hp, hnp]
    rfl

/-- Witness for C14 (amended): the congested pacer of the counterexample, 2 ms after
its last `Process`. -/
theorem TimeUntilNextProcess_congested_witness :
    ({ PacedSender.blank with
        congestion_window_bytes_ := 1000, outstanding_bytes_ := 2000 }).Congested = true ∧
    (PacedSender.TimeUntilNextProcess (PacerEnv.steady 2000 false 0)
      { PacedSender.blank with
        congestion_window_bytes_ := 1000, outstanding_bytes_ := 2000 }).2 = 3 := by
  refine ⟨by decide, ?_⟩
  rw [(TimeUntilNextProcess_congested (PacerEnv.steady 2000 false 0)
    { PacedSender.blank with congestion_window_bytes_ := 1000, outstanding_bytes_ := 2000 }
    (by decide) (by decide)).2 (by decide)]
  decide

/-- C15: when the pacer is paused, `TimeUntilNextProcess` returns
max(0, 500 ms - elapsed_time_ms), whatever the prober and the congestion state, where
elapsed_time_ms = (now_us - time_last_process_us + 500) / 1000 in `int64_t` arithmetic;
when the clock has not gone backwards (and the microsecond count fits comfortably in
`int64_t`) this is the elapsed time rounded to the nearest millisecond, i.e.
|1000 * elapsed_time_ms - elapsed_us| <= 500, and the result is the exact integer
max(0, 500 - elapsed_time_ms). -/
theorem TimeUntilNextProcess_paused (env : PacerEnv) (s : PacedSender)
    (hp : s.paused_ = true) :
    (PacedSender.TimeUntilNextProcess env s).2 =
      max (wrap64 (500 - s.elapsed_time_ms (s.tunp_now_us env))) 0 ∧
    (0 ≤ s.tunp_now_us env - s.time_last_process_us_ →
      s.tunp_now_us env - s.time_last_process_us_ ≤ 9000000000000000000 →
      (PacedSender.TimeUntilNextProcess env s).2 =
        max 0 (500 - s.elapsed_time_ms (s.tunp_now_us env)) ∧
      s.elapsed_time_ms (s.tunp_now_us env) =
        (s.tunp_now_us env - s.time_last_process_us_ + 500) / 1000 ∧
      1000 * s.elapsed_time_ms (s.tunp_now_us env)
        - (s.tunp_now_us env - s.time_last_process_us_) ≤ 500 ∧
      (s.tunp_now_us env - s.time_last_process_us_)
        - 1000 * s.elapsed_time_ms (s.tunp_now_us env) < 500) := by
  have hv : (PacedSender.TimeUntilNextProcess env s).2 =
      max (wrap64 (500 - s.elapsed_time_ms (s.tunp_now_us env))) 0 := by
    rw [TimeUntilNextProcess_value, if_pos hp]
    rfl
  refine ⟨hv, ?_⟩
  intro h0 h1
  generalize hn : s.tunp_now_us env = now at h0 h1 hv ⊢
  have he : s.elapsed_time_ms now = (now - s.time_last_process_us_ + 500) / 1000 := by
    unfold PacedSender.elapsed_time_ms
    rw [wrap64_of_InInt64 (⟨by omega, by omega⟩ : InInt64 (now - s.time_last_process_us_)),
      wrap64_of_InInt64 (⟨by omega, by omega⟩ : InInt64 (now - s.time_last_process_us_ + 500)),
      Int.tdiv_eq_ediv (by omega) (by decide)]
  rw [hv, he]
  have hw : wrap64 (500 - (now - s.time_last_process_us_ + 500) / 1000)
      = 500 - (now - s.time_last_process_us_ + 500) / 1000 :=
    wrap64_of_InInt64 ⟨by omega, by omega⟩
  rw [hw]
  refine ⟨max_comm _ _, rfl, ?_, ?_⟩ <;> omega

/-- Witness for C15: a paused pacer 120.6 ms after its last `Process`, while the prober
is probing. -/
theorem TimeUntilNextProcess_paused_witness :
    ({ PacedSender.blank with paused_ := true }).paused_ = true ∧
    (PacedSender.TimeUntilNextProcess (PacerEnv.steady 120600 true 1)
      { PacedSender.blank with paused_ := true }).2 = 379 := by
  refine ⟨rfl, ?_⟩
  rw [(TimeUntilNextProcess_paused (PacerEnv.steady 120600 true 1)
    { PacedSender.blank with paused_ := true } rfl).1]
  decide

/-- C16, as stated, fails: a pacer that is not paused, asked right after a `Process`
while the prober is probing and reports 7 ms until the next probe, returns 7, not
min(7, default tick 5) = 5. -/
theorem probing_next_process_not_min :
    PacedSender.blank.paused_ = false ∧
    PacedSender.blank.tunp_is_probing (PacerEnv.steady 0 true 7) = true ∧
    PacedSender.blank.tunp_ret (PacerEnv.steady 0 true 7) = 7 ∧
    PacedSender.blank.default_tick (PacedSender.blank.tunp_now_us (PacerEnv.steady 0 true 7))
      = 5 ∧
    (PacedSender.TimeUntilNextProcess (PacerEnv.steady 0 true 7) PacedSender.blank).2 = 7 := by
  decide

/-- C16 (amended): when the pacer is not paused and the prober is probing,
`TimeUntilNextProcess` returns ret = prober.TimeUntilNextProbe(TimeMilliseconds()) when
ret > 0, or when ret = 0 and the last probe attempt did not fail to send; otherwise it
returns default_tick = max(0, min_packet_limit_ms - elapsed), 5 ms less the time since
the last `Process` by default. -/
theorem TimeUntilNextProcess_probing (env : PacerEnv) (s : PacedSender)
    (hp : s.paused_ = false) (hprobing : s.tunp_is_probing env = true) :
    ((s.tunp_ret env > 0 ∨ (s.tunp_ret env = 0 ∧ s.probing_send_failure_ = false)) →
      (PacedSender.TimeUntilNextProcess env s).2 = s.tunp_ret env) ∧
    (¬ (s.tunp_ret env > 0 ∨ (s.tunp_ret env = 0 ∧ s.probing_send_failure_ = false)) →
      (PacedSender.TimeUntilNextProcess env s).2 = s.default_tick (s.tunp_now_us env)) := by
  rw [TimeUntilNextProcess_value, hp, hprobing]
  constructor
  · intro h
    simp only [Bool.false_eq_true, if_false, if_true, if_pos h]
  · intro h
    simp only [Bool.false_eq_true, if_false, if_true, if_neg h]

/-- Witness for C16 (amended): the prober reports 7 ms until the next probe. -/
theorem TimeUntilNextProcess_probing_witness :
    PacedSender.blank.paused_ = false ∧
    PacedSender.blank.tunp_is_probing (PacerEnv.steady 0 true 7) = true ∧
    (PacedSender.TimeUntilNextProcess (PacerEnv.steady 0 true 7) PacedSender.blank).2 = 7 := by
  refine ⟨rfl, rfl, ?_⟩
  rw [(TimeUntilNextProcess_probing (PacerEnv.steady 0 true 7) PacedSender.blank rfl rfl).1
    (by decide)]
  decide

/-! ## Theorems: `PacketFeedbackComparator` -/

/-- The comparator is the strict lexicographic order on the sort keys. -/
theorem PacketFeedbackComparator_iff (a b : PacketFeedback) :
    PacketFeedbackComparator a b = true ↔
      (a.arrival_time_ms < b.arrival_time_ms ∨
        (a.arrival_time_ms = b.arrival_time_ms ∧
          (a.send_time_ms < b.send_time_ms ∨
            (a.send_time_ms = b.send_time_ms ∧ a.sequence_number < b.sequence_number)))) := by
  unfold PacketFeedbackComparator
  split_ifs with h1 h2
  · rw [decide_eq_true_iff]; omega
  · rw [decide_eq_true_iff]
    have h1' : a.arrival_time_ms = b.arrival_time_ms := not_not.mp h1
    omega
  · rw [decide_eq_true_iff]
    have h1' : a.arrival_time_ms = b.arrival_time_ms := not_not.mp h1
    have h2' : a.send_time_ms = b.send_time_ms := not_not.mp h2
    omega

/-- C19: `PacketFeedbackComparator` is the strict lexicographic order on
(arrival_time_ms, send_time_ms, sequence_number): it holds exactly when the key of the
left operand is lexicographically below the key of the right one; it is irreflexive,
asymmetric and transitive; two feedbacks are unordered in both directions iff they
agree on all three fields; so a vector sorted with it (no element is ordered before an
earlier one) has its keys in non-decreasing lexicographic order. -/
theorem PacketFeedbackComparator_strict_order (a b c : PacketFeedback)
    (v : List PacketFeedback) :
    (PacketFeedbackComparator a b = true ↔ keyLt a.key b.key) ∧
    PacketFeedbackComparator a a = false ∧
    (PacketFeedbackComparator a b = true → PacketFeedbackComparator b a = false) ∧
    (PacketFeedbackComparator a b = true → PacketFeedbackComparator b c = true →
      PacketFeedbackComparator a c = true) ∧
    ((PacketFeedbackComparator a b = false ∧ PacketFeedbackComparator b a = false) ↔
      (a.arrival_time_ms = b.arrival_time_ms ∧ a.send_time_ms = b.send_time_ms ∧
        a.sequence_number = b.sequence_number)) ∧
    (List.Pairwise (fun x y => PacketFeedbackComparator y x = false) v →
      List.Pairwise (fun x y => keyLe x.key y.key) v) := by
  have hab := PacketFeedbackComparator_iff a b
  have hba := PacketFeedbackComparator_iff b a
  have hbc := PacketFeedbackComparator_iff b c
  have hac := PacketFeedbackComparator_iff a c
  have haa := PacketFeedbackComparator_iff a a
  refine ⟨hab, ?_, ?_, ?_, ?_, ?_⟩
  · rw [← Bool.not_eq_true, haa]; omega
  · intro h
    rw [← Bool.not_eq_true, hba]
    have := hab.mp h
    omega
  · intro h1 h2
    rw [hac]
    have := hab.mp h1
    have := hbc.mp h2
    omega
  · rw [← Bool.not_eq_true, ← Bool.not_eq_true, hab, hba]
    omega
  · intro hv
    refine hv.imp ?_
    intro x y hyx
    rw [← Bool.not_eq_true, PacketFeedbackComparator_iff] at hyx
    unfold keyLe keyLt PacketFeedback.key
    by_cases heq : x.arrival_time_ms = y.arrival_time_ms ∧ x.send_time_ms = y.send_time_ms ∧
        x.sequence_number = y.sequence_number
    · right
      obtain ⟨e1, e2, e3⟩ := heq
      rw [e1, e2, e3]
    · left
      dsimp only
      omega

/-! ## Theorems: `RTPSender` retransmission -/

/-- `ReSendPacket` looks the packet up exactly once, never calls `SetRtt`, and leaves
the configuration members alone. -/
theorem ReSendPacket_trace_facts (env : RtpSenderEnv) (s : RTPSender) (packet_id : Nat) :
    RTPSender.attempted (s.ReSendPacket env packet_id).1.trace
      = RTPSender.attempted s.trace ++ [packet_id] ∧
    RTPSender.min_retransmit_interval_ms (s.ReSendPacket env packet_id).1.trace
      = RTPSender.min_retransmit_interval_ms s.trace ∧
    (s.ReSendPacket env packet_id).1.paced_sender_ = s.paced_sender_ ∧
    (s.ReSendPacket env packet_id).1.retransmission_rate_limiter_
      = s.retransmission_rate_limiter_ ∧
    (s.ReSendPacket env packet_id).1.clock_delta_ms_ = s.clock_delta_ms_ := by
  unfold RTPSender.ReSendPacket RTPSender.call
  dsimp only
  split
  · simp [RTPSender.attempted, RTPSender.min_retransmit_interval_ms]
  · split_ifs <;>
      simp [RTPSender.attempted, RTPSender.min_retransmit_interval_ms]

/-- C17: when a paced sender is configured, `ReSendPacket` returns 0 without inserting
when the packet is not in the history, and -1 without inserting when the rate limiter
refuses; when the packet is found and the rate limiter (if any) grants its size, it
inserts exactly one entry into the pacer, with priority `kNormalPriority`, the stored
SSRC, RTP sequence number and packet size, the stored capture time shifted by
`clock_delta_ms_`, and retransmission = true, and returns the packet size converted to
`int32_t`, which is the packet size itself whenever that fits. -/
theorem ReSendPacket_paced (env : RtpSenderEnv) (s : RTPSender) (packet_id : Nat)
    (hp : s.paced_sender_ = true) :
    (env.GetPacketState (RtpSenderEvent.GetPacketState packet_id :: s.trace) = none →
      (s.ReSendPacket env packet_id).2 = 0 ∧
      RTPSender.inserted (s.ReSendPacket env packet_id).1.trace = RTPSender.inserted s.trace) ∧
    (∀ stored_packet : PacketState,
      env.GetPacketState (RtpSenderEvent.GetPacketState packet_id :: s.trace)
        = some stored_packet →
      ((s.retransmission_rate_limiter_ = true ∧
          env.TryUseRate (RtpSenderEvent.TryUseRate (static_cast_int32 stored_packet.packet_size)
            :: RtpSenderEvent.GetPacketState packet_id :: s.trace) = false) →
        (s.ReSendPacket env packet_id).2 = -1 ∧
        RTPSender.inserted (s.ReSendPacket env packet_id).1.trace
          = RTPSender.inserted s.trace) ∧
      ((s.retransmission_rate_limiter_ = false ∨
          env.TryUseRate (RtpSenderEvent.TryUseRate (static_cast_int32 stored_packet.packet_size)
            :: RtpSenderEvent.GetPacketState packet_id :: s.trace) = true) →
        (s.ReSendPacket env packet_id).2 = static_cast_int32 stored_packet.packet_size ∧
        ((stored_packet.packet_size : Int) ≤ 2147483647 →
          (s.ReSendPacket env packet_id).2 = (stored_packet.packet_size : Int)) ∧
        RTPSender.inserted (s.ReSendPacket env packet_id).1.trace
          = RTPSender.inserted s.trace ++
            [RtpSenderEvent.InsertPacket Priority.kNormalPriority stored_packet.ssrc
              stored_packet.rtp_sequence_number
              (wrap64 (stored_packet.capture_time_ms + s.clock_delta_ms_))
              stored_packet.packet_size true])) := by
  constructor
  · intro hnone
    unfold RTPSender.ReSendPacket RTPSender.call
    dsimp only
    rw [hnone]
    exact ⟨rfl, rfl⟩
  · intro stored_packet hsome
    constructor
    · rintro ⟨hl, hrefuse⟩
      unfold RTPSender.ReSendPacket RTPSender.call
      dsimp only
      rw [hsome]
      dsimp only
      simp [hl, hrefuse, RTPSender.inserted]
    · intro hgrant
      have hres : s.ReSendPacket env packet_id =
          ({ s with
              trace :=
                RtpSenderEvent.InsertPacket Priority.kNormalPriority stored_packet.ssrc
                  stored_packet.rtp_sequence_number
                  (wrap64 (stored_packet.capture_time_ms + s.clock_delta_ms_))
                  stored_packet.packet_size true ::
                (if s.retransmission_rate_limiter_ = true then
                  RtpSenderEvent.TryUseRate (static_cast_int32 stored_packet.packet_size) ::
                    RtpSenderEvent.GetPacketState packet_id :: s.trace
                else RtpSenderEvent.GetPacketState packet_id :: s.trace) },
            static_cast_int32 stored_packet.packet_size) := by
        unfold RTPSender.ReSendPacket RTPSender.call
        dsimp only
        rw [hsome]
        dsimp only
        cases hl : s.retransmission_rate_limiter_ with
        | false =>
          simp only [Bool.false_eq_true, if_false, false_and, hp, if_true]
        | true =>
          rw [hl] at hgrant
          have hg : env.TryUseRate
              (RtpSenderEvent.TryUseRate (static_cast_int32 stored_packet.packet_size)
                :: RtpSenderEvent.GetPacketState packet_id :: s.trace) = true := by
            rcases hgrant with h | h
            · cases h
            · exact h
          simp only [if_true, hg, Bool.true_eq_false, and_false, if_false, hp]
      rw [hres]
      refine ⟨rfl, ?_, ?_⟩
      · intro hfit
        exact wrap32_of_InInt32 ⟨by omega, hfit⟩
      · dsimp only
        split_ifs <;> simp [RTPSender.inserted]

/-- Witness for C17: a stored packet of 1200 bytes, no rate limiter. -/
theorem ReSendPacket_paced_witness :
    (RTPSender.mk false true 3 []).paced_sender_ = true ∧
    (RTPSender.ReSendPacket
      { GetPacketState := fun _ => some ⟨77, 1000, 4660, 1200⟩
        TryUseRate := fun _ => true
        GetPacketAndSetSendTime := fun _ => true
        RtxStatus := fun _ => 0
        PrepareAndSendPacket := fun _ => true }
      (RTPSender.mk false true 3 []) 77).1.trace =
      [RtpSenderEvent.InsertPacket Priority.kNormalPriority 4660 77 1003 1200 true,
        RtpSenderEvent.GetPacketState 77] ∧
    (RTPSender.ReSendPacket
      { GetPacketState := fun _ => some ⟨77, 1000, 4660, 1200⟩
        TryUseRate := fun _ => true
        GetPacketAndSetSendTime := fun _ => true
        RtxStatus := fun _ => 0
        PrepareAndSendPacket := fun _ => true }
      (RTPSender.mk false true 3 []) 77).2 = 1200 :=
  ⟨rfl, by decide,
    ((ReSendPacket_paced
      { GetPacketState := fun _ => some ⟨77, 1000, 4660, 1200⟩
        TryUseRate := fun _ => true
        GetPacketAndSetSendTime := fun _ => true
        RtxStatus := fun _ => 0
        PrepareAndSendPacket := fun _ => true }
      (RTPSender.mk false true 3 []) 77 rfl).2 ⟨77, 1000, 4660, 1200⟩ rfl).2
        (Or.inl rfl) |>.2.1 (by decide)⟩

/-- `ReSendPacket` only appends calls to the trace. -/
theorem ReSendPacket_trace_suffix (env : RtpSenderEnv) (s : RTPSender) (packet_id : Nat) :
    s.trace <:+ (s.ReSendPacket env packet_id).1.trace := by
  unfold RTPSender.ReSendPacket RTPSender.call
  dsimp only
  split
  · simp [List.suffix_cons_iff]
  · split_ifs <;> simp [List.suffix_cons_iff]

theorem OnReceivedNackLoop_facts (env : RtpSenderEnv) (seqs : List Nat) :
    ∀ s : RTPSender,
      RTPSender.min_retransmit_interval_ms (RTPSender.OnReceivedNackLoop env seqs s).trace
        = RTPSender.min_retransmit_interval_ms s.trace ∧
      s.trace <:+ (RTPSender.OnReceivedNackLoop env seqs s).trace ∧
      ∃ k, k ≤ seqs.length ∧
        RTPSender.attempted (RTPSender.OnReceivedNackLoop env seqs s).trace
          = RTPSender.attempted s.trace ++ seqs.take k := by
  induction seqs with
  | nil =>
    intro s
    exact ⟨rfl, List.suffix_rfl, 0, Nat.le_refl _, by simp [RTPSender.OnReceivedNackLoop]⟩
  | cons x xs ih =>
    intro s
    obtain ⟨ha, hm, -, -, -⟩ := ReSendPacket_trace_facts env s x
    have hsuf := ReSendPacket_trace_suffix env s x
    unfold RTPSender.OnReceivedNackLoop
    dsimp only
    by_cases hneg : (s.ReSendPacket env x).2 < 0
    · rw [if_pos hneg]
      exact ⟨hm, hsuf, 1, by simp, by rw [ha]; simp⟩
    · rw [if_neg hneg]
      obtain ⟨i1, i2, k, hk, i3⟩ := ih (s.ReSendPacket env x).1
      refine ⟨i1.trans hm, hsuf.trans i2, k + 1, by simp; omega, ?_⟩
      rw [i3, ha]
      simp

/-- C18: `OnReceivedNack(seqs, avg_rtt)` first hands 5 + avg_rtt to the packet history
(`SetRtt`), whose minimum retransmit interval is then 5 + avg_rtt ms and is still so when
the call returns, and then runs `ReSendPacket` on the sequence numbers in list order: the
sequence numbers attempted are a prefix of the list; after a result that is not negative,
in particular after 0 (not retransmitted), processing continues with the next sequence
number; a negative result ends the call, leaving the remainder of the list
unattempted. -/
theorem OnReceivedNack_spec (env : RtpSenderEnv) (s : RTPSender) (seqs : List Nat)
    (avg_rtt : Int) (s1 : RTPSender) (seq_no : Nat) (rest : List Nat) :
    s.OnReceivedNack env seqs avg_rtt =
      RTPSender.OnReceivedNackLoop env seqs
        (s.call (RtpSenderEvent.SetRtt (wrap64 (5 + avg_rtt)))) ∧
    (RtpSenderEvent.SetRtt (wrap64 (5 + avg_rtt)) :: s.trace)
      <:+ (s.OnReceivedNack env seqs avg_rtt).trace ∧
    RTPSender.min_retransmit_interval_ms (s.OnReceivedNack env seqs avg_rtt).trace
      = some (wrap64 (5 + avg_rtt)) ∧
    (InInt64 (5 + avg_rtt) →
      RTPSender.min_retransmit_interval_ms (s.OnReceivedNack env seqs avg_rtt).trace
        = some (5 + avg_rtt)) ∧
    (∃ k, k ≤ seqs.length ∧
      RTPSender.attempted (s.OnReceivedNack env seqs avg_rtt).trace
        = RTPSender.attempted s.trace ++ seqs.take k) ∧
    RTPSender.OnReceivedNackLoop env [] s1 = s1 ∧
    ((s1.ReSendPacket env seq_no).2 = 0 →
      RTPSender.OnReceivedNackLoop env (seq_no :: rest) s1
        = RTPSender.OnReceivedNackLoop env rest (s1.ReSendPacket env seq_no).1) ∧
    (0 ≤ (s1.ReSendPacket env seq_no).2 →
      RTPSender.OnReceivedNackLoop env (seq_no :: rest) s1
        = RTPSender.OnReceivedNackLoop env rest (s1.ReSendPacket env seq_no).1) ∧
    ((s1.ReSendPacket env seq_no).2 < 0 →
      RTPSender.OnReceivedNackLoop env (seq_no :: rest) s1 = (s1.ReSendPacket env seq_no).1 ∧
      RTPSender.attempted (RTPSender.OnReceivedNackLoop env (seq_no :: rest) s1).trace
        = RTPSender.attempted s1.trace ++ [seq_no]) := by
  obtain ⟨hm, hsuf, k, hk, hatt⟩ := OnReceivedNackLoop_facts env seqs
    (s.call (RtpSenderEvent.SetRtt (wrap64 (5 + avg_rtt))))
  have hmin : RTPSender.min_retransmit_interval_ms (s.OnReceivedNack env seqs avg_rtt).trace
      = some (wrap64 (5 + avg_rtt)) := by
    unfold RTPSender.OnReceivedNack
    rw [hm]
    rfl
  have hcont : 0 ≤ (s1.ReSendPacket env seq_no).2 →
      RTPSender.OnReceivedNackLoop env (seq_no :: rest) s1
        = RTPSender.OnReceivedNackLoop env rest (s1.ReSendPacket env seq_no).1 := by
    intro h0
    have hn : ¬ (s1.ReSendPacket env seq_no).2 < 0 := by omega
    conv_lhs => unfold RTPSender.OnReceivedNackLoop
    dsimp only
    rw [if_neg hn]
  have hstop : (s1.ReSendPacket env seq_no).2 < 0 →
      RTPSender.OnReceivedNackLoop env (seq_no :: rest) s1 = (s1.ReSendPacket env seq_no).1 := by
    intro hneg
    conv_lhs => unfold RTPSender.OnReceivedNackLoop
    dsimp only
    rw [if_pos hneg]
  refine ⟨rfl, hsuf, hmin, ?_, ⟨k, hk, ?_⟩, rfl, ?_, hcont, ?_⟩
  · intro hfit
    rw [hmin, wrap64_of_InInt64 hfit]
  · unfold RTPSender.OnReceivedNack
    rw [hatt]
    rfl
  · intro h0
    exact hcont (by omega)
  · intro hneg
    refine ⟨hstop hneg, ?_⟩
    rw [hstop hneg]
    exact (ReSendPacket_trace_facts env s1 seq_no).1

/-! ## Theorems: `PacedSender::Process` -/

/-- Witness for C18: NACKs for 1, 2, 3 with an average RTT of 100 ms; 1 is not in the
history (result 0, skipped), the rate limiter refuses 2 (result -1), 3 is never
attempted. -/
theorem OnReceivedNack_spec_witness :
    RTPSender.min_retransmit_interval_ms
      ((RTPSender.mk true true 0 []).OnReceivedNack RtpSenderEnv.refusing [1, 2, 3] 100).trace
      = some 105 ∧
    ((RTPSender.mk true true 0 [RtpSenderEvent.SetRtt 105]).ReSendPacket
      RtpSenderEnv.refusing 1).2 = 0 ∧
    (((RTPSender.mk true true 0 [RtpSenderEvent.SetRtt 105]).ReSendPacket
      RtpSenderEnv.refusing 1).1.ReSendPacket RtpSenderEnv.refusing 2).2 = -1 ∧
    RTPSender.attempted
      (RTPSender.OnReceivedNackLoop RtpSenderEnv.refusing [2, 3]
        ((RTPSender.mk true true 0 [RtpSenderEvent.SetRtt 105]).ReSendPacket
          RtpSenderEnv.refusing 1).1).trace = [1, 2] :=
  ⟨(OnReceivedNack_spec RtpSenderEnv.refusing (RTPSender.mk true true 0 []) [1, 2, 3] 100
      ((RTPSender.mk true true 0 [RtpSenderEvent.SetRtt 105]).ReSendPacket
        RtpSenderEnv.refusing 1).1 2 [3]).2.2.2.1 (by decide),
    by decide, by decide,
    ((OnReceivedNack_spec RtpSenderEnv.refusing (RTPSender.mk true true 0 []) [1, 2, 3] 100
      ((RTPSender.mk true true 0 [RtpSenderEvent.SetRtt 105]).ReSendPacket
        RtpSenderEnv.refusing 1).1 2 [3]).2.2.2.2.2.2.2.2 (by decide)).2⟩

/-- What `GetPendingPacket` does when it returns a packet: the packet is the first of
the queue, the gate is open, and only the `BeginPop` is recorded. -/
theorem GetPendingPacket_some (s : PacedSender) (pacing_info : PacedPacketInfo)
    (packet : Packet) (h : (s.GetPendingPacket pacing_info).2 = some packet) :
    s.packets_ = packet :: s.packets_.tail ∧
    (s.GetPendingPacket pacing_info).1 = s.call PacerEvent.BeginPop ∧
    ¬ ((!decide (packet.priority = Priority.kHighPriority) || s.pace_audio_) = true ∧
      (s.Congested = true ∨
        (s.media_budget_.bytes_remaining = 0 ∧
          pacing_info.probe_cluster_id = PacedPacketInfo.kNotAProbe))) := by
  unfold PacedSender.GetPendingPacket at h ⊢
  cases hq : s.packets_ with
  | nil =>
    rw [hq] at h
    cases h
  | cons p rest =>
    rw [hq] at h
    dsimp only at h ⊢
    by_cases hg : (!decide (p.priority = Priority.kHighPriority) ||
        (s.call PacerEvent.BeginPop).pace_audio_) = true ∧
        ((s.call PacerEvent.BeginPop).Congested = true ∨
          ((s.call PacerEvent.BeginPop).media_budget_.bytes_remaining = 0 ∧
            pacing_info.probe_cluster_id = PacedPacketInfo.kNotAProbe))
    · rw [if_pos hg] at h
      cases h
    · rw [if_neg hg] at h ⊢
      have hp : p = packet := Option.some.inj h
      subst hp
      exact ⟨rfl, rfl, hg⟩

/-- What `GetPendingPacket` does when it returns `nullptr` on a non-empty queue: the
pop is cancelled and nothing else changes. -/
theorem GetPendingPacket_none (s : PacedSender) (pacing_info : PacedPacketInfo)
    (packet : Packet) (rest : List Packet) (hq : s.packets_ = packet :: rest)
    (h : (s.GetPendingPacket pacing_info).2 = none) :
    (s.GetPendingPacket pacing_info).1 =
      (s.call PacerEvent.BeginPop).call (PacerEvent.CancelPop packet) := by
  unfold PacedSender.GetPendingPacket at h ⊢
  rw [hq] at h ⊢
  dsimp only at h ⊢
  split_ifs at h ⊢
  rfl

/-- The members `OnPacketSent` writes. -/
theorem OnPacketSent_fields (env : PacerEnv) (s : PacedSender) (packet : Packet) :
    (s.OnPacketSent env packet).packets_ = s.packets_.tail ∧
    (s.OnPacketSent env packet).trace.head? = some (PacerEvent.FinalizePop packet) ∧
    (s.OnPacketSent env packet).paused_ = s.paused_ ∧
    (s.OnPacketSent env packet).pace_audio_ = s.pace_audio_ ∧
    (s.OnPacketSent env packet).account_for_audio_ = s.account_for_audio_ ∧
    (s.OnPacketSent env packet).congestion_window_bytes_ = s.congestion_window_bytes_ ∧
    (s.OnPacketSent env packet).packet_counter_ = s.packet_counter_ ∧
    (s.OnPacketSent env packet).media_budget_ =
      (if decide (packet.priority = Priority.kHighPriority) = false ∨
          s.account_for_audio_ = true then s.media_budget_.UseBudget packet.bytes
        else s.media_budget_) ∧
    (s.OnPacketSent env packet).padding_budget_ =
      (if decide (packet.priority = Priority.kHighPriority) = false ∨
          s.account_for_audio_ = true then s.padding_budget_.UseBudget packet.bytes
        else s.padding_budget_) ∧
    (s.OnPacketSent env packet).outstanding_bytes_ =
      (if decide (packet.priority = Priority.kHighPriority) = false ∨
          s.account_for_audio_ = true then wrap64 (s.outstanding_bytes_ + (packet.bytes : Int))
        else s.outstanding_bytes_) := by
  unfold PacedSender.OnPacketSent PacedSender.TimeMilliseconds
    PacedSender.UpdateBudgetWithBytesSent PacedSender.call
  dsimp only
  split_ifs <;> simp

/-- One pass of the loop body when `GetPendingPacket` returns a packet. -/
theorem DrainStep_some (env : PacerEnv) (pacing_info : PacedPacketInfo) (is_probing : Bool)
    (recommended_probe_size : Nat) (s : PacedSender) (bytes_sent : Nat) (packet : Packet)
    (h : (s.GetPendingPacket pacing_info).2 = some packet) :
    s.DrainStep env pacing_info is_probing recommended_probe_size bytes_sent =
      if env.TimeToSendPacket
          (PacerEvent.TimeToSendPacket packet.ssrc packet.sequence_number packet.capture_time_ms
            packet.retransmission pacing_info :: PacerEvent.BeginPop :: s.trace) = true then
        { state :=
            ((s.call PacerEvent.BeginPop).call
              (PacerEvent.TimeToSendPacket packet.ssrc packet.sequence_number
                packet.capture_time_ms packet.retransmission pacing_info)).OnPacketSent env packet
          bytes_sent := bytes_sent + packet.bytes
          continue_loop :=
            !decide (is_probing = true ∧ bytes_sent + packet.bytes > recommended_probe_size) }
      else
        { state :=
            ((s.call PacerEvent.BeginPop).call
              (PacerEvent.TimeToSendPacket packet.ssrc packet.sequence_number
                packet.capture_time_ms packet.retransmission pacing_info)).call
              (PacerEvent.CancelPop packet)
          bytes_sent := bytes_sent
          continue_loop := false } := by
  obtain ⟨-, h1, -⟩ := GetPendingPacket_some s pacing_info packet h
  unfold PacedSender.DrainStep
  rw [h]
  dsimp only
  rw [h1]
  by_cases hok : env.TimeToSendPacket
      (PacerEvent.TimeToSendPacket packet.ssrc packet.sequence_number packet.capture_time_ms
        packet.retransmission pacing_info :: PacerEvent.BeginPop :: s.trace) = true
  · have hok2 : env.TimeToSendPacket ((s.call PacerEvent.BeginPop).call
        (PacerEvent.TimeToSendPacket packet.ssrc packet.sequence_number packet.capture_time_ms
          packet.retransmission pacing_info)).trace = true := hok
    rw [if_pos hok, if_pos hok2]
    by_cases hb : is_probing = true ∧ bytes_sent + packet.bytes > recommended_probe_size
    · rw [if_pos hb]
      simp only [hb, and_self, decide_True, Bool.not_true]
    · rw [if_neg hb]
      simp only [hb, decide_False, Bool.not_false]
  · have hok2 : ¬ env.TimeToSendPacket ((s.call PacerEvent.BeginPop).call
        (PacerEvent.TimeToSendPacket packet.ssrc packet.sequence_number packet.capture_time_ms
          packet.retransmission pacing_info)).trace = true := hok
    rw [if_neg hok, if_neg hok2]

/-- One pass of the loop body when `GetPendingPacket` returns `nullptr`. -/
theorem DrainStep_none (env : PacerEnv) (pacing_info : PacedPacketInfo) (is_probing : Bool)
    (recommended_probe_size : Nat) (s : PacedSender) (bytes_sent : Nat)
    (h : (s.GetPendingPacket pacing_info).2 = none) :
    s.DrainStep env pacing_info is_probing recommended_probe_size bytes_sent =
      { state := (s.GetPendingPacket pacing_info).1, bytes_sent := bytes_sent,
        continue_loop := false } := by
  unfold PacedSender.DrainStep
  rw [h]

/-- Unfolding of the loop for a non-empty queue and a pacer that is not paused. -/
theorem DrainLoop_succ (env : PacerEnv) (pacing_info : PacedPacketInfo) (is_probing : Bool)
    (recommended_probe_size : Nat) (fuel : Nat) (s : PacedSender) (bytes_sent : Nat)
    (hq : s.packets_ ≠ []) (hp : s.paused_ = false) :
    PacedSender.DrainLoop env pacing_info is_probing recommended_probe_size (fuel + 1) s
        bytes_sent =
      if (s.DrainStep env pacing_info is_probing recommended_probe_size
          bytes_sent).continue_loop = true then
        PacedSender.DrainLoop env pacing_info is_probing recommended_probe_size fuel
          (s.DrainStep env pacing_info is_probing recommended_probe_size bytes_sent).state
          (s.DrainStep env pacing_info is_probing recommended_probe_size bytes_sent).bytes_sent
      else
        ((s.DrainStep env pacing_info is_probing recommended_probe_size bytes_sent).state,
          (s.DrainStep env pacing_info is_probing recommended_probe_size
            bytes_sent).bytes_sent) := by
  conv_lhs => unfold PacedSender.DrainLoop
  have hc : ¬ (s.packets_ = [] ∨ s.paused_ = true) := by
    rw [hp]
    simp [hq]
  rw [if_neg hc]

/-- The loop ends at once on an empty queue or a paused pacer. -/
theorem DrainLoop_stop (env : PacerEnv) (pacing_info : PacedPacketInfo) (is_probing : Bool)
    (recommended_probe_size : Nat) (fuel : Nat) (s : PacedSender) (bytes_sent : Nat)
    (h : s.packets_ = [] ∨ s.paused_ = true) :
    PacedSender.DrainLoop env pacing_info is_probing recommended_probe_size fuel s bytes_sent
      = (s, bytes_sent) := by
  cases fuel with
  | zero => rfl
  | succ n =>
    unfold PacedSender.DrainLoop
    rw [if_pos h]

/-- C12: if the transport's `TimeToSendPacket` returns false for a packet during
`Process`, the pacer cancels the pop and stops draining for this tick. At any pass of
the drain loop (pacer not paused, `GetPendingPacket` hands out `packet`), a refusal by
the transport ends the loop with the state it had before the pass apart from the
recorded calls `BeginPop`, `TimeToSendPacket`, `CancelPop`: the packet is still the
first of the queue, the queue's size in packets and bytes is unchanged, `bytes_sent`,
the media budget, the padding budget and `outstanding_bytes_` are not charged; and the
padding block that follows sends nothing, the queue not being empty. -/
theorem transport_failure_cancels_pop (env : PacerEnv) (pacing_info : PacedPacketInfo)
    (is_probing : Bool) (recommended_probe_size : Nat) (fuel : Nat) (s : PacedSender)
    (bytes_sent : Nat) (packet : Packet)
    (hp : s.paused_ = false)
    (hpending : (s.GetPendingPacket pacing_info).2 = some packet)
    (hfail : env.TimeToSendPacket
      (PacerEvent.TimeToSendPacket packet.ssrc packet.sequence_number packet.capture_time_ms
        packet.retransmission pacing_info :: PacerEvent.BeginPop :: s.trace) = false) :
    PacedSender.DrainLoop env pacing_info is_probing recommended_probe_size (fuel + 1) s
        bytes_sent =
      ({ s with
          trace :=
            PacerEvent.CancelPop packet ::
              PacerEvent.TimeToSendPacket packet.ssrc packet.sequence_number
                packet.capture_time_ms packet.retransmission pacing_info ::
              PacerEvent.BeginPop :: s.trace },
        bytes_sent) ∧
    (PacedSender.DrainLoop env pacing_info is_probing recommended_probe_size (fuel + 1) s
      bytes_sent).1.packets_ = s.packets_ ∧
    s.packets_.head? = some packet ∧
    (PacedSender.DrainLoop env pacing_info is_probing recommended_probe_size (fuel + 1) s
      bytes_sent).1.packets_.length = s.packets_.length ∧
    ((PacedSender.DrainLoop env pacing_info is_probing recommended_probe_size (fuel + 1) s
      bytes_sent).1.packets_.map fun p => p.bytes).sum = (s.packets_.map fun p => p.bytes).sum ∧
    (PacedSender.DrainLoop env pacing_info is_probing recommended_probe_size (fuel + 1) s
      bytes_sent).1.media_budget_ = s.media_budget_ ∧
    (PacedSender.DrainLoop env pacing_info is_probing recommended_probe_size (fuel + 1) s
      bytes_sent).1.padding_budget_ = s.padding_budget_ ∧
    (PacedSender.DrainLoop env pacing_info is_probing recommended_probe_size (fuel + 1) s
      bytes_sent).1.outstanding_bytes_ = s.outstanding_bytes_ ∧
    PacedSender.ProcessPadding env pacing_info is_probing recommended_probe_size
      (PacedSender.DrainLoop env pacing_info is_probing recommended_probe_size (fuel + 1) s
        bytes_sent).1
      (PacedSender.DrainLoop env pacing_info is_probing recommended_probe_size (fuel + 1) s
        bytes_sent).2 =
      PacedSender.DrainLoop env pacing_info is_probing recommended_probe_size (fuel + 1) s
        bytes_sent := by
  obtain ⟨hq, -, -⟩ := GetPendingPacket_some s pacing_info packet hpending
  have hne : s.packets_ ≠ [] := by rw [hq]; exact List.cons_ne_nil _ _
  have hnot : ¬ env.TimeToSendPacket
      (PacerEvent.TimeToSendPacket packet.ssrc packet.sequence_number packet.capture_time_ms
        packet.retransmission pacing_info :: PacerEvent.BeginPop :: s.trace) = true := by
    rw [hfail]; decide
  have hloop : PacedSender.DrainLoop env pacing_info is_probing recommended_probe_size
      (fuel + 1) s bytes_sent =
      ({ s with
          trace :=
            PacerEvent.CancelPop packet ::
              PacerEvent.TimeToSendPacket packet.ssrc packet.sequence_number
                packet.capture_time_ms packet.retransmission pacing_info ::
              PacerEvent.BeginPop :: s.trace },
        bytes_sent) := by
    rw [DrainLoop_succ env pacing_info is_probing recommended_probe_size fuel s bytes_sent hne hp,
      DrainStep_some env pacing_info is_probing recommended_probe_size s bytes_sent packet
        hpending, if_neg hnot]
    rfl
  rw [hloop]
  refine ⟨rfl, rfl, ?_, rfl, rfl, rfl, rfl, rfl, ?_⟩
  · rw [hq]; rfl
  · unfold PacedSender.ProcessPadding
    have hc : ¬ (s.packets_ = [] ∧ s.Congested = false) := fun h => hne h.1
    exact if_neg hc

/-- Witness for C12: a queue holding one video packet, a transport that refuses. -/
theorem transport_failure_cancels_pop_witness :
    ({ PacedSender.blank with
        media_budget_ := (IntervalBudget.create1 1000).IncreaseBudget 5
        packets_ := [⟨Priority.kNormalPriority, 4660, 7, 100, 100, 1200, false, 0⟩] }).paused_
      = false ∧
    (PacedSender.DrainLoop { PacerEnv.steady 5000 false 0 with TimeToSendPacket := fun _ => false }
      PacedPacketInfo.create false 0 1
      { PacedSender.blank with
        media_budget_ := (IntervalBudget.create1 1000).IncreaseBudget 5
        packets_ := [⟨Priority.kNormalPriority, 4660, 7, 100, 100, 1200, false, 0⟩] } 0).1.packets_
      = [⟨Priority.kNormalPriority, 4660, 7, 100, 100, 1200, false, 0⟩] :=
  ⟨rfl,
    (transport_failure_cancels_pop
      { PacerEnv.steady 5000 false 0 with TimeToSendPacket := fun _ => false }
      PacedPacketInfo.create false 0 0
      { PacedSender.blank with
        media_budget_ := (IntervalBudget.create1 1000).IncreaseBudget 5
        packets_ := [⟨Priority.kNormalPriority, 4660, 7, 100, 100, 1200, false, 0⟩] } 0
      ⟨Priority.kNormalPriority, 4660, 7, 100, 100, 1200, false, 0⟩
      rfl (by decide) rfl).2.1⟩

/-- C13, as stated, fails for audio packets: with `account_for_audio_` off (its initial
value) a high-priority packet that the transport reports as sent is removed from the
queue and counted in `bytes_sent`, but `outstanding_bytes_`, the media budget and the
padding budget are left as they were. -/
theorem audio_packet_not_charged :
    ({ PacedSender.blank with
        media_budget_ := (IntervalBudget.create1 1000).IncreaseBudget 5
        padding_budget_ := (IntervalBudget.create1 100).IncreaseBudget 5
        packets_ := [⟨Priority.kHighPriority, 4660, 7, 100, 100, 160, false, 0⟩] }.DrainStep
      (PacerEnv.steady 5000 false 0) PacedPacketInfo.create false 0 0).state.packets_ = [] ∧
    ({ PacedSender.blank with
        media_budget_ := (IntervalBudget.create1 1000).IncreaseBudget 5
        padding_budget_ := (IntervalBudget.create1 100).IncreaseBudget 5
        packets_ := [⟨Priority.kHighPriority, 4660, 7, 100, 100, 160, false, 0⟩] }.DrainStep
      (PacerEnv.steady 5000 false 0) PacedPacketInfo.create false 0 0).bytes_sent = 160 ∧
    ({ PacedSender.blank with
        media_budget_ := (IntervalBudget.create1 1000).IncreaseBudget 5
        padding_budget_ := (IntervalBudget.create1 100).IncreaseBudget 5
        packets_ := [⟨Priority.kHighPriority, 4660, 7, 100, 100, 160, false, 0⟩] }.DrainStep
      (PacerEnv.steady 5000 false 0) PacedPacketInfo.create false 0 0).state.outstanding_bytes_
      = 0 ∧
    ({ PacedSender.blank with
        media_budget_ := (IntervalBudget.create1 1000).IncreaseBudget 5
        padding_budget_ := (IntervalBudget.create1 100).IncreaseBudget 5
        packets_ := [⟨Priority.kHighPriority, 4660, 7, 100, 100, 160, false, 0⟩] }.DrainStep
      (PacerEnv.steady 5000 false 0) PacedPacketInfo.create false 0 0).state.media_budget_
      = (IntervalBudget.create1 1000).IncreaseBudget 5 ∧
    ((IntervalBudget.create1 1000).IncreaseBudget 5).UseBudget 160
      ≠ (IntervalBudget.create1 1000).IncreaseBudget 5 ∧
    ({ PacedSender.blank with
        media_budget_ := (IntervalBudget.create1 1000).IncreaseBudget 5
        padding_budget_ := (IntervalBudget.create1 100).IncreaseBudget 5
        packets_ := [⟨Priority.kHighPriority, 4660, 7, 100, 100, 160, false, 0⟩] }.DrainStep
      (PacerEnv.steady 5000 false 0) PacedPacketInfo.create false 0 0).state.padding_budget_
      = (IntervalBudget.create1 100).IncreaseBudget 5 := by
  decide

/-- C13 (amended): for every packet that the transport reports as successfully sent
during `Process`, the packet is removed from the queue (`FinalizePop`) and its size is
added to `bytes_sent`; if it is not an audio (high-priority) packet, or
`account_for_audio_` is set, its size is also added to `outstanding_bytes_` and both
the media budget and the padding budget are charged with it (`UseBudget`); an audio
packet sent while `account_for_audio_` is off leaves `outstanding_bytes_` and both
budgets unchanged. -/
theorem packet_sent_accounting (env : PacerEnv) (pacing_info : PacedPacketInfo)
    (is_probing : Bool) (recommended_probe_size : Nat) (s : PacedSender)
    (bytes_sent : Nat) (packet : Packet)
    (hpending : (s.GetPendingPacket pacing_info).2 = some packet)
    (hsent : env.TimeToSendPacket
      (PacerEvent.TimeToSendPacket packet.ssrc packet.sequence_number packet.capture_time_ms
        packet.retransmission pacing_info :: PacerEvent.BeginPop :: s.trace) = true) :
    s.packets_ = packet :: s.packets_.tail ∧
    (s.DrainStep env pacing_info is_probing recommended_probe_size bytes_sent).state.packets_
      = s.packets_.tail ∧
    (s.DrainStep env pacing_info is_probing recommended_probe_size bytes_sent).state.trace.head?
      = some (PacerEvent.FinalizePop packet) ∧
    (s.DrainStep env pacing_info is_probing recommended_probe_size bytes_sent).bytes_sent
      = bytes_sent + packet.bytes ∧
    ((packet.priority ≠ Priority.kHighPriority ∨ s.account_for_audio_ = true) →
      (s.DrainStep env pacing_info is_probing recommended_probe_size
        bytes_sent).state.outstanding_bytes_
        = wrap64 (s.outstanding_bytes_ + (packet.bytes : Int)) ∧
      (s.DrainStep env pacing_info is_probing recommended_probe_size
        bytes_sent).state.media_budget_ = s.media_budget_.UseBudget packet.bytes ∧
      (s.DrainStep env pacing_info is_probing recommended_probe_size
        bytes_sent).state.padding_budget_ = s.padding_budget_.UseBudget packet.bytes) ∧
    ((packet.priority = Priority.kHighPriority ∧ s.account_for_audio_ = false) →
      (s.DrainStep env pacing_info is_probing recommended_probe_size
        bytes_sent).state.outstanding_bytes_ = s.outstanding_bytes_ ∧
      (s.DrainStep env pacing_info is_probing recommended_probe_size
        bytes_sent).state.media_budget_ = s.media_budget_ ∧
      (s.DrainStep env pacing_info is_probing recommended_probe_size
        bytes_sent).state.padding_budget_ = s.padding_budget_) := by
  obtain ⟨hq, -, -⟩ := GetPendingPacket_some s pacing_info packet hpending
  rw [DrainStep_some env pacing_info is_probing recommended_probe_size s bytes_sent packet
    hpending, if_pos hsent]
  dsimp only
  obtain ⟨f1, f2, -, -, -, -, -, f8, f9, f10⟩ := OnPacketSent_fields env
    ((s.call PacerEvent.BeginPop).call
      (PacerEvent.TimeToSendPacket packet.ssrc packet.sequence_number
        packet.capture_time_ms packet.retransmission pacing_info)) packet
  rw [f1, f2, f8, f9, f10]
  refine ⟨hq, rfl, rfl, rfl, ?_, ?_⟩
  · intro hcharge
    have hc : decide (packet.priority = Priority.kHighPriority) = false ∨
        ((s.call PacerEvent.BeginPop).call
          (PacerEvent.TimeToSendPacket packet.ssrc packet.sequence_number
            packet.capture_time_ms packet.retransmission pacing_info)).account_for_audio_
          = true := by
      rcases hcharge with h | h
      · left; exact decide_eq_false h
      · right; exact h
    rw [if_pos hc, if_pos hc, if_pos hc]
    exact ⟨rfl, rfl, rfl⟩
  · rintro ⟨ha, hacc⟩
    have hc : ¬ (decide (packet.priority = Priority.kHighPriority) = false ∨
        ((s.call PacerEvent.BeginPop).call
          (PacerEvent.TimeToSendPacket packet.ssrc packet.sequence_number
            packet.capture_time_ms packet.retransmission pacing_info)).account_for_audio_
          = true) := by
      rintro (h | h)
      · rw [decide_eq_true ha] at h; cases h
      · have h2 : s.account_for_audio_ = true := h
        rw [hacc] at h2; cases h2
    rw [if_neg hc, if_neg hc, if_neg hc]
    exact ⟨rfl, rfl, rfl⟩

/-- Witness for C13 (amended): a 1200-byte video packet sent on a 1000 kbps budget. -/
theorem packet_sent_accounting_witness :
    ({ PacedSender.blank with
        media_budget_ := (IntervalBudget.create1 1000).IncreaseBudget 5
        packets_ := [⟨Priority.kNormalPriority, 4660, 7, 100, 100, 1200, false, 0⟩] }.DrainStep
      (PacerEnv.steady 5000 false 0) PacedPacketInfo.create false 0 0).state.outstanding_bytes_
      = 1200 := by
  rw [((packet_sent_accounting (PacerEnv.steady 5000 false 0) PacedPacketInfo.create false 0
    { PacedSender.blank with
      media_budget_ := (IntervalBudget.create1 1000).IncreaseBudget 5
      packets_ := [⟨Priority.kNormalPriority, 4660, 7, 100, 100, 1200, false, 0⟩] } 0
    ⟨Priority.kNormalPriority, 4660, 7, 100, 100, 1200, false, 0⟩ (by decide) rfl).2.2.2.2.1
      (Or.inl (by decide))).1]
  decide

/-! ### The drain loop of `PacedSender::Process` -/

/-- `UseBudget` leaves the window size alone and stores an `int`. -/
theorem UseBudget_fields (s : IntervalBudget) (n : Nat) :
    (s.UseBudget n).max_bytes_in_budget_ = s.max_bytes_in_budget_ ∧
    (s.UseBudget n).bytes_remaining_ ≤ 2147483647 := by
  unfold IntervalBudget.UseBudget
  refine ⟨rfl, ?_⟩
  dsimp only
  have h1 := (InInt32_wrap32 (s.bytes_remaining_ - static_cast_int n)).2
  have h2 := (InInt32_wrap32 (-s.max_bytes_in_budget_)).2
  exact max_le h1 h2

/-- A budget that is still positive after `UseBudget` was charged exactly. -/
theorem UseBudget_remaining_pos (s : IntervalBudget) (n : Nat) (hn : (n : Int) ≤ 2147483647)
    (hmax0 : 0 ≤ s.max_bytes_in_budget_) (hmax1 : s.max_bytes_in_budget_ ≤ 2147483647)
    (hrem0 : 0 < s.bytes_remaining_) (hrem1 : s.bytes_remaining_ ≤ 2147483647)
    (hpos : 0 < (s.UseBudget n).bytes_remaining_) :
    (s.UseBudget n).bytes_remaining_ = s.bytes_remaining_ - (n : Int) := by
  have hd : InInt32 (s.bytes_remaining_ - (n : Int)) := by
    unfold InInt32
    constructor <;> omega
  have hm : InInt32 (-s.max_bytes_in_budget_) := by
    unfold InInt32
    constructor <;> omega
  rw [UseBudget_eq_exact s n hn hd hm] at hpos ⊢
  dsimp only at hpos ⊢
  rcases le_total (s.bytes_remaining_ - (n : Int)) (-s.max_bytes_in_budget_) with h | h
  · rw [max_eq_right h] at hpos
    omega
  · rw [max_eq_left h]

/-- A pass of the loop body continues only after a packet was handed to the transport
and accepted. -/
theorem DrainStep_continue (env : PacerEnv) (pacing_info : PacedPacketInfo) (is_probing : Bool)
    (recommended_probe_size : Nat) (s : PacedSender) (bytes_sent : Nat)
    (h : (s.DrainStep env pacing_info is_probing recommended_probe_size
      bytes_sent).continue_loop = true) :
    (s.DrainStep env pacing_info is_probing recommended_probe_size bytes_sent).state.packets_
      = s.packets_.tail ∧
    (s.DrainStep env pacing_info is_probing recommended_probe_size bytes_sent).state.paused_
      = s.paused_ := by
  cases hg : (s.GetPendingPacket pacing_info).2 with
  | none =>
    rw [DrainStep_none env pacing_info is_probing recommended_probe_size s bytes_sent hg] at h
    cases h
  | some packet =>
    rw [DrainStep_some env pacing_info is_probing recommended_probe_size s bytes_sent packet
      hg] at h ⊢
    by_cases hok : env.TimeToSendPacket
        (PacerEvent.TimeToSendPacket packet.ssrc packet.sequence_number packet.capture_time_ms
          packet.retransmission pacing_info :: PacerEvent.BeginPop :: s.trace) = true
    · rw [if_pos hok]
      obtain ⟨f1, -, f3, -⟩ := OnPacketSent_fields env
        ((s.call PacerEvent.BeginPop).call
          (PacerEvent.TimeToSendPacket packet.ssrc packet.sequence_number
            packet.capture_time_ms packet.retransmission pacing_info)) packet
      exact ⟨f1, f3⟩
    · rw [if_neg hok] at h
      cases h

/-- The loop never runs out of fuel when given one unit per queued packet: any larger
amount of fuel gives the same result. -/
theorem DrainLoop_fuel (env : PacerEnv) (pacing_info : PacedPacketInfo) (is_probing : Bool)
    (recommended_probe_size : Nat) :
    ∀ (n fuel : Nat) (s : PacedSender) (bytes_sent : Nat),
      s.packets_.length ≤ n → n ≤ fuel →
      PacedSender.DrainLoop env pacing_info is_probing recommended_probe_size fuel s bytes_sent
        = PacedSender.DrainLoop env pacing_info is_probing recommended_probe_size n s
          bytes_sent := by
  intro n
  induction n with
  | zero =>
    intro fuel s bytes_sent hlen _
    have hq : s.packets_ = [] := List.length_eq_zero.mp (Nat.le_zero.mp hlen)
    rw [DrainLoop_stop env pacing_info is_probing recommended_probe_size fuel s bytes_sent
      (Or.inl hq)]
    rfl
  | succ n ih =>
    intro fuel s bytes_sent hlen hfuel
    obtain ⟨f, rfl⟩ : ∃ f, fuel = f + 1 := ⟨fuel - 1, by omega⟩
    by_cases hstop : s.packets_ = [] ∨ s.paused_ = true
    · rw [DrainLoop_stop env pacing_info is_probing recommended_probe_size (f + 1) s bytes_sent
        hstop,
        DrainLoop_stop env pacing_info is_probing recommended_probe_size (n + 1) s bytes_sent
        hstop]
    · have hq : s.packets_ ≠ [] := fun h => hstop (Or.inl h)
      have hp : s.paused_ = false := by
        cases hpp : s.paused_ with
        | false => rfl
        | true => exact absurd (Or.inr hpp) hstop
      rw [DrainLoop_succ env pacing_info is_probing recommended_probe_size f s bytes_sent hq hp,
        DrainLoop_succ env pacing_info is_probing recommended_probe_size n s bytes_sent hq hp]
      by_cases hc : (s.DrainStep env pacing_info is_probing recommended_probe_size
          bytes_sent).continue_loop = true
      · rw [if_pos hc, if_pos hc]
        obtain ⟨ht, -⟩ := DrainStep_continue env pacing_info is_probing recommended_probe_size
          s bytes_sent hc
        apply ih
        · rw [ht, List.length_tail]
          omega
        · omega
      · rw [if_neg hc, if_neg hc]

/-- The bound on the local `bytes_sent` of the drain loop, from any loop head. -/
theorem DrainLoop_bound_aux (env : PacerEnv) (pacing_info : PacedPacketInfo)
    (is_probing : Bool) (recommended_probe_size : Nat) (M R : Nat)
    (hM : (M : Int) ≤ 2147483647)
    (hprobe : is_probing = false →
      pacing_info.probe_cluster_id = PacedPacketInfo.kNotAProbe) :
    ∀ (fuel : Nat) (s : PacedSender) (bytes_sent : Nat),
      (∀ p ∈ s.packets_, p.priority = Priority.kHighPriority →
        s.pace_audio_ = true ∧ s.account_for_audio_ = true) →
      (∀ p ∈ s.packets_, p.bytes ≤ M) →
      0 ≤ s.media_budget_.max_bytes_in_budget_ →
      s.media_budget_.max_bytes_in_budget_ ≤ 2147483647 →
      s.media_budget_.bytes_remaining_ ≤ 2147483647 →
      (is_probing = true → bytes_sent ≤ recommended_probe_size) →
      (is_probing = false → bytes_sent ≤ R + M ∧
        (0 < s.media_budget_.bytes_remaining_ →
          (bytes_sent : Int) + s.media_budget_.bytes_remaining_ ≤ (R : Int))) →
      (PacedSender.DrainLoop env pacing_info is_probing recommended_probe_size fuel s
        bytes_sent).2 ≤ (if is_probing = true then recommended_probe_size else R) + M := by
  intro fuel
  induction fuel with
  | zero =>
    intro s bytes_sent _ _ _ _ _ hpr hnp
    show bytes_sent ≤ _
    cases is_probing with
    | true => have := hpr rfl; simp only [if_true]; omega
    | false => have := (hnp rfl).1; simpa using this
  | succ fuel ih =>
    intro s bytes_sent haudio hsize hmax0 hmax1 hrem1 hpr hnp
    have hfin : bytes_sent ≤ (if is_probing = true then recommended_probe_size else R) + M := by
      cases is_probing with
      | true => have := hpr rfl; simp only [if_true]; omega
      | false => have := (hnp rfl).1; simpa using this
    by_cases hstop : s.packets_ = [] ∨ s.paused_ = true
    · rw [DrainLoop_stop env pacing_info is_probing recommended_probe_size (fuel + 1) s
        bytes_sent hstop]
      exact hfin
    · have hq : s.packets_ ≠ [] := fun h => hstop (Or.inl h)
      have hp : s.paused_ = false := by
        cases hpp : s.paused_ with
        | false => rfl
        | true => exact absurd (Or.inr hpp) hstop
      rw [DrainLoop_succ env pacing_info is_probing recommended_probe_size fuel s bytes_sent
        hq hp]
      cases hg : (s.GetPendingPacket pacing_info).2 with
      | none =>
        rw [DrainStep_none env pacing_info is_probing recommended_probe_size s bytes_sent hg]
        exact hfin
      | some packet =>
        obtain ⟨hcons, -, hgate⟩ := GetPendingPacket_some s pacing_info packet hg
        have hmem : packet ∈ s.packets_ := by
          rw [hcons]
          exact List.mem_cons_self _ _
        have hbytes : packet.bytes ≤ M := hsize packet hmem
        rw [DrainStep_some env pacing_info is_probing recommended_probe_size s bytes_sent
          packet hg]
        by_cases hok : env.TimeToSendPacket
            (PacerEvent.TimeToSendPacket packet.ssrc packet.sequence_number
              packet.capture_time_ms packet.retransmission pacing_info ::
                PacerEvent.BeginPop :: s.trace) = true
        · rw [if_pos hok]
          dsimp only
          obtain ⟨f1, -, -, f4, f5, -, -, f8, -, -⟩ := OnPacketSent_fields env
            ((s.call PacerEvent.BeginPop).call
              (PacerEvent.TimeToSendPacket packet.ssrc packet.sequence_number
                packet.capture_time_ms packet.retransmission pacing_info)) packet
          by_cases hb : is_probing = true ∧ bytes_sent + packet.bytes > recommended_probe_size
          · have hcl : (!decide (is_probing = true ∧
                bytes_sent + packet.bytes > recommended_probe_size)) = false := by
              simp only [hb, and_self, decide_True, Bool.not_true]
            rw [hcl]
            simp only [Bool.false_eq_true, if_false]
            have := hpr hb.1
            rw [if_pos hb.1]
            omega
          · have hcl : (!decide (is_probing = true ∧
                bytes_sent + packet.bytes > recommended_probe_size)) = true := by
              simp only [hb, decide_False, Bool.not_false]
            rw [hcl]
            simp only [if_true]
            have htail : ∀ p ∈ s.packets_.tail, p ∈ s.packets_ :=
              fun p hp => List.mem_of_mem_tail hp
            apply ih
            · intro p hp hprio
              rw [f1] at hp
              rw [f4, f5]
              exact haudio p (htail p hp) hprio
            · intro p hp
              rw [f1] at hp
              exact hsize p (htail p hp)
            · rw [f8]
              split_ifs
              · rw [(UseBudget_fields _ _).1]
                exact hmax0
              · exact hmax0
            · rw [f8]
              split_ifs
              · rw [(UseBudget_fields _ _).1]
                exact hmax1
              · exact hmax1
            · rw [f8]
              split_ifs
              · exact (UseBudget_fields _ _).2
              · exact hrem1
            · intro hpt
              have : ¬ bytes_sent + packet.bytes > recommended_probe_size := fun h => hb ⟨hpt, h⟩
              omega
            · intro hnpt
              obtain ⟨-, hinv⟩ := hnp hnpt
              have hid := hprobe hnpt
              have hpace : (!decide (packet.priority = Priority.kHighPriority) ||
                  s.pace_audio_) = true := by
                by_cases hprio : packet.priority = Priority.kHighPriority
                · rw [(haudio packet hmem hprio).1]
                  simp
                · simp [hprio]
              have hrem0 : 0 < s.media_budget_.bytes_remaining_ := by
                by_contra hneg
                apply hgate
                refine ⟨hpace, Or.inr ⟨?_, hid⟩⟩
                unfold IntervalBudget.bytes_remaining
                have : max 0 s.media_budget_.bytes_remaining_ = 0 := max_eq_left (by omega)
                rw [this]
                rfl
              have hsum := hinv hrem0
              have hcharge : decide (packet.priority = Priority.kHighPriority) = false ∨
                  ((s.call PacerEvent.BeginPop).call
                    (PacerEvent.TimeToSendPacket packet.ssrc packet.sequence_number
                      packet.capture_time_ms packet.retransmission
                      pacing_info)).account_for_audio_ = true := by
                by_cases hprio : packet.priority = Priority.kHighPriority
                · right
                  exact (haudio packet hmem hprio).2
                · left
                  exact decide_eq_false hprio
              rw [f8, if_pos hcharge]
              have hn : (packet.bytes : Int) ≤ 2147483647 := by omega
              refine ⟨by omega, ?_⟩
              intro hpos
              have hexact := UseBudget_remaining_pos s.media_budget_ packet.bytes hn hmax0 hmax1
                hrem0 hrem1 hpos
              have hexact2 : (((s.call PacerEvent.BeginPop).call
                    (PacerEvent.TimeToSendPacket packet.ssrc packet.sequence_number
                      packet.capture_time_ms packet.retransmission
                      pacing_info)).media_budget_.UseBudget packet.bytes).bytes_remaining_ =
                  s.media_budget_.bytes_remaining_ - (packet.bytes : Int) := hexact
              rw [hexact2]
              push_cast
              omega
        · rw [if_neg hok]
          exact hfin

/-- When `Process` does not return at the check of `paused_`, its local `bytes_sent` is
what the padding block adds to the `bytes_sent` of the drain loop, the loop starting at
0 with one unit of fuel for each queued packet. -/
theorem ProcessRun_bytes_sent (env : PacerEnv) (s : PacedSender)
    (hp : (s.ProcessAfterKeepalive env).paused_ = false) :
    (s.ProcessRun env).2 =
      (PacedSender.ProcessPadding env (s.ProcessLoopEntry env).pacing_info
        (s.ProcessLoopEntry env).is_probing (s.ProcessLoopEntry env).recommended_probe_size
        (s.ProcessLoopExit env).1 (s.ProcessLoopExit env).2).2 := by
  have hp2 : ¬ (s.ProcessAfterKeepalive env).paused_ = true := by
    rw [hp]
    decide
  unfold PacedSender.ProcessRun PacedSender.ProcessLoopExit PacedSender.ProcessLoopEntry
  unfold PacedSender.ProcessAfterKeepalive at hp2 ⊢
  dsimp only at hp2 ⊢
  rw [if_neg hp2]

/-- Outside a probe `Process` drains with `PacedPacketInfo()`, whose cluster id is
`kNotAProbe`. -/
theorem ProcessBegin_not_probing (env : PacerEnv) (s : PacedSender)
    (now_us elapsed_time_ms : Int)
    (h : (s.ProcessBegin env now_us elapsed_time_ms).is_probing = false) :
    (s.ProcessBegin env now_us elapsed_time_ms).pacing_info.probe_cluster_id
      = PacedPacketInfo.kNotAProbe := by
  unfold PacedSender.ProcessBegin at h ⊢
  dsimp only at h ⊢
  split_ifs at h ⊢
  rfl

/-- The padding block adds to `bytes_sent` nothing, or what the transport reports for
one `TimeToSendPadding` request. -/
theorem ProcessPadding_bytes_sent (env : PacerEnv) (pacing_info : PacedPacketInfo)
    (is_probing : Bool) (recommended_probe_size : Nat) (s : PacedSender) (bytes_sent : Nat) :
    (PacedSender.ProcessPadding env pacing_info is_probing recommended_probe_size s
      bytes_sent).2 = bytes_sent ∨
    ∃ requested : Nat,
      (PacedSender.ProcessPadding env pacing_info is_probing recommended_probe_size s
        bytes_sent).2 =
        bytes_sent +
          env.TimeToSendPadding (PacerEvent.TimeToSendPadding requested pacing_info :: s.trace) := by
  unfold PacedSender.ProcessPadding
  dsimp only
  split_ifs <;> first
    | exact Or.inl rfl
    | exact Or.inr ⟨_, rfl⟩

/-- C11, as stated, fails: the loop sends a packet whenever the media budget has
something left, whatever the packet's size. At 8 kbps the window holds 500 bytes; a
tick 5 ms after the previous one finds 5 bytes in the budget and hands the queued
1200-byte packet to the transport, with no probe active (recommended probe size 0). -/
theorem process_tick_exceeds_budget :
    ({ PacedSender.blank with
        pacing_bitrate_kbps_ := 8
        packet_counter_ := 1
        packets_ := [⟨Priority.kNormalPriority, 4660, 7, 0, 0, 1200, false, 0⟩] }.ProcessRun
      (PacerEnv.steady 5000 false 0)).2 = 1200 ∧
    ({ PacedSender.blank with
        pacing_bitrate_kbps_ := 8
        packet_counter_ := 1
        packets_ := [⟨Priority.kNormalPriority, 4660, 7, 0, 0, 1200, false, 0⟩] }.ProcessRun
      (PacerEnv.steady 5000 false 0)).1.media_budget_.max_bytes_in_budget_ = 500 ∧
    ({ PacedSender.blank with
        pacing_bitrate_kbps_ := 8
        packet_counter_ := 1
        packets_ :=
          [⟨Priority.kNormalPriority, 4660, 7, 0, 0, 1200, false, 0⟩] }.ProcessLoopEntry
      (PacerEnv.steady 5000 false 0)).state.media_budget_.max_bytes_in_budget_ = 500 ∧
    ({ PacedSender.blank with
        pacing_bitrate_kbps_ := 8
        packet_counter_ := 1
        packets_ :=
          [⟨Priority.kNormalPriority, 4660, 7, 0, 0, 1200, false, 0⟩] }.ProcessLoopEntry
      (PacerEnv.steady 5000 false 0)).recommended_probe_size = 0 ∧
    ¬ ((({ PacedSender.blank with
        pacing_bitrate_kbps_ := 8
        packet_counter_ := 1
        packets_ := [⟨Priority.kNormalPriority, 4660, 7, 0, 0, 1200, false, 0⟩] }.ProcessRun
      (PacerEnv.steady 5000 false 0)).2 : Int) ≤
      ({ PacedSender.blank with
        pacing_bitrate_kbps_ := 8
        packet_counter_ := 1
        packets_ := [⟨Priority.kNormalPriority, 4660, 7, 0, 0, 1200, false, 0⟩] }.ProcessRun
      (PacerEnv.steady 5000 false 0)).1.media_budget_.max_bytes_in_budget_ +
      (({ PacedSender.blank with
        pacing_bitrate_kbps_ := 8
        packet_counter_ := 1
        packets_ :=
          [⟨Priority.kNormalPriority, 4660, 7, 0, 0, 1200, false, 0⟩] }.ProcessLoopEntry
      (PacerEnv.steady 5000 false 0)).recommended_probe_size : Int)) := by
  decide

/-- C11 (amended): within one `Process` tick that passes the check of `paused_`, if
every queued audio (high-priority) packet is paced and accounted for, no queued packet
is larger than `M` bytes (`M` fitting an `int`), and the media budget at loop entry has
a window `0 ≤ max_bytes` and `bytes_remaining_ ≤ max_bytes`, then the bytes of media
packets handed to the transport are at most `recommended_probe_size + M` while probing
and at most `media_budget.bytes_remaining + M` otherwise, hence at most
`media_budget.max_bytes + recommended_probe_size + M`; the total `bytes_sent` of the
tick is that amount plus, at most once, whatever the transport reports for a
`TimeToSendPadding` request. -/
theorem process_tick_bytes_bound (env : PacerEnv) (s : PacedSender) (M : Nat)
    (hp : (s.ProcessAfterKeepalive env).paused_ = false)
    (hM : (M : Int) ≤ 2147483647)
    (haudio : ∀ p ∈ (s.ProcessLoopEntry env).state.packets_,
      p.priority = Priority.kHighPriority →
        (s.ProcessLoopEntry env).state.pace_audio_ = true ∧
        (s.ProcessLoopEntry env).state.account_for_audio_ = true)
    (hsize : ∀ p ∈ (s.ProcessLoopEntry env).state.packets_, p.bytes ≤ M)
    (hmax0 : 0 ≤ (s.ProcessLoopEntry env).state.media_budget_.max_bytes_in_budget_)
    (hmax1 : (s.ProcessLoopEntry env).state.media_budget_.max_bytes_in_budget_ ≤ 2147483647)
    (hrem : (s.ProcessLoopEntry env).state.media_budget_.bytes_remaining_ ≤
      (s.ProcessLoopEntry env).state.media_budget_.max_bytes_in_budget_) :
    (s.ProcessLoopExit env).2 ≤
      (if (s.ProcessLoopEntry env).is_probing = true then
        (s.ProcessLoopEntry env).recommended_probe_size
      else (s.ProcessLoopEntry env).state.media_budget_.bytes_remaining) + M ∧
    (s.ProcessLoopExit env).2 ≤
      (s.ProcessLoopEntry env).state.media_budget_.max_bytes_in_budget_.toNat +
        (s.ProcessLoopEntry env).recommended_probe_size + M ∧
    ((s.ProcessRun env).2 = (s.ProcessLoopExit env).2 ∨
      ∃ requested : Nat,
        (s.ProcessRun env).2 =
          (s.ProcessLoopExit env).2 +
            env.TimeToSendPadding
              (PacerEvent.TimeToSendPadding requested (s.ProcessLoopEntry env).pacing_info ::
                (s.ProcessLoopExit env).1.trace)) := by
  have hprobe : (s.ProcessLoopEntry env).is_probing = false →
      (s.ProcessLoopEntry env).pacing_info.probe_cluster_id = PacedPacketInfo.kNotAProbe :=
    fun h => ProcessBegin_not_probing env _ _ _ h
  have hR : (((s.ProcessLoopEntry env).state.media_budget_.bytes_remaining : Nat) : Int) =
      max 0 (s.ProcessLoopEntry env).state.media_budget_.bytes_remaining_ := by
    unfold IntervalBudget.bytes_remaining
    exact Int.toNat_of_nonneg (le_max_left _ _)
  have hbound := DrainLoop_bound_aux env (s.ProcessLoopEntry env).pacing_info
    (s.ProcessLoopEntry env).is_probing (s.ProcessLoopEntry env).recommended_probe_size M
    (s.ProcessLoopEntry env).state.media_budget_.bytes_remaining hM hprobe
    (s.ProcessLoopEntry env).state.packets_.length (s.ProcessLoopEntry env).state 0
    haudio hsize hmax0 hmax1 (le_trans hrem hmax1) (fun _ => Nat.zero_le _)
    (fun _ => ⟨Nat.zero_le _, fun hpos => by
      rw [hR, max_eq_right (le_of_lt hpos)]
      push_cast
      omega⟩)
  have hexit : (s.ProcessLoopExit env).2 ≤
      (if (s.ProcessLoopEntry env).is_probing = true then
        (s.ProcessLoopEntry env).recommended_probe_size
      else (s.ProcessLoopEntry env).state.media_budget_.bytes_remaining) + M := hbound
  refine ⟨hexit, ?_, ?_⟩
  · have hle : (s.ProcessLoopEntry env).state.media_budget_.bytes_remaining ≤
        (s.ProcessLoopEntry env).state.media_budget_.max_bytes_in_budget_.toNat := by
      have h1 : (((s.ProcessLoopEntry env).state.media_budget_.bytes_remaining : Nat) : Int) ≤
          (s.ProcessLoopEntry env).state.media_budget_.max_bytes_in_budget_ := by
        rw [hR]
        exact max_le hmax0 hrem
      omega
    refine le_trans hexit ?_
    split_ifs <;> omega
  · rw [ProcessRun_bytes_sent env s hp]
    exact ProcessPadding_bytes_sent env _ _ _ _ _

/-- Witness for C11 (amended): the tick of the counterexample, with `M = 1200`. -/
theorem process_tick_bytes_bound_witness :
    ({ PacedSender.blank with
        pacing_bitrate_kbps_ := 8
        packet_counter_ := 1
        packets_ :=
          [⟨Priority.kNormalPriority, 4660, 7, 0, 0, 1200, false, 0⟩] }.ProcessLoopExit
      (PacerEnv.steady 5000 false 0)).2 ≤ 5 + 1200 :=
  (process_tick_bytes_bound (PacerEnv.steady 5000 false 0)
    { PacedSender.blank with
      pacing_bitrate_kbps_ := 8
      packet_counter_ := 1
      packets_ := [⟨Priority.kNormalPriority, 4660, 7, 0, 0, 1200, false, 0⟩] } 1200
    (by decide) (by decide) (by decide) (by decide) (by decide) (by decide) (by decide)).1

/-! ## Theorems: the keepalive block and the gate of `PacedSender::Process` -/

/-- `ShouldSendKeepalive` spelled out. -/
theorem ShouldSendKeepalive_iff (s : PacedSender) (now_us : Int) :
    s.ShouldSendKeepalive now_us = true ↔
      (s.send_padding_if_silent_ = true ∨ s.paused_ = true ∨ s.Congested = true) ∧
      wrap64 (now_us - s.last_send_time_us_) ≥ kCongestedPacketIntervalMs * 1000 ∧
      s.packet_counter_ > 0 := by
  unfold PacedSender.ShouldSendKeepalive
  dsimp only
  split_ifs <;> simp_all

/-- The state `UpdateTimeAndGetElapsedMs` leaves. -/
theorem UpdateTimeAndGetElapsedMs_fst (s : PacedSender) (now_us : Int) :
    (s.UpdateTimeAndGetElapsedMs now_us).1 = { s with time_last_process_us_ := now_us } := by
  unfold PacedSender.UpdateTimeAndGetElapsedMs
  dsimp only
  split_ifs <;> rfl

/-- The state `Process` checks `paused_` in, when the keepalive is due. -/
theorem ProcessAfterKeepalive_due (env : PacerEnv) (s : PacedSender)
    (h : ({ s with time_last_process_us_ := s.process_now_us env }).ShouldSendKeepalive
      (s.process_now_us env) = true) :
    s.ProcessAfterKeepalive env =
      (if s.alr_detector_ = true then
        ((((s.call PacerEvent.TimeInMicroseconds).UpdateTimeAndGetElapsedMs
          (s.process_now_us env)).1.call
            (PacerEvent.TimeToSendPadding 1 PacedPacketInfo.create)).OnPaddingSent env
              (s.keepalive_bytes_sent env)).call
          (PacerEvent.AlrOnBytesSent (s.keepalive_bytes_sent env)
            (Int.tdiv (s.process_now_us env) 1000))
      else
        (((s.call PacerEvent.TimeInMicroseconds).UpdateTimeAndGetElapsedMs
          (s.process_now_us env)).1.call
            (PacerEvent.TimeToSendPadding 1 PacedPacketInfo.create)).OnPaddingSent env
              (s.keepalive_bytes_sent env)) := by
  have h2 : ((s.call PacerEvent.TimeInMicroseconds).UpdateTimeAndGetElapsedMs
      (s.process_now_us env)).1.ShouldSendKeepalive (s.process_now_us env) = true := by
    rw [UpdateTimeAndGetElapsedMs_fst, ShouldSendKeepalive_iff]
    rw [ShouldSendKeepalive_iff] at h
    exact h
  unfold PacedSender.ProcessAfterKeepalive PacedSender.ProcessKeepalive
  dsimp only
  have hnow : env.TimeInMicroseconds (s.call PacerEvent.TimeInMicroseconds).trace
      = s.process_now_us env := rfl
  rw [hnow, if_pos h2]
  have hfl : (((s.call PacerEvent.TimeInMicroseconds).UpdateTimeAndGetElapsedMs
      (s.process_now_us env)).1.call
        (PacerEvent.TimeToSendPadding 1 PacedPacketInfo.create)).trace =
      PacerEvent.TimeToSendPadding 1 PacedPacketInfo.create ::
        PacerEvent.TimeInMicroseconds :: s.trace := by
    rw [UpdateTimeAndGetElapsedMs_fst]
    rfl
  have halr : ∀ b, ((((s.call PacerEvent.TimeInMicroseconds).UpdateTimeAndGetElapsedMs
      (s.process_now_us env)).1.call
        (PacerEvent.TimeToSendPadding 1 PacedPacketInfo.create)).OnPaddingSent env
          b).alr_detector_ = s.alr_detector_ := by
    intro b
    rw [UpdateTimeAndGetElapsedMs_fst]
    unfold PacedSender.OnPaddingSent PacedSender.UpdateBudgetWithBytesSent
    dsimp only
    split_ifs <;> rfl
  unfold PacedSender.keepalive_bytes_sent
  rw [← hfl, halr]

/-- The state `Process` checks `paused_` in, when no keepalive is due: only the clock
was read and `time_last_process_us_` updated. -/
theorem ProcessAfterKeepalive_not_due (env : PacerEnv) (s : PacedSender)
    (h : ¬ ({ s with time_last_process_us_ := s.process_now_us env }).ShouldSendKeepalive
      (s.process_now_us env) = true) :
    s.ProcessAfterKeepalive env =
      { s with
        time_last_process_us_ := s.process_now_us env
        trace := PacerEvent.TimeInMicroseconds :: s.trace } := by
  have h2 : ¬ ((s.call PacerEvent.TimeInMicroseconds).UpdateTimeAndGetElapsedMs
      (s.process_now_us env)).1.ShouldSendKeepalive (s.process_now_us env) = true := by
    rw [UpdateTimeAndGetElapsedMs_fst, ShouldSendKeepalive_iff]
    rw [ShouldSendKeepalive_iff] at h
    exact h
  unfold PacedSender.ProcessAfterKeepalive PacedSender.ProcessKeepalive
  dsimp only
  have hnow : env.TimeInMicroseconds (s.call PacerEvent.TimeInMicroseconds).trace
      = s.process_now_us env := rfl
  rw [hnow, if_neg h2, UpdateTimeAndGetElapsedMs_fst]
  rfl

/-- What `OnPaddingSent` leaves alone, and the clock call it records. -/
theorem OnPaddingSent_fields (env : PacerEnv) (s : PacedSender) (bytes_sent : Nat) :
    (s.OnPaddingSent env bytes_sent).trace = PacerEvent.TimeInMicroseconds :: s.trace ∧
    (s.OnPaddingSent env bytes_sent).packets_ = s.packets_ ∧
    (s.OnPaddingSent env bytes_sent).paused_ = s.paused_ ∧
    (s.OnPaddingSent env bytes_sent).alr_detector_ = s.alr_detector_ := by
  unfold PacedSender.OnPaddingSent PacedSender.UpdateBudgetWithBytesSent PacedSender.call
  dsimp only
  split_ifs <;> exact ⟨rfl, rfl, rfl, rfl⟩

/-- `Process` by cases on `paused_` after the keepalive block. -/
theorem ProcessRun_cases (env : PacerEnv) (s : PacedSender) :
    s.ProcessRun env =
      if (s.ProcessAfterKeepalive env).paused_ = true then (s.ProcessAfterKeepalive env, 0)
      else
        (PacedSender.ProcessFinish env (s.ProcessLoopEntry env).is_probing
          (s.ProcessLoopEntry env).now_us
          (PacedSender.ProcessPadding env (s.ProcessLoopEntry env).pacing_info
            (s.ProcessLoopEntry env).is_probing (s.ProcessLoopEntry env).recommended_probe_size
            (s.ProcessLoopExit env).1 (s.ProcessLoopExit env).2).1
          (PacedSender.ProcessPadding env (s.ProcessLoopEntry env).pacing_info
            (s.ProcessLoopEntry env).is_probing (s.ProcessLoopEntry env).recommended_probe_size
            (s.ProcessLoopExit env).1 (s.ProcessLoopExit env).2).2,
        (PacedSender.ProcessPadding env (s.ProcessLoopEntry env).pacing_info
          (s.ProcessLoopEntry env).is_probing (s.ProcessLoopEntry env).recommended_probe_size
          (s.ProcessLoopExit env).1 (s.ProcessLoopExit env).2).2) := by
  rfl

/-- C21, as stated, fails: a pacer that pads in silence and is neither paused nor
congested, 600 ms after its last send, with a packet sent before and one packet queued,
requests the 1-byte keepalive padding and then goes on: the queued packet is handed to
the transport in the same `Process`, which does not return without draining. -/
theorem keepalive_then_drains :
    PacedSender.silent.send_padding_if_silent_ = true ∧
    wrap64 (PacedSender.silent.process_now_us (PacerEnv.steady 600000 false 0) -
      PacedSender.silent.last_send_time_us_) ≥ 500 * 1000 ∧
    PacedSender.silent.first_sent_packet_ms_ ≠ -1 ∧
    PacedSender.silent.packet_counter_ > 0 ∧
    PacedSender.silent.packets_ =
      [⟨Priority.kNormalPriority, 4660, 8, 590, 590, 1200, false, 1⟩] ∧
    (PacedSender.silent.ProcessRun (PacerEnv.steady 600000 false 0)).1.trace =
      [PacerEvent.FinalizePop ⟨Priority.kNormalPriority, 4660, 8, 590, 590, 1200, false, 1⟩,
        PacerEvent.TimeInMicroseconds,
        PacerEvent.TimeToSendPacket 4660 8 590 false PacedPacketInfo.create,
        PacerEvent.BeginPop,
        PacerEvent.IsProbing,
        PacerEvent.AverageQueueTimeMs,
        PacerEvent.UpdateQueueTime 600,
        PacerEvent.TimeInMilliseconds,
        PacerEvent.TimeInMicroseconds,
        PacerEvent.TimeToSendPadding 1 PacedPacketInfo.create,
        PacerEvent.TimeInMicroseconds] ∧
    (PacedSender.silent.ProcessRun (PacerEnv.steady 600000 false 0)).1.packets_ = [] ∧
    (PacedSender.silent.ProcessRun (PacerEnv.steady 600000 false 0)).2 = 1200 := by
  decide

/-- C21 (amended): in `Process`, if (`send_padding_if_silent_` or `paused_` or congested)
and now - `last_send_time_us_` >= 500 ms and at least one media packet has ever been
sent (so that `packet_counter_ > 0`), the pacer first makes exactly one
`TimeToSendPadding(1, PacedPacketInfo())` request (followed by the clock reading of
`OnPaddingSent` and, with an ALR detector, its `OnBytesSent`), the queue being untouched;
it then returns without draining the queue when it is paused, and otherwise goes on with
the budget update, the drain loop and the padding block of the tick. If none of the
three flags holds, or less than 500 ms have elapsed since the last send, or no packet
has ever been inserted, no keepalive padding is requested: up to the check of `paused_`
only the clock is read. -/
theorem Process_keepalive (env : PacerEnv) (s : PacedSender) :
    ((s.send_padding_if_silent_ = true ∨ s.paused_ = true ∨ s.Congested = true) →
      wrap64 (s.process_now_us env - s.last_send_time_us_) ≥ kCongestedPacketIntervalMs * 1000 →
      s.first_sent_packet_ms_ ≠ -1 → s.packet_counter_ > 0 →
        (s.ProcessAfterKeepalive env).trace =
          (if s.alr_detector_ = true then
            [PacerEvent.AlrOnBytesSent (s.keepalive_bytes_sent env)
              (Int.tdiv (s.process_now_us env) 1000)]
          else []) ++
          (PacerEvent.TimeInMicroseconds ::
            PacerEvent.TimeToSendPadding 1 PacedPacketInfo.create ::
            PacerEvent.TimeInMicroseconds :: s.trace) ∧
        (s.ProcessAfterKeepalive env).packets_ = s.packets_ ∧
        (s.paused_ = true → s.ProcessRun env = (s.ProcessAfterKeepalive env, 0)) ∧
        (s.paused_ = false →
          s.ProcessRun env =
            (PacedSender.ProcessFinish env (s.ProcessLoopEntry env).is_probing
              (s.ProcessLoopEntry env).now_us
              (PacedSender.ProcessPadding env (s.ProcessLoopEntry env).pacing_info
                (s.ProcessLoopEntry env).is_probing
                (s.ProcessLoopEntry env).recommended_probe_size
                (s.ProcessLoopExit env).1 (s.ProcessLoopExit env).2).1
              (PacedSender.ProcessPadding env (s.ProcessLoopEntry env).pacing_info
                (s.ProcessLoopEntry env).is_probing
                (s.ProcessLoopEntry env).recommended_probe_size
                (s.ProcessLoopExit env).1 (s.ProcessLoopExit env).2).2,
            (PacedSender.ProcessPadding env (s.ProcessLoopEntry env).pacing_info
              (s.ProcessLoopEntry env).is_probing
              (s.ProcessLoopEntry env).recommended_probe_size
              (s.ProcessLoopExit env).1 (s.ProcessLoopExit env).2).2))) ∧
    ((¬ (s.send_padding_if_silent_ = true ∨ s.paused_ = true ∨ s.Congested = true) ∨
        wrap64 (s.process_now_us env - s.last_send_time_us_) < kCongestedPacketIntervalMs * 1000 ∨
        s.packet_counter_ = 0) →
      s.ProcessAfterKeepalive env =
        { s with
          time_last_process_us_ := s.process_now_us env
          trace := PacerEvent.TimeInMicroseconds :: s.trace }) := by
  constructor
  · intro hflags helapsed _ hcount
    have hdue : ({ s with time_last_process_us_ := s.process_now_us env }).ShouldSendKeepalive
        (s.process_now_us env) = true := by
      rw [ShouldSendKeepalive_iff]
      exact ⟨hflags, helapsed, hcount⟩
    have hstate := ProcessAfterKeepalive_due env s hdue
    obtain ⟨t1, q1, p1, -⟩ := OnPaddingSent_fields env
      (((s.call PacerEvent.TimeInMicroseconds).UpdateTimeAndGetElapsedMs
        (s.process_now_us env)).1.call
          (PacerEvent.TimeToSendPadding 1 PacedPacketInfo.create))
      (s.keepalive_bytes_sent env)
    rw [UpdateTimeAndGetElapsedMs_fst] at hstate t1 q1 p1
    have htrace : (s.ProcessAfterKeepalive env).trace =
        (if s.alr_detector_ = true then
          [PacerEvent.AlrOnBytesSent (s.keepalive_bytes_sent env)
            (Int.tdiv (s.process_now_us env) 1000)]
        else []) ++
        (PacerEvent.TimeInMicroseconds ::
          PacerEvent.TimeToSendPadding 1 PacedPacketInfo.create ::
          PacerEvent.TimeInMicroseconds :: s.trace) := by
      rw [hstate]
      by_cases ha : s.alr_detector_ = true
      · rw [if_pos ha, if_pos ha]
        show _ :: _ = _
        rw [t1]
        rfl
      · rw [if_neg ha, if_neg ha, t1]
        rfl
    have hq : (s.ProcessAfterKeepalive env).packets_ = s.packets_ := by
      rw [hstate]
      by_cases ha : s.alr_detector_ = true
      · rw [if_pos ha]
        show PacedSender.packets_ (PacedSender.OnPaddingSent env _ _) = _
        rw [q1]
        rfl
      · rw [if_neg ha, q1]
        rfl
    have hp : (s.ProcessAfterKeepalive env).paused_ = s.paused_ := by
      rw [hstate]
      by_cases ha : s.alr_detector_ = true
      · rw [if_pos ha]
        show PacedSender.paused_ (PacedSender.OnPaddingSent env _ _) = _
        rw [p1]
        rfl
      · rw [if_neg ha, p1]
        rfl
    refine ⟨htrace, hq, ?_, ?_⟩
    · intro hpaused
      rw [ProcessRun_cases, hp, if_pos hpaused]
    · intro hpaused
      have hnp : ¬ s.paused_ = true := by
        rw [hpaused]
        decide
      rw [ProcessRun_cases, hp, if_neg hnp]
  · intro h
    apply ProcessAfterKeepalive_not_due
    rw [ShouldSendKeepalive_iff]
    rintro ⟨hflags, helapsed, hcount⟩
    rcases h with h | h | h
    · exact h hflags
    · exact absurd helapsed (not_le.mpr h)
    · have h2 : s.packet_counter_ > 0 := hcount
      omega

/-- Witness for C21 (amended): the pacer of the counterexample requests its keepalive
and, not being paused, goes on; the same pacer with nothing ever inserted requests no
keepalive. -/
theorem Process_keepalive_witness :
    (PacedSender.silent.ProcessAfterKeepalive (PacerEnv.steady 600000 false 0)).trace =
      [PacerEvent.TimeInMicroseconds,
        PacerEvent.TimeToSendPadding 1 PacedPacketInfo.create,
        PacerEvent.TimeInMicroseconds] ∧
    ({ PacedSender.silent with packet_counter_ := 0 }.ProcessAfterKeepalive
      (PacerEnv.steady 600000 false 0)).trace = [PacerEvent.TimeInMicroseconds] :=
  ⟨((Process_keepalive (PacerEnv.steady 600000 false 0) PacedSender.silent).1
      (Or.inl rfl) (by decide) (by decide) (by decide)).1,
    congrArg PacedSender.trace
      ((Process_keepalive (PacerEnv.steady 600000 false 0)
        { PacedSender.silent with packet_counter_ := 0 }).2 (Or.inr (Or.inr rfl)))⟩

/-- `GetPendingPacket` on a non-empty queue, by cases on its gate. -/
theorem GetPendingPacket_cons (s : PacedSender) (pacing_info : PacedPacketInfo)
    (packet : Packet) (rest : List Packet) (hq : s.packets_ = packet :: rest) :
    s.GetPendingPacket pacing_info =
      if (!decide (packet.priority = Priority.kHighPriority) || s.pace_audio_) = true ∧
          (s.Congested = true ∨
            (s.media_budget_.bytes_remaining = 0 ∧
              pacing_info.probe_cluster_id = PacedPacketInfo.kNotAProbe)) then
        ((s.call PacerEvent.BeginPop).call (PacerEvent.CancelPop packet), none)
      else (s.call PacerEvent.BeginPop, some packet) := by
  unfold PacedSender.GetPendingPacket
  rw [hq]
  rfl

/-- C22, as stated, fails: with no field trials the constructor sets `pace_audio_`, so
audio packets are paced like the others. A pacer constructed without field trials whose
queue holds one audio packet does not hand it out while the media budget is empty (as
it is right after construction), nor when it is congested (window 1000 bytes, 2000
bytes outstanding): `GetPendingPacket` cancels the pop and returns no packet. -/
theorem audio_is_paced_by_default :
    (PacedSender.create (PacerEnv.steady 0 false 0) WebRtcKeyValueConfig.no_trials
      ParseFieldTrial_default).pace_audio_ = true ∧
    Packet.audio.priority = Priority.kHighPriority ∧
    ({ PacedSender.create (PacerEnv.steady 0 false 0) WebRtcKeyValueConfig.no_trials
        ParseFieldTrial_default with
        packets_ := [Packet.audio]
        packet_counter_ := 1 }.GetPendingPacket PacedPacketInfo.create).2 = none ∧
    ({ PacedSender.create (PacerEnv.steady 0 false 0) WebRtcKeyValueConfig.no_trials
        ParseFieldTrial_default with
        media_budget_ := (IntervalBudget.create1 1000).IncreaseBudget 5
        congestion_window_bytes_ := 1000
        outstanding_bytes_ := 2000
        packets_ := [Packet.audio]
        packet_counter_ := 1 }.GetPendingPacket PacedPacketInfo.create) =
      ({ PacedSender.create (PacerEnv.steady 0 false 0) WebRtcKeyValueConfig.no_trials
          ParseFieldTrial_default with
          media_budget_ := (IntervalBudget.create1 1000).IncreaseBudget 5
          congestion_window_bytes_ := 1000
          outstanding_bytes_ := 2000
          packets_ := [Packet.audio]
          packet_counter_ := 1
          trace :=
            [PacerEvent.CancelPop Packet.audio, PacerEvent.BeginPop,
              PacerEvent.TimeInMicroseconds, PacerEvent.TimeInMicroseconds,
              PacerEvent.TimeInMicroseconds, PacerEvent.TimeInMilliseconds] }, none) := by
  refine ⟨by decide, rfl, by decide, ?_⟩
  rfl

/-- C22 (amended): gating decision of the drain loop. The constructor sets `pace_audio_`
unless the field trial "WebRTC-Pacer-BlockAudio" starts with "Disabled", so with the
default configuration (no field trials) audio packets are paced like all others. For
every paced entry (not high priority, or `pace_audio_` set) `GetPendingPacket` cancels
the pop and returns no packet iff the pacer is congested or
(`media_budget_.bytes_remaining() == 0` and the pacing info is not a probe cluster), and
returns the entry otherwise; with `pace_audio_` off, an audio (high-priority) entry is
returned even when congested or when the media budget is exhausted. -/
theorem GetPendingPacket_gate (env : PacerEnv) (field_trials : WebRtcKeyValueConfig)
    (ParseFieldTrial : Int → String → Int) (s : PacedSender) (pacing_info : PacedPacketInfo)
    (packet : Packet) (rest : List Packet) (hq : s.packets_ = packet :: rest) :
    (PacedSender.create env field_trials ParseFieldTrial).pace_audio_ =
      !IsDisabled field_trials "WebRTC-Pacer-BlockAudio" ∧
    (PacedSender.create env WebRtcKeyValueConfig.no_trials ParseFieldTrial).pace_audio_ = true ∧
    ((packet.priority ≠ Priority.kHighPriority ∨ s.pace_audio_ = true) →
      ((s.GetPendingPacket pacing_info).2 = none ↔
        (s.Congested = true ∨
          (s.media_budget_.bytes_remaining = 0 ∧
            pacing_info.probe_cluster_id = PacedPacketInfo.kNotAProbe))) ∧
      ((s.GetPendingPacket pacing_info).2 = none →
        (s.GetPendingPacket pacing_info).1 =
          (s.call PacerEvent.BeginPop).call (PacerEvent.CancelPop packet)) ∧
      ((s.GetPendingPacket pacing_info).2 ≠ none →
        s.GetPendingPacket pacing_info = (s.call PacerEvent.BeginPop, some packet))) ∧
    ((packet.priority = Priority.kHighPriority ∧ s.pace_audio_ = false) →
      s.GetPendingPacket pacing_info = (s.call PacerEvent.BeginPop, some packet)) := by
  have hcons := GetPendingPacket_cons s pacing_info packet rest hq
  refine ⟨?_, ?_, ?_, ?_⟩
  · unfold PacedSender.create PacedSender.UpdateBudgetWithElapsedTime
    rfl
  · unfold PacedSender.create PacedSender.UpdateBudgetWithElapsedTime
    rfl
  · intro hpaced
    have hpace : (!decide (packet.priority = Priority.kHighPriority) || s.pace_audio_) = true := by
      rcases hpaced with h | h
      · simp [h]
      · simp [h]
    by_cases hg : s.Congested = true ∨
        (s.media_budget_.bytes_remaining = 0 ∧
          pacing_info.probe_cluster_id = PacedPacketInfo.kNotAProbe)
    · rw [hcons, if_pos ⟨hpace, hg⟩]
      exact ⟨⟨fun _ => hg, fun _ => rfl⟩, fun _ => rfl, fun h => absurd rfl h⟩
    · have hng : ¬ ((!decide (packet.priority = Priority.kHighPriority) || s.pace_audio_) = true ∧
          (s.Congested = true ∨
            (s.media_budget_.bytes_remaining = 0 ∧
              pacing_info.probe_cluster_id = PacedPacketInfo.kNotAProbe))) := fun h => hg h.2
      rw [hcons, if_neg hng]
      refine ⟨⟨fun h => ?_, fun h => absurd h hg⟩, fun h => ?_, fun _ => rfl⟩
      · cases h
      · cases h
  · rintro ⟨hprio, hpa⟩
    have hng : ¬ ((!decide (packet.priority = Priority.kHighPriority) || s.pace_audio_) = true ∧
        (s.Congested = true ∨
          (s.media_budget_.bytes_remaining = 0 ∧
            pacing_info.probe_cluster_id = PacedPacketInfo.kNotAProbe))) := by
      rintro ⟨h, -⟩
      rw [hpa] at h
      simp [hprio] at h
    rw [hcons, if_neg hng]

/-- Witness for C22 (amended): a congested pacer with `pace_audio_` off still hands out
the audio packet at the head of its queue. -/
theorem GetPendingPacket_gate_witness :
    { PacedSender.blank with
        pace_audio_ := false
        congestion_window_bytes_ := 1000
        outstanding_bytes_ := 2000
        packets_ := [Packet.audio] }.Congested = true ∧
    ({ PacedSender.blank with
        pace_audio_ := false
        congestion_window_bytes_ := 1000
        outstanding_bytes_ := 2000
        packets_ := [Packet.audio] }.GetPendingPacket PacedPacketInfo.create).2
      = some Packet.audio :=
  ⟨by decide,
    congrArg Prod.snd
      ((GetPendingPacket_gate (PacerEnv.steady 0 false 0) WebRtcKeyValueConfig.no_trials
        ParseFieldTrial_default
        { PacedSender.blank with
          pace_audio_ := false
          congestion_window_bytes_ := 1000
          outstanding_bytes_ := 2000
          packets_ := [Packet.audio] } PacedPacketInfo.create Packet.audio [] rfl).2.2.2
        ⟨rfl, rfl⟩)⟩

/-- C23, as stated, fails: the loop breaks on `bytes_sent > recommended_probe_size`, not
on `>=`. While probing with a recommended probe size of 1200 bytes, after the first
1200-byte packet `bytes_sent` equals the recommended size exactly and the loop goes on:
the second packet is dequeued and sent in the same tick (2400 bytes in all). -/
theorem probe_loop_continues_at_equality :
    (PacedSender.two_queued.ProcessLoopEntry (PacerEnv.probing 5000)).is_probing = true ∧
    (PacedSender.two_queued.ProcessLoopEntry (PacerEnv.probing 5000)).recommended_probe_size
      = 1200 ∧
    ((PacedSender.two_queued.ProcessLoopEntry (PacerEnv.probing 5000)).state.DrainStep
      (PacerEnv.probing 5000)
      (PacedSender.two_queued.ProcessLoopEntry (PacerEnv.probing 5000)).pacing_info
      true 1200 0).bytes_sent = 1200 ∧
    ((PacedSender.two_queued.ProcessLoopEntry (PacerEnv.probing 5000)).state.DrainStep
      (PacerEnv.probing 5000)
      (PacedSender.two_queued.ProcessLoopEntry (PacerEnv.probing 5000)).pacing_info
      true 1200 0).continue_loop = true ∧
    (PacedSender.two_queued.ProcessLoopExit (PacerEnv.probing 5000)).2 = 2400 ∧
    (PacedSender.two_queued.ProcessLoopExit (PacerEnv.probing 5000)).1.packets_ = [] ∧
    (PacedSender.two_queued.ProcessRun (PacerEnv.probing 5000)).2 = 2400 := by
  decide

/-- C23 (amended): while probing, the drain loop in `Process` exits as soon as the bytes
sent in this tick satisfy `bytes_sent > recommended_probe_size`: after a packet accepted
by the transport the loop ends at once when the new `bytes_sent` exceeds the
recommended size, and goes on to the next pass when it is smaller or equal (in
particular when it equals the recommended size exactly). -/
theorem probe_loop_exit (env : PacerEnv) (pacing_info : PacedPacketInfo)
    (recommended_probe_size : Nat) (fuel : Nat) (s : PacedSender) (bytes_sent : Nat)
    (packet : Packet)
    (hp : s.paused_ = false)
    (hpending : (s.GetPendingPacket pacing_info).2 = some packet)
    (hsent : env.TimeToSendPacket
      (PacerEvent.TimeToSendPacket packet.ssrc packet.sequence_number packet.capture_time_ms
        packet.retransmission pacing_info :: PacerEvent.BeginPop :: s.trace) = true) :
    (bytes_sent + packet.bytes > recommended_probe_size →
      PacedSender.DrainLoop env pacing_info true recommended_probe_size (fuel + 1) s bytes_sent =
        (((s.call PacerEvent.BeginPop).call
          (PacerEvent.TimeToSendPacket packet.ssrc packet.sequence_number
            packet.capture_time_ms packet.retransmission pacing_info)).OnPacketSent env packet,
          bytes_sent + packet.bytes)) ∧
    (bytes_sent + packet.bytes ≤ recommended_probe_size →
      PacedSender.DrainLoop env pacing_info true recommended_probe_size (fuel + 1) s bytes_sent =
        PacedSender.DrainLoop env pacing_info true recommended_probe_size fuel
          (((s.call PacerEvent.BeginPop).call
            (PacerEvent.TimeToSendPacket packet.ssrc packet.sequence_number
              packet.capture_time_ms packet.retransmission pacing_info)).OnPacketSent env packet)
          (bytes_sent + packet.bytes)) := by
  obtain ⟨hq, -, -⟩ := GetPendingPacket_some s pacing_info packet hpending
  have hne : s.packets_ ≠ [] := by rw [hq]; exact List.cons_ne_nil _ _
  rw [DrainLoop_succ env pacing_info true recommended_probe_size fuel s bytes_sent hne hp,
    DrainStep_some env pacing_info true recommended_probe_size s bytes_sent packet hpending,
    if_pos hsent]
  dsimp only
  constructor
  · intro hgt
    have hc : (!decide (true = true ∧ bytes_sent + packet.bytes > recommended_probe_size))
        = false := by
      simp [hgt]
    rw [hc]
    rfl
  · intro hle
    have hc : (!decide (true = true ∧ bytes_sent + packet.bytes > recommended_probe_size))
        = true := by
      simp
      omega
    rw [hc]
    rfl

/-- Witness for C23 (amended): the first pass of the counterexample's loop, where
`bytes_sent` reaches the recommended 1200 bytes exactly and the loop goes on. -/
theorem probe_loop_exit_witness :
    (PacedSender.DrainLoop (PacerEnv.probing 5000)
      (PacedSender.two_queued.ProcessLoopEntry (PacerEnv.probing 5000)).pacing_info true 1200 2
      (PacedSender.two_queued.ProcessLoopEntry (PacerEnv.probing 5000)).state 0).2 =
    (PacedSender.DrainLoop (PacerEnv.probing 5000)
      (PacedSender.two_queued.ProcessLoopEntry (PacerEnv.probing 5000)).pacing_info true 1200 1
      ((((PacedSender.two_queued.ProcessLoopEntry (PacerEnv.probing 5000)).state.call
        PacerEvent.BeginPop).call
          (PacerEvent.TimeToSendPacket 4660 1 0 false
            (PacedSender.two_queued.ProcessLoopEntry
              (PacerEnv.probing 5000)).pacing_info)).OnPacketSent (PacerEnv.probing 5000)
        ⟨Priority.kNormalPriority, 4660, 1, 0, 0, 1200, false, 0⟩) 1200).2 :=
  congrArg Prod.snd
    ((probe_loop_exit (PacerEnv.probing 5000)
      (PacedSender.two_queued.ProcessLoopEntry (PacerEnv.probing 5000)).pacing_info 1200 1
      (PacedSender.two_queued.ProcessLoopEntry (PacerEnv.probing 5000)).state 0
      ⟨Priority.kNormalPriority, 4660, 1, 0, 0, 1200, false, 0⟩
      (by decide) (by decide) rfl).2 (by decide))

/-! ## Theorems: the target rate of the media budget in `Process` -/

/-- `IncreaseBudget` keeps the target rate. -/
theorem IncreaseBudget_target (s : IntervalBudget) (delta_time_ms : Int) :
    (s.IncreaseBudget delta_time_ms).target_rate_kbps_ = s.target_rate_kbps_ := by
  unfold IntervalBudget.IncreaseBudget
  dsimp only
  split_ifs <;> rfl

/-- `OnPacketSent` keeps the target rate of the media budget. -/
theorem OnPacketSent_target (env : PacerEnv) (s : PacedSender) (packet : Packet) :
    (s.OnPacketSent env packet).media_budget_.target_rate_kbps_
      = s.media_budget_.target_rate_kbps_ := by
  obtain ⟨-, -, -, -, -, -, -, f8, -, -⟩ := OnPacketSent_fields env s packet
  rw [f8]
  split_ifs <;> rfl

/-- One pass of the loop body keeps the target rate of the media budget. -/
theorem DrainStep_target (env : PacerEnv) (pacing_info : PacedPacketInfo) (is_probing : Bool)
    (recommended_probe_size : Nat) (s : PacedSender) (bytes_sent : Nat) :
    (s.DrainStep env pacing_info is_probing recommended_probe_size
      bytes_sent).state.media_budget_.target_rate_kbps_
      = s.media_budget_.target_rate_kbps_ := by
  cases hg : (s.GetPendingPacket pacing_info).2 with
  | none =>
    rw [DrainStep_none env pacing_info is_probing recommended_probe_size s bytes_sent hg]
    unfold PacedSender.GetPendingPacket
    cases hq : s.packets_ with
    | nil => rfl
    | cons p rest =>
      dsimp only
      split_ifs <;> rfl
  | some packet =>
    rw [DrainStep_some env pacing_info is_probing recommended_probe_size s bytes_sent packet hg]
    split_ifs
    · exact OnPacketSent_target env _ packet
    · rfl

/-- The drain loop keeps the target rate of the media budget. -/
theorem DrainLoop_target (env : PacerEnv) (pacing_info : PacedPacketInfo) (is_probing : Bool)
    (recommended_probe_size : Nat) :
    ∀ (fuel : Nat) (s : PacedSender) (bytes_sent : Nat),
      (PacedSender.DrainLoop env pacing_info is_probing recommended_probe_size fuel s
        bytes_sent).1.media_budget_.target_rate_kbps_ = s.media_budget_.target_rate_kbps_ := by
  intro fuel
  induction fuel with
  | zero => intro s bytes_sent; rfl
  | succ fuel ih =>
    intro s bytes_sent
    by_cases hstop : s.packets_ = [] ∨ s.paused_ = true
    · rw [DrainLoop_stop env pacing_info is_probing recommended_probe_size (fuel + 1) s
        bytes_sent hstop]
    · have hq : s.packets_ ≠ [] := fun h => hstop (Or.inl h)
      have hp : s.paused_ = false := by
        cases hpp : s.paused_ with
        | false => rfl
        | true => exact absurd (Or.inr hpp) hstop
      rw [DrainLoop_succ env pacing_info is_probing recommended_probe_size fuel s bytes_sent
        hq hp]
      split_ifs
      · rw [ih]
        exact DrainStep_target env pacing_info is_probing recommended_probe_size s bytes_sent
      · exact DrainStep_target env pacing_info is_probing recommended_probe_size s bytes_sent

/-- The padding block keeps the target rate of the media budget. -/
theorem ProcessPadding_target (env : PacerEnv) (pacing_info : PacedPacketInfo)
    (is_probing : Bool) (recommended_probe_size : Nat) (s : PacedSender) (bytes_sent : Nat) :
    (PacedSender.ProcessPadding env pacing_info is_probing recommended_probe_size s
      bytes_sent).1.media_budget_.target_rate_kbps_ = s.media_budget_.target_rate_kbps_ := by
  unfold PacedSender.ProcessPadding PacedSender.OnPaddingSent
    PacedSender.UpdateBudgetWithBytesSent PacedSender.call
  dsimp only
  split_ifs <;> rfl

/-- The bookkeeping that ends `Process` keeps the media budget. -/
theorem ProcessFinish_media_budget (env : PacerEnv) (is_probing : Bool) (now_us : Int)
    (s : PacedSender) (bytes_sent : Nat) :
    (PacedSender.ProcessFinish env is_probing now_us s bytes_sent).media_budget_
      = s.media_budget_ := by
  unfold PacedSender.ProcessFinish PacedSender.TimeMilliseconds PacedSender.call
  dsimp only
  split_ifs <;> rfl

/-- What the keepalive block of `Process` leaves alone. -/
theorem ProcessAfterKeepalive_fields (env : PacerEnv) (s : PacedSender) :
    (s.ProcessAfterKeepalive env).paused_ = s.paused_ ∧
    (s.ProcessAfterKeepalive env).packets_ = s.packets_ ∧
    (s.ProcessAfterKeepalive env).pacing_bitrate_kbps_ = s.pacing_bitrate_kbps_ ∧
    (s.ProcessAfterKeepalive env).drain_large_queues_ = s.drain_large_queues_ ∧
    (s.ProcessAfterKeepalive env).queue_time_limit = s.queue_time_limit := by
  unfold PacedSender.ProcessAfterKeepalive PacedSender.ProcessKeepalive
    PacedSender.OnPaddingSent PacedSender.UpdateBudgetWithBytesSent
  dsimp only
  rw [UpdateTimeAndGetElapsedMs_fst]
  unfold PacedSender.call
  dsimp only
  split_ifs <;> exact ⟨rfl, rfl, rfl, rfl, rfl⟩

/-- The local `target_bitrate_kbps` of `Process`. -/
theorem ProcessTargetBitrate_value (env : PacerEnv) (s : PacedSender) :
    (s.ProcessTargetBitrate env).2 =
      if s.queue_size_bytes > 0 ∧ s.drain_large_queues_ = true then
        max (static_cast_int s.pacing_bitrate_kbps_)
          (static_cast_int
            (size_t_wrap ((s.queue_size_bytes : Int) * 8) /
              (max 1 (wrap64 (s.queue_time_limit -
                env.AverageQueueTimeMs
                  (PacerEvent.AverageQueueTimeMs ::
                    PacerEvent.UpdateQueueTime (PacedSender.TimeMilliseconds env s).2 ::
                    (PacedSender.TimeMilliseconds env s).1.trace)))).toNat))
      else static_cast_int s.pacing_bitrate_kbps_ := by
  unfold PacedSender.ProcessTargetBitrate PacedSender.queue_size_bytes
  dsimp only
  by_cases hq : (s.packets_.map fun p => p.bytes).sum > 0
  · rw [if_pos hq]
    by_cases hd : s.drain_large_queues_ = true
    · have hd2 : ((PacedSender.TimeMilliseconds env s).1.call
          (PacerEvent.UpdateQueueTime (PacedSender.TimeMilliseconds env s).2)).drain_large_queues_
          = true := by
        unfold PacedSender.TimeMilliseconds PacedSender.call
        exact hd
      have hl : ∀ e, (((PacedSender.TimeMilliseconds env s).1.call
          (PacerEvent.UpdateQueueTime (PacedSender.TimeMilliseconds env s).2)).call
            e).queue_time_limit = s.queue_time_limit := by
        intro e
        unfold PacedSender.TimeMilliseconds PacedSender.call
        rfl
      have hqd : (s.packets_.map fun p => p.bytes).sum > 0 ∧ s.drain_large_queues_ = true :=
        ⟨hq, hd⟩
      rw [if_pos hd2, if_pos hqd, hl]
      have ht : (((PacedSender.TimeMilliseconds env s).1.call
          (PacerEvent.UpdateQueueTime (PacedSender.TimeMilliseconds env s).2)).call
            PacerEvent.AverageQueueTimeMs).trace =
          PacerEvent.AverageQueueTimeMs ::
            PacerEvent.UpdateQueueTime (PacedSender.TimeMilliseconds env s).2 ::
            (PacedSender.TimeMilliseconds env s).1.trace := rfl
      rw [ht]
      split_ifs with hgt
      · exact (max_eq_right (le_of_lt hgt)).symm
      · exact (max_eq_left (not_lt.mp hgt)).symm
    · have hd2 : ¬ ((PacedSender.TimeMilliseconds env s).1.call
          (PacerEvent.UpdateQueueTime (PacedSender.TimeMilliseconds env s).2)).drain_large_queues_
          = true := by
        unfold PacedSender.TimeMilliseconds PacedSender.call
        exact hd
      have hqd : ¬ ((s.packets_.map fun p => p.bytes).sum > 0 ∧ s.drain_large_queues_ = true) :=
        fun h => hd h.2
      rw [if_neg hd2, if_neg hqd]
  · have hqd : ¬ ((s.packets_.map fun p => p.bytes).sum > 0 ∧ s.drain_large_queues_ = true) :=
      fun h => hq h.1
    rw [if_neg hq, if_neg hqd]

/-- The target rate of the media budget after the budget update of `Process`. -/
theorem ProcessUpdateBudget_target (env : PacerEnv) (s : PacedSender) (elapsed_time_ms : Int)
    (h : elapsed_time_ms > 0) :
    (s.ProcessUpdateBudget env elapsed_time_ms).media_budget_.target_rate_kbps_
      = (s.ProcessTargetBitrate env).2 := by
  unfold PacedSender.ProcessUpdateBudget
  rw [if_pos h]
  dsimp only
  unfold PacedSender.UpdateBudgetWithElapsedTime
  dsimp only
  rw [IncreaseBudget_target]
  rfl

/-- The target rate of the media budget when `ProcessBegin` is done. -/
theorem ProcessBegin_target (env : PacerEnv) (s : PacedSender) (now_us elapsed_time_ms : Int) :
    (s.ProcessBegin env now_us elapsed_time_ms).state.media_budget_
      = (s.ProcessUpdateBudget env elapsed_time_ms).media_budget_ := by
  unfold PacedSender.ProcessBegin
  dsimp only
  split_ifs <;> rfl

/-- The quotient `queue_size_bytes * 8 / avg_time_left_ms` of `Process` when nothing
overflows. -/
theorem min_bitrate_needed_exact (q : Nat) (left_ms : Int) (hleft : 1 ≤ left_ms)
    (hq : (q : Int) * 8 < 18446744073709551616)
    (hfit : Int.tdiv ((q : Int) * 8) left_ms ≤ 2147483647) :
    static_cast_int (size_t_wrap ((q : Int) * 8) / left_ms.toNat)
      = Int.tdiv ((q : Int) * 8) left_ms := by
  have h0 : (0 : Int) ≤ (q : Int) * 8 := by positivity
  have hw : size_t_wrap ((q : Int) * 8) = q * 8 := by
    unfold size_t_wrap
    rw [Int.emod_eq_of_lt h0 hq]
    have : ((q : Int) * 8) = ((q * 8 : Nat) : Int) := by push_cast; rfl
    rw [this, Int.toNat_natCast]
  have hl : ((left_ms.toNat : Nat) : Int) = left_ms := Int.toNat_of_nonneg (by omega)
  have hdiv : (((q * 8 / left_ms.toNat : Nat)) : Int) = Int.tdiv ((q : Int) * 8) left_ms := by
    rw [Int.tdiv_eq_ediv h0 (by omega)]
    push_cast
    rw [hl]
  rw [hw]
  unfold static_cast_int
  rw [hdiv]
  apply wrap32_of_InInt32
  constructor
  · have : 0 ≤ Int.tdiv ((q : Int) * 8) left_ms := by
      rw [Int.tdiv_eq_ediv h0 (by omega)]
      exact Int.ediv_nonneg h0 (by omega)
    omega
  · exact hfit

/-- C25: in `Process` with elapsed time > 0 and the pacer not paused, the media budget
target is set to `pacing_bitrate_kbps_`, except that when the queue holds bytes and
`drain_large_queues_` is enabled it is set to
max(pacing_bitrate_kbps, queue_size_bytes * 8 / max(1, queue_time_limit -
average_queue_time_ms)), with integer division and the conversions to `int` of the code;
the target keeps that value until `Process` returns. When the operands fit their types
this is the integer max(pacing_bitrate_kbps, queue_size_bytes * 8 / max(1,
queue_time_limit - average_queue_time_ms)) for every non-empty queue with draining
enabled, and `pacing_bitrate_kbps` otherwise; `queue_time_limit` is 2000 ms after
construction. -/
theorem Process_target_rate (env : PacerEnv) (s : PacedSender)
    (field_trials : WebRtcKeyValueConfig) (ParseFieldTrial : Int → String → Int)
    (hel : s.process_elapsed_time_ms env > 0) (hp : s.paused_ = false) :
    (s.ProcessRun env).1.media_budget_.target_rate_kbps_ =
      (if s.queue_size_bytes > 0 ∧ s.drain_large_queues_ = true then
        max (static_cast_int s.pacing_bitrate_kbps_)
          (static_cast_int
            (size_t_wrap ((s.queue_size_bytes : Int) * 8) /
              (max 1 (wrap64 (s.queue_time_limit -
                s.process_average_queue_time_ms env))).toNat))
      else static_cast_int s.pacing_bitrate_kbps_) ∧
    ((s.pacing_bitrate_kbps_ : Int) ≤ 2147483647 →
      (s.queue_size_bytes : Int) * 8 < 18446744073709551616 →
      InInt64 (s.queue_time_limit - s.process_average_queue_time_ms env) →
      Int.tdiv ((s.queue_size_bytes : Int) * 8)
        (max 1 (s.queue_time_limit - s.process_average_queue_time_ms env)) ≤ 2147483647 →
      (s.ProcessRun env).1.media_budget_.target_rate_kbps_ =
        (if s.packets_ ≠ [] ∧ s.drain_large_queues_ = true then
          max (s.pacing_bitrate_kbps_ : Int)
            (Int.tdiv ((s.queue_size_bytes : Int) * 8)
              (max 1 (s.queue_time_limit - s.process_average_queue_time_ms env)))
        else (s.pacing_bitrate_kbps_ : Int))) ∧
    (PacedSender.create env field_trials ParseFieldTrial).queue_time_limit = 2000 := by
  obtain ⟨k1, k2, k3, k4, k5⟩ := ProcessAfterKeepalive_fields env s
  have hnp : ¬ (s.ProcessAfterKeepalive env).paused_ = true := by
    rw [k1, hp]
    decide
  have hrun : (s.ProcessRun env).1.media_budget_.target_rate_kbps_ =
      ((s.ProcessAfterKeepalive env).ProcessTargetBitrate env).2 := by
    rw [ProcessRun_cases, if_neg hnp]
    dsimp only
    rw [ProcessFinish_media_budget, ProcessPadding_target]
    unfold PacedSender.ProcessLoopExit
    rw [DrainLoop_target]
    unfold PacedSender.ProcessLoopEntry
    dsimp only
    rw [ProcessBegin_target]
    exact ProcessUpdateBudget_target env _ _ hel
  have hval : (s.ProcessRun env).1.media_budget_.target_rate_kbps_ =
      (if s.queue_size_bytes > 0 ∧ s.drain_large_queues_ = true then
        max (static_cast_int s.pacing_bitrate_kbps_)
          (static_cast_int
            (size_t_wrap ((s.queue_size_bytes : Int) * 8) /
              (max 1 (wrap64 (s.queue_time_limit -
                s.process_average_queue_time_ms env))).toNat))
      else static_cast_int s.pacing_bitrate_kbps_) := by
    rw [hrun, ProcessTargetBitrate_value]
    have hqs : (s.ProcessAfterKeepalive env).queue_size_bytes = s.queue_size_bytes := by
      unfold PacedSender.queue_size_bytes
      rw [k2]
    rw [hqs, k3, k4, k5]
    rfl
  refine ⟨hval, ?_, ?_⟩
  · intro hpac hq h64 hfit
    rw [hval]
    have hcast : static_cast_int s.pacing_bitrate_kbps_ = (s.pacing_bitrate_kbps_ : Int) :=
      wrap32_of_InInt32 ⟨by omega, hpac⟩
    rw [hcast, wrap64_of_InInt64 h64]
    by_cases hd : s.drain_large_queues_ = true
    · by_cases hq0 : s.queue_size_bytes > 0
      · have hne : s.packets_ ≠ [] := by
          intro hnil
          unfold PacedSender.queue_size_bytes at hq0
          rw [hnil] at hq0
          exact absurd hq0 (by decide)
        have c1 : s.queue_size_bytes > 0 ∧ s.drain_large_queues_ = true := ⟨hq0, hd⟩
        have c2 : s.packets_ ≠ [] ∧ s.drain_large_queues_ = true := ⟨hne, hd⟩
        rw [if_pos c1, if_pos c2,
          min_bitrate_needed_exact s.queue_size_bytes _ (le_max_left _ _) hq hfit]
      · have hz : s.queue_size_bytes = 0 := Nat.eq_zero_of_not_pos hq0
        have c1 : ¬ (s.queue_size_bytes > 0 ∧ s.drain_large_queues_ = true) := fun h => hq0 h.1
        rw [if_neg c1]
        by_cases hne : s.packets_ ≠ []
        · have c2 : s.packets_ ≠ [] ∧ s.drain_large_queues_ = true := ⟨hne, hd⟩
          rw [if_pos c2, hz]
          have hzero : Int.tdiv (((0 : Nat) : Int) * 8)
              (max 1 (s.queue_time_limit - s.process_average_queue_time_ms env)) = 0 := by
            rw [Nat.cast_zero, zero_mul, Int.zero_tdiv]
          rw [hzero]
          exact (max_eq_left (Int.natCast_nonneg _)).symm
        · have c2 : ¬ (s.packets_ ≠ [] ∧ s.drain_large_queues_ = true) := fun h => hne h.1
          rw [if_neg c2]
    · have c1 : ¬ (s.queue_size_bytes > 0 ∧ s.drain_large_queues_ = true) := fun h => hd h.2
      have c2 : ¬ (s.packets_ ≠ [] ∧ s.drain_large_queues_ = true) := fun h => hd h.2
      rw [if_neg c1, if_neg c2]
  · unfold PacedSender.create PacedSender.UpdateBudgetWithElapsedTime
    rfl

/-- Witness for C25: a tick 5 ms after the previous one with 500000 bytes queued at a
pacing rate of 1000 kbps: the target becomes 500000 * 8 / 2000 = 2000 kbps. -/
theorem Process_target_rate_witness :
    ({ PacedSender.blank with
        pacing_bitrate_kbps_ := 1000
        packet_counter_ := 1
        packets_ :=
          [⟨Priority.kNormalPriority, 4660, 1, 0, 0, 500000, false, 0⟩] }.ProcessRun
      (PacerEnv.steady 5000 false 0)).1.media_budget_.target_rate_kbps_ = 2000 :=
  (Process_target_rate (PacerEnv.steady 5000 false 0)
    { PacedSender.blank with
      pacing_bitrate_kbps_ := 1000
      packet_counter_ := 1
      packets_ := [⟨Priority.kNormalPriority, 4660, 1, 0, 0, 500000, false, 0⟩] }
    WebRtcKeyValueConfig.no_trials ParseFieldTrial_default (by decide) rfl).2.1
      (by decide) (by decide) (by decide) (by decide)

/-! ## Theorems: the leaky-bucket bound of `IntervalBudget` -/

/-- Narrowing to `int` never increases a value that is not below the `int` range. -/
theorem wrap32_le_self {x : Int} (h : -2147483648 ≤ x) : wrap32 x ≤ x := by
  unfold wrap32
  omega

/-- Narrowing a sum to `int` does not depend on an earlier narrowing of a summand. -/
theorem wrap32_add_wrap32 (a b : Int) : wrap32 (a + wrap32 b) = wrap32 (a + b) := by
  unfold wrap32
  omega

/-- `IncreaseBudget` keeps the window and stores an `int`. -/
theorem IncreaseBudget_fields (s : IntervalBudget) (delta_time_ms : Int)
    (hmax : InInt32 s.max_bytes_in_budget_) :
    (s.IncreaseBudget delta_time_ms).max_bytes_in_budget_ = s.max_bytes_in_budget_ ∧
    (s.IncreaseBudget delta_time_ms).can_build_up_underuse_ = s.can_build_up_underuse_ ∧
    InInt32 (s.IncreaseBudget delta_time_ms).bytes_remaining_ := by
  unfold IntervalBudget.IncreaseBudget dchecked_cast_int
  dsimp only
  split_ifs
  · refine ⟨rfl, rfl, ?_⟩
    have h1 := InInt32_wrap32 (s.bytes_remaining_ +
      wrap32 (Int.tdiv (wrap64 (s.target_rate_kbps_ * delta_time_ms)) 8))
    unfold InInt32 at h1 hmax ⊢
    dsimp only
    omega
  · refine ⟨rfl, rfl, ?_⟩
    have h1 := InInt32_wrap32 (Int.tdiv (wrap64 (s.target_rate_kbps_ * delta_time_ms)) 8)
    unfold InInt32 at h1 hmax ⊢
    dsimp only
    omega

/-- What `IncreaseBudget` can add: never more than the true credit
`target_rate_kbps * d / 8`, whatever the narrowing conversions do. -/
theorem IncreaseBudget_gain (s : IntervalBudget) (d : Int)
    (ht : 0 ≤ s.target_rate_kbps_) (hd : 0 ≤ d)
    (hrem : InInt32 s.bytes_remaining_) (hmax : InInt32 s.max_bytes_in_budget_) :
    (s.IncreaseBudget d).bytes_remaining_ ≤
      (if s.bytes_remaining_ < 0 ∨ s.can_build_up_underuse_ = true then
        s.bytes_remaining_ + Int.tdiv (s.target_rate_kbps_ * d) 8
      else Int.tdiv (s.target_rate_kbps_ * d) 8) := by
  have hp : 0 ≤ s.target_rate_kbps_ * d := mul_nonneg ht hd
  have hq : Int.tdiv (s.target_rate_kbps_ * d) 8 = s.target_rate_kbps_ * d / 8 :=
    Int.tdiv_eq_ediv hp (by decide)
  unfold InInt32 at hrem hmax
  unfold IntervalBudget.IncreaseBudget dchecked_cast_int
  dsimp only
  by_cases h63 : s.target_rate_kbps_ * d ≤ 9223372036854775807
  · have hw : wrap64 (s.target_rate_kbps_ * d) = s.target_rate_kbps_ * d :=
      wrap64_of_InInt64 ⟨by omega, h63⟩
    rw [hw]
    split_ifs with hbr
    · dsimp only
      rw [wrap32_add_wrap32]
      have h1 : wrap32 (s.bytes_remaining_ + Int.tdiv (s.target_rate_kbps_ * d) 8) ≤
          s.bytes_remaining_ + Int.tdiv (s.target_rate_kbps_ * d) 8 := by
        apply wrap32_le_self
        rw [hq]
        omega
      exact le_trans (min_le_left _ _) h1
    · dsimp only
      have h1 : wrap32 (Int.tdiv (s.target_rate_kbps_ * d) 8) ≤
          Int.tdiv (s.target_rate_kbps_ * d) 8 := by
        apply wrap32_le_self
        rw [hq]
        omega
      exact le_trans (min_le_left _ _) h1
  · split_ifs with hbr
    · dsimp only
      refine le_trans (min_le_right _ _) ?_
      rw [hq]
      omega
    · dsimp only
      refine le_trans (min_le_right _ _) ?_
      rw [hq]
      omega

/-- A `UseBudget(n)` issued with `bytes_remaining() > 0` and `n <= max_bytes_in_budget_`
subtracts exactly `n`. -/
theorem UseBudget_paced (s : IntervalBudget) (n : Nat)
    (hrem : InInt32 s.bytes_remaining_) (hmax : InInt32 s.max_bytes_in_budget_)
    (hpos : s.bytes_remaining > 0) (hn : (n : Int) ≤ s.max_bytes_in_budget_) :
    0 < s.bytes_remaining_ ∧
    (s.UseBudget n).bytes_remaining_ = s.bytes_remaining_ - (n : Int) ∧
    (s.UseBudget n).max_bytes_in_budget_ = s.max_bytes_in_budget_ ∧
    (s.UseBudget n).target_rate_kbps_ = s.target_rate_kbps_ ∧
    InInt32 (s.UseBudget n).bytes_remaining_ := by
  unfold InInt32 at hrem hmax
  have h0 : 0 < s.bytes_remaining_ := by
    unfold IntervalBudget.bytes_remaining at hpos
    by_contra hneg
    have : max 0 s.bytes_remaining_ = 0 := max_eq_left (by omega)
    rw [this] at hpos
    exact absurd hpos (by decide)
  have hn31 : (n : Int) ≤ 2147483647 := le_trans hn hmax.2
  have hexact := UseBudget_eq_exact s n hn31
    (by unfold InInt32; constructor <;> omega) (by unfold InInt32; constructor <;> omega)
  have hval : (s.UseBudget n).bytes_remaining_ = s.bytes_remaining_ - (n : Int) := by
    rw [hexact]
    dsimp only
    exact max_eq_left (by omega)
  refine ⟨h0, hval, ?_, ?_, ?_⟩
  · rw [hexact]
  · rw [hexact]
  · rw [hval]
    unfold InInt32
    constructor <;> omega

/-- The invariant behind the leaky-bucket bound, from any point of a run: `used` bytes
spent and `credit` bytes credited so far, `big` at least the largest byte count so
far. -/
theorem paced_bound_aux (target : Int) (ht : 0 ≤ target) (r0 : Int) :
    ∀ (calls : List BudgetCall) (s : IntervalBudget) (used credit big : Int),
      s.target_rate_kbps_ = target →
      InInt32 s.bytes_remaining_ → InInt32 s.max_bytes_in_budget_ →
      BudgetCall.Paced s calls →
      0 ≤ big →
      used + s.bytes_remaining_ ≤ r0 + credit →
      used ≤ r0 + credit + big →
      used + BudgetCall.used calls ≤
        r0 + (credit + BudgetCall.credited target calls) + max big (BudgetCall.largest calls) := by
  intro calls
  induction calls with
  | nil =>
    intro s used credit big _ _ _ _ hbig _ hB
    show used + 0 ≤ r0 + (credit + 0) + max big 0
    rw [max_eq_left hbig]
    omega
  | cons c cs ih =>
    intro s used credit big htar hrem hmax hpaced hbig hA hB
    cases c with
    | set_target_rate_kbps k => exact absurd hpaced (fun h => h)
    | IncreaseBudget d =>
      obtain ⟨hd, hrest⟩ := hpaced
      have htar0 : 0 ≤ s.target_rate_kbps_ := by rw [htar]; exact ht
      have hgain := IncreaseBudget_gain s d htar0 hd hrem hmax
      obtain ⟨f1, -, f3⟩ := IncreaseBudget_fields s d hmax
      have hq0 : 0 ≤ Int.tdiv (target * d) 8 := by
        rw [Int.tdiv_eq_ediv (mul_nonneg ht hd) (by decide)]
        have := mul_nonneg ht hd
        omega
      rw [htar] at hgain
      have hstep := ih (s.IncreaseBudget d) used (credit + Int.tdiv (target * d) 8) big
        (by rw [IncreaseBudget_target, htar]) f3 (by rw [f1]; exact hmax) hrest hbig
        (by
          split_ifs at hgain with hbr
          · omega
          · have hr : 0 ≤ s.bytes_remaining_ := by
              by_contra hneg
              exact hbr (Or.inl (by omega))
            omega)
        (by omega)
      show used + BudgetCall.used cs ≤
        r0 + (credit + (Int.tdiv (target * d) 8 + BudgetCall.credited target cs)) +
          max big (BudgetCall.largest cs)
      omega
    | UseBudget n =>
      obtain ⟨hpos, hn, hrest⟩ := hpaced
      obtain ⟨h0, hval, f3, f4, f5⟩ := UseBudget_paced s n hrem hmax hpos hn
      have hstep := ih (s.UseBudget n) (used + (n : Int)) credit (max big (n : Int))
        (by rw [f4, htar]) f5 (by rw [f3]; exact hmax) hrest
        (le_trans hbig (le_max_left _ _))
        (by rw [hval]; omega)
        (by
          have : (n : Int) ≤ max big (n : Int) := le_max_right _ _
          omega)
      show used + ((n : Int) + BudgetCall.used cs) ≤
        r0 + (credit + BudgetCall.credited target cs) +
          max big (max (n : Int) (BudgetCall.largest cs))
      rw [max_assoc] at hstep
      omega

/-- C27: leaky-bucket rate bound. For an `IntervalBudget` with a fixed non-negative
target rate (its `int` members holding `int` values) and any sequence of
`IncreaseBudget(d_i >= 0)` and `UseBudget(n_j)` calls in which every `UseBudget` is
issued only when `bytes_remaining() > 0` and with `n_j <= max_bytes_in_budget`, the
total bytes used satisfy sum(n_j) <= max(r0, 0) + sum(target_rate_kbps * d_i / 8) + M,
where r0 <= max_bytes_in_budget is the initial `bytes_remaining_` and M is the largest
single n_j (the credits being the exact integer quotients); hence usage exceeds the
credited rate by at most the window `max_bytes_in_budget` plus one packet. -/
theorem leaky_bucket_bound (s : IntervalBudget) (calls : List BudgetCall)
    (ht : 0 ≤ s.target_rate_kbps_)
    (hrem : InInt32 s.bytes_remaining_) (hmax : InInt32 s.max_bytes_in_budget_)
    (hr0 : s.bytes_remaining_ ≤ s.max_bytes_in_budget_)
    (hpaced : BudgetCall.Paced s calls) :
    BudgetCall.used calls ≤
      max s.bytes_remaining_ 0 + BudgetCall.credited s.target_rate_kbps_ calls +
        BudgetCall.largest calls ∧
    (0 ≤ s.max_bytes_in_budget_ →
      BudgetCall.used calls ≤
        s.max_bytes_in_budget_ + BudgetCall.credited s.target_rate_kbps_ calls +
          BudgetCall.largest calls) := by
  have hlargest : ∀ cs : List BudgetCall, 0 ≤ BudgetCall.largest cs := by
    intro cs
    induction cs with
    | nil => exact le_refl _
    | cons c cs ih =>
      cases c with
      | set_target_rate_kbps k => exact ih
      | IncreaseBudget d => exact ih
      | UseBudget n => exact le_trans ih (le_max_right _ _)
  have h := paced_bound_aux s.target_rate_kbps_ ht (max s.bytes_remaining_ 0) calls s 0 0 0
    rfl hrem hmax hpaced (le_refl _)
    (by
      have := le_max_left s.bytes_remaining_ 0
      omega)
    (by
      have := le_max_right s.bytes_remaining_ 0
      omega)
  rw [max_eq_right (hlargest calls)] at h
  have h1 : BudgetCall.used calls ≤
      max s.bytes_remaining_ 0 + BudgetCall.credited s.target_rate_kbps_ calls +
        BudgetCall.largest calls := by
    omega
  refine ⟨h1, fun hm => ?_⟩
  have : max s.bytes_remaining_ 0 ≤ s.max_bytes_in_budget_ := max_le hr0 hm
  omega

/-- Witness for C27: a 1000 kbps budget credited twice for 5 ms (625 bytes each) and
charged twice with 1200 bytes: 2400 <= 0 + 1250 + 1200. -/
theorem leaky_bucket_bound_witness :
    BudgetCall.Paced (IntervalBudget.create1 1000)
      [BudgetCall.IncreaseBudget 5, BudgetCall.UseBudget 1200,
        BudgetCall.IncreaseBudget 5, BudgetCall.UseBudget 1200] ∧
    BudgetCall.used
      [BudgetCall.IncreaseBudget 5, BudgetCall.UseBudget 1200,
        BudgetCall.IncreaseBudget 5, BudgetCall.UseBudget 1200] = 2400 ∧
    (2400 : Int) ≤ max (IntervalBudget.create1 1000).bytes_remaining_ 0 + 1250 + 1200 :=
  ⟨by decide, by decide,
    (leaky_bucket_bound (IntervalBudget.create1 1000)
      [BudgetCall.IncreaseBudget 5, BudgetCall.UseBudget 1200,
        BudgetCall.IncreaseBudget 5, BudgetCall.UseBudget 1200]
      (by decide) (by decide) (by decide) (by decide) (by decide)).1⟩

/-! ## Theorems: no overuse verdict before the trend window is full -/

/-- What `UpdateFilter` leaves alone, and the length of the window it leaves. -/
theorem UpdateFilter_quiet (s : TrendlineEstimator) (recv_delta_ms send_delta_ms : ℚ)
    (arrival_time_ms : Int) :
    (s.UpdateFilter recv_delta_ms send_delta_ms arrival_time_ms).window_size_ = s.window_size_ ∧
    (s.UpdateFilter recv_delta_ms send_delta_ms arrival_time_ms).prev_trend_ = s.prev_trend_ ∧
    (s.UpdateFilter recv_delta_ms send_delta_ms arrival_time_ms).overuse_counter_
      = s.overuse_counter_ ∧
    (s.UpdateFilter recv_delta_ms send_delta_ms arrival_time_ms).hypothesis_ = s.hypothesis_ ∧
    (s.UpdateFilter recv_delta_ms send_delta_ms arrival_time_ms).threshold_ = s.threshold_ ∧
    (s.UpdateFilter recv_delta_ms send_delta_ms arrival_time_ms).network_state_predictor_
      = s.network_state_predictor_ ∧
    (s.delay_hist_.length + 1 ≤ s.window_size_ →
      (s.UpdateFilter recv_delta_ms send_delta_ms arrival_time_ms).delay_hist_.length
        = s.delay_hist_.length + 1) := by
  have hf := UpdateFilter_frame s recv_delta_ms send_delta_ms arrival_time_ms
  have e1 := congrArg TrendlineEstimator.window_size_ hf
  have e2 := congrArg TrendlineEstimator.prev_trend_ hf
  have e3 := congrArg TrendlineEstimator.overuse_counter_ hf
  have e4 := congrArg TrendlineEstimator.hypothesis_ hf
  have e5 := congrArg TrendlineEstimator.threshold_ hf
  have e6 := congrArg TrendlineEstimator.network_state_predictor_ hf
  refine ⟨e1, e2, e3, e4, e5, e6, ?_⟩
  intro hlen
  rw [UpdateFilter_delay_hist]
  have hl : ∀ p : ℚ × ℚ, (s.delay_hist_ ++ [p]).length = s.delay_hist_.length + 1 := by
    intro p
    rw [List.length_append]
    rfl
  rw [if_neg (by rw [hl]; omega), hl]

/-- With a zero trend after a zero previous trend `Detect` answers Normal and resets the
counter of over-threshold samples. -/
theorem Detect_zero_trend (s : TrendlineEstimator) (ts_delta : ℚ) (now_ms : Int)
    (hprev : s.prev_trend_ = 0) (hcount : s.overuse_counter_ = 0)
    (hthr : 6 ≤ s.threshold_ ∧ s.threshold_ ≤ 600) :
    (s.Detect 0 ts_delta now_ms).hypothesis_ = BandwidthUsage.kBwNormal ∧
    (s.Detect 0 ts_delta now_ms).prev_trend_ = 0 ∧
    (s.Detect 0 ts_delta now_ms).overuse_counter_ = 0 := by
  by_cases h2 : s.num_of_deltas_ < 2
  · rw [Detect_of_lt_two s 0 ts_delta now_ms h2]
    exact ⟨rfl, hprev, hcount⟩
  · have hmt : ((min s.num_of_deltas_ kMinNumDeltas : Int) : ℚ) * 0 * s.threshold_gain_ = 0 := by
      rw [mul_zero, zero_mul]
    have h1 : ¬ (0 : ℚ) > s.threshold_ := by
      have := hthr.1
      intro h
      linarith
    have h3 : ¬ (0 : ℚ) < -s.threshold_ := by
      have := hthr.1
      intro h
      linarith
    unfold TrendlineEstimator.Detect
    rw [if_neg h2]
    dsimp only
    rw [hmt, if_neg h1, if_neg h3]
    rw [UpdateThreshold_frame]
    exact ⟨rfl, rfl, rfl⟩

/-- A first over-threshold sample never makes `Detect` answer Overusing: the counter of
consecutive over-threshold samples is only 1. -/
theorem Detect_first_sample (s : TrendlineEstimator) (trend ts_delta : ℚ) (now_ms : Int)
    (hcount : s.overuse_counter_ = 0)
    (hhyp : s.hypothesis_ ≠ BandwidthUsage.kBwOverusing) :
    (s.Detect trend ts_delta now_ms).hypothesis_ ≠ BandwidthUsage.kBwOverusing := by
  by_cases h2 : s.num_of_deltas_ < 2
  · rw [Detect_of_lt_two s trend ts_delta now_ms h2]
    intro h
    cases h
  · rw [Detect_hypothesis_cases s trend ts_delta now_ms (by omega)]
    have hnext : ¬ s.overuse_counter_next > 1 := by
      unfold TrendlineEstimator.overuse_counter_next
      rw [hcount]
      decide
    split_ifs with _ h5
    · exact absurd h5.2 hnext
    · exact hhyp
    · exact hhyp
    · intro h; cases h
    · intro h; cases h

/-- Without predictor, an `Update` without calculated deltas changes nothing. -/
theorem apply_not_calculated (s : TrendlineEstimator) (c : UpdateCall)
    (hc : c.calculated_deltas = false) (hp : s.network_state_predictor_ = none) :
    UpdateCall.apply s c = s := by
  unfold UpdateCall.apply TrendlineEstimator.Update
  rw [hc]
  dsimp only
  rw [if_neg (by decide), hp]

/-- Without predictor, an `Update` with calculated deltas is the filter step followed by
`Detect`. -/
theorem apply_calculated (s : TrendlineEstimator) (c : UpdateCall)
    (hc : c.calculated_deltas = true) (hp : s.network_state_predictor_ = none) :
    UpdateCall.apply s c =
      (s.UpdateFilter c.recv_delta_ms c.send_delta_ms c.arrival_time_ms).Detect
        (s.UpdateFilter c.recv_delta_ms c.send_delta_ms c.arrival_time_ms).UpdateTrend
        c.send_delta_ms c.arrival_time_ms := by
  obtain ⟨-, -, -, -, -, e6, -⟩ :=
    UpdateFilter_quiet s c.recv_delta_ms c.send_delta_ms c.arrival_time_ms
  have hd := congrArg TrendlineEstimator.network_state_predictor_
    (Detect_frame (s.UpdateFilter c.recv_delta_ms c.send_delta_ms c.arrival_time_ms)
      (s.UpdateFilter c.recv_delta_ms c.send_delta_ms c.arrival_time_ms).UpdateTrend
      c.send_delta_ms c.arrival_time_ms)
  have hnone : ((s.UpdateFilter c.recv_delta_ms c.send_delta_ms c.arrival_time_ms).Detect
      (s.UpdateFilter c.recv_delta_ms c.send_delta_ms c.arrival_time_ms).UpdateTrend
      c.send_delta_ms c.arrival_time_ms).network_state_predictor_ = none := by
    rw [hd]
    show (s.UpdateFilter c.recv_delta_ms c.send_delta_ms
      c.arrival_time_ms).network_state_predictor_ = none
    rw [e6, hp]
  unfold UpdateCall.apply
  rw [hc, Update_calculated, hnone]

/-- An update with calculated deltas that does not fill the window keeps the estimator
quiet. -/
theorem Quiet_step (s : TrendlineEstimator) (c : UpdateCall) (j : Nat)
    (hc : c.calculated_deltas = true) (hq : s.Quiet j) (hj : j + 1 < s.window_size_) :
    (UpdateCall.apply s c).Quiet (j + 1) ∧
    (UpdateCall.apply s c).window_size_ = s.window_size_ := by
  obtain ⟨hlen, hprev, hcount, hhyp, hlo, hhi, hp⟩ := hq
  obtain ⟨e1, e2, e3, e4, e5, e6, e7⟩ :=
    UpdateFilter_quiet s c.recv_delta_ms c.send_delta_ms c.arrival_time_ms
  have hlen2 : (s.UpdateFilter c.recv_delta_ms c.send_delta_ms
      c.arrival_time_ms).delay_hist_.length = j + 1 := by
    rw [e7 (by omega), hlen]
  have htrend : (s.UpdateFilter c.recv_delta_ms c.send_delta_ms
      c.arrival_time_ms).UpdateTrend = 0 := by
    unfold TrendlineEstimator.UpdateTrend
    rw [if_neg (by rw [hlen2, e1]; omega), e2, hprev]
  rw [apply_calculated s c hc hp, htrend]
  obtain ⟨d1, d2, d3⟩ := Detect_zero_trend
    (s.UpdateFilter c.recv_delta_ms c.send_delta_ms c.arrival_time_ms) c.send_delta_ms
    c.arrival_time_ms (by rw [e2, hprev]) (by rw [e3, hcount]) (by rw [e5]; exact ⟨hlo, hhi⟩)
  have hthr := Detect_threshold_bounds
    (s.UpdateFilter c.recv_delta_ms c.send_delta_ms c.arrival_time_ms) 0 c.send_delta_ms
    c.arrival_time_ms (by rw [e5]; exact ⟨hlo, hhi⟩)
  have hf := Detect_frame
    (s.UpdateFilter c.recv_delta_ms c.send_delta_ms c.arrival_time_ms) 0 c.send_delta_ms
    c.arrival_time_ms
  have g1 := congrArg TrendlineEstimator.delay_hist_ hf
  have g2 := congrArg TrendlineEstimator.network_state_predictor_ hf
  have g3 := congrArg TrendlineEstimator.window_size_ hf
  refine ⟨⟨?_, d2, d3, d1, hthr.1, hthr.2, ?_⟩, ?_⟩
  · rw [g1]
    exact hlen2
  · rw [g2]
    show (s.UpdateFilter c.recv_delta_ms c.send_delta_ms
      c.arrival_time_ms).network_state_predictor_ = none
    rw [e6, hp]
  · rw [g3]
    exact e1

/-- Any single update of a quiet estimator leaves a hypothesis other than Overusing. -/
theorem Quiet_not_overusing (s : TrendlineEstimator) (c : UpdateCall) (j : Nat)
    (hq : s.Quiet j) :
    (UpdateCall.apply s c).State ≠ BandwidthUsage.kBwOverusing ∧
    (UpdateCall.apply s c).network_state_predictor_ = none := by
  obtain ⟨-, -, hcount, hhyp, -, -, hp⟩ := hq
  by_cases hc : c.calculated_deltas = true
  · obtain ⟨-, -, e3, e4, -, e6, -⟩ :=
      UpdateFilter_quiet s c.recv_delta_ms c.send_delta_ms c.arrival_time_ms
    have hf := Detect_frame
      (s.UpdateFilter c.recv_delta_ms c.send_delta_ms c.arrival_time_ms)
      (s.UpdateFilter c.recv_delta_ms c.send_delta_ms c.arrival_time_ms).UpdateTrend
      c.send_delta_ms c.arrival_time_ms
    have g2 := congrArg TrendlineEstimator.network_state_predictor_ hf
    have hnone : (UpdateCall.apply s c).network_state_predictor_ = none := by
      rw [apply_calculated s c hc hp, g2]
      show (s.UpdateFilter c.recv_delta_ms c.send_delta_ms
        c.arrival_time_ms).network_state_predictor_ = none
      rw [e6, hp]
    refine ⟨?_, hnone⟩
    unfold TrendlineEstimator.State
    rw [hnone]
    dsimp only
    rw [apply_calculated s c hc hp]
    apply Detect_first_sample
    · rw [e3, hcount]
    · rw [e4, hhyp]
      intro h
      cases h
  · have hc2 : c.calculated_deltas = false := by
      cases h : c.calculated_deltas with
      | false => rfl
      | true => exact absurd h hc
    rw [apply_not_calculated s c hc2 hp]
    refine ⟨?_, hp⟩
    unfold TrendlineEstimator.State
    rw [hp]
    dsimp only
    rw [hhyp]
    intro h
    cases h

/-- Counting the updates with calculated deltas, call by call. -/
theorem calculated_cons (c : UpdateCall) (cs : List UpdateCall) :
    UpdateCall.calculated (c :: cs) =
      if c.calculated_deltas = true then UpdateCall.calculated cs + 1
      else UpdateCall.calculated cs := by
  unfold UpdateCall.calculated
  by_cases hc : c.calculated_deltas = true
  · rw [if_pos hc, List.filter_cons_of_pos hc]
    rfl
  · rw [if_neg hc, List.filter_cons_of_neg hc]

/-- Without predictor, a sequence of updates none of which has calculated deltas
changes nothing. -/
theorem run_not_calculated (calls : List UpdateCall) :
    ∀ s : TrendlineEstimator, s.network_state_predictor_ = none →
      UpdateCall.calculated calls = 0 → UpdateCall.run s calls = s := by
  induction calls with
  | nil => intro s _ _; rfl
  | cons c cs ih =>
    intro s hp hn
    rw [calculated_cons] at hn
    by_cases hc : c.calculated_deltas = true
    · rw [if_pos hc] at hn
      exact absurd hn (Nat.succ_ne_zero _)
    · rw [if_neg hc] at hn
      have hc2 : c.calculated_deltas = false := by
        cases h : c.calculated_deltas with
        | false => rfl
        | true => exact absurd h hc
      show UpdateCall.run (UpdateCall.apply s c) cs = s
      rw [apply_not_calculated s c hc2 hp]
      exact ih s hp hn

/-- A quiet estimator stays quiet while its window is not full, and its hypothesis is
not Overusing after the update that fills the window. -/
theorem Quiet_run (calls : List UpdateCall) :
    ∀ (s : TrendlineEstimator) (j : Nat), s.Quiet j →
      (j + UpdateCall.calculated calls < s.window_size_ →
        (UpdateCall.run s calls).Quiet (j + UpdateCall.calculated calls)) ∧
      (j + UpdateCall.calculated calls ≤ s.window_size_ →
        (UpdateCall.run s calls).State ≠ BandwidthUsage.kBwOverusing) := by
  induction calls with
  | nil =>
    intro s j hq
    refine ⟨fun _ => hq, fun _ => ?_⟩
    obtain ⟨-, -, -, hhyp, -, -, hp⟩ := hq
    show s.State ≠ BandwidthUsage.kBwOverusing
    unfold TrendlineEstimator.State
    rw [hp]
    dsimp only
    rw [hhyp]
    intro h
    cases h
  | cons c cs ih =>
    intro s j hq
    have hp : s.network_state_predictor_ = none := hq.2.2.2.2.2.2
    rw [calculated_cons]
    by_cases hc : c.calculated_deltas = true
    · rw [if_pos hc]
      by_cases hj : j + 1 < s.window_size_
      · obtain ⟨hq2, hw⟩ := Quiet_step s c j hc hq hj
        obtain ⟨i1, i2⟩ := ih (UpdateCall.apply s c) (j + 1) hq2
        rw [hw] at i1 i2
        have e : j + (UpdateCall.calculated cs + 1) = j + 1 + UpdateCall.calculated cs := by
          omega
        rw [e]
        exact ⟨i1, i2⟩
      · refine ⟨fun h => absurd h (by omega), fun h => ?_⟩
        have hz : UpdateCall.calculated cs = 0 := by omega
        obtain ⟨n1, n2⟩ := Quiet_not_overusing s c j hq
        show (UpdateCall.run (UpdateCall.apply s c) cs).State ≠ BandwidthUsage.kBwOverusing
        rw [run_not_calculated cs (UpdateCall.apply s c) n2 hz]
        exact n1
    · rw [if_neg hc]
      have hc2 : c.calculated_deltas = false := by
        cases h : c.calculated_deltas with
        | false => rfl
        | true => exact absurd h hc
      show (j + UpdateCall.calculated cs < s.window_size_ →
          (UpdateCall.run (UpdateCall.apply s c) cs).Quiet (j + UpdateCall.calculated cs)) ∧
        (j + UpdateCall.calculated cs ≤ s.window_size_ →
          (UpdateCall.run (UpdateCall.apply s c) cs).State ≠ BandwidthUsage.kBwOverusing)
      rw [apply_not_calculated s c hc2 hp]
      exact ih s j hq

/-- C28: for every input sequence fed to a fresh `TrendlineEstimator` with window size W
(in particular W >= 2) and no network state predictor, in exact arithmetic: `State()` is
Normal after each of the first W-1 updates with calculated deltas, i.e. whenever fewer
than W such updates have been made, and `State()` is never Overusing before the
(W+1)-th such update, i.e. whenever at most W of them have been made: the trend stays 0
until the window is full, and Overusing requires two consecutive over-threshold
samples. -/
theorem no_overuse_before_window_full (window_size : Nat) (smoothing_coef threshold_gain : ℚ)
    (calls : List UpdateCall) :
    (UpdateCall.calculated calls < window_size →
      (UpdateCall.run (TrendlineEstimator.create window_size smoothing_coef threshold_gain none)
        calls).State = BandwidthUsage.kBwNormal) ∧
    (UpdateCall.calculated calls ≤ window_size →
      (UpdateCall.run (TrendlineEstimator.create window_size smoothing_coef threshold_gain none)
        calls).State ≠ BandwidthUsage.kBwOverusing) := by
  have hq : (TrendlineEstimator.create window_size smoothing_coef threshold_gain none).Quiet 0 := by
    unfold TrendlineEstimator.Quiet TrendlineEstimator.create
    refine ⟨rfl, rfl, rfl, rfl, ?_, ?_, rfl⟩ <;> norm_num
  obtain ⟨h1, h2⟩ := Quiet_run calls
    (TrendlineEstimator.create window_size smoothing_coef threshold_gain none) 0 hq
  have hw : (TrendlineEstimator.create window_size smoothing_coef threshold_gain none).window_size_
      = window_size := rfl
  rw [hw, Nat.zero_add] at h1 h2
  refine ⟨fun h => ?_, h2⟩
  obtain ⟨-, -, -, hhyp, -, -, hp⟩ := h1 h
  unfold TrendlineEstimator.State
  rw [hp]
  exact hhyp

/-- Witness for C28: window size 20, smoothing 0.9, gain 4 and the overuse feed (groups
sent 5 ms and received 6 ms apart): Normal after 19 samples, not Overusing after 20. -/
theorem no_overuse_before_window_full_witness :
    (UpdateCall.run (TrendlineEstimator.create 20 (9 / 10) 4 none)
      (overuseFeed 5 6 19)).State = BandwidthUsage.kBwNormal ∧
    (UpdateCall.run (TrendlineEstimator.create 20 (9 / 10) 4 none)
      (overuseFeed 5 6 20)).State ≠ BandwidthUsage.kBwOverusing :=
  ⟨(no_overuse_before_window_full 20 (9 / 10) 4 (overuseFeed 5 6 19)).1 (by decide),
    (no_overuse_before_window_full 20 (9 / 10) 4 (overuseFeed 5 6 20)).2 (by decide)⟩

/-! ## Theorems: `ModuleRtpRtcpImpl::SendNACK` -/

/-- A trace extends itself. -/
theorem Extends_refl (P : NackEvent → Prop) (t : List NackEvent) : NackEvent.Extends P t t :=
  ⟨[], rfl, fun _ h => absurd h (List.not_mem_nil _)⟩

/-- Extensions compose. -/
theorem Extends_trans (P : NackEvent → Prop) {a b c : List NackEvent}
    (h1 : NackEvent.Extends P a b) (h2 : NackEvent.Extends P b c) : NackEvent.Extends P a c := by
  obtain ⟨x, hx, px⟩ := h1
  obtain ⟨y, hy, py⟩ := h2
  refine ⟨y ++ x, ?_, ?_⟩
  · rw [hy, hx, List.append_assoc]
  · intro e he
    rcases List.mem_append.mp he with h | h
    · exact py e h
    · exact px e h

/-- One more event. -/
theorem Extends_cons (P : NackEvent → Prop) {a b : List NackEvent} (e : NackEvent)
    (h1 : NackEvent.Extends P a b) (he : P e) : NackEvent.Extends P a (e :: b) := by
  obtain ⟨x, hx, px⟩ := h1
  refine ⟨e :: x, ?_, ?_⟩
  · rw [hx]
    rfl
  · intro e2 he2
    rcases List.mem_cons.mp he2 with h | h
    · rw [h]
      exact he
    · exact px e2 h

/-- A read inside the array succeeds. -/
theorem read_nack_list_some (nack_list : List Nat) (i : Nat) (h : i < nack_list.length) :
    read_nack_list nack_list (i : Int) = some (nack_list.get ⟨i, h⟩) := by
  unfold read_nack_list
  rw [if_pos (Int.natCast_nonneg i), Int.toNat_natCast]
  exact List.getElem?_eq_getElem h

/-- The first loop of `SendNACK` reads inside the array and sends nothing. -/
theorem AddLostLoop_ok (nack_list : List Nat) (size : Nat) (hsize : size ≤ nack_list.length) :
    ∀ (indices : List Nat) (s : ModuleRtpRtcpImpl), (∀ i ∈ indices, i < size) →
      ∃ s1, ModuleRtpRtcpImpl.AddLostLoop nack_list indices s = some s1 ∧
        NackEvent.Extends (fun e => e.InBounds size ∧ e.NoSend) s.trace s1.trace ∧
        s1.rtt_ms_ = s.rtt_ms_ ∧
        s1.nack_last_time_sent_full_ms_ = s.nack_last_time_sent_full_ms_ ∧
        s1.nack_last_seq_number_sent_ = s.nack_last_seq_number_sent_ := by
  intro indices
  induction indices with
  | nil =>
    intro s _
    exact ⟨s, rfl, Extends_refl _ _, rfl, rfl, rfl⟩
  | cons i rest ih =>
    intro s hidx
    have hi : i < size := hidx i (List.mem_cons_self _ _)
    have hlen : i < nack_list.length := lt_of_lt_of_le hi hsize
    obtain ⟨s1, h1, h2, h3, h4, h5⟩ := ih
      ((s.call (NackEvent.Read (i : Int))).call
        (NackEvent.AddLostPacket (nack_list.get ⟨i, hlen⟩)))
      (fun j hj => hidx j (List.mem_cons_of_mem _ hj))
    refine ⟨s1, ?_, ?_, h3, h4, h5⟩
    · unfold ModuleRtpRtcpImpl.AddLostLoop
      rw [read_nack_list_some nack_list i hlen]
      exact h1
    · refine Extends_trans _ ?_ h2
      apply Extends_cons _ _ (Extends_cons _ _ (Extends_refl _ _) _)
      · exact ⟨trivial, trivial⟩
      · refine ⟨⟨Int.natCast_nonneg i, ?_⟩, trivial⟩
        exact Int.ofNat_lt.mpr hi

/-- The second loop of `SendNACK` reads inside the array, sends nothing, and leaves
`start_id` at 0 or right after an entry equal to the last sequence number sent. -/
theorem FindLoop_ok (nack_list : List Nat) (size : Nat) (hsize : size ≤ nack_list.length) :
    ∀ (indices : List Nat) (s : ModuleRtpRtcpImpl), (∀ i ∈ indices, i < size) →
      ∃ s1 start_id, ModuleRtpRtcpImpl.FindLoop nack_list indices s = some (s1, start_id) ∧
        NackEvent.Extends (fun e => e.InBounds size ∧ e.NoSend) s.trace s1.trace ∧
        s1.rtt_ms_ = s.rtt_ms_ ∧
        s1.nack_last_time_sent_full_ms_ = s.nack_last_time_sent_full_ms_ ∧
        s1.nack_last_seq_number_sent_ = s.nack_last_seq_number_sent_ ∧
        (start_id = 0 ∨
          ∃ i, i < size ∧ nack_list[i]? = some s.nack_last_seq_number_sent_ ∧
            start_id = (i + 1) % 65536) := by
  intro indices
  induction indices with
  | nil =>
    intro s _
    exact ⟨s, 0, rfl, Extends_refl _ _, rfl, rfl, rfl, Or.inl rfl⟩
  | cons i rest ih =>
    intro s hidx
    have hi : i < size := hidx i (List.mem_cons_self _ _)
    have hlen : i < nack_list.length := lt_of_lt_of_le hi hsize
    have hin : (fun e : NackEvent => e.InBounds size ∧ e.NoSend) (NackEvent.Read (i : Int)) :=
      ⟨⟨Int.natCast_nonneg i, Int.ofNat_lt.mpr hi⟩, trivial⟩
    by_cases heq : s.nack_last_seq_number_sent_ = nack_list.get ⟨i, hlen⟩
    · refine ⟨s.call (NackEvent.Read (i : Int)), (i + 1) % 65536, ?_, ?_, rfl, rfl, rfl, ?_⟩
      · unfold ModuleRtpRtcpImpl.FindLoop
        rw [read_nack_list_some nack_list i hlen]
        dsimp only
        rw [if_pos heq]
      · exact Extends_cons _ _ (Extends_refl _ _) hin
      · right
        refine ⟨i, hi, ?_, rfl⟩
        rw [heq]
        exact List.getElem?_eq_getElem hlen
    · obtain ⟨s1, st, h1, h2, h3, h4, h5, h6⟩ := ih (s.call (NackEvent.Read (i : Int)))
        (fun j hj => hidx j (List.mem_cons_of_mem _ hj))
      refine ⟨s1, st, ?_, ?_, h3, h4, h5, h6⟩
      · unfold ModuleRtpRtcpImpl.FindLoop
        rw [read_nack_list_some nack_list i hlen]
        dsimp only
        rw [if_neg heq]
        exact h1
      · exact Extends_trans _ (Extends_cons _ _ (Extends_refl _ _) hin) h2

/-- The send step of `SendNACK`, entered with `nack_length >= 1` entries from `start_id`
that end inside the array, reads and sends inside the array. -/
theorem SendNACK_send_ok (env : NackEnv) (kRtcpMaxNackFields : Nat) (nack_list : List Nat)
    (size : Nat) (s : ModuleRtpRtcpImpl) (nack_length start_id : Nat)
    (hk : 1 ≤ kRtcpMaxNackFields) (hsize : size ≤ nack_list.length)
    (hn : 1 ≤ nack_length) (hb : start_id + nack_length ≤ size) :
    ∃ r, ModuleRtpRtcpImpl.SendNACK_send env kRtcpMaxNackFields nack_list s nack_length start_id
        = some r ∧
      NackEvent.Extends (fun e => e.InBounds size) s.trace r.1.trace := by
  have hcap : ∀ n : Nat, n = (if nack_length > kRtcpMaxNackFields then kRtcpMaxNackFields
      else nack_length) → 1 ≤ n ∧ n ≤ nack_length := by
    intro n hn2
    split_ifs at hn2 <;> omega
  obtain ⟨c1, c2⟩ := hcap _ rfl
  have hidx : (start_id : Int) +
      ((if nack_length > kRtcpMaxNackFields then kRtcpMaxNackFields else nack_length : Nat) : Int)
        - 1 =
      ((start_id + (if nack_length > kRtcpMaxNackFields then kRtcpMaxNackFields
        else nack_length) - 1 : Nat) : Int) := by
    omega
  have hlt : start_id + (if nack_length > kRtcpMaxNackFields then kRtcpMaxNackFields
      else nack_length) - 1 < nack_list.length := by
    omega
  unfold ModuleRtpRtcpImpl.SendNACK_send
  dsimp only
  rw [hidx, read_nack_list_some nack_list _ hlt]
  refine ⟨_, rfl, ?_⟩
  dsimp only
  apply Extends_cons _ _ (Extends_cons _ _ (Extends_refl _ _) _)
  · show 1 ≤ _ ∧ _
    constructor
    · exact c1
    · omega
  · show 0 ≤ _ ∧ _
    constructor
    · exact Int.natCast_nonneg _
    · omega

/-- `TimeToSendFullNackList` reads nothing from the array and sends nothing. -/
theorem TimeToSendFullNackList_ok (env : NackEnv) (s : ModuleRtpRtcpImpl) (now : Int)
    (size : Nat) :
    NackEvent.Extends (fun e => e.InBounds size ∧ e.NoSend) s.trace
      (s.TimeToSendFullNackList env now).1.trace ∧
    (s.TimeToSendFullNackList env now).1.nack_last_seq_number_sent_
      = s.nack_last_seq_number_sent_ ∧
    (s.TimeToSendFullNackList env now).1.nack_last_time_sent_full_ms_
      = s.nack_last_time_sent_full_ms_ := by
  unfold ModuleRtpRtcpImpl.TimeToSendFullNackList
  dsimp only
  split_ifs
  · exact ⟨Extends_cons _ _ (Extends_refl _ _) ⟨trivial, trivial⟩, rfl, rfl⟩
  · exact ⟨Extends_refl _ _, rfl, rfl⟩

/-- Dropping half of what the added events satisfy. -/
theorem Extends_weaken {P Q : NackEvent → Prop} (hPQ : ∀ e, P e → Q e)
    {a b : List NackEvent} (h : NackEvent.Extends P a b) : NackEvent.Extends Q a b := by
  obtain ⟨x, hx, px⟩ := h
  exact ⟨x, hx, fun e he => hPQ e (px e he)⟩

/-- C30: for every non-empty NACK list (1 <= size <= 65535 entries of the array, with
`kRtcpMaxNackFields >= 1`), `SendNACK` only reads `nack_list` at indices in [0, size),
so the call never reads outside the array; whenever it reaches the send step,
`nack_length >= 1` and `start_id + nack_length - 1 <= size - 1`; and when a full list is
not yet due and the last sequence number of the list equals the last one sent, it
returns 0 without sending and without changing `nack_last_seq_number_sent_` (nor
`nack_last_time_sent_full_ms_`). -/
theorem SendNACK_in_bounds (env : NackEnv) (kRtcpMaxNackFields : Nat) (s : ModuleRtpRtcpImpl)
    (nack_list : List Nat) (size : Nat)
    (hk : 1 ≤ kRtcpMaxNackFields) (hpos : 1 ≤ size) (hsize : size ≤ nack_list.length)
    (h16 : size ≤ 65535) :
    ∃ r, s.SendNACK env kRtcpMaxNackFields nack_list size = some r ∧
      NackEvent.Extends (fun e => e.InBounds size) s.trace r.1.trace ∧
      (s.full_list_due env nack_list size = false →
        nack_list[size - 1]? = some s.nack_last_seq_number_sent_ →
          r.2 = 0 ∧
          NackEvent.Extends (fun e => e.InBounds size ∧ e.NoSend) s.trace r.1.trace ∧
          r.1.nack_last_seq_number_sent_ = s.nack_last_seq_number_sent_ ∧
          r.1.nack_last_time_sent_full_ms_ = s.nack_last_time_sent_full_ms_) := by
  obtain ⟨s1, a1, a2, -, a4, a5⟩ := AddLostLoop_ok nack_list size hsize (List.range size) s
    (fun i hi => List.mem_range.mp hi)
  have hclock : NackEvent.Extends (fun e => e.InBounds size ∧ e.NoSend) s.trace
      (s1.call NackEvent.TimeInMilliseconds).trace :=
    Extends_cons _ _ a2 ⟨trivial, trivial⟩
  obtain ⟨t1, t2, t3⟩ := TimeToSendFullNackList_ok env (s1.call NackEvent.TimeInMilliseconds)
    (env.TimeInMilliseconds (s1.call NackEvent.TimeInMilliseconds).trace) size
  have hafter := Extends_trans _ hclock t1
  have hlast : size - 1 < nack_list.length := by omega
  have hlastidx : (size : Int) - 1 = ((size - 1 : Nat) : Int) := by omega
  have hdue : s.full_list_due env nack_list size =
      ((s1.call NackEvent.TimeInMilliseconds).TimeToSendFullNackList env
        (env.TimeInMilliseconds (s1.call NackEvent.TimeInMilliseconds).trace)).2 := by
    unfold ModuleRtpRtcpImpl.full_list_due
    rw [a1]
  unfold ModuleRtpRtcpImpl.SendNACK
  rw [a1]
  dsimp only
  by_cases hfull : ((s1.call NackEvent.TimeInMilliseconds).TimeToSendFullNackList env
      (env.TimeInMilliseconds (s1.call NackEvent.TimeInMilliseconds).trace)).2 = true
  · rw [if_pos hfull]
    obtain ⟨r, r1, r2⟩ := SendNACK_send_ok env kRtcpMaxNackFields nack_list size
      { ((s1.call NackEvent.TimeInMilliseconds).TimeToSendFullNackList env
          (env.TimeInMilliseconds (s1.call NackEvent.TimeInMilliseconds).trace)).1 with
        nack_last_time_sent_full_ms_ :=
          env.TimeInMilliseconds (s1.call NackEvent.TimeInMilliseconds).trace }
      size 0 hk hsize hpos (by omega)
    refine ⟨r, r1, ?_, ?_⟩
    · exact Extends_trans _ (Extends_weaken (fun e he => he.1) hafter) r2
    · intro hnot
      rw [hdue, hfull] at hnot
      cases hnot
  · rw [if_neg hfull, hlastidx, read_nack_list_some nack_list (size - 1) hlast]
    dsimp only
    have hread : NackEvent.Extends (fun e => e.InBounds size ∧ e.NoSend) s.trace
        ((((s1.call NackEvent.TimeInMilliseconds).TimeToSendFullNackList env
          (env.TimeInMilliseconds (s1.call NackEvent.TimeInMilliseconds).trace)).1.call
            (NackEvent.Read ((size - 1 : Nat) : Int))).trace) := by
      apply Extends_cons _ _ hafter
      refine ⟨⟨Int.natCast_nonneg _, ?_⟩, trivial⟩
      omega
    have hseq : (((s1.call NackEvent.TimeInMilliseconds).TimeToSendFullNackList env
        (env.TimeInMilliseconds (s1.call NackEvent.TimeInMilliseconds).trace)).1.call
          (NackEvent.Read ((size - 1 : Nat) : Int))).nack_last_seq_number_sent_
        = s.nack_last_seq_number_sent_ := by
      show ((s1.call NackEvent.TimeInMilliseconds).TimeToSendFullNackList env
        (env.TimeInMilliseconds (s1.call
          NackEvent.TimeInMilliseconds).trace)).1.nack_last_seq_number_sent_ = _
      rw [t2]
      exact a5
    have htime : (((s1.call NackEvent.TimeInMilliseconds).TimeToSendFullNackList env
        (env.TimeInMilliseconds (s1.call NackEvent.TimeInMilliseconds).trace)).1.call
          (NackEvent.Read ((size - 1 : Nat) : Int))).nack_last_time_sent_full_ms_
        = s.nack_last_time_sent_full_ms_ := by
      show ((s1.call NackEvent.TimeInMilliseconds).TimeToSendFullNackList env
        (env.TimeInMilliseconds (s1.call
          NackEvent.TimeInMilliseconds).trace)).1.nack_last_time_sent_full_ms_ = _
      rw [t3]
      exact a4
    by_cases hsame : (((s1.call NackEvent.TimeInMilliseconds).TimeToSendFullNackList env
        (env.TimeInMilliseconds (s1.call NackEvent.TimeInMilliseconds).trace)).1.call
          (NackEvent.Read ((size - 1 : Nat) : Int))).nack_last_seq_number_sent_
        = nack_list.get ⟨size - 1, hlast⟩
    · rw [if_pos hsame]
      refine ⟨_, rfl, Extends_weaken (fun e he => he.1) hread, fun _ _ => ?_⟩
      exact ⟨rfl, hread, hseq, htime⟩
    · rw [if_neg hsame]
      obtain ⟨s5, st, f1, f2, -, -, -, f6⟩ := FindLoop_ok nack_list size hsize (List.range size)
        ((((s1.call NackEvent.TimeInMilliseconds).TimeToSendFullNackList env
          (env.TimeInMilliseconds (s1.call NackEvent.TimeInMilliseconds).trace)).1.call
            (NackEvent.Read ((size - 1 : Nat) : Int))))
        (fun i hi => List.mem_range.mp hi)
      rw [f1]
      dsimp only
      have hst : st + 1 ≤ size := by
        rcases f6 with h0 | ⟨i, hi, hval, hsti⟩
        · omega
        · have hne : i ≠ size - 1 := by
            intro hi2
            apply hsame
            rw [hi2, List.getElem?_eq_getElem hlast] at hval
            exact (Option.some.inj hval).symm
          omega
      have hlen : ((((size : Int) - (st : Int)) % 65536).toNat) = size - st := by
        omega
      rw [hlen]
      obtain ⟨r, r1, r2⟩ := SendNACK_send_ok env kRtcpMaxNackFields nack_list size s5
        (size - st) st hk hsize (by omega) (by omega)
      refine ⟨r, r1, ?_, ?_⟩
      · exact Extends_trans _ (Extends_weaken (fun e he => he.1) (Extends_trans _ hread f2)) r2
      · intro _ hl
        exfalso
        apply hsame
        rw [hseq]
        rw [List.getElem?_eq_getElem hlast] at hl
        exact (Option.some.inj hl).symm

/-- Witness for C30: 50 ms after the last full list (none due before 100 ms), with 12
the last sequence number sent: the list 10, 11, 12, 13 is sent from index 3 on (one
entry), and the list 10, 11, 12 is not sent at all. -/
theorem SendNACK_in_bounds_witness :
    (ModuleRtpRtcpImpl.mk 0 0 12 []).SendNACK NackEnv.quiet 253 [10, 11, 12, 13] 4 =
      some (ModuleRtpRtcpImpl.mk 0 0 13
        [NackEvent.SendRTCP 1 3, NackEvent.Read 3, NackEvent.Read 2, NackEvent.Read 1,
          NackEvent.Read 0, NackEvent.Read 3, NackEvent.RTT, NackEvent.TimeInMilliseconds,
          NackEvent.AddLostPacket 13, NackEvent.Read 3, NackEvent.AddLostPacket 12,
          NackEvent.Read 2, NackEvent.AddLostPacket 11, NackEvent.Read 1,
          NackEvent.AddLostPacket 10, NackEvent.Read 0], 0) ∧
    (∃ r, (ModuleRtpRtcpImpl.mk 0 0 12 []).SendNACK NackEnv.quiet 253 [10, 11, 12] 3 = some r ∧
      NackEvent.Extends (fun e => e.InBounds 3) [] r.1.trace ∧
      ((ModuleRtpRtcpImpl.mk 0 0 12 []).full_list_due NackEnv.quiet [10, 11, 12] 3 = false →
        [10, 11, 12][3 - 1]? = some 12 →
          r.2 = 0 ∧
          NackEvent.Extends (fun e => e.InBounds 3 ∧ e.NoSend) [] r.1.trace ∧
          r.1.nack_last_seq_number_sent_ = 12 ∧
          r.1.nack_last_time_sent_full_ms_ = 0)) :=
  ⟨by decide,
    SendNACK_in_bounds NackEnv.quiet 253 (ModuleRtpRtcpImpl.mk 0 0 12 []) [10, 11, 12] 3
      (by decide) (by decide) (by decide) (by decide)⟩

/-! ## Theorems: `RTPSender::SendPadData` -/

/-- `SafeClamp` into a non-empty range is `max lo (min x hi)`. -/
theorem SafeClamp_size_t_eq (x lo hi : Nat) (h : lo ≤ hi) :
    SafeClamp_size_t x lo hi = max lo (min x hi) ∧
    lo ≤ SafeClamp_size_t x lo hi ∧ SafeClamp_size_t x lo hi ≤ hi := by
  unfold SafeClamp_size_t
  split_ifs <;> omega

/-- `UpdateTransportSequenceNumber` hands no padding packet to the network. -/
theorem UpdateTransportSequenceNumber_trace (env : PadEnv) (s : PadMembers) (padding : Nat) :
    (∀ e ∈ (s.UpdateTransportSequenceNumber env).1.trace, e ∈ s.trace ∨ e.Carries padding) ∧
    PadEvent.packets (s.UpdateTransportSequenceNumber env).1.trace = PadEvent.packets s.trace := by
  unfold PadMembers.UpdateTransportSequenceNumber PadMembers.call
  dsimp only
  split_ifs
  · exact ⟨fun e he => Or.inl he, rfl⟩
  · exact ⟨fun e he => Or.inl he, rfl⟩
  · refine ⟨fun e he => ?_, rfl⟩
    rcases List.mem_cons.mp he with h | h
    · right; rw [h]; trivial
    · rcases List.mem_cons.mp h with h2 | h2
      · right; rw [h2]; trivial
      · exact Or.inl h2

/-- One more recorded call that hands no other padding size to the network. -/
theorem carries_cons (padding : Nat) (old t : List PadEvent) (x : PadEvent)
    (ht : ∀ e ∈ t, e ∈ old ∨ e.Carries padding) (hx : x.Carries padding) :
    ∀ e ∈ x :: t, e ∈ old ∨ e.Carries padding := by
  intro e he
  rcases List.mem_cons.mp he with h | h
  · right
    rw [h]
    exact hx
  · exact ht e h

/-- Every padding packet that the second half of the loop body hands to the network
carries `padding_bytes_in_packet` bytes, and there is exactly one when it ends at the
end of the body. -/
theorem SendPadPacket_trace (env : PadEnv) (pacing_info : PacedPacketInfo)
    (padding_bytes_in_packet : Nat) (s : PadMembers) (now_ms : Int) (ssrc timestamp : Nat)
    (capture_time_ms : Int) (sequence_number : Nat) (payload_type : Int) (over_rtx : Bool)
    (old : List PadEvent)
    (hs : ∀ e ∈ s.trace, e ∈ old ∨ e.Carries padding_bytes_in_packet) :
    ∀ e ∈ (s.SendPadPacket env pacing_info padding_bytes_in_packet now_ms ssrc timestamp
        capture_time_ms sequence_number payload_type over_rtx).state.trace,
      e ∈ old ∨ e.Carries padding_bytes_in_packet := by
  have hu : ∀ e ∈ (s.UpdateTransportSequenceNumber env).1.trace,
      e ∈ old ∨ e.Carries padding_bytes_in_packet := by
    intro e he
    rcases (UpdateTransportSequenceNumber_trace env s padding_bytes_in_packet).1 e he with h | h
    · exact hs e h
    · exact Or.inr h
  unfold PadMembers.SendPadPacket
  dsimp only
  by_cases hseq : (s.UpdateTransportSequenceNumber env).2.1 = true
  · rw [if_pos hseq]
    split_ifs <;> first
      | exact carries_cons _ _ _ _ (carries_cons _ _ _ _ hu trivial) rfl
      | exact carries_cons _ _ _ _
          (carries_cons _ _ _ _ (carries_cons _ _ _ _ hu trivial) rfl) trivial
  · rw [if_neg hseq]
    split_ifs <;> first
      | exact carries_cons _ _ _ _ hu rfl
      | exact carries_cons _ _ _ _ (carries_cons _ _ _ _ hu rfl) trivial

/-- Every padding packet that one pass through the loop body hands to the network
carries `padding_bytes_in_packet` bytes. -/
theorem SendPadStep_trace (env : PadEnv) (pacing_info : PacedPacketInfo)
    (padding_bytes_in_packet : Nat) (s : PadMembers) :
    ∀ e ∈ (s.SendPadStep env pacing_info padding_bytes_in_packet).state.trace,
      e ∈ s.trace ∨ e.Carries padding_bytes_in_packet := by
  have hbase : ∀ e ∈ (s.call PadEvent.TimeInMilliseconds).trace,
      e ∈ s.trace ∨ e.Carries padding_bytes_in_packet :=
    carries_cons _ _ _ _ (fun e he => Or.inl he) trivial
  unfold PadMembers.SendPadStep
  dsimp only
  split_ifs
  · exact hbase
  · exact hbase
  · exact hbase
  · split
    · exact hbase
    · exact SendPadPacket_trace env pacing_info padding_bytes_in_packet _ _ _ _ _ _ _ _ _ hbase
  · exact hbase
  · split
    · exact hbase
    · exact SendPadPacket_trace env pacing_info padding_bytes_in_packet _ _ _ _ _ _ _ _ _ hbase
  · split
    · exact hbase
    · exact SendPadPacket_trace env pacing_info padding_bytes_in_packet _ _ _ _ _ _ _ _ _ hbase

/-- The loop of `SendPadData` from any loop head: packets of `padding_bytes_in_packet`
bytes only, a whole number of them counted in `bytes_sent`, and less than one packet
beyond the request. -/
theorem SendPadLoop_spec (env : PadEnv) (pacing_info : PacedPacketInfo)
    (padding_bytes_in_packet bytes : Nat) (old : List PadEvent)
    (hp : 0 < padding_bytes_in_packet) :
    ∀ (fuel : Nat) (s : PadMembers) (bytes_sent : Nat),
      (∀ e ∈ s.trace, e ∈ old ∨ e.Carries padding_bytes_in_packet) →
      (∃ k, bytes_sent = k * padding_bytes_in_packet) →
      bytes_sent < bytes + padding_bytes_in_packet →
      (∀ e ∈ (PadMembers.SendPadLoop env pacing_info padding_bytes_in_packet bytes fuel s
          bytes_sent).1.trace, e ∈ old ∨ e.Carries padding_bytes_in_packet) ∧
      (∃ k, (PadMembers.SendPadLoop env pacing_info padding_bytes_in_packet bytes fuel s
          bytes_sent).2 = k * padding_bytes_in_packet) ∧
      (PadMembers.SendPadLoop env pacing_info padding_bytes_in_packet bytes fuel s
          bytes_sent).2 < bytes + padding_bytes_in_packet := by
  intro fuel
  induction fuel with
  | zero =>
    intro s bytes_sent hs hk hb
    exact ⟨hs, hk, hb⟩
  | succ fuel ih =>
    intro s bytes_sent hs hk hb
    unfold PadMembers.SendPadLoop
    by_cases hlt : bytes_sent < bytes
    · rw [if_pos hlt]
      have hstep := SendPadStep_trace env pacing_info padding_bytes_in_packet s
      have hstep2 : ∀ e ∈ (s.SendPadStep env pacing_info padding_bytes_in_packet).state.trace,
          e ∈ old ∨ e.Carries padding_bytes_in_packet := by
        intro e he
        rcases hstep e he with h | h
        · exact hs e h
        · exact Or.inr h
      cases hc : s.SendPadStep env pacing_info padding_bytes_in_packet with
      | stop s1 =>
        rw [hc] at hstep2
        exact ⟨hstep2, hk, hb⟩
      | return_zero s1 =>
        rw [hc] at hstep2
        exact ⟨hstep2, ⟨0, (Nat.zero_mul _).symm⟩, Nat.add_pos_right bytes hp⟩
      | sent s1 =>
        rw [hc] at hstep2
        obtain ⟨k, hk2⟩ := hk
        exact ih s1 (bytes_sent + padding_bytes_in_packet) hstep2
          ⟨k + 1, by rw [hk2, Nat.add_mul, Nat.one_mul]⟩ (by omega)
    · rw [if_neg hlt]
      exact ⟨hs, hk, hb⟩

/-- With padding packets of at least one byte the loop of `SendPadData` never runs out
of fuel when given one unit per requested byte: more fuel gives the same result. -/
theorem SendPadLoop_fuel (env : PadEnv) (pacing_info : PacedPacketInfo)
    (padding_bytes_in_packet bytes : Nat) (hp : 0 < padding_bytes_in_packet) :
    ∀ (n fuel : Nat) (s : PadMembers) (bytes_sent : Nat),
      bytes ≤ bytes_sent + n → n ≤ fuel →
      PadMembers.SendPadLoop env pacing_info padding_bytes_in_packet bytes fuel s bytes_sent =
        PadMembers.SendPadLoop env pacing_info padding_bytes_in_packet bytes n s bytes_sent := by
  intro n
  induction n with
  | zero =>
    intro fuel s bytes_sent hb _
    have hnlt : ¬ bytes_sent < bytes := by omega
    cases fuel with
    | zero => rfl
    | succ f =>
      unfold PadMembers.SendPadLoop
      rw [if_neg hnlt]
  | succ n ih =>
    intro fuel s bytes_sent hb hfuel
    obtain ⟨f, rfl⟩ : ∃ f, fuel = f + 1 := ⟨fuel - 1, by omega⟩
    unfold PadMembers.SendPadLoop
    by_cases hlt : bytes_sent < bytes
    · rw [if_pos hlt, if_pos hlt]
      cases hc : s.SendPadStep env pacing_info padding_bytes_in_packet with
      | stop s1 => rfl
      | return_zero s1 => rfl
      | sent s1 =>
        exact ih f s1 (bytes_sent + padding_bytes_in_packet) (by omega) (by omega)
    · rw [if_neg hlt, if_neg hlt]

/-- `SameConfig` holds between a state and itself. -/
theorem SameConfig_refl (s : PadMembers) : s.SameConfig s :=
  ⟨rfl, rfl, rfl, rfl, rfl, rfl, rfl, rfl, rfl, rfl, rfl⟩

/-- `SameConfig` composes. -/
theorem SameConfig_trans (s s1 s2 : PadMembers) (h1 : s.SameConfig s1)
    (h2 : s1.SameConfig s2) : s.SameConfig s2 := by
  obtain ⟨a1, a2, a3, a4, a5, a6, a7, a8, a9, a10, a11⟩ := h1
  obtain ⟨b1, b2, b3, b4, b5, b6, b7, b8, b9, b10, b11⟩ := h2
  exact ⟨b1.trans a1, b2.trans a2, b3.trans a3, b4.trans a4, b5.trans a5, b6.trans a6,
    b7.trans a7, b8.trans a8, b9.trans a9, b10.trans a10, b11.trans a11⟩

/-- Recording a call leaves the configuration alone. -/
theorem SameConfig_call (s s1 : PadMembers) (e : PadEvent) (h : s.SameConfig s1) :
    s.SameConfig (s1.call e) := h

/-- `UpdateTransportSequenceNumber` hands no packet to the network and leaves the
configuration alone. -/
theorem UpdateTransportSequenceNumber_count (env : PadEnv) (s : PadMembers) :
    env.accepted (s.UpdateTransportSequenceNumber env).1.trace = env.accepted s.trace ∧
    PadEvent.packets (s.UpdateTransportSequenceNumber env).1.trace =
      PadEvent.packets s.trace ∧
    s.SameConfig (s.UpdateTransportSequenceNumber env).1 := by
  unfold PadMembers.UpdateTransportSequenceNumber PadMembers.call
  dsimp only
  split_ifs
  · exact ⟨rfl, rfl, SameConfig_refl s⟩
  · exact ⟨rfl, rfl, SameConfig_refl s⟩
  · exact ⟨rfl, rfl, SameConfig_refl s⟩

/-- The end of the loop body, from the call of `SendPacketToNetwork` on: exactly one
packet is handed to the network; the body ends normally when the transport took the
packet and leaves the loop when the transport refused it. -/
theorem SendPacketToNetwork_count (env : PadEnv) (s s4 : PadMembers) (e : PadEvent)
    (over_rtx : Bool)
    (he : ∃ a b c d o f g h i, e = PadEvent.SendPacketToNetwork a b c d o f g h i)
    (ha : env.accepted s4.trace = env.accepted s.trace)
    (hp : PadEvent.packets s4.trace = PadEvent.packets s.trace)
    (hc : s.SameConfig s4) :
    (∃ s1, (if env.SendPacketToNetwork (s4.call e).trace = false then
          PadStep.stop (s4.call e)
        else PadStep.sent ((s4.call e).call (PadEvent.UpdateRtpStats over_rtx))) =
          PadStep.stop s1 ∧
      env.accepted s1.trace = env.accepted s.trace ∧
      PadEvent.packets s1.trace = PadEvent.packets s.trace + 1 ∧
      (∃ t, env.SendPacketToNetwork t = false)) ∨
    (∃ s1, (if env.SendPacketToNetwork (s4.call e).trace = false then
          PadStep.stop (s4.call e)
        else PadStep.sent ((s4.call e).call (PadEvent.UpdateRtpStats over_rtx))) =
          PadStep.sent s1 ∧
      env.accepted s1.trace = env.accepted s.trace + 1 ∧
      PadEvent.packets s1.trace = PadEvent.packets s.trace + 1 ∧
      s.SameConfig s1) := by
  obtain ⟨a, b, c, d, o, f, g, h, i, rfl⟩ := he
  have hacc : env.accepted (s4.call (PadEvent.SendPacketToNetwork a b c d o f g h i)).trace =
      if env.SendPacketToNetwork
          (s4.call (PadEvent.SendPacketToNetwork a b c d o f g h i)).trace = true then
        env.accepted s4.trace + 1
      else env.accepted s4.trace := rfl
  have hpk : PadEvent.packets (s4.call (PadEvent.SendPacketToNetwork a b c d o f g h i)).trace =
      PadEvent.packets s4.trace + 1 := rfl
  by_cases hsend : env.SendPacketToNetwork
      (s4.call (PadEvent.SendPacketToNetwork a b c d o f g h i)).trace = false
  · left
    rw [if_pos hsend]
    refine ⟨_, rfl, ?_, ?_, ⟨_, hsend⟩⟩
    · rw [hacc, if_neg (by rw [hsend]; decide), ha]
    · rw [hpk, hp]
  · right
    rw [if_neg hsend]
    have hsend2 := Bool.eq_true_of_not_eq_false hsend
    refine ⟨_, rfl, ?_, ?_, SameConfig_call _ _ _ (SameConfig_call _ _ _ hc)⟩
    · have h1 : env.accepted ((s4.call (PadEvent.SendPacketToNetwork a b c d o f g h i)).call
          (PadEvent.UpdateRtpStats over_rtx)).trace =
          env.accepted (s4.call (PadEvent.SendPacketToNetwork a b c d o f g h i)).trace := rfl
      rw [h1, hacc, if_pos hsend2, ha]
    · have h1 : PadEvent.packets
          ((s4.call (PadEvent.SendPacketToNetwork a b c d o f g h i)).call
            (PadEvent.UpdateRtpStats over_rtx)).trace =
          PadEvent.packets
            (s4.call (PadEvent.SendPacketToNetwork a b c d o f g h i)).trace := rfl
      rw [h1, hpk, hp]

/-- The second half of the loop body hands exactly one packet to the network; it ends
at the end of the body when the transport took the packet and leaves the loop when the
transport refused it. -/
theorem SendPadPacket_count (env : PadEnv) (pacing_info : PacedPacketInfo)
    (padding_bytes_in_packet : Nat) (s : PadMembers) (now_ms : Int) (ssrc timestamp : Nat)
    (capture_time_ms : Int) (sequence_number : Nat) (payload_type : Int) (over_rtx : Bool) :
    (∃ s1, s.SendPadPacket env pacing_info padding_bytes_in_packet now_ms ssrc timestamp
        capture_time_ms sequence_number payload_type over_rtx = PadStep.stop s1 ∧
      env.accepted s1.trace = env.accepted s.trace ∧
      PadEvent.packets s1.trace = PadEvent.packets s.trace + 1 ∧
      (∃ t, env.SendPacketToNetwork t = false)) ∨
    (∃ s1, s.SendPadPacket env pacing_info padding_bytes_in_packet now_ms ssrc timestamp
        capture_time_ms sequence_number payload_type over_rtx = PadStep.sent s1 ∧
      env.accepted s1.trace = env.accepted s.trace + 1 ∧
      PadEvent.packets s1.trace = PadEvent.packets s.trace + 1 ∧
      s.SameConfig s1) := by
  obtain ⟨ha, hp, hc⟩ := UpdateTransportSequenceNumber_count env s
  unfold PadMembers.SendPadPacket
  dsimp only
  refine SendPacketToNetwork_count env s _ _ _ ⟨_, _, _, _, _, _, _, _, _, rfl⟩ ?_ ?_ ?_
  · split_ifs
    · exact ha
    · exact ha
  · split_ifs
    · exact hp
    · exact hp
  · split_ifs
    · exact SameConfig_call _ _ _ hc
    · exact hc

/-- One pass through the loop body of `SendPadData`: a pass that ends at the end of the
body has handed exactly one packet to the network and the transport took it; a pass
that leaves the loop has handed over at most one packet, which the transport refused;
a pass that returns 0 has handed over nothing, and happens only when the SSRC is not
set. -/
theorem SendPadStep_count (env : PadEnv) (pacing_info : PacedPacketInfo)
    (padding_bytes_in_packet : Nat) (s : PadMembers) :
    (∃ s1, s.SendPadStep env pacing_info padding_bytes_in_packet = PadStep.stop s1 ∧
      env.accepted s1.trace = env.accepted s.trace ∧
      (PadEvent.packets s1.trace = PadEvent.packets s.trace ∨
        PadEvent.packets s1.trace = PadEvent.packets s.trace + 1) ∧
      (¬ s.Ready ∨ ∃ t, env.SendPacketToNetwork t = false)) ∨
    (∃ s1, s.SendPadStep env pacing_info padding_bytes_in_packet = PadStep.return_zero s1 ∧
      env.accepted s1.trace = env.accepted s.trace ∧
      PadEvent.packets s1.trace = PadEvent.packets s.trace ∧
      ¬ s.HasSsrc ∧ ¬ s.Ready) ∨
    (∃ s1, s.SendPadStep env pacing_info padding_bytes_in_packet = PadStep.sent s1 ∧
      env.accepted s1.trace = env.accepted s.trace + 1 ∧
      PadEvent.packets s1.trace = PadEvent.packets s.trace + 1 ∧
      s.SameConfig s1 ∧ s.HasSsrc) := by
  have hstop : ¬ s.Ready →
      ((∃ s1, PadStep.stop (s.call PadEvent.TimeInMilliseconds) = PadStep.stop s1 ∧
        env.accepted s1.trace = env.accepted s.trace ∧
        (PadEvent.packets s1.trace = PadEvent.packets s.trace ∨
          PadEvent.packets s1.trace = PadEvent.packets s.trace + 1) ∧
        (¬ s.Ready ∨ ∃ t, env.SendPacketToNetwork t = false)) ∨
      (∃ s1, PadStep.stop (s.call PadEvent.TimeInMilliseconds) = PadStep.return_zero s1 ∧
        env.accepted s1.trace = env.accepted s.trace ∧
        PadEvent.packets s1.trace = PadEvent.packets s.trace ∧
        ¬ s.HasSsrc ∧ ¬ s.Ready) ∨
      (∃ s1, PadStep.stop (s.call PadEvent.TimeInMilliseconds) = PadStep.sent s1 ∧
        env.accepted s1.trace = env.accepted s.trace + 1 ∧
        PadEvent.packets s1.trace = PadEvent.packets s.trace + 1 ∧
        s.SameConfig s1 ∧ s.HasSsrc)) :=
    fun hr => Or.inl ⟨_, rfl, rfl, Or.inl rfl, Or.inl hr⟩
  have hzero : ¬ s.HasSsrc → ¬ s.Ready →
      ((∃ s1, PadStep.return_zero (s.call PadEvent.TimeInMilliseconds) = PadStep.stop s1 ∧
        env.accepted s1.trace = env.accepted s.trace ∧
        (PadEvent.packets s1.trace = PadEvent.packets s.trace ∨
          PadEvent.packets s1.trace = PadEvent.packets s.trace + 1) ∧
        (¬ s.Ready ∨ ∃ t, env.SendPacketToNetwork t = false)) ∨
      (∃ s1, PadStep.return_zero (s.call PadEvent.TimeInMilliseconds) =
          PadStep.return_zero s1 ∧
        env.accepted s1.trace = env.accepted s.trace ∧
        PadEvent.packets s1.trace = PadEvent.packets s.trace ∧
        ¬ s.HasSsrc ∧ ¬ s.Ready) ∨
      (∃ s1, PadStep.return_zero (s.call PadEvent.TimeInMilliseconds) = PadStep.sent s1 ∧
        env.accepted s1.trace = env.accepted s.trace + 1 ∧
        PadEvent.packets s1.trace = PadEvent.packets s.trace + 1 ∧
        s.SameConfig s1 ∧ s.HasSsrc)) :=
    fun hs hr => Or.inr (Or.inl ⟨_, rfl, rfl, rfl, hs, hr⟩)
  have hsend : ∀ (s2 : PadMembers) (now_ms : Int) (ssrc timestamp : Nat)
      (capture_time_ms : Int) (sequence_number : Nat) (payload_type : Int) (over_rtx : Bool),
      s.SameConfig s2 → s2.trace = PadEvent.TimeInMilliseconds :: s.trace → s.HasSsrc →
      ((∃ s1, s2.SendPadPacket env pacing_info padding_bytes_in_packet now_ms ssrc timestamp
          capture_time_ms sequence_number payload_type over_rtx = PadStep.stop s1 ∧
        env.accepted s1.trace = env.accepted s.trace ∧
        (PadEvent.packets s1.trace = PadEvent.packets s.trace ∨
          PadEvent.packets s1.trace = PadEvent.packets s.trace + 1) ∧
        (¬ s.Ready ∨ ∃ t, env.SendPacketToNetwork t = false)) ∨
      (∃ s1, s2.SendPadPacket env pacing_info padding_bytes_in_packet now_ms ssrc timestamp
          capture_time_ms sequence_number payload_type over_rtx = PadStep.return_zero s1 ∧
        env.accepted s1.trace = env.accepted s.trace ∧
        PadEvent.packets s1.trace = PadEvent.packets s.trace ∧
        ¬ s.HasSsrc ∧ ¬ s.Ready) ∨
      (∃ s1, s2.SendPadPacket env pacing_info padding_bytes_in_packet now_ms ssrc timestamp
          capture_time_ms sequence_number payload_type over_rtx = PadStep.sent s1 ∧
        env.accepted s1.trace = env.accepted s.trace + 1 ∧
        PadEvent.packets s1.trace = PadEvent.packets s.trace + 1 ∧
        s.SameConfig s1 ∧ s.HasSsrc)) := by
    intro s2 now_ms ssrc timestamp capture_time_ms sequence_number payload_type over_rtx
      hc ht hs
    have ha2 : env.accepted s2.trace = env.accepted s.trace := by rw [ht]; rfl
    have hp2 : PadEvent.packets s2.trace = PadEvent.packets s.trace := by rw [ht]; rfl
    rcases SendPadPacket_count env pacing_info padding_bytes_in_packet s2 now_ms ssrc
      timestamp capture_time_ms sequence_number payload_type over_rtx with
      ⟨s1, h1, h2, h3, h4⟩ | ⟨s1, h1, h2, h3, h4⟩
    · exact Or.inl ⟨s1, h1, by rw [h2, ha2], Or.inr (by rw [h3, hp2]), Or.inr h4⟩
    · exact Or.inr (Or.inr ⟨s1, h1, by rw [h2, ha2], by rw [h3, hp2],
        SameConfig_trans s s2 s1 hc h4, hs⟩)
  unfold PadMembers.SendPadStep
  dsimp only
  by_cases hmedia : (s.call PadEvent.TimeInMilliseconds).sending_media_ = false
  · rw [if_pos hmedia]
    refine hstop (fun hr => ?_)
    have h1 : s.sending_media_ = true := hr.1
    have h2 : s.sending_media_ = false := hmedia
    rw [h1] at h2
    exact Bool.noConfusion h2
  · rw [if_neg hmedia]
    by_cases hrtx : (s.call PadEvent.TimeInMilliseconds).rtx_ = kRtxOff
    · rw [if_pos hrtx]
      have hrtx2 : s.rtx_ = kRtxOff := hrtx
      by_cases hpt : (s.call PadEvent.TimeInMilliseconds).last_payload_type_ = -1
      · rw [if_pos hpt]
        refine hstop (fun hr => ?_)
        have h1 := hr.2
        rw [if_pos hrtx2] at h1
        exact h1.1 hpt
      · rw [if_neg hpt]
        by_cases hmark : (s.call PadEvent.TimeInMilliseconds).audio_configured_ = false ∧
            (s.call PadEvent.TimeInMilliseconds).last_packet_marker_bit_ = false
        · rw [if_pos hmark]
          refine hstop (fun hr => ?_)
          have h1 := hr.2
          rw [if_pos hrtx2] at h1
          exact h1.2.1 hmark
        · rw [if_neg hmark]
          cases hss : (s.call PadEvent.TimeInMilliseconds).ssrc_ with
          | none =>
            have hss2 : s.ssrc_ = none := hss
            refine hzero (fun hs => ?_) (fun hr => ?_)
            · unfold PadMembers.HasSsrc at hs
              rw [if_pos hrtx2] at hs
              exact hs hss2
            · have h1 := hr.2
              rw [if_pos hrtx2] at h1
              exact h1.2.2 hss2
          | some ssrc =>
            have hss2 : s.ssrc_ = some ssrc := hss
            refine hsend _ _ _ _ _ _ _ _
              ⟨rfl, rfl, rfl, rfl, rfl, hss2.symm, rfl, rfl, rfl, rfl, rfl⟩ rfl ?_
            unfold PadMembers.HasSsrc
            rw [if_pos hrtx2, hss2]
            exact Option.some_ne_none ssrc
    · rw [if_neg hrtx]
      have hrtx2 : ¬ s.rtx_ = kRtxOff := hrtx
      by_cases hsent : (s.call PadEvent.TimeInMilliseconds).media_has_been_sent_ = false ∧
          ((s.call PadEvent.TimeInMilliseconds).abs_send_time_registered ||
            ((s.call PadEvent.TimeInMilliseconds).transport_sequence_number_registered &&
              (s.call PadEvent.TimeInMilliseconds).transport_sequence_number_allocator_)) =
            false
      · rw [if_pos hsent]
        refine hstop (fun hr => ?_)
        have h1 := hr.2
        rw [if_neg hrtx2] at h1
        exact h1.1 hsent
      · rw [if_neg hsent]
        cases hss : (s.call PadEvent.TimeInMilliseconds).ssrc_rtx_ with
        | none =>
          have hss2 : s.ssrc_rtx_ = none := hss
          refine hzero (fun hs => ?_) (fun hr => ?_)
          · unfold PadMembers.HasSsrc at hs
            rw [if_neg hrtx2] at hs
            exact hs hss2
          · have h1 := hr.2
            rw [if_neg hrtx2] at h1
            exact h1.2 hss2
        | some ssrc =>
          have hss2 : s.ssrc_rtx_ = some ssrc := hss
          refine hsend _ _ _ _ _ _ _ _
            ⟨rfl, rfl, rfl, rfl, rfl, rfl, hss2.symm, rfl, rfl, rfl, rfl⟩ rfl ?_
          unfold PadMembers.HasSsrc
          rw [if_neg hrtx2, hss2]
          exact Option.some_ne_none ssrc

/-- The SSRC stays set while the configuration stays the same. -/
theorem HasSsrc_of_SameConfig (s s1 : PadMembers) (h : s.SameConfig s1) (hs : s.HasSsrc) :
    s1.HasSsrc := by
  obtain ⟨_, _, h3, _, _, h6, h7, _, _, _, _⟩ := h
  unfold PadMembers.HasSsrc at hs ⊢
  rw [h3, h6, h7]
  exact hs

/-- A sender stays ready to pad while the configuration stays the same. -/
theorem Ready_of_SameConfig (s s1 : PadMembers) (h : s.SameConfig s1) (hs : s.Ready) :
    s1.Ready := by
  obtain ⟨h1, h2, h3, h4, h5, h6, h7, h8, h9, h10, h11⟩ := h
  unfold PadMembers.Ready at hs ⊢
  rw [h1, h2, h3, h4, h5, h6, h7, h8, h9, h10, h11]
  exact hs

/-- The loop of `SendPadData` from any loop head: the value returned is
`padding_bytes_in_packet` times the number of packets the transport took, and the loop
has handed to the network these packets and at most one more, which the transport
refused. `a` and `n` are the numbers of packets taken and handed over before the
call. -/
theorem SendPadLoop_count (env : PadEnv) (pacing_info : PacedPacketInfo)
    (padding_bytes_in_packet bytes a n : Nat) :
    ∀ (fuel : Nat) (s : PadMembers) (bytes_sent k0 : Nat),
      bytes_sent = k0 * padding_bytes_in_packet →
      env.accepted s.trace = a + k0 →
      PadEvent.packets s.trace = n + k0 →
      (0 < k0 → s.HasSsrc) →
      ∃ k, (PadMembers.SendPadLoop env pacing_info padding_bytes_in_packet bytes fuel s
          bytes_sent).2 = k * padding_bytes_in_packet ∧
        env.accepted (PadMembers.SendPadLoop env pacing_info padding_bytes_in_packet bytes
          fuel s bytes_sent).1.trace = a + k ∧
        (PadEvent.packets (PadMembers.SendPadLoop env pacing_info padding_bytes_in_packet
            bytes fuel s bytes_sent).1.trace = n + k ∨
          PadEvent.packets (PadMembers.SendPadLoop env pacing_info padding_bytes_in_packet
            bytes fuel s bytes_sent).1.trace = n + k + 1) := by
  intro fuel
  induction fuel with
  | zero =>
    intro s bytes_sent k0 hb ha hn _
    exact ⟨k0, hb, ha, Or.inl hn⟩
  | succ fuel ih =>
    intro s bytes_sent k0 hb ha hn hs
    unfold PadMembers.SendPadLoop
    by_cases hlt : bytes_sent < bytes
    · rw [if_pos hlt]
      rcases SendPadStep_count env pacing_info padding_bytes_in_packet s with
        ⟨s1, h1, h2, h3, _⟩ | ⟨s1, h1, h2, h3, h4, _⟩ | ⟨s1, h1, h2, h3, h4, h5⟩
      · rw [h1]
        refine ⟨k0, hb, by rw [h2, ha], ?_⟩
        rcases h3 with h3 | h3
        · exact Or.inl (by rw [h3, hn])
        · exact Or.inr (by rw [h3, hn])
      · rw [h1]
        have hk0 : k0 = 0 := by
          rcases Nat.eq_zero_or_pos k0 with h | h
          · exact h
          · exact absurd (hs h) h4
        refine ⟨0, (Nat.zero_mul _).symm, ?_, Or.inl ?_⟩
        · rw [h2, ha, hk0]
        · rw [h3, hn, hk0]
      · rw [h1]
        exact ih s1 (bytes_sent + padding_bytes_in_packet) (k0 + 1)
          (by rw [hb, Nat.add_mul, Nat.one_mul]) (by rw [h2, ha]; rfl) (by rw [h3, hn]; rfl)
          (fun _ => HasSsrc_of_SameConfig s s1 h4 h5)
    · rw [if_neg hlt]
      exact ⟨k0, hb, ha, Or.inl hn⟩

/-- The loop of `SendPadData` on a sender that is ready to pad, with a transport that
takes every packet: the loop runs until the request is covered. -/
theorem SendPadLoop_ready (env : PadEnv) (pacing_info : PacedPacketInfo)
    (padding_bytes_in_packet bytes : Nat)
    (hall : ∀ t, env.SendPacketToNetwork t = true) :
    ∀ (fuel : Nat) (s : PadMembers) (bytes_sent : Nat),
      s.Ready → bytes ≤ bytes_sent + fuel * padding_bytes_in_packet →
      bytes ≤ (PadMembers.SendPadLoop env pacing_info padding_bytes_in_packet bytes fuel s
        bytes_sent).2 := by
  have hnone : ¬ ∃ t, env.SendPacketToNetwork t = false := by
    rintro ⟨t, ht⟩
    rw [hall t] at ht
    exact Bool.noConfusion ht
  intro fuel
  induction fuel with
  | zero =>
    intro s bytes_sent _ hb
    rw [Nat.zero_mul, Nat.add_zero] at hb
    exact hb
  | succ fuel ih =>
    intro s bytes_sent hr hb
    unfold PadMembers.SendPadLoop
    by_cases hlt : bytes_sent < bytes
    · rw [if_pos hlt]
      rcases SendPadStep_count env pacing_info padding_bytes_in_packet s with
        ⟨s1, _, _, _, h4⟩ | ⟨s1, _, _, _, _, h5⟩ | ⟨s1, h1, _, _, h4, _⟩
      · rcases h4 with h4 | h4
        · exact absurd hr h4
        · exact absurd h4 hnone
      · exact absurd hr h5
      · rw [h1]
        refine ih s1 (bytes_sent + padding_bytes_in_packet) (Ready_of_SameConfig s s1 h4 hr) ?_
        rw [Nat.succ_mul] at hb
        omega
    · rw [if_neg hlt]
      exact Nat.le_of_not_lt hlt

/-- C26: in `SendPadData` with `max_payload_size >= 50`, every padding packet handed to
the network carries `padding_bytes_in_packet` bytes, where for an audio sender this is
the requested byte count clamped into [50, min(max_payload_size, 224)] and for a video
sender it is min(max_payload_size, 224) irrespective of the request. The value returned
is `padding_bytes_in_packet` times the number of packets that the call handed to the
network and the transport took; the call hands over these packets and at most one more,
which the transport refused. The value returned is less than one packet beyond the
request; when the sender is ready to pad and the transport takes every packet it is at
least the request; and for video it may exceed the request (a request of 1 byte is
answered with one packet of 224 bytes). -/
theorem SendPadData_padding_size (env : PadEnv) (s : PadMembers) (bytes : Nat)
    (pacing_info : PacedPacketInfo) (hmax : 50 ≤ s.max_payload_size) :
    (s.audio_configured_ = true →
      s.padding_bytes_in_packet bytes = max 50 (min bytes (min s.max_payload_size 224)) ∧
      50 ≤ s.padding_bytes_in_packet bytes ∧
      s.padding_bytes_in_packet bytes ≤ min s.max_payload_size 224) ∧
    (s.audio_configured_ = false →
      s.padding_bytes_in_packet bytes = min s.max_payload_size 224) ∧
    (∀ e ∈ (s.SendPadData env bytes pacing_info).1.trace,
      e ∈ s.trace ∨ e.Carries (s.padding_bytes_in_packet bytes)) ∧
    (∃ k, (s.SendPadData env bytes pacing_info).2 = k * s.padding_bytes_in_packet bytes ∧
      env.accepted (s.SendPadData env bytes pacing_info).1.trace =
        env.accepted s.trace + k ∧
      (PadEvent.packets (s.SendPadData env bytes pacing_info).1.trace =
          PadEvent.packets s.trace + k ∨
        PadEvent.packets (s.SendPadData env bytes pacing_info).1.trace =
          PadEvent.packets s.trace + k + 1)) ∧
    (s.SendPadData env bytes pacing_info).2 < bytes + s.padding_bytes_in_packet bytes ∧
    (s.Ready → (∀ t, env.SendPacketToNetwork t = true) →
      bytes ≤ (s.SendPadData env bytes pacing_info).2) ∧
    (∃ (env1 : PadEnv) (s1 : PadMembers) (bytes1 : Nat),
      s1.audio_configured_ = false ∧ 50 ≤ s1.max_payload_size ∧
      (s1.SendPadData env1 bytes1 pacing_info).2 > bytes1) := by
  have hrange : 50 ≤ min s.max_payload_size 224 := le_min hmax (by decide)
  have haudio : s.audio_configured_ = true →
      s.padding_bytes_in_packet bytes = max 50 (min bytes (min s.max_payload_size 224)) ∧
      50 ≤ s.padding_bytes_in_packet bytes ∧
      s.padding_bytes_in_packet bytes ≤ min s.max_payload_size 224 := by
    intro ha
    unfold PadMembers.padding_bytes_in_packet
    rw [if_pos ha]
    exact SafeClamp_size_t_eq bytes 50 (min s.max_payload_size 224) hrange
  have hvideo : s.audio_configured_ = false →
      s.padding_bytes_in_packet bytes = min s.max_payload_size 224 := by
    intro hv
    unfold PadMembers.padding_bytes_in_packet
    rw [if_neg (by rw [hv]; decide)]
    rfl
  have hpos : 0 < s.padding_bytes_in_packet bytes := by
    cases ha : s.audio_configured_ with
    | true =>
      have := (haudio ha).2.1
      omega
    | false =>
      rw [hvideo ha]
      omega
  obtain ⟨l1, _, l3⟩ := SendPadLoop_spec env pacing_info (s.padding_bytes_in_packet bytes) bytes
    s.trace hpos bytes s 0 (fun e he => Or.inl he) ⟨0, (Nat.zero_mul _).symm⟩ (by omega)
  have l2 := SendPadLoop_count env pacing_info (s.padding_bytes_in_packet bytes) bytes
    (env.accepted s.trace) (PadEvent.packets s.trace) bytes s 0 0 (Nat.zero_mul _).symm rfl rfl
    (fun h => absurd h (Nat.lt_irrefl 0))
  have l4 : s.Ready → (∀ t, env.SendPacketToNetwork t = true) →
      bytes ≤ (s.SendPadData env bytes pacing_info).2 := by
    intro hr hall
    refine SendPadLoop_ready env pacing_info (s.padding_bytes_in_packet bytes) bytes hall
      bytes s 0 hr ?_
    rw [Nat.zero_add]
    exact Nat.le_mul_of_pos_right bytes hpos
  refine ⟨haudio, hvideo, l1, l2, l3, l4, ?_⟩
  refine ⟨PadEnv.sending, PadMembers.video, 1, rfl, by decide, ?_⟩
  have h224 : (PadMembers.video.SendPadData PadEnv.sending 1 pacing_info).2 = 224 := by
    unfold PadMembers.SendPadData PadMembers.SendPadLoop
    rfl
  rw [h224]
  decide

/-- Witness for C26: a video sender with 1200-byte packets asked for 1 byte of padding
hands one packet of 224 bytes to the network (payload type 96, sequence number 7,
timestamp 90000, SSRC 4660, transmission offset 900, send time 1010) and returns 224;
asked for 500 bytes it hands over three packets and returns 672; when the transport
refuses the packet it has handed over that one packet and returns 0. -/
theorem SendPadData_padding_size_witness :
    (PadMembers.video.SendPadData PadEnv.sending 1 PacedPacketInfo.create).2 = 224 ∧
    (PadMembers.video.SendPadData PadEnv.sending 1 PacedPacketInfo.create).1.trace =
      [PadEvent.UpdateRtpStats false,
       PadEvent.SendPacketToNetwork 96 7 90000 4660 (some 900) 1010 224 false false,
       PadEvent.TimeInMilliseconds] ∧
    (PadMembers.video.SendPadData PadEnv.sending 1 PacedPacketInfo.create).1.sequence_number_
      = 8 ∧
    (PadMembers.video.SendPadData PadEnv.sending 500 PacedPacketInfo.create).2 = 672 ∧
    PadEvent.packets
      (PadMembers.video.SendPadData PadEnv.sending 500 PacedPacketInfo.create).1.trace = 3 ∧
    (PadMembers.video.SendPadData PadEnv.refusing 1 PacedPacketInfo.create).2 = 0 ∧
    (PadMembers.video.SendPadData PadEnv.refusing 1 PacedPacketInfo.create).1.trace =
      [PadEvent.SendPacketToNetwork 96 7 90000 4660 (some 900) 1010 224 false false,
       PadEvent.TimeInMilliseconds] ∧
    (∀ e ∈ (PadMembers.video.SendPadData PadEnv.sending 1 PacedPacketInfo.create).1.trace,
      e ∈ PadMembers.video.trace ∨
        e.Carries (PadMembers.video.padding_bytes_in_packet 1)) ∧
    (∃ k, (PadMembers.video.SendPadData PadEnv.sending 1 PacedPacketInfo.create).2 =
        k * PadMembers.video.padding_bytes_in_packet 1 ∧
      PadEnv.sending.accepted
          (PadMembers.video.SendPadData PadEnv.sending 1 PacedPacketInfo.create).1.trace =
        PadEnv.sending.accepted PadMembers.video.trace + k ∧
      (PadEvent.packets
          (PadMembers.video.SendPadData PadEnv.sending 1 PacedPacketInfo.create).1.trace =
          PadEvent.packets PadMembers.video.trace + k ∨
        PadEvent.packets
          (PadMembers.video.SendPadData PadEnv.sending 1 PacedPacketInfo.create).1.trace =
          PadEvent.packets PadMembers.video.trace + k + 1)) :=
  ⟨by decide, by decide, by decide, by decide, by decide, by decide, by decide,
    (SendPadData_padding_size PadEnv.sending PadMembers.video 1 PacedPacketInfo.create
      (by decide)).2.2.1,
    (SendPadData_padding_size PadEnv.sending PadMembers.video 1 PacedPacketInfo.create
      (by decide)).2.2.2.1⟩

/-! ## `UpdateDelayStatistics`: the sliding window of send delays -/

theorem wrap64_sub_left (a b : Int) : wrap64 (wrap64 a - b) = wrap64 (a - b) := by
  unfold wrap64
  omega

theorem wrap64_add_left (a b : Int) : wrap64 (wrap64 a + b) = wrap64 (a + b) := by
  unfold wrap64
  omega

theorem delay_sum_nil : SendDelayMap.sum [] = 0 := rfl

theorem delay_sum_cons (e : Int × Int) (m : SendDelayMap) :
    SendDelayMap.sum (e :: m) = e.2 + SendDelayMap.sum m := by
  unfold SendDelayMap.sum
  rw [List.map_cons, List.sum_cons]

theorem delay_sum_append (a b : SendDelayMap) :
    SendDelayMap.sum (a ++ b) = SendDelayMap.sum a + SendDelayMap.sum b := by
  unfold SendDelayMap.sum
  rw [List.map_append, List.sum_append]

/-- In a sorted map two entries with the same key are the same entry. -/
theorem delay_sorted_unique {m : SendDelayMap} (hs : SendDelayMap.Sorted m)
    {a b : Int × Int} (ha : a ∈ m) (hb : b ∈ m) (hk : a.1 = b.1) : a = b := by
  unfold SendDelayMap.Sorted at hs
  induction m with
  | nil => exact absurd ha (List.not_mem_nil a)
  | cons e rest ih =>
    rw [List.pairwise_cons] at hs
    rcases List.mem_cons.mp ha with ha1 | ha1
    · rcases List.mem_cons.mp hb with hb1 | hb1
      · rw [ha1, hb1]
      · have := hs.1 b hb1
        rw [ha1] at hk
        omega
    · rcases List.mem_cons.mp hb with hb1 | hb1
      · have := hs.1 a ha1
        rw [hb1] at hk
        omega
      · exact ih hs.2 ha1 hb1

/-- Dereferencing the iterator of a key finds the entry stored under it. -/
theorem second_of_mem {m : SendDelayMap} (hs : SendDelayMap.Sorted m)
    {key d : Int} (h : (key, d) ∈ m) : SendDelayMap.second m key = some d := by
  unfold SendDelayMap.Sorted at hs
  induction m with
  | nil => exact absurd h (List.not_mem_nil _)
  | cons e rest ih =>
    rw [List.pairwise_cons] at hs
    unfold SendDelayMap.second
    rcases List.mem_cons.mp h with h1 | h1
    · rw [← h1]
      simp
    · have hlt := hs.1 (key, d) h1
      have hne : ¬ e.1 = key := by
        intro he
        rw [he] at hlt
        exact lt_irrefl _ hlt
      rw [if_neg hne]
      exact ih hs.2 h1

theorem mem_of_second {m : SendDelayMap} {key d : Int}
    (h : SendDelayMap.second m key = some d) : (key, d) ∈ m := by
  induction m with
  | nil => exact absurd h (by unfold SendDelayMap.second; exact Option.noConfusion)
  | cons e rest ih =>
    unfold SendDelayMap.second at h
    by_cases he : e.1 = key
    · rw [if_pos he] at h
      have h2 : e.2 = d := Option.some.inj h
      have : e = (key, d) := Prod.ext he h2
      rw [this]
      exact List.mem_cons_self _ _
    · rw [if_neg he] at h
      exact List.mem_cons_of_mem _ (ih h)

theorem second_none_ne {m : SendDelayMap} {key : Int}
    (h : SendDelayMap.second m key = none) : ∀ e ∈ m, e.1 ≠ key := by
  induction m with
  | nil =>
    intro e he
    exact absurd he (List.not_mem_nil e)
  | cons x rest ih =>
    unfold SendDelayMap.second at h
    by_cases hx : x.1 = key
    · rw [if_pos hx] at h
      exact Option.noConfusion h
    · rw [if_neg hx] at h
      intro e he
      rcases List.mem_cons.mp he with h1 | h1
      · rw [h1]
        exact hx
      · exact ih h e h1
theorem lower_bound_split (m : SendDelayMap) (key : Int) :
    SendDelayMap.before_lower_bound m key ++ SendDelayMap.from_lower_bound m key = m := by
  unfold SendDelayMap.before_lower_bound SendDelayMap.from_lower_bound
  exact List.takeWhile_append_dropWhile _ m

/-- What `erase(begin(), lower_bound(key))` leaves is sorted and holds only keys that
are not less than `key`. -/
theorem from_lower_bound_keys {m : SendDelayMap} (hs : SendDelayMap.Sorted m) (key : Int) :
    ∀ e ∈ SendDelayMap.from_lower_bound m key, key ≤ e.1 := by
  unfold SendDelayMap.Sorted at hs
  unfold SendDelayMap.from_lower_bound
  induction m with
  | nil =>
    intro e he
    rw [List.dropWhile_nil] at he
    exact absurd he (List.not_mem_nil e)
  | cons x rest ih =>
    rw [List.pairwise_cons] at hs
    intro e he
    rw [List.dropWhile_cons] at he
    by_cases hx : x.1 < key
    · rw [if_pos (decide_eq_true hx)] at he
      exact ih hs.2 e he
    · rw [if_neg (by rw [decide_eq_true_eq]; exact hx)] at he
      rcases List.mem_cons.mp he with h1 | h1
      · rw [h1]
        omega
      · have := hs.1 e h1
        omega

theorem from_lower_bound_sublist (m : SendDelayMap) (key : Int) :
    List.Sublist (SendDelayMap.from_lower_bound m key) m := by
  unfold SendDelayMap.from_lower_bound
  exact List.dropWhile_sublist _

theorem from_lower_bound_sorted {m : SendDelayMap} (hs : SendDelayMap.Sorted m) (key : Int) :
    SendDelayMap.Sorted (SendDelayMap.from_lower_bound m key) := by
  unfold SendDelayMap.Sorted at hs ⊢
  exact List.Pairwise.sublist (from_lower_bound_sublist m key) hs

theorem before_lower_bound_keys (m : SendDelayMap) (key : Int) :
    ∀ e ∈ SendDelayMap.before_lower_bound m key, e.1 < key := by
  unfold SendDelayMap.before_lower_bound
  intro e he
  have := List.mem_takeWhile_imp he
  exact of_decide_eq_true this

/-- The loop over the erased entries subtracts their delays from the sum, sets
`max_delay_it_` to `end()` when it refers to one of them, and changes nothing else. -/
theorem RemoveLoop_spec : ∀ (erased : SendDelayMap) (s : DelayMembers) (x : Int),
    s.sum_delays_ms_ = wrap64 x →
    (DelayMembers.RemoveLoop erased s).sum_delays_ms_ =
        wrap64 (x - SendDelayMap.sum erased) ∧
      ((DelayMembers.RemoveLoop erased s).max_delay_it_ = none ∨
        ((DelayMembers.RemoveLoop erased s).max_delay_it_ = s.max_delay_it_ ∧
          ∀ e ∈ erased, s.max_delay_it_ ≠ some e.1)) ∧
      (s.max_delay_it_ = none → (DelayMembers.RemoveLoop erased s).max_delay_it_ = none) ∧
      (DelayMembers.RemoveLoop erased s).send_delays_ = s.send_delays_ ∧
      (DelayMembers.RemoveLoop erased s).trace = s.trace ∧
      (DelayMembers.RemoveLoop erased s).ssrc_ = s.ssrc_ ∧
      (DelayMembers.RemoveLoop erased s).send_side_delay_observer_ =
        s.send_side_delay_observer_ := by
  intro erased
  induction erased with
  | nil =>
    intro s x hx
    unfold DelayMembers.RemoveLoop
    refine ⟨?_, Or.inr ⟨rfl, fun e he => absurd he (List.not_mem_nil e)⟩, fun h => h, rfl, rfl,
      rfl, rfl⟩
    rw [delay_sum_nil, sub_zero]
    exact hx
  | cons y rest ih =>
    intro s x hx
    unfold DelayMembers.RemoveLoop
    have hx2 : wrap64 (s.sum_delays_ms_ - y.2) = wrap64 (x - y.2) := by
      rw [hx]
      exact wrap64_sub_left x y.2
    obtain ⟨h1, h2, h3, h4, h5, h6, h7⟩ := ih
      { s with
        max_delay_it_ := if s.max_delay_it_ = some y.1 then none else s.max_delay_it_
        sum_delays_ms_ := wrap64 (s.sum_delays_ms_ - y.2) } (x - y.2) hx2
    refine ⟨?_, ?_, ?_, h4, h5, h6, h7⟩
    · rw [h1, delay_sum_cons, sub_sub]
    · rcases h2 with h2 | ⟨h2, h2b⟩
      · exact Or.inl h2
      · dsimp only at h2 h2b
        by_cases hy : s.max_delay_it_ = some y.1
        · rw [if_pos hy] at h2 ⊢
          exact Or.inl h2
        · rw [if_neg hy] at h2 h2b ⊢
          refine Or.inr ⟨h2, ?_⟩
          intro e he
          rcases List.mem_cons.mp he with he1 | he1
          · rw [he1]
            exact hy
          · exact h2b e he1
    · intro hn
      apply h3
      dsimp only
      rw [hn]
      rfl

/-- The loop of `RecomputeMaxSendDelay` ends at an entry that is the start entry or one
of the visited entries and whose delay is the largest among them. -/
theorem RecomputeMaxLoop_spec : ∀ (m : SendDelayMap) (x : Int × Int),
    (RecomputeMaxLoop m x = x ∨ RecomputeMaxLoop m x ∈ m) ∧ x.2 ≤ (RecomputeMaxLoop m x).2 ∧
      ∀ e ∈ m, e.2 ≤ (RecomputeMaxLoop m x).2 := by
  intro m
  induction m with
  | nil =>
    intro x
    unfold RecomputeMaxLoop
    exact ⟨Or.inl rfl, le_refl _, fun e he => absurd he (List.not_mem_nil e)⟩
  | cons y rest ih =>
    intro x
    unfold RecomputeMaxLoop
    obtain ⟨h1, h2, h3⟩ := ih (if y.2 ≥ x.2 then y else x)
    by_cases hy : y.2 ≥ x.2
    · rw [if_pos hy] at h1 h2 h3 ⊢
      refine ⟨Or.inr ?_, le_trans hy h2, ?_⟩
      · rcases h1 with h1 | h1
        · rw [h1]
          exact List.mem_cons_self _ _
        · exact List.mem_cons_of_mem _ h1
      · intro e he
        rcases List.mem_cons.mp he with he1 | he1
        · rw [he1]
          exact h2
        · exact h3 e he1
    · rw [if_neg hy] at h1 h2 h3 ⊢
      refine ⟨?_, h2, ?_⟩
      · rcases h1 with h1 | h1
        · exact Or.inl h1
        · exact Or.inr (List.mem_cons_of_mem _ h1)
      · intro e he
        rcases List.mem_cons.mp he with he1 | he1
        · rw [he1]
          have : y.2 ≤ x.2 := le_of_lt (lt_of_not_ge hy)
          exact le_trans this h2
        · exact h3 e he1

theorem RecomputeMaxSendDelay_frame (s : DelayMembers) :
    s.RecomputeMaxSendDelay =
      { s with max_delay_it_ := s.RecomputeMaxSendDelay.max_delay_it_ } := by
  unfold DelayMembers.RecomputeMaxSendDelay
  cases s.send_delays_ with
  | nil => rfl
  | cons e rest => rfl

/-- After `RecomputeMaxSendDelay` the iterator refers to an entry holding the maximum
stored delay (or is `end()` for an empty map). -/
theorem RecomputeMaxSendDelay_MaxAt (s : DelayMembers) :
    SendDelayMap.MaxAt s.send_delays_ s.RecomputeMaxSendDelay.max_delay_it_ := by
  unfold DelayMembers.RecomputeMaxSendDelay
  cases hm : s.send_delays_ with
  | nil => rfl
  | cons e rest =>
    dsimp only
    unfold SendDelayMap.MaxAt
    obtain ⟨h1, _, h3⟩ := RecomputeMaxLoop_spec (e :: rest) e
    refine ⟨(RecomputeMaxLoop (e :: rest) e).2, ?_, h3⟩
    rcases h1 with h1 | h1
    · rw [h1]
      exact List.mem_cons_self _ _
    · exact h1

/-- Removing the old entries keeps the representation invariant and leaves exactly the
entries from `lower_bound(now_ms - kSendSideDelayWindowMs)` on. -/
theorem RemoveOld_valid (s : DelayMembers) (now_ms : Int) (hv : s.Valid) :
    (s.RemoveOld now_ms).Valid ∧
      (s.RemoveOld now_ms).send_delays_ =
        SendDelayMap.from_lower_bound s.send_delays_ (wrap64 (now_ms - kSendSideDelayWindowMs)) ∧
      (s.RemoveOld now_ms).trace = s.trace ∧ (s.RemoveOld now_ms).ssrc_ = s.ssrc_ ∧
      (s.RemoveOld now_ms).send_side_delay_observer_ = s.send_side_delay_observer_ := by
  obtain ⟨hsorted, hint, hsum, hmax⟩ := hv
  have hsplit := lower_bound_split s.send_delays_ (wrap64 (now_ms - kSendSideDelayWindowMs))
  obtain ⟨h1, h2, h3, h4, h5, h6, h7⟩ := RemoveLoop_spec
    (SendDelayMap.before_lower_bound s.send_delays_ (wrap64 (now_ms - kSendSideDelayWindowMs)))
    s (SendDelayMap.sum s.send_delays_) hsum
  have hsum2 : SendDelayMap.sum s.send_delays_ -
      SendDelayMap.sum (SendDelayMap.before_lower_bound s.send_delays_
        (wrap64 (now_ms - kSendSideDelayWindowMs))) =
      SendDelayMap.sum (SendDelayMap.from_lower_bound s.send_delays_
        (wrap64 (now_ms - kSendSideDelayWindowMs))) := by
    have := delay_sum_append
      (SendDelayMap.before_lower_bound s.send_delays_ (wrap64 (now_ms - kSendSideDelayWindowMs)))
      (SendDelayMap.from_lower_bound s.send_delays_ (wrap64 (now_ms - kSendSideDelayWindowMs)))
    rw [hsplit] at this
    omega
  rw [hsum2] at h1
  have hsorted2 := from_lower_bound_sorted hsorted (wrap64 (now_ms - kSendSideDelayWindowMs))
  have hsub := from_lower_bound_sublist s.send_delays_ (wrap64 (now_ms - kSendSideDelayWindowMs))
  have hint2 : ∀ e ∈ SendDelayMap.from_lower_bound s.send_delays_
      (wrap64 (now_ms - kSendSideDelayWindowMs)), InInt32 e.2 :=
    fun e he => hint e (hsub.subset he)
  unfold DelayMembers.RemoveOld
  dsimp only
  by_cases hnone : (DelayMembers.RemoveLoop (SendDelayMap.before_lower_bound s.send_delays_
      (wrap64 (now_ms - kSendSideDelayWindowMs))) s).max_delay_it_ = none
  · rw [if_pos hnone, RecomputeMaxSendDelay_frame]
    refine ⟨⟨hsorted2, hint2, h1, ?_⟩, rfl, h5, h6, h7⟩
    exact RecomputeMaxSendDelay_MaxAt _
  · rw [if_neg hnone]
    refine ⟨⟨hsorted2, hint2, h1, ?_⟩, rfl, h5, h6, h7⟩
    dsimp only
    rcases h2 with h2 | ⟨h2, h2b⟩
    · exact absurd h2 hnone
    · rw [h2]
      cases hk : s.max_delay_it_ with
      | none => exact absurd (h3 hk) hnone
      | some key =>
        rw [hk] at hmax h2b
        obtain ⟨d, hd, hle⟩ := hmax
        refine ⟨d, ?_, fun e he => hle e (hsub.subset he)⟩
        rw [← hsplit] at hd
        rcases List.mem_append.mp hd with hd1 | hd1
        · exact absurd rfl (h2b (key, d) hd1)
        · exact hd1

theorem mem_insert_imp (key value : Int) : ∀ (m : SendDelayMap) (e : Int × Int),
    e ∈ SendDelayMap.insert m key value → e = (key, value) ∨ e ∈ m := by
  intro m
  induction m with
  | nil =>
    intro e he
    unfold SendDelayMap.insert at he
    exact Or.inl (List.mem_singleton.mp he)
  | cons x rest ih =>
    intro e he
    unfold SendDelayMap.insert at he
    by_cases h1 : key < x.1
    · rw [if_pos h1] at he
      rcases List.mem_cons.mp he with h | h
      · exact Or.inl h
      · exact Or.inr h
    · rw [if_neg h1] at he
      by_cases h2 : x.1 = key
      · rw [if_pos h2] at he
        exact Or.inr he
      · rw [if_neg h2] at he
        rcases List.mem_cons.mp he with h | h
        · exact Or.inr (by rw [h]; exact List.mem_cons_self _ _)
        · rcases ih e h with h3 | h3
          · exact Or.inl h3
          · exact Or.inr (List.mem_cons_of_mem _ h3)

/-- Inserting under a key that is not in the map adds the entry, keeps the others, keeps
the key order, adds the value to the sum and one to the size. -/
theorem insert_absent (key value : Int) : ∀ (m : SendDelayMap),
    SendDelayMap.Sorted m → SendDelayMap.second m key = none →
    SendDelayMap.Sorted (SendDelayMap.insert m key value) ∧
      (key, value) ∈ SendDelayMap.insert m key value ∧
      (∀ e ∈ m, e ∈ SendDelayMap.insert m key value) ∧
      SendDelayMap.sum (SendDelayMap.insert m key value) = SendDelayMap.sum m + value ∧
      (SendDelayMap.insert m key value).length = m.length + 1 := by
  intro m
  induction m with
  | nil =>
    intro _ _
    unfold SendDelayMap.insert
    refine ⟨List.pairwise_singleton _ _, List.mem_singleton.mpr rfl,
      fun e he => absurd he (List.not_mem_nil e), ?_, rfl⟩
    rw [delay_sum_cons, delay_sum_nil]
    omega
  | cons x rest ih =>
    intro hs hnone
    have hs0 := hs
    unfold SendDelayMap.Sorted at hs
    rw [List.pairwise_cons] at hs
    unfold SendDelayMap.second at hnone
    have h2 : ¬ x.1 = key := by
      intro h
      rw [if_pos h] at hnone
      exact Option.noConfusion hnone
    rw [if_neg h2] at hnone
    obtain ⟨i1, i2, i3, i4, i5⟩ := ih hs.2 hnone
    have hins : SendDelayMap.insert (x :: rest) key value =
        if key < x.1 then (key, value) :: x :: rest
        else if x.1 = key then x :: rest
        else x :: SendDelayMap.insert rest key value := by
      rw [SendDelayMap.insert]
    rw [hins]
    by_cases h1 : key < x.1
    · rw [if_pos h1]
      refine ⟨?_, List.mem_cons_self _ _, fun e he => List.mem_cons_of_mem _ he, ?_, rfl⟩
      · unfold SendDelayMap.Sorted
        rw [List.pairwise_cons]
        refine ⟨?_, hs0⟩
        intro a ha
        rcases List.mem_cons.mp ha with ha1 | ha1
        · rw [ha1]
          exact h1
        · have := hs.1 a ha1
          exact lt_trans h1 this
      · rw [delay_sum_cons]
        omega
    · rw [if_neg h1, if_neg h2]
      refine ⟨?_, List.mem_cons_of_mem _ i2, ?_, ?_, ?_⟩
      · unfold SendDelayMap.Sorted
        rw [List.pairwise_cons]
        refine ⟨?_, i1⟩
        intro a ha
        rcases mem_insert_imp key value rest a ha with ha1 | ha1
        · rw [ha1]
          show x.1 < key
          omega
        · exact hs.1 a ha1
      · intro e he
        rcases List.mem_cons.mp he with he1 | he1
        · rw [he1]
          exact List.mem_cons_self _ _
        · exact List.mem_cons_of_mem _ (i3 e he1)
      · rw [delay_sum_cons, delay_sum_cons, i4]
        omega
      · rw [List.length_cons, List.length_cons, i5]

/-- Assigning to the entry of a key that is in the map replaces that entry, keeps the
others and the key order, and moves the sum by the difference of the two values. -/
theorem assign_present (key value previous : Int) : ∀ (m : SendDelayMap),
    SendDelayMap.Sorted m → SendDelayMap.second m key = some previous →
    SendDelayMap.Sorted (SendDelayMap.assign m key value) ∧
      (key, value) ∈ SendDelayMap.assign m key value ∧
      (∀ e ∈ SendDelayMap.assign m key value, e = (key, value) ∨ (e ∈ m ∧ e.1 ≠ key)) ∧
      (∀ e ∈ m, e.1 ≠ key → e ∈ SendDelayMap.assign m key value) ∧
      SendDelayMap.sum (SendDelayMap.assign m key value) =
        SendDelayMap.sum m - previous + value ∧
      (SendDelayMap.assign m key value).length = m.length := by
  intro m
  induction m with
  | nil =>
    intro _ h
    unfold SendDelayMap.second at h
    exact Option.noConfusion h
  | cons x rest ih =>
    intro hs hsome
    unfold SendDelayMap.Sorted at hs
    rw [List.pairwise_cons] at hs
    unfold SendDelayMap.second at hsome
    have hasg : SendDelayMap.assign (x :: rest) key value =
        if x.1 = key then (x.1, value) :: rest
        else x :: SendDelayMap.assign rest key value := by
      rw [SendDelayMap.assign]
    rw [hasg]
    by_cases h2 : x.1 = key
    · rw [if_pos h2] at hsome ⊢
      have hprev : x.2 = previous := Option.some.inj hsome
      refine ⟨?_, ?_, ?_, ?_, ?_, rfl⟩
      · unfold SendDelayMap.Sorted
        rw [List.pairwise_cons]
        exact ⟨fun a ha => hs.1 a ha, hs.2⟩
      · rw [h2]
        exact List.mem_cons_self _ _
      · intro e he
        rcases List.mem_cons.mp he with he1 | he1
        · rw [he1, h2]
          exact Or.inl rfl
        · refine Or.inr ⟨List.mem_cons_of_mem _ he1, ?_⟩
          have := hs.1 e he1
          omega
      · intro e he hne
        rcases List.mem_cons.mp he with he1 | he1
        · rw [he1] at hne
          exact absurd h2 hne
        · exact List.mem_cons_of_mem _ he1
      · rw [delay_sum_cons, delay_sum_cons]
        show value + SendDelayMap.sum rest = x.2 + SendDelayMap.sum rest - previous + value
        omega
    · rw [if_neg h2] at hsome ⊢
      obtain ⟨i1, i2, i3, i4, i5, i6⟩ := ih hs.2 hsome
      have hlt : x.1 < key := hs.1 (key, previous) (mem_of_second hsome)
      refine ⟨?_, List.mem_cons_of_mem _ i2, ?_, ?_, ?_, ?_⟩
      · unfold SendDelayMap.Sorted
        rw [List.pairwise_cons]
        refine ⟨?_, i1⟩
        intro a ha
        rcases i3 a ha with ha1 | ha1
        · rw [ha1]
          exact hlt
        · exact hs.1 a ha1.1
      · intro e he
        rcases List.mem_cons.mp he with he1 | he1
        · rw [he1]
          exact Or.inr ⟨List.mem_cons_self _ _, h2⟩
        · rcases i3 e he1 with h3 | h3
          · exact Or.inl h3
          · exact Or.inr ⟨List.mem_cons_of_mem _ h3.1, h3.2⟩
      · intro e he hne
        rcases List.mem_cons.mp he with he1 | he1
        · rw [he1]
          exact List.mem_cons_self _ _
        · exact List.mem_cons_of_mem _ (i4 e he1 hne)
      · rw [delay_sum_cons, delay_sum_cons, i5]
        omega
      · rw [List.length_cons, List.length_cons, i6]

theorem MaxApart_of_MaxAt (m : SendDelayMap) (now_ms : Int) (it : Option Int)
    (h : SendDelayMap.MaxAt m it) : SendDelayMap.MaxApart m now_ms it := by
  cases it with
  | none =>
    unfold SendDelayMap.MaxAt at h
    unfold SendDelayMap.MaxApart
    rw [h]
    intro e he
    exact absurd he (List.not_mem_nil e)
  | some key =>
    unfold SendDelayMap.MaxAt at h
    unfold SendDelayMap.MaxApart
    obtain ⟨d, hd, hle⟩ := h
    exact ⟨d, hd, fun e he _ => hle e he⟩

/-- The insertion of the new measurement: the map stays sorted and holds the new entry,
the sum lacks only the new delay, and the maximum iterator is right for the other
entries; an existing measurement of the same millisecond is replaced. -/
theorem AddDelay_spec (s : DelayMembers) (now_ms new_send_delay : Int) (hv : s.Valid)
    (hnew : InInt32 new_send_delay) :
    SendDelayMap.Sorted (s.AddDelay now_ms new_send_delay).send_delays_ ∧
      (∀ e ∈ (s.AddDelay now_ms new_send_delay).send_delays_, InInt32 e.2) ∧
      (now_ms, new_send_delay) ∈ (s.AddDelay now_ms new_send_delay).send_delays_ ∧
      (s.AddDelay now_ms new_send_delay).sum_delays_ms_ =
        wrap64 (SendDelayMap.sum (s.AddDelay now_ms new_send_delay).send_delays_ -
          new_send_delay) ∧
      SendDelayMap.MaxApart (s.AddDelay now_ms new_send_delay).send_delays_ now_ms
        (s.AddDelay now_ms new_send_delay).max_delay_it_ ∧
      (∀ e ∈ (s.AddDelay now_ms new_send_delay).send_delays_,
        e = (now_ms, new_send_delay) ∨ (e ∈ s.send_delays_ ∧ e.1 ≠ now_ms)) ∧
      (∀ e ∈ s.send_delays_, e.1 ≠ now_ms →
        e ∈ (s.AddDelay now_ms new_send_delay).send_delays_) ∧
      (s.AddDelay now_ms new_send_delay).send_delays_.length =
        (if SendDelayMap.second s.send_delays_ now_ms = none then s.send_delays_.length + 1
         else s.send_delays_.length) ∧
      (s.AddDelay now_ms new_send_delay).trace = s.trace ∧
      (s.AddDelay now_ms new_send_delay).ssrc_ = s.ssrc_ ∧
      (s.AddDelay now_ms new_send_delay).send_side_delay_observer_ =
        s.send_side_delay_observer_ := by
  obtain ⟨hsorted, hint, hsum, hmax⟩ := hv
  unfold DelayMembers.AddDelay
  cases hsec : SendDelayMap.second s.send_delays_ now_ms with
  | none =>
    dsimp only
    obtain ⟨i1, i2, i3, i4, i5⟩ := insert_absent now_ms new_send_delay s.send_delays_ hsorted hsec
    have habs := second_none_ne hsec
    have hmem := mem_insert_imp now_ms new_send_delay s.send_delays_
    refine ⟨i1, ?_, i2, ?_, ?_, ?_, fun e he _ => i3 e he, ?_, rfl, rfl, rfl⟩
    · intro e he
      rcases hmem e he with h | h
      · rw [h]
        exact hnew
      · exact hint e h
    · have : SendDelayMap.sum (SendDelayMap.insert s.send_delays_ now_ms new_send_delay) -
          new_send_delay = SendDelayMap.sum s.send_delays_ := by omega
      rw [this]
      exact hsum
    · cases hk : s.max_delay_it_ with
      | none =>
        rw [hk] at hmax
        unfold SendDelayMap.MaxAt at hmax
        unfold SendDelayMap.MaxApart
        intro e he
        rcases hmem e he with h | h
        · rw [h]
        · rw [hmax] at h
          exact absurd h (List.not_mem_nil e)
      | some key =>
        rw [hk] at hmax
        unfold SendDelayMap.MaxAt at hmax
        unfold SendDelayMap.MaxApart
        obtain ⟨d, hd, hle⟩ := hmax
        refine ⟨d, i3 _ hd, ?_⟩
        intro e he hne
        rcases hmem e he with h | h
        · rw [h] at hne
          exact absurd rfl hne
        · exact hle e h
    · intro e he
      rcases hmem e he with h | h
      · exact Or.inl h
      · exact Or.inr ⟨h, habs e h⟩
    · rw [i5]
      simp
  | some previous_send_delay =>
    dsimp only
    obtain ⟨i1, i2, i3, i4, i5, i6⟩ :=
      assign_present now_ms new_send_delay previous_send_delay s.send_delays_ hsorted hsec
    have hprev := mem_of_second hsec
    have hint2 : ∀ e ∈ SendDelayMap.assign s.send_delays_ now_ms new_send_delay,
        InInt32 e.2 := by
      intro e he
      rcases i3 e he with h | h
      · rw [h]
        exact hnew
      · exact hint e h.1
    have hsum2 : wrap64 (s.sum_delays_ms_ - previous_send_delay) =
        wrap64 (SendDelayMap.sum (SendDelayMap.assign s.send_delays_ now_ms new_send_delay) -
          new_send_delay) := by
      rw [hsum, wrap64_sub_left]
      have : SendDelayMap.sum (SendDelayMap.assign s.send_delays_ now_ms new_send_delay) -
          new_send_delay = SendDelayMap.sum s.send_delays_ - previous_send_delay := by omega
      rw [this]
    have hlen : (SendDelayMap.assign s.send_delays_ now_ms new_send_delay).length =
        (if (some previous_send_delay : Option Int) = none then s.send_delays_.length + 1
         else s.send_delays_.length) := by
      rw [i6]
      simp
    by_cases hc : s.max_delay_it_ = some now_ms ∧ new_send_delay < previous_send_delay
    · rw [if_pos hc, RecomputeMaxSendDelay_frame]
      refine ⟨i1, hint2, i2, hsum2, ?_, i3, i4, hlen, rfl, rfl, rfl⟩
      exact MaxApart_of_MaxAt _ _ _ (RecomputeMaxSendDelay_MaxAt _)
    · rw [if_neg hc]
      refine ⟨i1, hint2, i2, hsum2, ?_, i3, i4, hlen, rfl, rfl, rfl⟩
      dsimp only
      cases hk : s.max_delay_it_ with
      | none =>
        rw [hk] at hmax
        unfold SendDelayMap.MaxAt at hmax
        rw [hmax] at hprev
        exact absurd hprev (List.not_mem_nil _)
      | some key =>
        rw [hk] at hmax hc
        unfold SendDelayMap.MaxAt at hmax
        unfold SendDelayMap.MaxApart
        obtain ⟨d, hd, hle⟩ := hmax
        by_cases hkey : key = now_ms
        · have hd2 : (key, d) = (now_ms, previous_send_delay) :=
            delay_sorted_unique hsorted hd hprev hkey
          have hdp : d = previous_send_delay := congrArg Prod.snd hd2
          have hge : previous_send_delay ≤ new_send_delay := by
            by_contra hlt
            exact hc ⟨by rw [hkey], lt_of_not_ge hlt⟩
          refine ⟨new_send_delay, by rw [hkey]; exact i2, ?_⟩
          intro e he hne
          rcases i3 e he with h | h
          · rw [h] at hne
            exact absurd rfl hne
          · have := hle e h.1
            omega
        · refine ⟨d, i4 _ hd hkey, ?_⟩
          intro e he hne
          rcases i3 e he with h | h
          · rw [h] at hne
            exact absurd rfl hne
          · exact hle e h.1

/-- The update of the maximum iterator and of the sum after the insertion: no iterator
is dereferenced outside the map and the representation invariant holds again. -/
theorem UpdateMax_spec (s : DelayMembers) (now_ms new_send_delay : Int)
    (hsorted : SendDelayMap.Sorted s.send_delays_)
    (hint : ∀ e ∈ s.send_delays_, InInt32 e.2)
    (hmem : (now_ms, new_send_delay) ∈ s.send_delays_)
    (hsum : s.sum_delays_ms_ = wrap64 (SendDelayMap.sum s.send_delays_ - new_send_delay))
    (hmax : SendDelayMap.MaxApart s.send_delays_ now_ms s.max_delay_it_) :
    ∃ r, s.UpdateMax now_ms new_send_delay = some r ∧ r.Valid ∧
      r.send_delays_ = s.send_delays_ ∧ r.trace = s.trace ∧ r.ssrc_ = s.ssrc_ ∧
      r.send_side_delay_observer_ = s.send_side_delay_observer_ := by
  have hsum2 : wrap64 (s.sum_delays_ms_ + new_send_delay) =
      wrap64 (SendDelayMap.sum s.send_delays_) := by
    rw [hsum, wrap64_add_left]
    have : SendDelayMap.sum s.send_delays_ - new_send_delay + new_send_delay =
        SendDelayMap.sum s.send_delays_ := by omega
    rw [this]
  have hnow : ∀ e ∈ s.send_delays_, e.1 = now_ms → e.2 = new_send_delay := by
    intro e he hk
    have : e = (now_ms, new_send_delay) := delay_sorted_unique hsorted he hmem hk
    rw [this]
  unfold DelayMembers.UpdateMax
  cases hk : s.max_delay_it_ with
  | none =>
    rw [hk] at hmax
    unfold SendDelayMap.MaxApart at hmax
    refine ⟨_, rfl, ⟨hsorted, hint, hsum2, ?_⟩, rfl, rfl, rfl, rfl⟩
    refine ⟨new_send_delay, hmem, ?_⟩
    intro e he
    exact le_of_eq (hnow e he (hmax e he))
  | some key =>
    rw [hk] at hmax
    unfold SendDelayMap.MaxApart at hmax
    obtain ⟨d, hd, hle⟩ := hmax
    dsimp only
    rw [second_of_mem hsorted hmem, second_of_mem hsorted hd]
    refine ⟨_, rfl, ⟨hsorted, hint, hsum2, ?_⟩, rfl, rfl, rfl, rfl⟩
    dsimp only
    by_cases hge : new_send_delay ≥ d
    · rw [if_pos hge]
      refine ⟨new_send_delay, hmem, ?_⟩
      intro e he
      by_cases hek : e.1 = now_ms
      · exact le_of_eq (hnow e he hek)
      · exact le_trans (hle e he hek) hge
    · rw [if_neg hge]
      refine ⟨d, hd, ?_⟩
      intro e he
      by_cases hek : e.1 = now_ms
      · rw [hnow e he hek]
        exact le_of_lt (lt_of_not_ge hge)
      · exact hle e he hek

/-- The end of `UpdateDelayStatistics` on a valid non-empty map: the observer is told
the average computed in `size_t` arithmetic and the delay of the entry `max_delay_it_`
refers to, which is the maximum stored delay. -/
theorem Report_spec (s : DelayMembers) (ssrc : Nat) (hv : s.Valid)
    (hne : s.send_delays_ ≠ []) :
    ∃ key d, s.max_delay_it_ = some key ∧ (key, d) ∈ s.send_delays_ ∧
      (∀ e ∈ s.send_delays_, e.2 ≤ d) ∧
      s.Report ssrc = some (s.call (DelayEvent.SendSideDelayUpdated
        (dchecked_cast_int (((size_t_wrap (s.sum_delays_ms_ +
          ((s.send_delays_.length / 2 : Nat) : Int)) / s.send_delays_.length : Nat) : Int)))
        d ssrc)) := by
  obtain ⟨hsorted, hint, _, hmax⟩ := hv
  cases hk : s.max_delay_it_ with
  | none =>
    rw [hk] at hmax
    exact absurd hmax hne
  | some key =>
    rw [hk] at hmax
    obtain ⟨d, hd, hle⟩ := hmax
    refine ⟨key, d, rfl, hd, hle, ?_⟩
    have hlen : ¬ s.send_delays_.length = 0 := fun h => hne (List.length_eq_zero.mp h)
    unfold DelayMembers.Report
    dsimp only
    rw [hk]
    dsimp only
    rw [second_of_mem hsorted hd]
    dsimp only
    rw [if_neg hlen]
    unfold dchecked_cast_int
    rw [wrap32_of_InInt32 (hint _ hd)]

/-- A call of `UpdateDelayStatistics` that passes the early returns, from a valid
state: it returns a valid state whose map is the part of the old map from the lower
bound on, with the entry of `now_ms` added or replaced, and reports once. -/
theorem UpdateDelayStatistics_step (s : DelayMembers) (capture_time_ms now_ms : Int)
    (ssrc : Nat) (hv : s.Valid) (hobs : s.send_side_delay_observer_ = true)
    (hssrc : s.ssrc_ = some ssrc) (hc : 0 < capture_time_ms) :
    ∃ r key d, s.UpdateDelayStatistics capture_time_ms now_ms = some r ∧ r.Valid ∧
      r.max_delay_it_ = some key ∧ (key, d) ∈ r.send_delays_ ∧
      (∀ e ∈ r.send_delays_, e.2 ≤ d) ∧
      (now_ms, dchecked_cast_int (wrap64 (now_ms - capture_time_ms))) ∈ r.send_delays_ ∧
      (∀ e ∈ r.send_delays_,
        e = (now_ms, dchecked_cast_int (wrap64 (now_ms - capture_time_ms))) ∨
        (e ∈ SendDelayMap.from_lower_bound s.send_delays_
            (wrap64 (now_ms - kSendSideDelayWindowMs)) ∧ e.1 ≠ now_ms)) ∧
      (∀ e ∈ SendDelayMap.from_lower_bound s.send_delays_
          (wrap64 (now_ms - kSendSideDelayWindowMs)), e.1 ≠ now_ms → e ∈ r.send_delays_) ∧
      r.trace = DelayEvent.SendSideDelayUpdated
        (dchecked_cast_int (((size_t_wrap (r.sum_delays_ms_ +
          ((r.send_delays_.length / 2 : Nat) : Int)) / r.send_delays_.length : Nat) : Int)))
        d ssrc :: s.trace ∧
      r.ssrc_ = s.ssrc_ ∧ r.send_side_delay_observer_ = s.send_side_delay_observer_ := by
  obtain ⟨r1, r2, r3, r4, r5⟩ := RemoveOld_valid s now_ms hv
  have hnew : InInt32 (dchecked_cast_int (wrap64 (now_ms - capture_time_ms))) :=
    InInt32_wrap32 _
  obtain ⟨a1, a2, a3, a4, a5, a6, a7, _, a9, a10, a11⟩ := AddDelay_spec (s.RemoveOld now_ms)
    now_ms (dchecked_cast_int (wrap64 (now_ms - capture_time_ms))) r1 hnew
  obtain ⟨u, u1, u2, u3, u4, u5, u6⟩ := UpdateMax_spec _ now_ms
    (dchecked_cast_int (wrap64 (now_ms - capture_time_ms))) a1 a2 a3 a4 a5
  have hne : u.send_delays_ ≠ [] := by
    rw [u3]
    exact List.ne_nil_of_mem a3
  obtain ⟨key, d, p1, p2, p3, p4⟩ := Report_spec u ssrc u2 hne
  have hguard : ¬ (s.send_side_delay_observer_ = false ∨ capture_time_ms ≤ 0) := by
    rw [hobs]
    intro h
    rcases h with h | h
    · exact Bool.noConfusion h
    · omega
  refine ⟨u.call (DelayEvent.SendSideDelayUpdated
      (dchecked_cast_int (((size_t_wrap (u.sum_delays_ms_ +
        ((u.send_delays_.length / 2 : Nat) : Int)) / u.send_delays_.length : Nat) : Int)))
      d ssrc), key, d, ?_, u2, p1, p2, p3, ?_, ?_, ?_, ?_, ?_, ?_⟩
  · unfold DelayMembers.UpdateDelayStatistics
    rw [if_neg hguard, hssrc]
    dsimp only
    rw [u1]
    exact p4
  · show (now_ms, dchecked_cast_int (wrap64 (now_ms - capture_time_ms))) ∈ u.send_delays_
    rw [u3]
    exact a3
  · show ∀ e ∈ u.send_delays_, _
    rw [u3]
    intro e he
    rcases a6 e he with h | h
    · exact Or.inl h
    · rw [r2] at h
      exact Or.inr h
  · show ∀ e ∈ _, e.1 ≠ now_ms → e ∈ u.send_delays_
    rw [u3]
    intro e he hne2
    rw [← r2] at he
    exact a7 e he hne2
  · show DelayEvent.SendSideDelayUpdated _ d ssrc :: u.trace = _
    rw [u4, a9, r3]
    rfl
  · show u.ssrc_ = s.ssrc_
    rw [u5, a10, r4]
  · show u.send_side_delay_observer_ = s.send_side_delay_observer_
    rw [u6, a11, r5]

/-- Every call of `UpdateDelayStatistics` on a valid state returns a valid state. -/
theorem UpdateDelayStatistics_valid (s : DelayMembers) (capture_time_ms now_ms : Int)
    (hv : s.Valid) :
    ∃ r, s.UpdateDelayStatistics capture_time_ms now_ms = some r ∧ r.Valid ∧
      r.ssrc_ = s.ssrc_ ∧ r.send_side_delay_observer_ = s.send_side_delay_observer_ := by
  by_cases hguard : s.send_side_delay_observer_ = false ∨ capture_time_ms ≤ 0
  · refine ⟨s, ?_, hv, rfl, rfl⟩
    unfold DelayMembers.UpdateDelayStatistics
    rw [if_pos hguard]
  · cases hssrc : s.ssrc_ with
    | none =>
      refine ⟨s, ?_, hv, hssrc, rfl⟩
      unfold DelayMembers.UpdateDelayStatistics
      rw [if_neg hguard, hssrc]
    | some ssrc =>
      have hobs : s.send_side_delay_observer_ = true := by
        cases h : s.send_side_delay_observer_ with
        | false => exact absurd (Or.inl h) hguard
        | true => rfl
      have hc : 0 < capture_time_ms := by
        by_contra h
        exact hguard (Or.inr (le_of_not_gt h))
      obtain ⟨r, _, _, h1, h2, _, _, _, _, _, _, _, h3, h4⟩ :=
        UpdateDelayStatistics_step s capture_time_ms now_ms ssrc hv hobs hssrc hc
      exact ⟨r, h1, h2, by rw [h3]; exact hssrc, h4⟩

theorem create_valid (send_side_delay_observer : Bool) (ssrc : Option Nat) :
    (DelayMembers.create send_side_delay_observer ssrc).Valid := by
  unfold DelayMembers.Valid DelayMembers.create
  exact ⟨List.Pairwise.nil, fun e he => absurd he (List.not_mem_nil e), rfl, rfl⟩

/-- Every sequence of calls of `UpdateDelayStatistics` from a valid state ends in a
valid state. -/
theorem run_valid : ∀ (calls : List (Int × Int)) (s : DelayMembers), s.Valid →
    ∃ r, s.run calls = some r ∧ r.Valid ∧ r.ssrc_ = s.ssrc_ ∧
      r.send_side_delay_observer_ = s.send_side_delay_observer_ := by
  intro calls
  induction calls with
  | nil =>
    intro s hv
    exact ⟨s, rfl, hv, rfl, rfl⟩
  | cons c rest ih =>
    intro s hv
    obtain ⟨s1, h1, h2, h3, h4⟩ := UpdateDelayStatistics_valid s c.1 c.2 hv
    obtain ⟨r, i1, i2, i3, i4⟩ := ih s1 h2
    refine ⟨r, ?_, i2, by rw [i3, h3], by rw [i4, h4]⟩
    unfold DelayMembers.run
    rw [h1]
    exact i1

/-- The sum of `int` delays lies within the number of entries times the `int` range. -/
theorem delay_sum_bounds : ∀ (m : SendDelayMap), (∀ e ∈ m, InInt32 e.2) →
    -2147483648 * (m.length : Int) ≤ SendDelayMap.sum m ∧
      SendDelayMap.sum m ≤ 2147483647 * (m.length : Int) := by
  intro m
  induction m with
  | nil =>
    intro _
    rw [delay_sum_nil]
    simp
  | cons x rest ih =>
    intro h
    have hx := h x (List.mem_cons_self _ _)
    unfold InInt32 at hx
    obtain ⟨i1, i2⟩ := ih (fun e he => h e (List.mem_cons_of_mem _ he))
    rw [delay_sum_cons, List.length_cons]
    push_cast
    omega

theorem delay_sum_nonneg : ∀ (m : SendDelayMap), (∀ e ∈ m, 0 ≤ e.2) →
    0 ≤ SendDelayMap.sum m := by
  intro m
  induction m with
  | nil =>
    intro _
    rw [delay_sum_nil]
  | cons x rest ih =>
    intro h
    have hx := h x (List.mem_cons_self _ _)
    have := ih (fun e he => h e (List.mem_cons_of_mem _ he))
    rw [delay_sum_cons]
    omega

/-- With fewer than 2^32 non-negative `int` delays the average computed in `size_t`
arithmetic and converted to `int` is the integer `(sum + count / 2) / count`. -/
theorem avg_exact (sum : Int) (n : Nat) (h0 : 0 ≤ sum) (h1 : sum ≤ 2147483647 * (n : Int))
    (hn : 0 < n) (hn2 : n < 4294967296) :
    dchecked_cast_int (((size_t_wrap (sum + ((n / 2 : Nat) : Int)) / n : Nat) : Int)) =
      (sum + (n : Int) / 2) / (n : Int) := by
  have hw : ((size_t_wrap (sum + ((n / 2 : Nat) : Int)) : Nat) : Int) =
      sum + (n : Int) / 2 := by
    unfold size_t_wrap
    rw [Int.toNat_of_nonneg (Int.emod_nonneg _ (by decide))]
    push_cast
    omega
  rw [Int.natCast_div, hw]
  unfold dchecked_cast_int
  apply wrap32_of_InInt32
  unfold InInt32
  constructor
  · have : 0 ≤ (sum + (n : Int) / 2) / (n : Int) :=
      Int.ediv_nonneg (by omega) (Int.natCast_nonneg n)
    omega
  · have hlt : (sum + (n : Int) / 2) / (n : Int) < 2147483648 := by
      apply Int.ediv_lt_of_lt_mul (by omega)
      omega
    omega

/-- When every call that passes the early returns has `capture_time_ms <= now_ms` and a
difference within the `int` range, every stored delay is non-negative. -/
theorem run_nonneg : ∀ (calls : List (Int × Int)) (s : DelayMembers), s.Valid →
    (∀ c ∈ calls, 0 < c.1 → c.1 ≤ c.2 ∧ c.2 - c.1 ≤ 2147483647) →
    (∀ e ∈ s.send_delays_, 0 ≤ e.2) →
    ∃ r, s.run calls = some r ∧ ∀ e ∈ r.send_delays_, 0 ≤ e.2 := by
  intro calls
  induction calls with
  | nil =>
    intro s _ _ h
    exact ⟨s, rfl, h⟩
  | cons c rest ih =>
    intro s hv hcalls hnn
    have hrest : ∀ c2 ∈ rest, 0 < c2.1 → c2.1 ≤ c2.2 ∧ c2.2 - c2.1 ≤ 2147483647 :=
      fun c2 h2 => hcalls c2 (List.mem_cons_of_mem _ h2)
    have hstep : ∃ s1, s.UpdateDelayStatistics c.1 c.2 = some s1 ∧ s1.Valid ∧
        ∀ e ∈ s1.send_delays_, 0 ≤ e.2 := by
      by_cases hguard : s.send_side_delay_observer_ = false ∨ c.1 ≤ 0
      · refine ⟨s, ?_, hv, hnn⟩
        unfold DelayMembers.UpdateDelayStatistics
        rw [if_pos hguard]
      · cases hssrc : s.ssrc_ with
        | none =>
          refine ⟨s, ?_, hv, hnn⟩
          unfold DelayMembers.UpdateDelayStatistics
          rw [if_neg hguard, hssrc]
        | some ssrc =>
          have hobs : s.send_side_delay_observer_ = true := by
            cases h : s.send_side_delay_observer_ with
            | false => exact absurd (Or.inl h) hguard
            | true => rfl
          have hc : 0 < c.1 := by
            by_contra h
            exact hguard (Or.inr (le_of_not_gt h))
          obtain ⟨hle, hfit⟩ := hcalls c (List.mem_cons_self _ _) hc
          obtain ⟨r, _, _, h1, h2, _, _, _, _, h7, _, _, _, _⟩ :=
            UpdateDelayStatistics_step s c.1 c.2 ssrc hv hobs hssrc hc
          refine ⟨r, h1, h2, ?_⟩
          intro e he
          rcases h7 e he with h | h
          · rw [h]
            show 0 ≤ dchecked_cast_int (wrap64 (c.2 - c.1))
            have hw : wrap64 (c.2 - c.1) = c.2 - c.1 := by
              unfold wrap64
              omega
            rw [hw]
            unfold dchecked_cast_int wrap32
            omega
          · exact hnn e ((from_lower_bound_sublist s.send_delays_ _).subset h.1)
    obtain ⟨s1, h1, h2, h3⟩ := hstep
    obtain ⟨r, i1, i2⟩ := ih s1 h2 hrest h3
    refine ⟨r, ?_, i2⟩
    unfold DelayMembers.run
    rw [h1]
    exact i1

/-- C29 (amended): on a constructed sender whose `UpdateDelayStatistics` calls that pass
the early returns all have capture_time_ms <= now_ms and now_ms - capture_time_ms within
the `int` range, after every such call `sum_delays_ms_` equals the sum of all delays
stored in `send_delays_` (as an `int64_t`, and exactly while fewer than 2^32 delays are
stored), `max_delay_it_` refers to an entry holding the maximum stored delay, every
stored key is >= now_ms - 1000, the entry of `now_ms` holds the new delay and every
other entry is an earlier one with a different key (a measurement of the same
millisecond is overwritten), and the average reported to the observer is the integer
(sum + count / 2) / count. -/
theorem UpdateDelayStatistics_window (calls : List (Int × Int)) (ssrc : Nat)
    (capture_time_ms now_ms : Int)
    (hcalls : ∀ c ∈ calls, 0 < c.1 → c.1 ≤ c.2 ∧ c.2 - c.1 ≤ 2147483647)
    (hc : 0 < capture_time_ms) (hcn : capture_time_ms ≤ now_ms)
    (hfit : now_ms - capture_time_ms ≤ 2147483647)
    (hnow : now_ms ≤ 9223372036854775807) :
    ∃ s r key d,
      (DelayMembers.create true (some ssrc)).run calls = some s ∧
      s.UpdateDelayStatistics capture_time_ms now_ms = some r ∧
      r.sum_delays_ms_ = wrap64 (SendDelayMap.sum r.send_delays_) ∧
      (r.send_delays_.length < 4294967296 →
        r.sum_delays_ms_ = SendDelayMap.sum r.send_delays_) ∧
      r.max_delay_it_ = some key ∧ (key, d) ∈ r.send_delays_ ∧
      (∀ e ∈ r.send_delays_, e.2 ≤ d) ∧
      SendDelayMap.Sorted r.send_delays_ ∧
      (∀ e ∈ r.send_delays_, now_ms - 1000 ≤ e.1) ∧
      (now_ms, now_ms - capture_time_ms) ∈ r.send_delays_ ∧
      (∀ e ∈ r.send_delays_,
        e = (now_ms, now_ms - capture_time_ms) ∨ (e ∈ s.send_delays_ ∧ e.1 ≠ now_ms)) ∧
      r.trace = DelayEvent.SendSideDelayUpdated
        (dchecked_cast_int (((size_t_wrap (r.sum_delays_ms_ +
          ((r.send_delays_.length / 2 : Nat) : Int)) / r.send_delays_.length : Nat) : Int)))
        d ssrc :: s.trace ∧
      (r.send_delays_.length < 4294967296 →
        dchecked_cast_int (((size_t_wrap (r.sum_delays_ms_ +
          ((r.send_delays_.length / 2 : Nat) : Int)) / r.send_delays_.length : Nat) : Int)) =
        (SendDelayMap.sum r.send_delays_ + (r.send_delays_.length : Int) / 2) /
          (r.send_delays_.length : Int)) := by
  obtain ⟨s, hrun, hvs, hss, hso⟩ := run_valid calls (DelayMembers.create true (some ssrc))
    (create_valid true (some ssrc))
  obtain ⟨s2, hrun2, hnn⟩ := run_nonneg calls (DelayMembers.create true (some ssrc))
    (create_valid true (some ssrc)) hcalls (fun e he => absurd he (List.not_mem_nil e))
  rw [hrun] at hrun2
  have hs2 : s = s2 := Option.some.inj hrun2
  rw [← hs2] at hnn
  have hobs : s.send_side_delay_observer_ = true := hso
  have hssrc : s.ssrc_ = some ssrc := hss
  obtain ⟨r, key, d, h1, h2, h3, h4, h5, h6, h7, _, h9, _, _⟩ :=
    UpdateDelayStatistics_step s capture_time_ms now_ms ssrc hvs hobs hssrc hc
  have hdiff : dchecked_cast_int (wrap64 (now_ms - capture_time_ms)) =
      now_ms - capture_time_ms := by
    have hw : wrap64 (now_ms - capture_time_ms) = now_ms - capture_time_ms := by
      unfold wrap64
      omega
    rw [hw]
    unfold dchecked_cast_int wrap32
    omega
  have hbound : wrap64 (now_ms - kSendSideDelayWindowMs) = now_ms - 1000 := by
    unfold wrap64 kSendSideDelayWindowMs
    omega
  rw [hdiff] at h6 h7
  rw [hbound] at h7
  obtain ⟨v1, v2, v3, _⟩ := h2
  have hexact : r.send_delays_.length < 4294967296 →
      r.sum_delays_ms_ = SendDelayMap.sum r.send_delays_ := by
    intro hlen
    obtain ⟨b1, b2⟩ := delay_sum_bounds r.send_delays_ v2
    rw [v3]
    apply wrap64_of_InInt64
    unfold InInt64
    omega
  have hnn2 : ∀ e ∈ r.send_delays_, 0 ≤ e.2 := by
    intro e he
    rcases h7 e he with h | h
    · rw [h]
      show 0 ≤ now_ms - capture_time_ms
      omega
    · exact hnn e ((from_lower_bound_sublist s.send_delays_ (now_ms - 1000)).subset h.1)
  refine ⟨s, r, key, d, hrun, h1, v3, hexact, h3, h4, h5, v1, ?_, h6, ?_, h9, ?_⟩
  · intro e he
    rcases h7 e he with h | h
    · rw [h]
      show now_ms - 1000 ≤ now_ms
      omega
    · exact from_lower_bound_keys hvs.1 (now_ms - 1000) e h.1
  · intro e he
    rcases h7 e he with h | h
    · exact Or.inl h
    · exact Or.inr ⟨(from_lower_bound_sublist s.send_delays_ (now_ms - 1000)).subset h.1, h.2⟩
  · intro hlen
    obtain ⟨_, b2⟩ := delay_sum_bounds r.send_delays_ v2
    have hpos : 0 < r.send_delays_.length := List.length_pos_of_mem h6
    rw [hexact hlen]
    exact avg_exact _ _ (delay_sum_nonneg r.send_delays_ hnn2) b2 hpos hlen

/-- Witness for C29: two measurements in the same millisecond 110, the second with
capture time 105 overwrites the first: one entry (110, 5), sum 5, maximum 5, and the
averages reported are 10 and then 5. -/
theorem UpdateDelayStatistics_window_witness :
    (DelayMembers.create true (some 7)).run [(100, 110), (105, 110)] =
      some { send_side_delay_observer_ := true, ssrc_ := some 7, send_delays_ := [(110, 5)],
             max_delay_it_ := some 110, sum_delays_ms_ := 5,
             trace := [DelayEvent.SendSideDelayUpdated 5 5 7,
               DelayEvent.SendSideDelayUpdated 10 10 7] } ∧
    ∃ s r, (DelayMembers.create true (some 7)).run [(100, 110)] = some s ∧
      s.UpdateDelayStatistics 105 110 = some r ∧
      r.sum_delays_ms_ = wrap64 (SendDelayMap.sum r.send_delays_) ∧
      (∀ e ∈ r.send_delays_, 110 - 1000 ≤ e.1) ∧
      (110, 110 - 105) ∈ r.send_delays_ :=
  ⟨by decide,
    match UpdateDelayStatistics_window [(100, 110)] 7 105 110 (by decide) (by decide)
      (by decide) (by decide) (by decide) with
    | ⟨s, r, _, _, h1, h2, h3, _, _, _, _, _, h4, h5, _⟩ => ⟨s, r, h1, h2, h3, h4, h5⟩⟩

/-- C29, as stated, fails: three calls with 0 < capture_time_ms <= now_ms, the first
with a difference of 2^32 - 2 ms that the conversion to `int` stores as -2. After the
third call the map holds the delays -2, 0, 0, `sum_delays_ms_` is -2, and the average
reported is 1431655765 (the unsigned quotient (2^64 - 1) / 3 converted to `int`), not
(-2 + 3 / 2) / 3. -/
theorem delay_average_wraps :
    (DelayMembers.create true (some 7)).run
        [(1, 4294967295), (4294967296, 4294967296), (4294967297, 4294967297)] =
      some { send_side_delay_observer_ := true, ssrc_ := some 7,
             send_delays_ := [(4294967295, -2), (4294967296, 0), (4294967297, 0)],
             max_delay_it_ := some 4294967297, sum_delays_ms_ := -2,
             trace := [DelayEvent.SendSideDelayUpdated 1431655765 0 7,
               DelayEvent.SendSideDelayUpdated (-1) 0 7,
               DelayEvent.SendSideDelayUpdated (-2) (-2) 7] } ∧
    ((-2 : Int) + 3 / 2) / 3 ≠ 1431655765 ∧ Int.tdiv ((-2 : Int) + 3 / 2) 3 ≠ 1431655765 := by
  decide

/-! ## Theorems: binary64 arithmetic -/

/-- The doubling search ends at an exponent whose power of two is above `n`. -/
theorem log2_bound_gt : ∀ (fuel k n : Nat), n < 2 ^ (k * 2 ^ fuel) →
    n < 2 ^ log2_bound fuel k n := by
  intro fuel
  induction fuel with
  | zero =>
    intro k n h
    rw [pow_zero, Nat.mul_one] at h
    exact h
  | succ fuel ih =>
    intro k n h
    unfold log2_bound
    by_cases hn : n < 2 ^ k
    · rw [if_pos hn]
      exact hn
    · rw [if_neg hn]
      refine ih (2 * k) n ?_
      have he : 2 * k * 2 ^ fuel = k * 2 ^ (fuel + 1) := by
        rw [Nat.pow_succ]
        ring
      rw [he]
      exact h

/-- The bisection keeps the leading bit between its bounds. -/
theorem log2_bisect_spec : ∀ (fuel lo width n : Nat), 2 ^ lo ≤ n → n < 2 ^ (lo + width) →
    width ≤ fuel + 1 →
    2 ^ log2_bisect fuel lo width n ≤ n ∧ n < 2 ^ (log2_bisect fuel lo width n + 1) := by
  intro fuel
  induction fuel with
  | zero =>
    intro lo width n h1 h2 hw
    unfold log2_bisect
    exact ⟨h1, lt_of_lt_of_le h2 (Nat.pow_le_pow_right (by decide) (by omega))⟩
  | succ fuel ih =>
    intro lo width n h1 h2 hw
    unfold log2_bisect
    by_cases hw1 : width ≤ 1
    · rw [if_pos hw1]
      exact ⟨h1, lt_of_lt_of_le h2 (Nat.pow_le_pow_right (by decide) (by omega))⟩
    · rw [if_neg hw1]
      by_cases hmid : 2 ^ (lo + width / 2) ≤ n
      · rw [if_pos hmid]
        refine ih (lo + width / 2) (width - width / 2) n hmid ?_ (by omega)
        have he : lo + width / 2 + (width - width / 2) = lo + width := by omega
        rw [he]
        exact h2
      · rw [if_neg hmid]
        exact ih lo (width / 2) n h1 (by omega) (by omega)

/-- The leading bit: `2 ^ floor_log2 n ≤ n < 2 ^ (floor_log2 n + 1)` for `n ≥ 1`. -/
theorem floor_log2_spec (n : Nat) (h : 1 ≤ n) :
    2 ^ floor_log2 n ≤ n ∧ n < 2 ^ (floor_log2 n + 1) := by
  have hb : n < 2 ^ log2_bound n 1 n := by
    refine log2_bound_gt n 1 n ?_
    rw [Nat.one_mul]
    exact lt_trans (Nat.lt_two_pow n) (Nat.lt_two_pow (2 ^ n))
  unfold floor_log2
  refine log2_bisect_spec (log2_bound n 1 n) 0 (log2_bound n 1 n) n ?_ ?_ (by omega)
  · rw [pow_zero]
    exact h
  · rw [Nat.zero_add]
    exact hb

/-- The leading bit of `n` is not above `n`. -/
theorem floor_log2_le (n : Nat) (h : 1 ≤ n) : 2 ^ floor_log2 n ≤ n :=
  (floor_log2_spec n h).1

theorem round_half_even_one (n : Nat) : round_half_even n 1 = n := by
  unfold round_half_even
  rw [Nat.mod_one, Nat.div_one]
  rfl

theorem binary_exponent_one (n : Nat) (h : 1 ≤ n) :
    binary_exponent n 1 = (floor_log2 n : Int) := by
  have h1 : floor_log2 1 = 0 := rfl
  unfold binary_exponent
  rw [h1, pow_zero, Nat.mul_one, Nat.one_mul, if_pos (floor_log2_le n h)]
  simp

/-- A positive integer below `2 ^ 53` is a `double`: rounding keeps it. -/
theorem round_magnitude_int (n : Nat) (h1 : 1 ≤ n) (h2 : n < 9007199254740992) :
    round_magnitude n 1 = some (n : ℚ) := by
  have hL : floor_log2 n ≤ 52 := by
    have hle := floor_log2_le n h1
    by_contra hc
    have h53 : 53 ≤ floor_log2 n := by omega
    have hp : 2 ^ 53 ≤ 2 ^ floor_log2 n := Nat.pow_le_pow_right (by decide) h53
    have : (2 : Nat) ^ 53 = 9007199254740992 := by norm_num
    omega
  have hk : max (binary_exponent n 1 - 52) (-1074) = ((floor_log2 n : Int) - 52) := by
    rw [binary_exponent_one n h1]
    omega
  have hneg : (-((floor_log2 n : Int) - 52)).toNat = 52 - floor_log2 n := by omega
  have hpos : ((floor_log2 n : Int) - 52).toNat = 0 := by omega
  unfold round_magnitude
  dsimp only
  rw [hk, hneg, hpos, pow_zero, Nat.mul_one, Nat.mul_one, round_half_even_one]
  have hbig : ¬ 2 ^ 1024 * 2 ^ (52 - floor_log2 n) ≤ n * 2 ^ (52 - floor_log2 n) := by
    intro hle
    have hpos2 : 0 < 2 ^ (52 - floor_log2 n) := Nat.pow_pos (by decide)
    have := Nat.le_of_mul_le_mul_right hle hpos2
    have h1024 : (9007199254740992 : Nat) ≤ 2 ^ 1024 := by norm_num
    omega
  rw [if_neg hbig]
  congr 1
  push_cast
  have hne : ((2 : ℚ) ^ (52 - floor_log2 n)) ≠ 0 := pow_ne_zero _ (by norm_num)
  field_simp

/-- The conversion of an integer of magnitude below `2 ^ 53` to `double` is exact. -/
theorem ofInt_exact (z : Int) (h1 : -9007199254740992 < z) (h2 : z < 9007199254740992) :
    Double.ofInt z = Double.finite (z : ℚ) := by
  unfold Double.ofInt Double.round
  by_cases hz : z = 0
  · rw [hz]
    simp
  · have hq : ¬ ((z : ℚ) = 0) := by exact_mod_cast hz
    rw [if_neg hq, Rat.num_intCast, Rat.den_intCast,
      round_magnitude_int z.natAbs (by omega) (by omega)]
    dsimp only
    congr 1
    by_cases hneg : (z : ℚ) < 0
    · rw [if_pos hneg]
      have hz2 : z < 0 := by exact_mod_cast hneg
      have h3 : ((z.natAbs : Int)) = -z := by omega
      have h4 : (((z.natAbs : Int) : ℚ)) = ((-z : Int) : ℚ) := congrArg (Int.cast) h3
      rw [Int.cast_natCast, Int.cast_neg] at h4
      rw [h4, neg_neg]
    · rw [if_neg hneg]
      have hz2 : 0 ≤ z := by
        have : ¬ z < 0 := by exact_mod_cast hneg
        omega
      have h3 : ((z.natAbs : Int)) = z := by omega
      have h4 : (((z.natAbs : Int) : ℚ)) = (z : ℚ) := congrArg (Int.cast) h3
      rw [Int.cast_natCast] at h4
      exact h4

/-! ## Theorems: `TrendlineEstimator` in binary64 arithmetic -/

/-- `UpdateThreshold` writes `threshold_` and `last_update_ms_` only, and the latter
always becomes `now_ms`. -/
theorem Ieee_UpdateThreshold_frame (s : Ieee.TrendlineEstimator) (modified_trend : Double)
    (now_ms : Int) :
    s.UpdateThreshold modified_trend now_ms =
      { s with
        threshold_ := (s.UpdateThreshold modified_trend now_ms).threshold_
        last_update_ms_ := now_ms } := by
  unfold Ieee.TrendlineEstimator.UpdateThreshold
  dsimp only
  split_ifs <;> rfl

/-- The threshold after `UpdateThreshold`: unchanged on a spike, otherwise the clamped
adapted value. -/
theorem Ieee_UpdateThreshold_threshold (s : Ieee.TrendlineEstimator) (modified_trend : Double)
    (now_ms : Int) :
    (s.UpdateThreshold modified_trend now_ms).threshold_ =
      if Double.gt (Double.fabs modified_trend)
          (Double.add s.threshold_ Ieee.kMaxAdaptOffsetMs) = true then s.threshold_
      else
        Ieee.SafeClamp
          (Double.add s.threshold_
            (Double.mul
              (Double.mul
                (if Double.lt (Double.fabs modified_trend) s.threshold_ = true then s.k_down_
                 else s.k_up_)
                (Double.sub (Double.fabs modified_trend) s.threshold_))
              (Double.ofInt (min (wrap64 (now_ms - (if s.last_update_ms_ = -1 then now_ms
                else s.last_update_ms_))) 100))))
          (Double.finite 6) (Double.finite 600) := by
  unfold Ieee.TrendlineEstimator.UpdateThreshold
  dsimp only
  split_ifs <;> rfl

/-- `Detect` leaves the filter, the trend window, the parameters and the predictor
untouched. -/
theorem Ieee_Detect_frame (s : Ieee.TrendlineEstimator) (trend ts_delta : Double)
    (now_ms : Int) :
    s.Detect trend ts_delta now_ms =
      { s with
        threshold_ := (s.Detect trend ts_delta now_ms).threshold_
        prev_modified_trend_ := (s.Detect trend ts_delta now_ms).prev_modified_trend_
        last_update_ms_ := (s.Detect trend ts_delta now_ms).last_update_ms_
        prev_trend_ := (s.Detect trend ts_delta now_ms).prev_trend_
        time_over_using_ := (s.Detect trend ts_delta now_ms).time_over_using_
        overuse_counter_ := (s.Detect trend ts_delta now_ms).overuse_counter_
        hypothesis_ := (s.Detect trend ts_delta now_ms).hypothesis_ } := by
  unfold Ieee.TrendlineEstimator.Detect
  by_cases h : s.num_of_deltas_ < 2
  · rw [if_pos h]
  · rw [if_neg h]
    dsimp only
    rw [Ieee_UpdateThreshold_frame]
    split_ifs <;> rfl

/-- `UpdateFilter` writes the delta counter, the first arrival time, the two filter
values and the trend window only. -/
theorem Ieee_UpdateFilter_frame (s : Ieee.TrendlineEstimator)
    (recv_delta_ms send_delta_ms : Double) (arrival_time_ms : Int) :
    s.UpdateFilter recv_delta_ms send_delta_ms arrival_time_ms =
      { s with
        num_of_deltas_ := (s.UpdateFilter recv_delta_ms send_delta_ms arrival_time_ms).num_of_deltas_
        first_arrival_time_ms_ :=
          (s.UpdateFilter recv_delta_ms send_delta_ms arrival_time_ms).first_arrival_time_ms_
        accumulated_delay_ :=
          (s.UpdateFilter recv_delta_ms send_delta_ms arrival_time_ms).accumulated_delay_
        smoothed_delay_ := (s.UpdateFilter recv_delta_ms send_delta_ms arrival_time_ms).smoothed_delay_
        delay_hist_ := (s.UpdateFilter recv_delta_ms send_delta_ms arrival_time_ms).delay_hist_ } := by
  unfold Ieee.TrendlineEstimator.UpdateFilter
  dsimp only
  split_ifs <;> rfl

/-- The part of `Update` that runs when `calculated_deltas` holds. -/
theorem Ieee_Update_calculated (s : Ieee.TrendlineEstimator)
    (recv_delta_ms send_delta_ms : Double) (send_time_ms arrival_time_ms : Int) :
    s.Update recv_delta_ms send_delta_ms send_time_ms arrival_time_ms true =
      match ((s.UpdateFilter recv_delta_ms send_delta_ms arrival_time_ms).Detect
          (s.UpdateFilter recv_delta_ms send_delta_ms arrival_time_ms).UpdateTrend
          send_delta_ms arrival_time_ms).network_state_predictor_ with
      | some predictor =>
          { ((s.UpdateFilter recv_delta_ms send_delta_ms arrival_time_ms).Detect
              (s.UpdateFilter recv_delta_ms send_delta_ms arrival_time_ms).UpdateTrend
              send_delta_ms arrival_time_ms) with
            hypothesis_predicted_ :=
              predictor.Update
                ((send_time_ms, arrival_time_ms,
                  ((s.UpdateFilter recv_delta_ms send_delta_ms arrival_time_ms).Detect
                    (s.UpdateFilter recv_delta_ms send_delta_ms arrival_time_ms).UpdateTrend
                    send_delta_ms arrival_time_ms).hypothesis_) ::
                  ((s.UpdateFilter recv_delta_ms send_delta_ms arrival_time_ms).Detect
                    (s.UpdateFilter recv_delta_ms send_delta_ms arrival_time_ms).UpdateTrend
                    send_delta_ms arrival_time_ms).predictor_calls_)
            predictor_calls_ :=
              (send_time_ms, arrival_time_ms,
                ((s.UpdateFilter recv_delta_ms send_delta_ms arrival_time_ms).Detect
                  (s.UpdateFilter recv_delta_ms send_delta_ms arrival_time_ms).UpdateTrend
                  send_delta_ms arrival_time_ms).hypothesis_) ::
                ((s.UpdateFilter recv_delta_ms send_delta_ms arrival_time_ms).Detect
                  (s.UpdateFilter recv_delta_ms send_delta_ms arrival_time_ms).UpdateTrend
                  send_delta_ms arrival_time_ms).predictor_calls_ }
      | none =>
          (s.UpdateFilter recv_delta_ms send_delta_ms arrival_time_ms).Detect
            (s.UpdateFilter recv_delta_ms send_delta_ms arrival_time_ms).UpdateTrend
            send_delta_ms arrival_time_ms := by
  unfold Ieee.TrendlineEstimator.Update
  rfl

/-- The members `Update` leaves as `Detect` left them (all but the predictor's). -/
theorem Ieee_Update_calculated_frame (s : Ieee.TrendlineEstimator)
    (recv_delta_ms send_delta_ms : Double) (send_time_ms arrival_time_ms : Int) :
    s.Update recv_delta_ms send_delta_ms send_time_ms arrival_time_ms true =
      { ((s.UpdateFilter recv_delta_ms send_delta_ms arrival_time_ms).Detect
          (s.UpdateFilter recv_delta_ms send_delta_ms arrival_time_ms).UpdateTrend
          send_delta_ms arrival_time_ms) with
        hypothesis_predicted_ :=
          (s.Update recv_delta_ms send_delta_ms send_time_ms arrival_time_ms true).hypothesis_predicted_
        predictor_calls_ :=
          (s.Update recv_delta_ms send_delta_ms send_time_ms arrival_time_ms true).predictor_calls_ } := by
  rw [Ieee_Update_calculated]
  split <;> rfl

/-- Without calculated deltas `Update` only consults the predictor. -/
theorem Ieee_Update_not_calculated_frame (s : Ieee.TrendlineEstimator)
    (recv_delta_ms send_delta_ms : Double) (send_time_ms arrival_time_ms : Int) :
    s.Update recv_delta_ms send_delta_ms send_time_ms arrival_time_ms false =
      { s with
        hypothesis_predicted_ :=
          (s.Update recv_delta_ms send_delta_ms send_time_ms arrival_time_ms false).hypothesis_predicted_
        predictor_calls_ :=
          (s.Update recv_delta_ms send_delta_ms send_time_ms arrival_time_ms false).predictor_calls_ } := by
  unfold Ieee.TrendlineEstimator.Update
  simp only [Bool.false_eq_true, if_false]
  split <;> rfl

/-! ### `UpdateThreshold` -/

/-- C24, as stated, fails on the first call: a fresh estimator has `last_update_ms_`
= -1, which `UpdateThreshold` replaces by `now_ms` before it forms the time delta, so
the delta is 0 and the threshold keeps its value 12.5, whereas the claimed formula with
min(now_ms - last_update_ms, 100) = min(1000 - (-1), 100) = 100 gives
clamp(12.5 + 0.039 * (0 - 12.5) * 100, 6, 600) = 6. -/
theorem first_UpdateThreshold_keeps_threshold :
    (Ieee.TrendlineEstimator.create 20 (Double.round (9 / 10)) (Double.finite 4)
      none).last_update_ms_ = -1 ∧
    (Ieee.TrendlineEstimator.create 20 (Double.round (9 / 10)) (Double.finite 4)
      none).threshold_ = Double.finite (25 / 2) ∧
    ((Ieee.TrendlineEstimator.create 20 (Double.round (9 / 10)) (Double.finite 4)
      none).UpdateThreshold (Double.finite 0) 1000).threshold_ = Double.finite (25 / 2) ∧
    Double.gt (Double.fabs (Double.finite 0))
      (Double.add (Double.finite (25 / 2)) (Double.finite 15)) = false ∧
    Double.lt (Double.fabs (Double.finite 0)) (Double.finite (25 / 2)) = true ∧
    Ieee.SafeClamp
      (Double.add (Double.finite (25 / 2))
        (Double.mul
          (Double.mul (Double.round (39 / 1000))
            (Double.sub (Double.fabs (Double.finite 0)) (Double.finite (25 / 2))))
          (Double.ofInt (min (1000 - (Ieee.TrendlineEstimator.create 20 (Double.round (9 / 10))
            (Double.finite 4) none).last_update_ms_) 100))))
      (Double.finite 6) (Double.finite 600) = Double.finite 6 ∧
    ((Ieee.TrendlineEstimator.create 20 (Double.round (9 / 10)) (Double.finite 4)
      none).UpdateThreshold (Double.finite 0) 1000).threshold_ ≠
      Ieee.SafeClamp
        (Double.add (Double.finite (25 / 2))
          (Double.mul
            (Double.mul (Double.round (39 / 1000))
              (Double.sub (Double.fabs (Double.finite 0)) (Double.finite (25 / 2))))
            (Double.ofInt (min (1000 - (Ieee.TrendlineEstimator.create 20
              (Double.round (9 / 10)) (Double.finite 4) none).last_update_ms_) 100))))
        (Double.finite 6) (Double.finite 600) := by
  decide!

/-- C24 (amended): for every `UpdateThreshold(modified_trend, now_ms)` with current
threshold T, on an estimator with the constructor's `k_up_` = 0.0087 and `k_down_` =
0.039 (the nearest `double` values), in `double` arithmetic with every operation
rounded: if |modified_trend| > T + 15 the threshold is left unchanged; otherwise the new
threshold is clamp(T + k * (|modified_trend| - T) * min(now_ms - last, 100), 6, 600)
with k = 0.039 when |modified_trend| < T and k = 0.0087 otherwise, where `last` is
`last_update_ms_`, or `now_ms` itself when `last_update_ms_` is still -1 (first call:
the time delta is then 0); in both cases `last_update_ms_` becomes `now_ms` and nothing
else changes. The difference is an `int64_t` difference, exact whenever it is
representable. -/
theorem UpdateThreshold_spec (s : Ieee.TrendlineEstimator) (modified_trend : Double)
    (now_ms : Int) (hup : s.k_up_ = Double.round (87 / 10000))
    (hdown : s.k_down_ = Double.round (39 / 1000)) :
    s.UpdateThreshold modified_trend now_ms =
      { s with
        threshold_ :=
          if Double.gt (Double.fabs modified_trend)
              (Double.add s.threshold_ (Double.finite 15)) = true then s.threshold_
          else
            Ieee.SafeClamp
              (Double.add s.threshold_
                (Double.mul
                  (Double.mul
                    (if Double.lt (Double.fabs modified_trend) s.threshold_ = true then
                      Double.round (39 / 1000)
                     else Double.round (87 / 10000))
                    (Double.sub (Double.fabs modified_trend) s.threshold_))
                  (Double.ofInt (min (wrap64 (now_ms - (if s.last_update_ms_ = -1 then now_ms
                    else s.last_update_ms_))) 100))))
              (Double.finite 6) (Double.finite 600)
        last_update_ms_ := now_ms } ∧
    (InInt64 (now_ms - (if s.last_update_ms_ = -1 then now_ms else s.last_update_ms_)) →
      (s.UpdateThreshold modified_trend now_ms).threshold_ =
        if Double.gt (Double.fabs modified_trend)
            (Double.add s.threshold_ (Double.finite 15)) = true then s.threshold_
        else
          Ieee.SafeClamp
            (Double.add s.threshold_
              (Double.mul
                (Double.mul
                  (if Double.lt (Double.fabs modified_trend) s.threshold_ = true then
                    Double.round (39 / 1000)
                   else Double.round (87 / 10000))
                  (Double.sub (Double.fabs modified_trend) s.threshold_))
                (Double.ofInt (min (now_ms - (if s.last_update_ms_ = -1 then now_ms
                  else s.last_update_ms_)) 100))))
            (Double.finite 6) (Double.finite 600)) ∧
    (s.last_update_ms_ = -1 →
      Double.gt (Double.fabs modified_trend)
        (Double.add s.threshold_ (Double.finite 15)) = false →
      (s.UpdateThreshold modified_trend now_ms).threshold_ =
        Ieee.SafeClamp
          (Double.add s.threshold_
            (Double.mul
              (Double.mul
                (if Double.lt (Double.fabs modified_trend) s.threshold_ = true then
                  Double.round (39 / 1000)
                 else Double.round (87 / 10000))
                (Double.sub (Double.fabs modified_trend) s.threshold_))
              (Double.finite 0)))
          (Double.finite 6) (Double.finite 600)) := by
  have hthr := Ieee_UpdateThreshold_threshold s modified_trend now_ms
  rw [hup, hdown] at hthr
  have hoff : Ieee.kMaxAdaptOffsetMs = Double.finite 15 := rfl
  rw [hoff] at hthr
  refine ⟨?_, ?_, ?_⟩
  · rw [Ieee_UpdateThreshold_frame s modified_trend now_ms, hthr]
  · intro h64
    rw [hthr, wrap64_of_InInt64 h64]
  · intro hlast hspike
    have hns : ¬ (Double.gt (Double.fabs modified_trend)
        (Double.add s.threshold_ (Double.finite 15)) = true) := by
      rw [hspike]
      decide
    rw [hthr, if_neg hns, if_pos hlast]
    have hz : Double.ofInt (min (wrap64 (now_ms - now_ms)) 100) = Double.finite 0 := by
      rw [sub_self]
      rfl
    rw [hz]

/-- Witness for C24 (amended): a fresh estimator, whose first call forms the time
delta 0 and keeps the threshold 12.5; and a call 50 ms after the previous update with
modified_trend 20, which raises the threshold 12.5 by 0.0087 * 7.5 * 50 to the `double`
15.7625. -/
theorem UpdateThreshold_spec_witness :
    ((Ieee.TrendlineEstimator.create 20 (Double.round (9 / 10)) (Double.finite 4)
      none).UpdateThreshold (Double.finite 0) 1000).threshold_ =
      Ieee.SafeClamp
        (Double.add (Double.finite (25 / 2))
          (Double.mul
            (Double.mul
              (if Double.lt (Double.fabs (Double.finite 0)) (Double.finite (25 / 2)) = true then
                Double.round (39 / 1000)
               else Double.round (87 / 10000))
              (Double.sub (Double.fabs (Double.finite 0)) (Double.finite (25 / 2))))
            (Double.finite 0)))
        (Double.finite 6) (Double.finite 600) ∧
    ((Ieee.TrendlineEstimator.create 20 (Double.round (9 / 10)) (Double.finite 4)
      none).UpdateThreshold (Double.finite 0) 1000).threshold_ = Double.finite (25 / 2) ∧
    ({ Ieee.TrendlineEstimator.create 20 (Double.round (9 / 10)) (Double.finite 4) none with
        last_update_ms_ := 1000 }.UpdateThreshold (Double.finite 20) 1050).threshold_ =
      Ieee.SafeClamp
        (Double.add (Double.finite (25 / 2))
          (Double.mul
            (Double.mul (Double.round (87 / 10000))
              (Double.sub (Double.finite 20) (Double.finite (25 / 2))))
            (Double.finite 50)))
        (Double.finite 6) (Double.finite 600) ∧
    ({ Ieee.TrendlineEstimator.create 20 (Double.round (9 / 10)) (Double.finite 4) none with
        last_update_ms_ := 1000 }.UpdateThreshold (Double.finite 20) 1050).threshold_ =
      Double.finite (4436749320401715 / 281474976710656) :=
  ⟨(UpdateThreshold_spec (Ieee.TrendlineEstimator.create 20 (Double.round (9 / 10))
      (Double.finite 4) none) (Double.finite 0) 1000 rfl rfl).2.2 rfl (by decide!),
    by decide!,
    ((UpdateThreshold_spec
      { Ieee.TrendlineEstimator.create 20 (Double.round (9 / 10)) (Double.finite 4) none with
        last_update_ms_ := 1000 } (Double.finite 20) 1050 rfl rfl).2.1 (by decide)).trans
      (by decide!),
    by decide!⟩

/-! ### `Detect` -/

/-- The hypothesis `Detect` leaves, for a state with at least two deltas. -/
theorem Ieee_Detect_hypothesis_cases (s : Ieee.TrendlineEstimator) (trend ts_delta : Double)
    (now_ms : Int) (h2 : 2 ≤ s.num_of_deltas_) :
    (s.Detect trend ts_delta now_ms).hypothesis_ =
      if Double.gt (s.modified_trend trend) s.threshold_ = true then
        if Double.gt (s.time_over_using_next ts_delta) s.overusing_time_threshold_ = true ∧
            s.overuse_counter_next > 1 then
          if Double.ge trend s.prev_trend_ = true then BandwidthUsage.kBwOverusing
          else s.hypothesis_
        else s.hypothesis_
      else if Double.lt (s.modified_trend trend) (Double.neg s.threshold_) = true then
        BandwidthUsage.kBwUnderusing
      else BandwidthUsage.kBwNormal := by
  have hn : ¬ s.num_of_deltas_ < 2 := by omega
  unfold Ieee.TrendlineEstimator.Detect
  rw [if_neg hn]
  dsimp only
  rw [Ieee_UpdateThreshold_frame]
  unfold Ieee.TrendlineEstimator.modified_trend Ieee.TrendlineEstimator.time_over_using_next
    Ieee.TrendlineEstimator.overuse_counter_next
  dsimp only
  split_ifs <;> rfl

/-- C6, as stated, fails: in the run of the overuse scenario (window 20, smoothing 0.9,
gain 4; groups sent 5 ms and received 6 ms apart) the detector reports Overusing at the
22nd sample and resets its timer and counter to 0; at the `Detect` call of the 23rd
sample modified_trend is above the threshold again, but the timer only reaches 5 ms and
the counter 1, so the rule of the claim gives Normal, while `Detect` leaves the
hypothesis at Overusing. -/
theorem Detect_keeps_hypothesis :
    2 ≤ ((Ieee.UpdateCall.run
      (Ieee.TrendlineEstimator.create 20 (Double.round (9 / 10)) (Double.finite 4) none)
      (Ieee.overuseFeed 5 6 22)).UpdateFilter (Double.finite 6) (Double.finite 5)
        138).num_of_deltas_ ∧
    ((Ieee.UpdateCall.run
      (Ieee.TrendlineEstimator.create 20 (Double.round (9 / 10)) (Double.finite 4) none)
      (Ieee.overuseFeed 5 6 22)).UpdateFilter (Double.finite 6) (Double.finite 5)
        138).hypothesis_ = BandwidthUsage.kBwOverusing ∧
    ((Ieee.UpdateCall.run
      (Ieee.TrendlineEstimator.create 20 (Double.round (9 / 10)) (Double.finite 4) none)
      (Ieee.overuseFeed 5 6 22)).UpdateFilter (Double.finite 6) (Double.finite 5)
        138).overuse_counter_ = 0 ∧
    ((Ieee.UpdateCall.run
      (Ieee.TrendlineEstimator.create 20 (Double.round (9 / 10)) (Double.finite 4) none)
      (Ieee.overuseFeed 5 6 22)).UpdateFilter (Double.finite 6) (Double.finite 5)
        138).time_over_using_ = Double.finite 0 ∧
    Double.gt
      (((Ieee.UpdateCall.run
        (Ieee.TrendlineEstimator.create 20 (Double.round (9 / 10)) (Double.finite 4) none)
        (Ieee.overuseFeed 5 6 22)).UpdateFilter (Double.finite 6) (Double.finite 5)
          138).modified_trend
        ((Ieee.UpdateCall.run
          (Ieee.TrendlineEstimator.create 20 (Double.round (9 / 10)) (Double.finite 4) none)
          (Ieee.overuseFeed 5 6 22)).UpdateFilter (Double.finite 6) (Double.finite 5)
            138).UpdateTrend)
      ((Ieee.UpdateCall.run
        (Ieee.TrendlineEstimator.create 20 (Double.round (9 / 10)) (Double.finite 4) none)
        (Ieee.overuseFeed 5 6 22)).UpdateFilter (Double.finite 6) (Double.finite 5)
          138).threshold_ = true ∧
    ((Ieee.UpdateCall.run
      (Ieee.TrendlineEstimator.create 20 (Double.round (9 / 10)) (Double.finite 4) none)
      (Ieee.overuseFeed 5 6 22)).UpdateFilter (Double.finite 6) (Double.finite 5)
        138).DetectRule_spec
        ((Ieee.UpdateCall.run
          (Ieee.TrendlineEstimator.create 20 (Double.round (9 / 10)) (Double.finite 4) none)
          (Ieee.overuseFeed 5 6 22)).UpdateFilter (Double.finite 6) (Double.finite 5)
            138).UpdateTrend (Double.finite 5)
      = BandwidthUsage.kBwNormal ∧
    (((Ieee.UpdateCall.run
      (Ieee.TrendlineEstimator.create 20 (Double.round (9 / 10)) (Double.finite 4) none)
      (Ieee.overuseFeed 5 6 22)).UpdateFilter (Double.finite 6) (Double.finite 5)
        138).Detect
        ((Ieee.UpdateCall.run
          (Ieee.TrendlineEstimator.create 20 (Double.round (9 / 10)) (Double.finite 4) none)
          (Ieee.overuseFeed 5 6 22)).UpdateFilter (Double.finite 6) (Double.finite 5)
            138).UpdateTrend (Double.finite 5) 138).hypothesis_
      = BandwidthUsage.kBwOverusing := by
  decide!

/-- The parameters set by the constructor are not written by `Update`. -/
theorem Ieee_params_step (s : Ieee.TrendlineEstimator) (c : Ieee.UpdateCall) :
    (Ieee.UpdateCall.apply s c).overusing_time_threshold_ = s.overusing_time_threshold_ ∧
    (Ieee.UpdateCall.apply s c).k_up_ = s.k_up_ ∧
    (Ieee.UpdateCall.apply s c).k_down_ = s.k_down_ ∧
    (Ieee.UpdateCall.apply s c).threshold_gain_ = s.threshold_gain_ ∧
    (Ieee.UpdateCall.apply s c).smoothing_coef_ = s.smoothing_coef_ ∧
    (Ieee.UpdateCall.apply s c).window_size_ = s.window_size_ := by
  unfold Ieee.UpdateCall.apply
  cases hc : c.calculated_deltas with
  | false =>
    rw [Ieee_Update_not_calculated_frame]
    exact ⟨rfl, rfl, rfl, rfl, rfl, rfl⟩
  | true =>
    rw [Ieee_Update_calculated_frame, Ieee_Detect_frame]
    dsimp only
    rw [Ieee_UpdateFilter_frame]
    exact ⟨rfl, rfl, rfl, rfl, rfl, rfl⟩

theorem Ieee_params_run (calls : List Ieee.UpdateCall) :
    ∀ s : Ieee.TrendlineEstimator,
      (Ieee.UpdateCall.run s calls).overusing_time_threshold_ = s.overusing_time_threshold_ ∧
      (Ieee.UpdateCall.run s calls).k_up_ = s.k_up_ ∧
      (Ieee.UpdateCall.run s calls).k_down_ = s.k_down_ ∧
      (Ieee.UpdateCall.run s calls).threshold_gain_ = s.threshold_gain_ ∧
      (Ieee.UpdateCall.run s calls).smoothing_coef_ = s.smoothing_coef_ ∧
      (Ieee.UpdateCall.run s calls).window_size_ = s.window_size_ := by
  induction calls with
  | nil => intro s; exact ⟨rfl, rfl, rfl, rfl, rfl, rfl⟩
  | cons c cs ih =>
    intro s
    obtain ⟨a1, a2, a3, a4, a5, a6⟩ := Ieee_params_step s c
    obtain ⟨b1, b2, b3, b4, b5, b6⟩ := ih (Ieee.UpdateCall.apply s c)
    exact ⟨b1.trans a1, b2.trans a2, b3.trans a3, b4.trans a4, b5.trans a5, b6.trans a6⟩

/-- C6 (amended): for every `Detect` call with at least 2 observed deltas, made on a
state `s` that is reached from a constructed estimator by `Update` calls or in which
such an `Update` calls `Detect`, with
modified_trend = min(num_of_deltas, 60) * trend * threshold_gain computed in `double`
arithmetic (each product rounded) and the comparisons those of `double`, the resulting
hypothesis is: Overusing if modified_trend > threshold and the accumulated
over-threshold time exceeds 10 ms and at least two consecutive over-threshold samples
have been seen and trend >= the previous trend; the hypothesis held before the call if
modified_trend > threshold but one of these three conditions fails; else Underusing if
modified_trend < -threshold; else Normal. -/
theorem Detect_hypothesis (window_size : Nat) (smoothing_coef threshold_gain : Double)
    (predictor : Option NetworkStatePredictor) (calls : List Ieee.UpdateCall)
    (recv_delta_ms send_delta_ms : Double) (arrival_time_ms : Int)
    (s : Ieee.TrendlineEstimator) (trend ts_delta : Double) (now_ms : Int)
    (hs : s = Ieee.UpdateCall.run
          (Ieee.TrendlineEstimator.create window_size smoothing_coef threshold_gain predictor)
          calls ∨
        s = (Ieee.UpdateCall.run
          (Ieee.TrendlineEstimator.create window_size smoothing_coef threshold_gain predictor)
          calls).UpdateFilter recv_delta_ms send_delta_ms arrival_time_ms)
    (h2 : 2 ≤ s.num_of_deltas_) :
    (s.Detect trend ts_delta now_ms).hypothesis_ =
      if Double.gt (s.modified_trend trend) s.threshold_ = true then
        if Double.gt (s.time_over_using_next ts_delta) (Double.finite 10) = true ∧
            s.overuse_counter_next ≥ 2 ∧ Double.ge trend s.prev_trend_ = true then
          BandwidthUsage.kBwOverusing
        else s.hypothesis_
      else if Double.lt (s.modified_trend trend) (Double.neg s.threshold_) = true then
        BandwidthUsage.kBwUnderusing
      else BandwidthUsage.kBwNormal := by
  have h10 : s.overusing_time_threshold_ = Double.finite 10 := by
    have hr := (Ieee_params_run calls
      (Ieee.TrendlineEstimator.create window_size smoothing_coef threshold_gain predictor)).1
    rcases hs with hs | hs
    · rw [hs]; exact hr
    · rw [hs, Ieee_UpdateFilter_frame]; exact hr
  rw [Ieee_Detect_hypothesis_cases s trend ts_delta now_ms h2, h10]
  by_cases h1 : Double.gt (s.modified_trend trend) s.threshold_ = true
  · rw [if_pos h1, if_pos h1]
    by_cases ha : Double.gt (s.time_over_using_next ts_delta) (Double.finite 10) = true
    · by_cases hb : s.overuse_counter_next > 1
      · have hb2 : s.overuse_counter_next ≥ 2 := by omega
        by_cases hc : Double.ge trend s.prev_trend_ = true
        · have c1 : Double.gt (s.time_over_using_next ts_delta) (Double.finite 10) = true ∧
              s.overuse_counter_next > 1 := ⟨ha, hb⟩
          have c2 : Double.gt (s.time_over_using_next ts_delta) (Double.finite 10) = true ∧
              s.overuse_counter_next ≥ 2 ∧ Double.ge trend s.prev_trend_ = true :=
            ⟨ha, hb2, hc⟩
          rw [if_pos c1, if_pos hc, if_pos c2]
        · have c1 : Double.gt (s.time_over_using_next ts_delta) (Double.finite 10) = true ∧
              s.overuse_counter_next > 1 := ⟨ha, hb⟩
          have c2 : ¬ (Double.gt (s.time_over_using_next ts_delta) (Double.finite 10) = true ∧
              s.overuse_counter_next ≥ 2 ∧ Double.ge trend s.prev_trend_ = true) :=
            fun h => hc h.2.2
          rw [if_pos c1, if_neg hc, if_neg c2]
      · have hb2 : ¬ s.overuse_counter_next ≥ 2 := by omega
        have c1 : ¬ (Double.gt (s.time_over_using_next ts_delta) (Double.finite 10) = true ∧
            s.overuse_counter_next > 1) := fun h => hb h.2
        have c2 : ¬ (Double.gt (s.time_over_using_next ts_delta) (Double.finite 10) = true ∧
            s.overuse_counter_next ≥ 2 ∧ Double.ge trend s.prev_trend_ = true) :=
          fun h => hb2 h.2.1
        rw [if_neg c1, if_neg c2]
    · have c1 : ¬ (Double.gt (s.time_over_using_next ts_delta) (Double.finite 10) = true ∧
          s.overuse_counter_next > 1) := fun h => ha h.1
      have c2 : ¬ (Double.gt (s.time_over_using_next ts_delta) (Double.finite 10) = true ∧
          s.overuse_counter_next ≥ 2 ∧ Double.ge trend s.prev_trend_ = true) :=
        fun h => ha h.1
      rw [if_neg c1, if_neg c2]
  · rw [if_neg h1, if_neg h1]

/-- Witness for C6 (amended): the `Detect` call of the 23rd sample of the overuse
scenario, where the hypothesis is kept at Overusing; and a call with 3 deltas, gain 4,
threshold 12.5 and the trend nearest to 25/24, whose rounded product is exactly 12.5, so
that modified_trend is not above the threshold and the hypothesis becomes Normal. -/
theorem Detect_hypothesis_witness :
    2 ≤ ((Ieee.UpdateCall.run
      (Ieee.TrendlineEstimator.create 20 (Double.round (9 / 10)) (Double.finite 4) none)
      (Ieee.overuseFeed 5 6 22)).UpdateFilter (Double.finite 6) (Double.finite 5)
        138).num_of_deltas_ ∧
    (((Ieee.UpdateCall.run
      (Ieee.TrendlineEstimator.create 20 (Double.round (9 / 10)) (Double.finite 4) none)
      (Ieee.overuseFeed 5 6 22)).UpdateFilter (Double.finite 6) (Double.finite 5)
        138).Detect
        ((Ieee.UpdateCall.run
          (Ieee.TrendlineEstimator.create 20 (Double.round (9 / 10)) (Double.finite 4) none)
          (Ieee.overuseFeed 5 6 22)).UpdateFilter (Double.finite 6) (Double.finite 5)
            138).UpdateTrend (Double.finite 5) 138).hypothesis_
      = BandwidthUsage.kBwOverusing ∧
    { Ieee.TrendlineEstimator.create 20 (Double.round (9 / 10)) (Double.finite 4) none with
        num_of_deltas_ := 3 }.modified_trend (Double.round (25 / 24)) =
      Double.finite (25 / 2) ∧
    ({ Ieee.TrendlineEstimator.create 20 (Double.round (9 / 10)) (Double.finite 4) none with
        num_of_deltas_ := 3
        hypothesis_ := BandwidthUsage.kBwOverusing }.Detect (Double.round (25 / 24))
      (Double.finite 5) 100).hypothesis_ = BandwidthUsage.kBwNormal := by
  refine ⟨by decide!, ?_, by decide!, by decide!⟩
  rw [Detect_hypothesis 20 (Double.round (9 / 10)) (Double.finite 4) none
    (Ieee.overuseFeed 5 6 22) (Double.finite 6) (Double.finite 5) 138 _ _ (Double.finite 5) 138
    (Or.inr rfl) (by decide!)]
  decide!

/-! ### The trend window -/

theorem Ieee_UpdateFilter_first_arrival (s : Ieee.TrendlineEstimator)
    (recv_delta_ms send_delta_ms : Double) (arrival_time_ms : Int) :
    (s.UpdateFilter recv_delta_ms send_delta_ms arrival_time_ms).first_arrival_time_ms_ =
      if s.first_arrival_time_ms_ = -1 then arrival_time_ms else s.first_arrival_time_ms_ := by
  unfold Ieee.TrendlineEstimator.UpdateFilter
  dsimp only
  split_ifs <;> rfl

/-- The exponential filter of `UpdateFilter`, operation by operation. -/
theorem Ieee_UpdateFilter_smoothed_delay (s : Ieee.TrendlineEstimator)
    (recv_delta_ms send_delta_ms : Double) (arrival_time_ms : Int) :
    (s.UpdateFilter recv_delta_ms send_delta_ms arrival_time_ms).smoothed_delay_ =
      Double.add (Double.mul s.smoothing_coef_ s.smoothed_delay_)
        (Double.mul (Double.sub (Double.finite 1) s.smoothing_coef_)
          (Double.add s.accumulated_delay_ (Double.sub recv_delta_ms send_delta_ms))) := by
  unfold Ieee.TrendlineEstimator.UpdateFilter
  dsimp only
  split_ifs <;> rfl

/-- The trend window after `UpdateFilter`: the new point is appended, and the front
point is dropped when the window then holds more than `window_size_` points. -/
theorem Ieee_UpdateFilter_delay_hist (s : Ieee.TrendlineEstimator)
    (recv_delta_ms send_delta_ms : Double) (arrival_time_ms : Int) :
    (s.UpdateFilter recv_delta_ms send_delta_ms arrival_time_ms).delay_hist_ =
      if (s.delay_hist_ ++
          [(Double.ofInt (wrap64 (arrival_time_ms -
              (s.UpdateFilter recv_delta_ms send_delta_ms arrival_time_ms).first_arrival_time_ms_)),
            (s.UpdateFilter recv_delta_ms send_delta_ms arrival_time_ms).smoothed_delay_)]).length
          > s.window_size_ then
        (s.delay_hist_ ++
          [(Double.ofInt (wrap64 (arrival_time_ms -
              (s.UpdateFilter recv_delta_ms send_delta_ms arrival_time_ms).first_arrival_time_ms_)),
            (s.UpdateFilter recv_delta_ms send_delta_ms arrival_time_ms).smoothed_delay_)]).tail
      else
        s.delay_hist_ ++
          [(Double.ofInt (wrap64 (arrival_time_ms -
              (s.UpdateFilter recv_delta_ms send_delta_ms arrival_time_ms).first_arrival_time_ms_)),
            (s.UpdateFilter recv_delta_ms send_delta_ms arrival_time_ms).smoothed_delay_)] := by
  unfold Ieee.TrendlineEstimator.UpdateFilter
  dsimp only
  split_ifs <;> rfl

/-- What `Update` with calculated deltas leaves in the filter members. -/
theorem Ieee_Update_calculated_window (s : Ieee.TrendlineEstimator)
    (recv_delta_ms send_delta_ms : Double) (send_time_ms arrival_time_ms : Int) :
    (s.Update recv_delta_ms send_delta_ms send_time_ms arrival_time_ms true).delay_hist_
      = (s.UpdateFilter recv_delta_ms send_delta_ms arrival_time_ms).delay_hist_ ∧
    (s.Update recv_delta_ms send_delta_ms send_time_ms arrival_time_ms true).first_arrival_time_ms_
      = (s.UpdateFilter recv_delta_ms send_delta_ms arrival_time_ms).first_arrival_time_ms_ ∧
    (s.Update recv_delta_ms send_delta_ms send_time_ms arrival_time_ms true).smoothed_delay_
      = (s.UpdateFilter recv_delta_ms send_delta_ms arrival_time_ms).smoothed_delay_ ∧
    (s.Update recv_delta_ms send_delta_ms send_time_ms arrival_time_ms true).window_size_
      = s.window_size_ := by
  rw [Ieee_Update_calculated_frame, Ieee_Detect_frame]
  refine ⟨rfl, rfl, rfl, ?_⟩
  dsimp only
  rw [Ieee_UpdateFilter_frame]

/-- One `Update` keeps the window size parameter and keeps the trend window within it. -/
theorem Ieee_window_length_step (s : Ieee.TrendlineEstimator) (c : Ieee.UpdateCall)
    (h : s.delay_hist_.length ≤ s.window_size_) :
    (Ieee.UpdateCall.apply s c).window_size_ = s.window_size_ ∧
    (Ieee.UpdateCall.apply s c).delay_hist_.length ≤ s.window_size_ := by
  unfold Ieee.UpdateCall.apply
  cases hc : c.calculated_deltas with
  | false =>
    rw [Ieee_Update_not_calculated_frame]
    exact ⟨rfl, h⟩
  | true =>
    obtain ⟨hh, -, -, hw⟩ := Ieee_Update_calculated_window s c.recv_delta_ms c.send_delta_ms
      c.send_time_ms c.arrival_time_ms
    rw [hh, hw, Ieee_UpdateFilter_delay_hist]
    refine ⟨rfl, ?_⟩
    split_ifs with hlen
    · rw [List.length_tail, List.length_append, List.length_singleton]
      omega
    · omega

theorem Ieee_window_length_run (calls : List Ieee.UpdateCall) :
    ∀ s : Ieee.TrendlineEstimator, s.delay_hist_.length ≤ s.window_size_ →
      (Ieee.UpdateCall.run s calls).window_size_ = s.window_size_ ∧
      (Ieee.UpdateCall.run s calls).delay_hist_.length ≤ s.window_size_ := by
  induction calls with
  | nil => intro s h; exact ⟨rfl, h⟩
  | cons c cs ih =>
    intro s h
    obtain ⟨h1, h2⟩ := Ieee_window_length_step s c h
    have h3 := ih (Ieee.UpdateCall.apply s c) (by rw [h1]; exact h2)
    rw [h1] at h3
    exact h3

/-- C10, as stated, fails: after two `Update` calls with calculated deltas that arrive
at 0 and at 2^53 + 1 ms, `first_arrival_time_ms_` is 0 and the newest point of the
trend window has the elapsed time 2^53, which is not
arrival_time_ms - first_arrival_time_ms = 2^53 + 1: the conversion of the `int64_t`
difference to `double` rounds it. -/
theorem newest_point_is_rounded :
    (Ieee.UpdateCall.run
      (Ieee.TrendlineEstimator.create 20 (Double.round (9 / 10)) (Double.finite 4) none)
      [{ recv_delta_ms := Double.finite 6, send_delta_ms := Double.finite 5,
         send_time_ms := 0, arrival_time_ms := 0, calculated_deltas := true },
       { recv_delta_ms := Double.finite 6, send_delta_ms := Double.finite 5,
         send_time_ms := 5, arrival_time_ms := 9007199254740993,
         calculated_deltas := true }]).first_arrival_time_ms_ = 0 ∧
    ((Ieee.UpdateCall.run
      (Ieee.TrendlineEstimator.create 20 (Double.round (9 / 10)) (Double.finite 4) none)
      [{ recv_delta_ms := Double.finite 6, send_delta_ms := Double.finite 5,
         send_time_ms := 0, arrival_time_ms := 0, calculated_deltas := true },
       { recv_delta_ms := Double.finite 6, send_delta_ms := Double.finite 5,
         send_time_ms := 5, arrival_time_ms := 9007199254740993,
         calculated_deltas := true }]).delay_hist_.getLast?).map Prod.fst =
      some (Double.finite 9007199254740992) ∧
    Double.finite (((9007199254740993 - 0 : Int) : ℚ)) ≠ Double.finite 9007199254740992 := by
  decide!

/-- C10 (amended): after every `Update` with calculated deltas on an estimator
constructed with window size at least 1 (20 in the spec), the trend window `delay_hist_`
holds at most `window_size_` points; its newest point is (d, smoothed_delay), where d is
the `int64_t` difference arrival_time_ms - first_arrival_time_ms converted to `double`,
which is the difference itself whenever its magnitude is below 2^53, and smoothed_delay
is the member `smoothed_delay_`, which the exponential filter has just computed in
`double` arithmetic; while the window was not full the old points are all kept, and
when the push makes it overflow exactly the oldest point is evicted and the remaining
points keep their order. -/
theorem trend_window_push (window_size : Nat) (smoothing_coef threshold_gain : Double)
    (predictor : Option NetworkStatePredictor) (calls : List Ieee.UpdateCall)
    (c : Ieee.UpdateCall) (hW : 1 ≤ window_size) (hc : c.calculated_deltas = true) :
    (Ieee.UpdateCall.run (Ieee.TrendlineEstimator.create window_size smoothing_coef
      threshold_gain predictor) (calls ++ [c])).delay_hist_.length ≤ window_size ∧
    (Ieee.UpdateCall.run (Ieee.TrendlineEstimator.create window_size smoothing_coef
      threshold_gain predictor) (calls ++ [c])).delay_hist_.getLast? =
      some (Double.ofInt (wrap64 (c.arrival_time_ms -
          (Ieee.UpdateCall.run (Ieee.TrendlineEstimator.create window_size smoothing_coef
            threshold_gain predictor) (calls ++ [c])).first_arrival_time_ms_)),
        (Ieee.UpdateCall.run (Ieee.TrendlineEstimator.create window_size smoothing_coef
          threshold_gain predictor) (calls ++ [c])).smoothed_delay_) ∧
    (Ieee.UpdateCall.run (Ieee.TrendlineEstimator.create window_size smoothing_coef
      threshold_gain predictor) (calls ++ [c])).smoothed_delay_ =
      Double.add
        (Double.mul smoothing_coef
          (Ieee.UpdateCall.run (Ieee.TrendlineEstimator.create window_size smoothing_coef
            threshold_gain predictor) calls).smoothed_delay_)
        (Double.mul (Double.sub (Double.finite 1) smoothing_coef)
          (Double.add
            (Ieee.UpdateCall.run (Ieee.TrendlineEstimator.create window_size smoothing_coef
              threshold_gain predictor) calls).accumulated_delay_
            (Double.sub c.recv_delta_ms c.send_delta_ms))) ∧
    (∀ d : Int, d = c.arrival_time_ms -
        (Ieee.UpdateCall.run (Ieee.TrendlineEstimator.create window_size smoothing_coef
          threshold_gain predictor) (calls ++ [c])).first_arrival_time_ms_ →
      -9007199254740992 < d → d < 9007199254740992 →
      (Ieee.UpdateCall.run (Ieee.TrendlineEstimator.create window_size smoothing_coef
        threshold_gain predictor) (calls ++ [c])).delay_hist_.getLast? =
      some (Double.finite (d : ℚ),
        (Ieee.UpdateCall.run (Ieee.TrendlineEstimator.create window_size smoothing_coef
          threshold_gain predictor) (calls ++ [c])).smoothed_delay_)) ∧
    ((Ieee.UpdateCall.run (Ieee.TrendlineEstimator.create window_size smoothing_coef
        threshold_gain predictor) calls).delay_hist_.length < window_size →
      (Ieee.UpdateCall.run (Ieee.TrendlineEstimator.create window_size smoothing_coef
        threshold_gain predictor) (calls ++ [c])).delay_hist_ =
      (Ieee.UpdateCall.run (Ieee.TrendlineEstimator.create window_size smoothing_coef
        threshold_gain predictor) calls).delay_hist_ ++
        [(Double.ofInt (wrap64 (c.arrival_time_ms -
            (Ieee.UpdateCall.run (Ieee.TrendlineEstimator.create window_size smoothing_coef
              threshold_gain predictor) (calls ++ [c])).first_arrival_time_ms_)),
          (Ieee.UpdateCall.run (Ieee.TrendlineEstimator.create window_size smoothing_coef
            threshold_gain predictor) (calls ++ [c])).smoothed_delay_)]) ∧
    (¬ (Ieee.UpdateCall.run (Ieee.TrendlineEstimator.create window_size smoothing_coef
        threshold_gain predictor) calls).delay_hist_.length < window_size →
      (Ieee.UpdateCall.run (Ieee.TrendlineEstimator.create window_size smoothing_coef
        threshold_gain predictor) calls).delay_hist_.length = window_size ∧
      (Ieee.UpdateCall.run (Ieee.TrendlineEstimator.create window_size smoothing_coef
        threshold_gain predictor) (calls ++ [c])).delay_hist_ =
      (Ieee.UpdateCall.run (Ieee.TrendlineEstimator.create window_size smoothing_coef
        threshold_gain predictor) calls).delay_hist_.tail ++
        [(Double.ofInt (wrap64 (c.arrival_time_ms -
            (Ieee.UpdateCall.run (Ieee.TrendlineEstimator.create window_size smoothing_coef
              threshold_gain predictor) (calls ++ [c])).first_arrival_time_ms_)),
          (Ieee.UpdateCall.run (Ieee.TrendlineEstimator.create window_size smoothing_coef
            threshold_gain predictor) (calls ++ [c])).smoothed_delay_)]) := by
  have hrun : Ieee.UpdateCall.run (Ieee.TrendlineEstimator.create window_size smoothing_coef
      threshold_gain predictor) (calls ++ [c]) =
      (Ieee.UpdateCall.run (Ieee.TrendlineEstimator.create window_size smoothing_coef
        threshold_gain predictor) calls).Update c.recv_delta_ms c.send_delta_ms c.send_time_ms
        c.arrival_time_ms true := by
    unfold Ieee.UpdateCall.run
    rw [List.foldl_append]
    show Ieee.UpdateCall.apply _ c = _
    unfold Ieee.UpdateCall.apply
    rw [hc]
  obtain ⟨hws, hlen⟩ := Ieee_window_length_run calls
    (Ieee.TrendlineEstimator.create window_size smoothing_coef threshold_gain predictor)
    (Nat.zero_le _)
  have hcoef := (Ieee_params_run calls
    (Ieee.TrendlineEstimator.create window_size smoothing_coef threshold_gain predictor)).2.2.2.2.1
  have hws2 : (Ieee.UpdateCall.run (Ieee.TrendlineEstimator.create window_size smoothing_coef
      threshold_gain predictor) calls).window_size_ = window_size := hws
  have hlen2 : (Ieee.UpdateCall.run (Ieee.TrendlineEstimator.create window_size smoothing_coef
      threshold_gain predictor) calls).delay_hist_.length ≤ window_size := hlen
  have hcoef2 : (Ieee.UpdateCall.run (Ieee.TrendlineEstimator.create window_size smoothing_coef
      threshold_gain predictor) calls).smoothing_coef_ = smoothing_coef := hcoef
  rw [hrun]
  generalize Ieee.UpdateCall.run (Ieee.TrendlineEstimator.create window_size smoothing_coef
      threshold_gain predictor) calls = r at hws2 hlen2 hcoef2
  obtain ⟨hh, hfa, hsm, -⟩ := Ieee_Update_calculated_window r c.recv_delta_ms c.send_delta_ms
    c.send_time_ms c.arrival_time_ms
  have hsmooth := Ieee_UpdateFilter_smoothed_delay r c.recv_delta_ms c.send_delta_ms
    c.arrival_time_ms
  rw [hcoef2] at hsmooth
  rw [hh, hfa, hsm, Ieee_UpdateFilter_delay_hist, hws2]
  have hexact : ∀ d : Int, d = c.arrival_time_ms -
      (r.UpdateFilter c.recv_delta_ms c.send_delta_ms c.arrival_time_ms).first_arrival_time_ms_ →
      -9007199254740992 < d → d < 9007199254740992 →
      Double.ofInt (wrap64 (c.arrival_time_ms -
        (r.UpdateFilter c.recv_delta_ms c.send_delta_ms
          c.arrival_time_ms).first_arrival_time_ms_)) = Double.finite (d : ℚ) := by
    intro d hd h1 h2
    rw [← hd, wrap64_of_InInt64 ⟨by omega, by omega⟩]
    exact ofInt_exact d h1 h2
  generalize hp : (Double.ofInt (wrap64 (c.arrival_time_ms -
      (r.UpdateFilter c.recv_delta_ms c.send_delta_ms c.arrival_time_ms).first_arrival_time_ms_)),
    (r.UpdateFilter c.recv_delta_ms c.send_delta_ms c.arrival_time_ms).smoothed_delay_) = p
  have hpe : ∀ d : Int, d = c.arrival_time_ms -
      (r.UpdateFilter c.recv_delta_ms c.send_delta_ms c.arrival_time_ms).first_arrival_time_ms_ →
      -9007199254740992 < d → d < 9007199254740992 →
      p = (Double.finite (d : ℚ),
        (r.UpdateFilter c.recv_delta_ms c.send_delta_ms c.arrival_time_ms).smoothed_delay_) := by
    intro d hd h1 h2
    rw [← hp, hexact d hd h1 h2]
  have hl : (r.delay_hist_ ++ [p]).length = r.delay_hist_.length + 1 := by
    rw [List.length_append, List.length_singleton]
  by_cases hfull : r.delay_hist_.length < window_size
  · have hno : ¬ (r.delay_hist_ ++ [p]).length > window_size := by omega
    rw [if_neg hno]
    refine ⟨by omega, List.getLast?_concat _, hsmooth, ?_, fun _ => rfl,
      fun h => absurd hfull h⟩
    intro d hd h1 h2
    rw [List.getLast?_concat, hpe d hd h1 h2]
  · have hyes : (r.delay_hist_ ++ [p]).length > window_size := by omega
    have hne : r.delay_hist_ ≠ [] := by
      intro h0
      rw [h0] at hfull
      exact hfull hW
    rw [if_pos hyes, List.tail_append_of_ne_nil hne]
    refine ⟨?_, List.getLast?_concat _, hsmooth, ?_, fun h => absurd h hfull,
      fun _ => ⟨by omega, rfl⟩⟩
    · rw [List.length_append, List.length_singleton, List.length_tail]
      omega
    · intro d hd h1 h2
      rw [List.getLast?_concat, hpe d hd h1 h2]

/-- Witness for C10: the 21st sample of the overuse feed (groups sent 5 ms and received
6 ms apart) on an estimator of window size 20: the window is full, the oldest point
(0, 0.09999999999999998) is evicted, and the new point (120, 12.984770902183609) is
appended. -/
theorem trend_window_push_witness :
    (Ieee.UpdateCall.run
      (Ieee.TrendlineEstimator.create 20 (Double.round (9 / 10)) (Double.finite 4) none)
      (Ieee.overuseFeed 5 6 20)).delay_hist_.length = 20 ∧
    (Ieee.UpdateCall.run
      (Ieee.TrendlineEstimator.create 20 (Double.round (9 / 10)) (Double.finite 4) none)
      (Ieee.overuseFeed 5 6 20)).delay_hist_.head? =
      some (Double.finite 0, Double.finite (900719925474099 / 9007199254740992)) ∧
    (Ieee.UpdateCall.run
      (Ieee.TrendlineEstimator.create 20 (Double.round (9 / 10)) (Double.finite 4) none)
      (Ieee.overuseFeed 5 6 20 ++
        [{ recv_delta_ms := Double.finite 6, send_delta_ms := Double.finite 5,
           send_time_ms := 105, arrival_time_ms := 126,
           calculated_deltas := true }])).delay_hist_ =
      (Ieee.UpdateCall.run
        (Ieee.TrendlineEstimator.create 20 (Double.round (9 / 10)) (Double.finite 4) none)
        (Ieee.overuseFeed 5 6 20)).delay_hist_.tail ++
        [(Double.finite 120, Double.finite (3654888087285335 / 281474976710656))] ∧
    (Ieee.UpdateCall.run
      (Ieee.TrendlineEstimator.create 20 (Double.round (9 / 10)) (Double.finite 4) none)
      (Ieee.overuseFeed 5 6 20 ++
        [{ recv_delta_ms := Double.finite 6, send_delta_ms := Double.finite 5,
           send_time_ms := 105, arrival_time_ms := 126,
           calculated_deltas := true }])).delay_hist_.head? =
      some (Double.finite 6, Double.finite (2612087783874887 / 9007199254740992)) :=
  ⟨by decide!, by decide!,
    ((trend_window_push 20 (Double.round (9 / 10)) (Double.finite 4) none
      (Ieee.overuseFeed 5 6 20)
      { recv_delta_ms := Double.finite 6, send_delta_ms := Double.finite 5,
        send_time_ms := 105, arrival_time_ms := 126, calculated_deltas := true }
      (by decide) rfl).2.2.2.2.2 (by decide!)).2.trans (by decide!),
    by decide!⟩

/-! ### Elapsed times in the trend window -/

/-- C9, as stated, fails: two `Update` calls with calculated deltas and the same arrival
time put two points with elapsed time 0 into the trend window; and arrival times 0,
2^53 and 2^53 + 1, which do increase, leave the elapsed times 0, 2^53 and 2^53, because
the conversion to `double` rounds 2^53 + 1 to 2^53. -/
theorem elapsed_not_increasing :
    (Ieee.UpdateCall.run
      (Ieee.TrendlineEstimator.create 20 (Double.round (9 / 10)) (Double.finite 4) none)
      [{ recv_delta_ms := Double.finite 6, send_delta_ms := Double.finite 5,
         send_time_ms := 95, arrival_time_ms := 100, calculated_deltas := true },
       { recv_delta_ms := Double.finite 0, send_delta_ms := Double.finite 5,
         send_time_ms := 100, arrival_time_ms := 100,
         calculated_deltas := true }]).delay_hist_.map Prod.fst =
      [Double.finite 0, Double.finite 0] ∧
    Double.lt (Double.finite 0) (Double.finite 0) = false ∧
    (Ieee.UpdateCall.run
      (Ieee.TrendlineEstimator.create 20 (Double.round (9 / 10)) (Double.finite 4) none)
      [{ recv_delta_ms := Double.finite 6, send_delta_ms := Double.finite 5,
         send_time_ms := 0, arrival_time_ms := 0, calculated_deltas := true },
       { recv_delta_ms := Double.finite 6, send_delta_ms := Double.finite 5,
         send_time_ms := 5, arrival_time_ms := 9007199254740992, calculated_deltas := true },
       { recv_delta_ms := Double.finite 6, send_delta_ms := Double.finite 5,
         send_time_ms := 10, arrival_time_ms := 9007199254740993,
         calculated_deltas := true }]).delay_hist_.map Prod.fst =
      [Double.finite 0, Double.finite 9007199254740992, Double.finite 9007199254740992] ∧
    Double.lt (Double.finite 9007199254740992) (Double.finite 9007199254740992) = false := by
  decide!

/-- One `Update` with calculated deltas whose arrival time lies after the latest one
`m`, less than 2^53 ms after the first one, keeps the elapsed times of the window
strictly increasing, exact and bounded by the new elapsed time. -/
theorem Ieee_window_inv_step (s : Ieee.TrendlineEstimator) (c : Ieee.UpdateCall) (m : Int)
    (hc : c.calculated_deltas = true)
    (hp : List.Pairwise (fun p q : Double × Double => Double.lt p.1 q.1 = true) s.delay_hist_)
    (hb : ∀ p ∈ s.delay_hist_, ∃ x : ℚ, p.1 = Double.finite x ∧
      x ≤ ((m - s.first_arrival_time_ms_ : Int) : ℚ))
    (hf : (s.first_arrival_time_ms_ = -1 ∧ s.delay_hist_ = [] ∧ m = -1) ∨
      (0 ≤ s.first_arrival_time_ms_ ∧ s.first_arrival_time_ms_ ≤ m))
    (ha : m < c.arrival_time_ms ∧ c.arrival_time_ms ≤ 9223372036854775807)
    (hsp : 0 ≤ s.first_arrival_time_ms_ →
      c.arrival_time_ms - s.first_arrival_time_ms_ < 9007199254740992) :
    List.Pairwise (fun p q : Double × Double => Double.lt p.1 q.1 = true)
      (Ieee.UpdateCall.apply s c).delay_hist_ ∧
    (∀ p ∈ (Ieee.UpdateCall.apply s c).delay_hist_, ∃ x : ℚ, p.1 = Double.finite x ∧
      x ≤ ((c.arrival_time_ms - (Ieee.UpdateCall.apply s c).first_arrival_time_ms_ : Int) : ℚ)) ∧
    0 ≤ (Ieee.UpdateCall.apply s c).first_arrival_time_ms_ ∧
    (Ieee.UpdateCall.apply s c).first_arrival_time_ms_ ≤ c.arrival_time_ms ∧
    (Ieee.UpdateCall.apply s c).first_arrival_time_ms_ =
      (if s.first_arrival_time_ms_ = -1 then c.arrival_time_ms
       else s.first_arrival_time_ms_) := by
  unfold Ieee.UpdateCall.apply
  rw [hc]
  obtain ⟨hh, hfa, -, -⟩ := Ieee_Update_calculated_window s c.recv_delta_ms c.send_delta_ms
    c.send_time_ms c.arrival_time_ms
  rw [hh, hfa, Ieee_UpdateFilter_delay_hist, Ieee_UpdateFilter_first_arrival]
  generalize (s.UpdateFilter c.recv_delta_ms c.send_delta_ms
    c.arrival_time_ms).smoothed_delay_ = y
  generalize hfdef : (if s.first_arrival_time_ms_ = -1 then c.arrival_time_ms
    else s.first_arrival_time_ms_) = f
  have hfacts : 0 ≤ f ∧ f ≤ c.arrival_time_ms ∧ c.arrival_time_ms - f < 9007199254740992 ∧
      ∀ p ∈ s.delay_hist_, ∃ x : ℚ, p.1 = Double.finite x ∧
        x < ((c.arrival_time_ms - f : Int) : ℚ) := by
    rcases hf with ⟨h1, h2, h3⟩ | ⟨h1, h2⟩
    · rw [if_pos h1] at hfdef
      subst hfdef
      refine ⟨by omega, le_refl _, by omega, ?_⟩
      intro p hpm
      rw [h2] at hpm
      cases hpm
    · have hne : ¬ s.first_arrival_time_ms_ = -1 := by omega
      rw [if_neg hne] at hfdef
      subst hfdef
      refine ⟨h1, by omega, hsp h1, ?_⟩
      intro p hpm
      obtain ⟨x, hx, h3⟩ := hb p hpm
      have h4 : ((m - s.first_arrival_time_ms_ : Int) : ℚ)
          < ((c.arrival_time_ms - s.first_arrival_time_ms_ : Int) : ℚ) := by
        exact_mod_cast (by omega : m - s.first_arrival_time_ms_
          < c.arrival_time_ms - s.first_arrival_time_ms_)
      exact ⟨x, hx, lt_of_le_of_lt h3 h4⟩
  obtain ⟨hf0, hf1, hf2, hlt⟩ := hfacts
  have hw : wrap64 (c.arrival_time_ms - f) = c.arrival_time_ms - f :=
    wrap64_of_InInt64 ⟨by omega, by omega⟩
  rw [hw, ofInt_exact (c.arrival_time_ms - f) (by omega) hf2]
  have hp1 : List.Pairwise (fun p q : Double × Double => Double.lt p.1 q.1 = true)
      (s.delay_hist_ ++ [(Double.finite ((c.arrival_time_ms - f : Int) : ℚ), y)]) := by
    rw [List.pairwise_append]
    refine ⟨hp, List.pairwise_singleton _ _, ?_⟩
    intro p hpm q hq
    rw [List.mem_singleton] at hq
    subst hq
    obtain ⟨x, hx, hxlt⟩ := hlt p hpm
    rw [hx]
    show decide (x < ((c.arrival_time_ms - f : Int) : ℚ)) = true
    exact decide_eq_true hxlt
  have hb1 : ∀ p ∈ s.delay_hist_ ++ [(Double.finite ((c.arrival_time_ms - f : Int) : ℚ), y)],
      ∃ x : ℚ, p.1 = Double.finite x ∧ x ≤ ((c.arrival_time_ms - f : Int) : ℚ) := by
    intro p hpm
    rw [List.mem_append, List.mem_singleton] at hpm
    rcases hpm with hpm | hpm
    · obtain ⟨x, hx, hxlt⟩ := hlt p hpm
      exact ⟨x, hx, le_of_lt hxlt⟩
    · subst hpm
      exact ⟨_, rfl, le_refl _⟩
  refine ⟨?_, ?_, hf0, hf1, rfl⟩
  · split_ifs
    · exact hp1.sublist (List.tail_sublist _)
    · exact hp1
  · intro p hpm
    split_ifs at hpm
    · exact hb1 p (List.mem_of_mem_tail hpm)
    · exact hb1 p hpm

theorem Ieee_window_inv_run (calls : List Ieee.UpdateCall) :
    ∀ (s : Ieee.TrendlineEstimator) (m : Int),
      List.Pairwise (fun p q : Double × Double => Double.lt p.1 q.1 = true) s.delay_hist_ →
      (∀ p ∈ s.delay_hist_, ∃ x : ℚ, p.1 = Double.finite x ∧
        x ≤ ((m - s.first_arrival_time_ms_ : Int) : ℚ)) →
      ((s.first_arrival_time_ms_ = -1 ∧ s.delay_hist_ = [] ∧ m = -1) ∨
        (0 ≤ s.first_arrival_time_ms_ ∧ s.first_arrival_time_ms_ ≤ m)) →
      List.Pairwise (fun a b : Int => a < b) (Ieee.UpdateCall.arrivals calls) →
      (∀ a ∈ Ieee.UpdateCall.arrivals calls, m < a ∧ a ≤ 9223372036854775807) →
      (∀ a ∈ Ieee.UpdateCall.arrivals calls, ∀ b ∈ Ieee.UpdateCall.arrivals calls,
        b - a < 9007199254740992) →
      (0 ≤ s.first_arrival_time_ms_ → ∀ a ∈ Ieee.UpdateCall.arrivals calls,
        a - s.first_arrival_time_ms_ < 9007199254740992) →
      List.Pairwise (fun p q : Double × Double => Double.lt p.1 q.1 = true)
        (Ieee.UpdateCall.run s calls).delay_hist_ := by
  induction calls with
  | nil => intro s m hp _ _ _ _ _ _; exact hp
  | cons c cs ih =>
    intro s m hp hb hf hinc hr hspan hfirst
    cases hc : c.calculated_deltas with
    | false =>
      have harr : Ieee.UpdateCall.arrivals (c :: cs) = Ieee.UpdateCall.arrivals cs := by
        unfold Ieee.UpdateCall.arrivals
        rw [List.filter_cons, hc]
        rfl
      rw [harr] at hinc hr hspan hfirst
      have hs : Ieee.UpdateCall.apply s c =
          { s with
            hypothesis_predicted_ := (Ieee.UpdateCall.apply s c).hypothesis_predicted_
            predictor_calls_ := (Ieee.UpdateCall.apply s c).predictor_calls_ } := by
        unfold Ieee.UpdateCall.apply
        rw [hc]
        exact Ieee_Update_not_calculated_frame s _ _ _ _
      have := ih (Ieee.UpdateCall.apply s c) m (by rw [hs]; exact hp) (by rw [hs]; exact hb)
        (by rw [hs]; exact hf) hinc hr hspan (by rw [hs]; exact hfirst)
      exact this
    | true =>
      have harr : Ieee.UpdateCall.arrivals (c :: cs) =
          c.arrival_time_ms :: Ieee.UpdateCall.arrivals cs := by
        unfold Ieee.UpdateCall.arrivals
        rw [List.filter_cons, hc]
        rfl
      rw [harr] at hinc hr hspan hfirst
      rw [List.pairwise_cons] at hinc
      have ha := hr c.arrival_time_ms (List.mem_cons_self _ _)
      obtain ⟨q1, q2, q3, q4, q5⟩ := Ieee_window_inv_step s c m hc hp hb hf ha
        (fun h0 => hfirst h0 c.arrival_time_ms (List.mem_cons_self _ _))
      refine ih (Ieee.UpdateCall.apply s c) c.arrival_time_ms q1 q2 (Or.inr ⟨q3, q4⟩) hinc.2
        (fun a ham => ⟨hinc.1 a ham, (hr a (List.mem_cons_of_mem _ ham)).2⟩)
        (fun a ham b hbm => hspan a (List.mem_cons_of_mem _ ham) b (List.mem_cons_of_mem _ hbm))
        ?_
      intro _ a ham
      rw [q5]
      by_cases h1 : s.first_arrival_time_ms_ = -1
      · rw [if_pos h1]
        exact hspan c.arrival_time_ms (List.mem_cons_self _ _) a (List.mem_cons_of_mem _ ham)
      · rw [if_neg h1]
        rcases hf with ⟨h2, _, _⟩ | ⟨h2, _⟩
        · exact absurd h2 h1
        · exact hfirst h2 a (List.mem_cons_of_mem _ ham)

/-- C9 (amended): when the arrival times passed to the `Update` calls that carry
calculated deltas are non-negative `int64_t` values, strictly increasing from call to
call and less than 2^53 ms apart (so that their distance from the first arrival time is
converted to `double` without rounding), the elapsed_ms components
(arrival_time_ms - first_arrival_time_ms) of the points held in `delay_hist_` are
strictly increasing from oldest to newest. -/
theorem elapsed_strictly_increasing (window_size : Nat)
    (smoothing_coef threshold_gain : Double) (predictor : Option NetworkStatePredictor)
    (calls : List Ieee.UpdateCall)
    (hinc : List.Pairwise (fun a b : Int => a < b) (Ieee.UpdateCall.arrivals calls))
    (hrange : ∀ a ∈ Ieee.UpdateCall.arrivals calls, 0 ≤ a ∧ a ≤ 9223372036854775807)
    (hspan : ∀ a ∈ Ieee.UpdateCall.arrivals calls, ∀ b ∈ Ieee.UpdateCall.arrivals calls,
      b - a < 9007199254740992) :
    List.Pairwise (fun p q : Double × Double => Double.lt p.1 q.1 = true)
      (Ieee.UpdateCall.run
        (Ieee.TrendlineEstimator.create window_size smoothing_coef threshold_gain predictor)
        calls).delay_hist_ :=
  Ieee_window_inv_run calls
    (Ieee.TrendlineEstimator.create window_size smoothing_coef threshold_gain predictor) (-1)
    List.Pairwise.nil (fun p hp => by cases hp) (Or.inl ⟨rfl, rfl, rfl⟩) hinc
    (fun a ha => ⟨by have := (hrange a ha).1; omega, (hrange a ha).2⟩) hspan
    (fun h0 => absurd (show (0 : Int) ≤ -1 from h0) (by decide))

/-- Witness for C9 (amended): three groups arriving at 100, 106 and 112 ms. -/
theorem elapsed_strictly_increasing_witness :
    List.Pairwise (fun a b : Int => a < b) (Ieee.UpdateCall.arrivals
      [{ recv_delta_ms := Double.finite 6, send_delta_ms := Double.finite 5,
         send_time_ms := 95, arrival_time_ms := 100, calculated_deltas := true },
       { recv_delta_ms := Double.finite 6, send_delta_ms := Double.finite 5,
         send_time_ms := 100, arrival_time_ms := 106, calculated_deltas := true },
       { recv_delta_ms := Double.finite 6, send_delta_ms := Double.finite 5,
         send_time_ms := 105, arrival_time_ms := 112, calculated_deltas := true }]) ∧
    (Ieee.UpdateCall.run
      (Ieee.TrendlineEstimator.create 20 (Double.round (9 / 10)) (Double.finite 4) none)
      [{ recv_delta_ms := Double.finite 6, send_delta_ms := Double.finite 5,
         send_time_ms := 95, arrival_time_ms := 100, calculated_deltas := true },
       { recv_delta_ms := Double.finite 6, send_delta_ms := Double.finite 5,
         send_time_ms := 100, arrival_time_ms := 106, calculated_deltas := true },
       { recv_delta_ms := Double.finite 6, send_delta_ms := Double.finite 5,
         send_time_ms := 105, arrival_time_ms := 112,
         calculated_deltas := true }]).delay_hist_.map Prod.fst =
      [Double.finite 0, Double.finite 6, Double.finite 12] ∧
    List.Pairwise (fun p q : Double × Double => Double.lt p.1 q.1 = true)
      (Ieee.UpdateCall.run
        (Ieee.TrendlineEstimator.create 20 (Double.round (9 / 10)) (Double.finite 4) none)
        [{ recv_delta_ms := Double.finite 6, send_delta_ms := Double.finite 5,
           send_time_ms := 95, arrival_time_ms := 100, calculated_deltas := true },
         { recv_delta_ms := Double.finite 6, send_delta_ms := Double.finite 5,
           send_time_ms := 100, arrival_time_ms := 106, calculated_deltas := true },
         { recv_delta_ms := Double.finite 6, send_delta_ms := Double.finite 5,
           send_time_ms := 105, arrival_time_ms := 112, calculated_deltas := true }]).delay_hist_ :=
  ⟨by decide, by decide!,
    elapsed_strictly_increasing 20 (Double.round (9 / 10)) (Double.finite 4) none _
      (by decide) (by decide) (by decide)⟩

/-! ### No overuse verdict before the trend window is full -/

/-- `SafeClamp` into [6, 600] returns a value in that range, or the NaN it was given. -/
theorem Ieee_SafeClamp_range (x : Double) :
    Ieee.ThresholdInRange (Ieee.SafeClamp x (Double.finite 6) (Double.finite 600)) := by
  unfold Ieee.SafeClamp
  by_cases h1 : Double.le x (Double.finite 6) = true
  · rw [if_pos h1]
    exact Or.inr ⟨6, rfl, le_refl _, by norm_num⟩
  · rw [if_neg h1]
    by_cases h2 : Double.ge x (Double.finite 600) = true
    · rw [if_pos h2]
      exact Or.inr ⟨600, rfl, by norm_num, le_refl _⟩
    · rw [if_neg h2]
      cases x with
      | nan => exact Or.inl rfl
      | infinity s =>
        cases s with
        | true => exact absurd rfl h1
        | false => exact absurd rfl h2
      | finite q =>
        have g1 : ¬ q ≤ 6 := by
          intro h
          exact h1 (decide_eq_true h)
        have g2 : ¬ (600 : ℚ) ≤ q := by
          intro h
          exact h2 (decide_eq_true h)
        exact Or.inr ⟨q, rfl, le_of_lt (not_le.mp g1), le_of_lt (not_le.mp g2)⟩

theorem Ieee_UpdateThreshold_range (s : Ieee.TrendlineEstimator) (modified_trend : Double)
    (now_ms : Int) (h : Ieee.ThresholdInRange s.threshold_) :
    Ieee.ThresholdInRange (s.UpdateThreshold modified_trend now_ms).threshold_ := by
  rw [Ieee_UpdateThreshold_threshold]
  by_cases hs : Double.gt (Double.fabs modified_trend)
      (Double.add s.threshold_ Ieee.kMaxAdaptOffsetMs) = true
  · rw [if_pos hs]; exact h
  · rw [if_neg hs]; exact Ieee_SafeClamp_range _

theorem Ieee_Detect_range (s : Ieee.TrendlineEstimator) (trend ts_delta : Double)
    (now_ms : Int) (h : Ieee.ThresholdInRange s.threshold_) :
    Ieee.ThresholdInRange (s.Detect trend ts_delta now_ms).threshold_ := by
  unfold Ieee.TrendlineEstimator.Detect
  by_cases h2 : s.num_of_deltas_ < 2
  · rw [if_pos h2]; exact h
  · rw [if_neg h2]
    dsimp only
    apply Ieee_UpdateThreshold_range
    split_ifs <;> exact h

theorem Ieee_Detect_of_lt_two (s : Ieee.TrendlineEstimator) (trend ts_delta : Double)
    (now_ms : Int) (h : s.num_of_deltas_ < 2) :
    s.Detect trend ts_delta now_ms = { s with hypothesis_ := BandwidthUsage.kBwNormal } := by
  unfold Ieee.TrendlineEstimator.Detect
  rw [if_pos h]

/-- A product with a zero factor is zero or a NaN. -/
theorem mul_zero_cases (a : Double) :
    Double.mul a (Double.finite 0) = Double.finite 0 ∨
      Double.mul a (Double.finite 0) = Double.nan := by
  cases a with
  | nan => exact Or.inr rfl
  | infinity s => exact Or.inr rfl
  | finite q =>
    left
    show Double.round (q * 0) = Double.finite 0
    rw [mul_zero]
    rfl

theorem zero_mul_cases (b : Double) :
    Double.mul (Double.finite 0) b = Double.finite 0 ∨
      Double.mul (Double.finite 0) b = Double.nan := by
  cases b with
  | nan => exact Or.inr rfl
  | infinity s => exact Or.inr rfl
  | finite q =>
    left
    show Double.round (0 * q) = Double.finite 0
    rw [zero_mul]
    rfl

/-- With a zero trend `modified_trend` is zero or a NaN. -/
theorem Ieee_modified_trend_zero (s : Ieee.TrendlineEstimator) :
    s.modified_trend (Double.finite 0) = Double.finite 0 ∨
      s.modified_trend (Double.finite 0) = Double.nan := by
  unfold Ieee.TrendlineEstimator.modified_trend
  rcases mul_zero_cases (Double.ofInt (min s.num_of_deltas_ kMinNumDeltas)) with h | h
  · rw [h]
    exact zero_mul_cases _
  · rw [h]
    exact Or.inr rfl

/-- Neither zero nor a NaN is above a threshold in range, or below its negative. -/
theorem Ieee_zero_within (mt thr : Double)
    (hmt : mt = Double.finite 0 ∨ mt = Double.nan) (hthr : Ieee.ThresholdInRange thr) :
    Double.gt mt thr = false ∧ Double.lt mt (Double.neg thr) = false := by
  rcases hthr with ht | ⟨t, ht, h6, _⟩
  · rw [ht]
    rcases hmt with hm | hm <;> rw [hm] <;> exact ⟨rfl, rfl⟩
  · rw [ht]
    rcases hmt with hm | hm
    · rw [hm]
      constructor
      · show decide (t < 0) = false
        exact decide_eq_false (by linarith)
      · show decide ((0 : ℚ) < -t) = false
        exact decide_eq_false (by linarith)
    · rw [hm]
      exact ⟨rfl, rfl⟩

/-- With a zero trend after a zero previous trend `Detect` answers Normal and resets the
counter of over-threshold samples. -/
theorem Ieee_Detect_zero_trend (s : Ieee.TrendlineEstimator) (ts_delta : Double)
    (now_ms : Int) (hprev : s.prev_trend_ = Double.finite 0) (hcount : s.overuse_counter_ = 0)
    (hthr : Ieee.ThresholdInRange s.threshold_) :
    (s.Detect (Double.finite 0) ts_delta now_ms).hypothesis_ = BandwidthUsage.kBwNormal ∧
    (s.Detect (Double.finite 0) ts_delta now_ms).prev_trend_ = Double.finite 0 ∧
    (s.Detect (Double.finite 0) ts_delta now_ms).overuse_counter_ = 0 := by
  by_cases h2 : s.num_of_deltas_ < 2
  · rw [Ieee_Detect_of_lt_two s (Double.finite 0) ts_delta now_ms h2]
    exact ⟨rfl, hprev, hcount⟩
  · obtain ⟨g1, g2⟩ := Ieee_zero_within _ _ (Ieee_modified_trend_zero s) hthr
    unfold Ieee.TrendlineEstimator.modified_trend at g1 g2
    have n1 : ¬ (Double.gt (Double.mul (Double.mul
        (Double.ofInt (min s.num_of_deltas_ kMinNumDeltas)) (Double.finite 0))
        s.threshold_gain_) s.threshold_ = true) := by
      rw [g1]
      decide
    have n2 : ¬ (Double.lt (Double.mul (Double.mul
        (Double.ofInt (min s.num_of_deltas_ kMinNumDeltas)) (Double.finite 0))
        s.threshold_gain_) (Double.neg s.threshold_) = true) := by
      rw [g2]
      decide
    unfold Ieee.TrendlineEstimator.Detect
    rw [if_neg h2]
    dsimp only
    rw [if_neg n1, if_neg n2]
    rw [Ieee_UpdateThreshold_frame]
    exact ⟨rfl, rfl, rfl⟩

/-- A first over-threshold sample never makes `Detect` answer Overusing: the counter of
consecutive over-threshold samples is only 1. -/
theorem Ieee_Detect_first_sample (s : Ieee.TrendlineEstimator) (trend ts_delta : Double)
    (now_ms : Int) (hcount : s.overuse_counter_ = 0)
    (hhyp : s.hypothesis_ ≠ BandwidthUsage.kBwOverusing) :
    (s.Detect trend ts_delta now_ms).hypothesis_ ≠ BandwidthUsage.kBwOverusing := by
  by_cases h2 : s.num_of_deltas_ < 2
  · rw [Ieee_Detect_of_lt_two s trend ts_delta now_ms h2]
    intro h
    cases h
  · rw [Ieee_Detect_hypothesis_cases s trend ts_delta now_ms (by omega)]
    have hnext : ¬ s.overuse_counter_next > 1 := by
      unfold Ieee.TrendlineEstimator.overuse_counter_next
      rw [hcount]
      decide
    split_ifs with _ h5
    · exact absurd h5.2 hnext
    · exact hhyp
    · exact hhyp
    · intro h; cases h
    · intro h; cases h

/-- What `UpdateFilter` leaves alone, and the length of the window it leaves. -/
theorem Ieee_UpdateFilter_quiet (s : Ieee.TrendlineEstimator)
    (recv_delta_ms send_delta_ms : Double) (arrival_time_ms : Int) :
    (s.UpdateFilter recv_delta_ms send_delta_ms arrival_time_ms).window_size_ = s.window_size_ ∧
    (s.UpdateFilter recv_delta_ms send_delta_ms arrival_time_ms).prev_trend_ = s.prev_trend_ ∧
    (s.UpdateFilter recv_delta_ms send_delta_ms arrival_time_ms).overuse_counter_
      = s.overuse_counter_ ∧
    (s.UpdateFilter recv_delta_ms send_delta_ms arrival_time_ms).hypothesis_ = s.hypothesis_ ∧
    (s.UpdateFilter recv_delta_ms send_delta_ms arrival_time_ms).threshold_ = s.threshold_ ∧
    (s.UpdateFilter recv_delta_ms send_delta_ms arrival_time_ms).network_state_predictor_
      = s.network_state_predictor_ ∧
    (s.delay_hist_.length + 1 ≤ s.window_size_ →
      (s.UpdateFilter recv_delta_ms send_delta_ms arrival_time_ms).delay_hist_.length
        = s.delay_hist_.length + 1) := by
  have hf := Ieee_UpdateFilter_frame s recv_delta_ms send_delta_ms arrival_time_ms
  have e1 := congrArg Ieee.TrendlineEstimator.window_size_ hf
  have e2 := congrArg Ieee.TrendlineEstimator.prev_trend_ hf
  have e3 := congrArg Ieee.TrendlineEstimator.overuse_counter_ hf
  have e4 := congrArg Ieee.TrendlineEstimator.hypothesis_ hf
  have e5 := congrArg Ieee.TrendlineEstimator.threshold_ hf
  have e6 := congrArg Ieee.TrendlineEstimator.network_state_predictor_ hf
  refine ⟨e1, e2, e3, e4, e5, e6, ?_⟩
  intro hlen
  rw [Ieee_UpdateFilter_delay_hist]
  have hl : ∀ p : Double × Double, (s.delay_hist_ ++ [p]).length = s.delay_hist_.length + 1 := by
    intro p
    rw [List.length_append]
    rfl
  rw [if_neg (by rw [hl]; omega), hl]

/-- Without predictor, an `Update` without calculated deltas changes nothing. -/
theorem Ieee_apply_not_calculated (s : Ieee.TrendlineEstimator) (c : Ieee.UpdateCall)
    (hc : c.calculated_deltas = false) (hp : s.network_state_predictor_ = none) :
    Ieee.UpdateCall.apply s c = s := by
  unfold Ieee.UpdateCall.apply Ieee.TrendlineEstimator.Update
  rw [hc]
  dsimp only
  rw [if_neg (by decide), hp]

/-- Without predictor, an `Update` with calculated deltas is the filter step followed by
`Detect`. -/
theorem Ieee_apply_calculated (s : Ieee.TrendlineEstimator) (c : Ieee.UpdateCall)
    (hc : c.calculated_deltas = true) (hp : s.network_state_predictor_ = none) :
    Ieee.UpdateCall.apply s c =
      (s.UpdateFilter c.recv_delta_ms c.send_delta_ms c.arrival_time_ms).Detect
        (s.UpdateFilter c.recv_delta_ms c.send_delta_ms c.arrival_time_ms).UpdateTrend
        c.send_delta_ms c.arrival_time_ms := by
  obtain ⟨-, -, -, -, -, e6, -⟩ :=
    Ieee_UpdateFilter_quiet s c.recv_delta_ms c.send_delta_ms c.arrival_time_ms
  have hd := congrArg Ieee.TrendlineEstimator.network_state_predictor_
    (Ieee_Detect_frame (s.UpdateFilter c.recv_delta_ms c.send_delta_ms c.arrival_time_ms)
      (s.UpdateFilter c.recv_delta_ms c.send_delta_ms c.arrival_time_ms).UpdateTrend
      c.send_delta_ms c.arrival_time_ms)
  have hnone : ((s.UpdateFilter c.recv_delta_ms c.send_delta_ms c.arrival_time_ms).Detect
      (s.UpdateFilter c.recv_delta_ms c.send_delta_ms c.arrival_time_ms).UpdateTrend
      c.send_delta_ms c.arrival_time_ms).network_state_predictor_ = none := by
    rw [hd]
    show (s.UpdateFilter c.recv_delta_ms c.send_delta_ms
      c.arrival_time_ms).network_state_predictor_ = none
    rw [e6, hp]
  unfold Ieee.UpdateCall.apply
  rw [hc, Ieee_Update_calculated, hnone]

/-- An update with calculated deltas that does not fill the window keeps the estimator
quiet. -/
theorem Ieee_Quiet_step (s : Ieee.TrendlineEstimator) (c : Ieee.UpdateCall) (j : Nat)
    (hc : c.calculated_deltas = true) (hq : s.Quiet j) (hj : j + 1 < s.window_size_) :
    (Ieee.UpdateCall.apply s c).Quiet (j + 1) ∧
    (Ieee.UpdateCall.apply s c).window_size_ = s.window_size_ := by
  obtain ⟨hlen, hprev, hcount, hhyp, hrange, hp⟩ := hq
  obtain ⟨e1, e2, e3, e4, e5, e6, e7⟩ :=
    Ieee_UpdateFilter_quiet s c.recv_delta_ms c.send_delta_ms c.arrival_time_ms
  have hlen2 : (s.UpdateFilter c.recv_delta_ms c.send_delta_ms
      c.arrival_time_ms).delay_hist_.length = j + 1 := by
    rw [e7 (by omega), hlen]
  have htrend : (s.UpdateFilter c.recv_delta_ms c.send_delta_ms
      c.arrival_time_ms).UpdateTrend = Double.finite 0 := by
    unfold Ieee.TrendlineEstimator.UpdateTrend
    rw [if_neg (by rw [hlen2, e1]; omega), e2, hprev]
  rw [Ieee_apply_calculated s c hc hp, htrend]
  obtain ⟨d1, d2, d3⟩ := Ieee_Detect_zero_trend
    (s.UpdateFilter c.recv_delta_ms c.send_delta_ms c.arrival_time_ms) c.send_delta_ms
    c.arrival_time_ms (by rw [e2, hprev]) (by rw [e3, hcount]) (by rw [e5]; exact hrange)
  have hthr := Ieee_Detect_range
    (s.UpdateFilter c.recv_delta_ms c.send_delta_ms c.arrival_time_ms) (Double.finite 0)
    c.send_delta_ms c.arrival_time_ms (by rw [e5]; exact hrange)
  have hf := Ieee_Detect_frame
    (s.UpdateFilter c.recv_delta_ms c.send_delta_ms c.arrival_time_ms) (Double.finite 0)
    c.send_delta_ms c.arrival_time_ms
  have g1 := congrArg Ieee.TrendlineEstimator.delay_hist_ hf
  have g2 := congrArg Ieee.TrendlineEstimator.network_state_predictor_ hf
  have g3 := congrArg Ieee.TrendlineEstimator.window_size_ hf
  refine ⟨⟨?_, d2, d3, d1, hthr, ?_⟩, ?_⟩
  · rw [g1]
    exact hlen2
  · rw [g2]
    show (s.UpdateFilter c.recv_delta_ms c.send_delta_ms
      c.arrival_time_ms).network_state_predictor_ = none
    rw [e6, hp]
  · rw [g3]
    exact e1

/-- Any single update of a quiet estimator leaves a hypothesis other than Overusing. -/
theorem Ieee_Quiet_not_overusing (s : Ieee.TrendlineEstimator) (c : Ieee.UpdateCall) (j : Nat)
    (hq : s.Quiet j) :
    (Ieee.UpdateCall.apply s c).State ≠ BandwidthUsage.kBwOverusing ∧
    (Ieee.UpdateCall.apply s c).network_state_predictor_ = none := by
  obtain ⟨-, -, hcount, hhyp, -, hp⟩ := hq
  by_cases hc : c.calculated_deltas = true
  · obtain ⟨-, -, e3, e4, -, e6, -⟩ :=
      Ieee_UpdateFilter_quiet s c.recv_delta_ms c.send_delta_ms c.arrival_time_ms
    have hf := Ieee_Detect_frame
      (s.UpdateFilter c.recv_delta_ms c.send_delta_ms c.arrival_time_ms)
      (s.UpdateFilter c.recv_delta_ms c.send_delta_ms c.arrival_time_ms).UpdateTrend
      c.send_delta_ms c.arrival_time_ms
    have g2 := congrArg Ieee.TrendlineEstimator.network_state_predictor_ hf
    have hnone : (Ieee.UpdateCall.apply s c).network_state_predictor_ = none := by
      rw [Ieee_apply_calculated s c hc hp, g2]
      show (s.UpdateFilter c.recv_delta_ms c.send_delta_ms
        c.arrival_time_ms).network_state_predictor_ = none
      rw [e6, hp]
    refine ⟨?_, hnone⟩
    unfold Ieee.TrendlineEstimator.State
    rw [hnone]
    dsimp only
    rw [Ieee_apply_calculated s c hc hp]
    apply Ieee_Detect_first_sample
    · rw [e3, hcount]
    · rw [e4, hhyp]
      intro h
      cases h
  · have hc2 : c.calculated_deltas = false := by
      cases h : c.calculated_deltas with
      | false => rfl
      | true => exact absurd h hc
    rw [Ieee_apply_not_calculated s c hc2 hp]
    refine ⟨?_, hp⟩
    unfold Ieee.TrendlineEstimator.State
    rw [hp]
    dsimp only
    rw [hhyp]
    intro h
    cases h

/-- Counting the updates with calculated deltas, call by call. -/
theorem Ieee_calculated_cons (c : Ieee.UpdateCall) (cs : List Ieee.UpdateCall) :
    Ieee.UpdateCall.calculated (c :: cs) =
      if c.calculated_deltas = true then Ieee.UpdateCall.calculated cs + 1
      else Ieee.UpdateCall.calculated cs := by
  unfold Ieee.UpdateCall.calculated
  by_cases hc : c.calculated_deltas = true
  · rw [if_pos hc, List.filter_cons_of_pos hc]
    rfl
  · rw [if_neg hc, List.filter_cons_of_neg hc]

/-- Without predictor, a sequence of updates none of which has calculated deltas
changes nothing. -/
theorem Ieee_run_not_calculated (calls : List Ieee.UpdateCall) :
    ∀ s : Ieee.TrendlineEstimator, s.network_state_predictor_ = none →
      Ieee.UpdateCall.calculated calls = 0 → Ieee.UpdateCall.run s calls = s := by
  induction calls with
  | nil => intro s _ _; rfl
  | cons c cs ih =>
    intro s hp hn
    rw [Ieee_calculated_cons] at hn
    by_cases hc : c.calculated_deltas = true
    · rw [if_pos hc] at hn
      exact absurd hn (Nat.succ_ne_zero _)
    · rw [if_neg hc] at hn
      have hc2 : c.calculated_deltas = false := by
        cases h : c.calculated_deltas with
        | false => rfl
        | true => exact absurd h hc
      show Ieee.UpdateCall.run (Ieee.UpdateCall.apply s c) cs = s
      rw [Ieee_apply_not_calculated s c hc2 hp]
      exact ih s hp hn

/-- A quiet estimator stays quiet while its window is not full, and its hypothesis is
not Overusing after the update that fills the window. -/
theorem Ieee_Quiet_run (calls : List Ieee.UpdateCall) :
    ∀ (s : Ieee.TrendlineEstimator) (j : Nat), s.Quiet j →
      (j + Ieee.UpdateCall.calculated calls < s.window_size_ →
        (Ieee.UpdateCall.run s calls).Quiet (j + Ieee.UpdateCall.calculated calls)) ∧
      (j + Ieee.UpdateCall.calculated calls ≤ s.window_size_ →
        (Ieee.UpdateCall.run s calls).State ≠ BandwidthUsage.kBwOverusing) := by
  induction calls with
  | nil =>
    intro s j hq
    refine ⟨fun _ => hq, fun _ => ?_⟩
    obtain ⟨-, -, -, hhyp, -, hp⟩ := hq
    show s.State ≠ BandwidthUsage.kBwOverusing
    unfold Ieee.TrendlineEstimator.State
    rw [hp]
    dsimp only
    rw [hhyp]
    intro h
    cases h
  | cons c cs ih =>
    intro s j hq
    have hp : s.network_state_predictor_ = none := hq.2.2.2.2.2
    rw [Ieee_calculated_cons]
    by_cases hc : c.calculated_deltas = true
    · rw [if_pos hc]
      by_cases hj : j + 1 < s.window_size_
      · obtain ⟨hq2, hw⟩ := Ieee_Quiet_step s c j hc hq hj
        obtain ⟨i1, i2⟩ := ih (Ieee.UpdateCall.apply s c) (j + 1) hq2
        rw [hw] at i1 i2
        have e : j + (Ieee.UpdateCall.calculated cs + 1) =
            j + 1 + Ieee.UpdateCall.calculated cs := by
          omega
        rw [e]
        exact ⟨i1, i2⟩
      · refine ⟨fun h => absurd h (by omega), fun h => ?_⟩
        have hz : Ieee.UpdateCall.calculated cs = 0 := by omega
        obtain ⟨n1, n2⟩ := Ieee_Quiet_not_overusing s c j hq
        show (Ieee.UpdateCall.run (Ieee.UpdateCall.apply s c) cs).State ≠
          BandwidthUsage.kBwOverusing
        rw [Ieee_run_not_calculated cs (Ieee.UpdateCall.apply s c) n2 hz]
        exact n1
    · rw [if_neg hc]
      have hc2 : c.calculated_deltas = false := by
        cases h : c.calculated_deltas with
        | false => rfl
        | true => exact absurd h hc
      show (j + Ieee.UpdateCall.calculated cs < s.window_size_ →
          (Ieee.UpdateCall.run (Ieee.UpdateCall.apply s c) cs).Quiet
            (j + Ieee.UpdateCall.calculated cs)) ∧
        (j + Ieee.UpdateCall.calculated cs ≤ s.window_size_ →
          (Ieee.UpdateCall.run (Ieee.UpdateCall.apply s c) cs).State ≠
            BandwidthUsage.kBwOverusing)
      rw [Ieee_apply_not_calculated s c hc2 hp]
      exact ih s j hq

/-- The feed with groups sent 5 ms and received 6 ms apart: Normal after each of the
first 21 samples, Overusing after the 22nd. -/
theorem overuse_feed_5_6 :
    (∀ c ∈ Ieee.overuseFeed 5 6 60,
      Double.sub c.recv_delta_ms c.send_delta_ms = Double.finite 1) ∧
    (∀ i, i < 22 →
      (Ieee.UpdateCall.run
        (Ieee.TrendlineEstimator.create 20 (Double.round (9 / 10)) (Double.finite 4) none)
        ((Ieee.overuseFeed 5 6 60).take i)).State = BandwidthUsage.kBwNormal) ∧
    (Ieee.UpdateCall.run
      (Ieee.TrendlineEstimator.create 20 (Double.round (9 / 10)) (Double.finite 4) none)
      ((Ieee.overuseFeed 5 6 60).take 22)).State = BandwidthUsage.kBwOverusing := by
  decide!

/-- C8, as stated, fails: feed a fresh estimator (window 20, smoothing 0.9, gain 4, no
predictor) 60 packet groups sent 5 ms apart and received 6 ms apart, so that
recv_delta - send_delta = 1 ms for every sample; `State()` is Normal after each of the
first 21 samples, hence at every sample of index at most 20, counted from 0 or from 1. -/
theorem overuse_not_within_20 :
    (Ieee.overuseFeed 5 6 60).length = 60 ∧
    (∀ c ∈ Ieee.overuseFeed 5 6 60,
      Double.sub c.recv_delta_ms c.send_delta_ms = Double.finite 1) ∧
    ∀ i, i ≤ 21 →
      (Ieee.UpdateCall.run
        (Ieee.TrendlineEstimator.create 20 (Double.round (9 / 10)) (Double.finite 4) none)
        ((Ieee.overuseFeed 5 6 60).take i)).State = BandwidthUsage.kBwNormal :=
  ⟨by decide!, overuse_feed_5_6.1, fun i hi => overuse_feed_5_6.2.1 i (by omega)⟩

/-- The feed with groups sent 7 ms and received 8 ms apart: Normal after each of the
first 20 samples, Overusing after the 21st. -/
theorem overuse_feed_7_8 :
    (∀ c ∈ Ieee.overuseFeed 7 8 60,
      Double.sub c.recv_delta_ms c.send_delta_ms = Double.finite 1) ∧
    (∀ i, i < 21 →
      (Ieee.UpdateCall.run
        (Ieee.TrendlineEstimator.create 20 (Double.round (9 / 10)) (Double.finite 4) none)
        ((Ieee.overuseFeed 7 8 60).take i)).State = BandwidthUsage.kBwNormal) ∧
    (Ieee.UpdateCall.run
      (Ieee.TrendlineEstimator.create 20 (Double.round (9 / 10)) (Double.finite 4) none)
      ((Ieee.overuseFeed 7 8 60).take 21)).State = BandwidthUsage.kBwOverusing := by
  decide!

/-- C8 (amended): starting from a fresh `TrendlineEstimator` with window size 20,
smoothing coefficient 0.9, gain 4 and no predictor, for every feed of packet groups
(those with recv_delta - send_delta = 1 ms included) `State()` is Normal after each of
the first 19 samples and is not Overusing after the 20th: the change to Overusing cannot
happen within the first 20 samples. The sample at which it happens depends on the
spacing of the groups: for 60 groups sent 5 ms and received 6 ms apart `State()` is
Normal after each of the first 21 samples and Overusing after the 22nd; for groups sent
7 ms and received 8 ms apart it is Normal after each of the first 20 samples and
Overusing after the 21st. -/
theorem overuse_after_window_full (calls : List Ieee.UpdateCall) :
    (Ieee.UpdateCall.calculated calls < 20 →
      (Ieee.UpdateCall.run
        (Ieee.TrendlineEstimator.create 20 (Double.round (9 / 10)) (Double.finite 4) none)
        calls).State = BandwidthUsage.kBwNormal) ∧
    (Ieee.UpdateCall.calculated calls ≤ 20 →
      (Ieee.UpdateCall.run
        (Ieee.TrendlineEstimator.create 20 (Double.round (9 / 10)) (Double.finite 4) none)
        calls).State ≠ BandwidthUsage.kBwOverusing) ∧
    (∀ c ∈ Ieee.overuseFeed 5 6 60,
      Double.sub c.recv_delta_ms c.send_delta_ms = Double.finite 1) ∧
    (∀ i, i < 22 →
      (Ieee.UpdateCall.run
        (Ieee.TrendlineEstimator.create 20 (Double.round (9 / 10)) (Double.finite 4) none)
        ((Ieee.overuseFeed 5 6 60).take i)).State = BandwidthUsage.kBwNormal) ∧
    (Ieee.UpdateCall.run
      (Ieee.TrendlineEstimator.create 20 (Double.round (9 / 10)) (Double.finite 4) none)
      ((Ieee.overuseFeed 5 6 60).take 22)).State = BandwidthUsage.kBwOverusing ∧
    (∀ c ∈ Ieee.overuseFeed 7 8 60,
      Double.sub c.recv_delta_ms c.send_delta_ms = Double.finite 1) ∧
    (∀ i, i < 21 →
      (Ieee.UpdateCall.run
        (Ieee.TrendlineEstimator.create 20 (Double.round (9 / 10)) (Double.finite 4) none)
        ((Ieee.overuseFeed 7 8 60).take i)).State = BandwidthUsage.kBwNormal) ∧
    (Ieee.UpdateCall.run
      (Ieee.TrendlineEstimator.create 20 (Double.round (9 / 10)) (Double.finite 4) none)
      ((Ieee.overuseFeed 7 8 60).take 21)).State = BandwidthUsage.kBwOverusing := by
  have hq : (Ieee.TrendlineEstimator.create 20 (Double.round (9 / 10)) (Double.finite 4)
      none).Quiet 0 := by
    unfold Ieee.TrendlineEstimator.Quiet Ieee.TrendlineEstimator.create
    refine ⟨rfl, rfl, rfl, rfl, Or.inr ⟨25 / 2, rfl, ?_, ?_⟩, rfl⟩ <;> norm_num
  obtain ⟨h1, h2⟩ := Ieee_Quiet_run calls
    (Ieee.TrendlineEstimator.create 20 (Double.round (9 / 10)) (Double.finite 4) none) 0 hq
  have hw : (Ieee.TrendlineEstimator.create 20 (Double.round (9 / 10)) (Double.finite 4)
      none).window_size_ = 20 := rfl
  rw [hw, Nat.zero_add] at h1 h2
  refine ⟨fun h => ?_, h2, overuse_feed_5_6.1, overuse_feed_5_6.2.1, overuse_feed_5_6.2.2,
    overuse_feed_7_8.1, overuse_feed_7_8.2.1, overuse_feed_7_8.2.2⟩
  obtain ⟨-, -, -, hhyp, -, hp⟩ := h1 h
  unfold Ieee.TrendlineEstimator.State
  rw [hp]
  exact hhyp

/-- Witness for C8 (amended): the first 19 and the first 20 groups of the feed sent 7 ms
and received 8 ms apart, the feed for which Overusing is reached at the 21st sample. -/
theorem overuse_after_window_full_witness :
    (Ieee.UpdateCall.run
      (Ieee.TrendlineEstimator.create 20 (Double.round (9 / 10)) (Double.finite 4) none)
      (Ieee.overuseFeed 7 8 19)).State = BandwidthUsage.kBwNormal ∧
    (Ieee.UpdateCall.run
      (Ieee.TrendlineEstimator.create 20 (Double.round (9 / 10)) (Double.finite 4) none)
      (Ieee.overuseFeed 7 8 20)).State ≠ BandwidthUsage.kBwOverusing :=
  ⟨(overuse_after_window_full (Ieee.overuseFeed 7 8 19)).1 (by decide),
    (overuse_after_window_full (Ieee.overuseFeed 7 8 20)).2.1 (by decide)⟩

end webrtc
